import Mathlib

/-!
# Validation of WebAssembly modules (`Source/IR/Validate.cpp`)

A shallow embedding of the validator: the module data model read by the validator, the
per-function validation context with its operand stack and control stack, one handler per
operator, and the walk of `validateCode` over the operators of a function body.

Conventions of the embedding.

* A `std::vector` is a `List` in the same order: index `0` is the bottom of a stack, `back()` is
  `List.getLast?`, `push_back x` appends `[x]`, `pop_back` is `List.dropLast`.
* A function that throws `ValidationException` returns `Except Failure`; an access the source
  does not check (`back()` of an empty vector, an index past the end) is the separate failure
  `Failure.undefinedBehaviour`.
* `uintp` values are natural numbers; no arithmetic of the validator can overflow, the only
  subtraction (`controlStack.size() - depth - 1`) is guarded by `depth < controlStack.size()`.
* The operation decoder is outside the validator: a function body is the list of operations the
  decoder yields from its bytes.
-/

namespace IR

/-! ## Types of the module data model -/

/-- Modelled from the spec: the declaration of `ValueType` (header `IR/Types.h`) is not among the
sources. The spec lists `i32`, `i64`, `f32`, `f64` and the validator-internal `any`; the enum is
byte-sized, and `malformed k` stands for the encoding that lies `k + 1` above `ValueType::max`,
which `validate(ValueType)` rejects. -/
inductive ValueType where
  | any
  | i32
  | i64
  | f32
  | f64
  | malformed (excess : Nat)
  deriving DecidableEq, Repr

/-- Modelled from the spec: the declaration of `ResultType` (header `IR/Types.h`) is not among the
sources. A result type is a value type or `none`; `malformed k` stands for the encoding that lies
`k + 1` above `ResultType::max`, which `validate(ResultType)` rejects. -/
inductive ResultType where
  | none
  | i32
  | i64
  | f32
  | f64
  | malformed (excess : Nat)
  deriving DecidableEq, Repr

/-- Modelled from the spec: `asValueType` (header `IR/Types.h`) is not among the sources. It yields
"the value type of" a result type; the validator only calls it on a result type other than `none`
(both calls are guarded by `!= ResultType::none`), and `none` shares its encoding with `any`. -/
def asValueType : ResultType → ValueType
  | .none => .any
  | .i32 => .i32
  | .i64 => .i64
  | .f32 => .f32
  | .f64 => .f64
  | .malformed k => .malformed k

/-- Modelled from the spec: the numeric encoding of a value type, printed by the diagnostics of
`validate(ValueType)`; `any` is `0` and `max` is the encoding of `f64`. -/
def ValueType.encoding : ValueType → Nat
  | .any => 0
  | .i32 => 1
  | .i64 => 2
  | .f32 => 3
  | .f64 => 4
  | .malformed k => 5 + k

/-- Modelled from the spec: the numeric encoding of a result type, printed by the diagnostics of
`validate(ResultType)`; `none` is `0` and `max` is the encoding of `f64`. -/
def ResultType.encoding : ResultType → Nat
  | .none => 0
  | .i32 => 1
  | .i64 => 2
  | .f32 => 3
  | .f64 => 4
  | .malformed k => 5 + k

/-- Modelled from the spec: `TableElementType` (header `IR/Types.h`) is not among the sources; the
only element type of the MVP is `anyfunc`, every other encoding is `malformed`. -/
inductive TableElementType where
  | anyfunc
  | malformed (raw : Nat)
  deriving DecidableEq, Repr

/-- Modelled from the spec: `ObjectKind` (header `IR/Types.h`) is not among the sources; the four
kinds of importable and exportable objects, `malformed k` lying `k + 1` above `ObjectKind::max`. -/
inductive ObjectKind where
  | function
  | table
  | memory
  | global
  | malformed (excess : Nat)
  deriving DecidableEq, Repr

/-- The largest value of a 32-bit unsigned integer. -/
def UINT32_MAX : Nat := 2 ^ 32 - 1

/-- The largest value of a 64-bit unsigned integer. -/
def UINT64_MAX : Nat := 2 ^ 64 - 1

/-- The largest value of `uintp` on the 64-bit targets of the repository. -/
def UINTPTR_MAX : Nat := 2 ^ 64 - 1

/-- Modelled from the spec: `IR::maxMemoryPages` (header `IR/IR.h`) is not among the sources; the
number of 64 KiB pages of a 32-bit address space. -/
def maxMemoryPages : Nat := 65536

/-- A function signature: `FunctionType` with its `ret` and `parameters`. -/
structure FunctionType where
  ret : ResultType
  parameters : List ValueType
  deriving DecidableEq, Repr

/-- An index into the type table (`IndexedFunctionType`). -/
structure IndexedFunctionType where
  index : Nat
  deriving DecidableEq, Repr

/-- Size bounds of a table or memory; an absent maximum is `max = UINT64_MAX`. -/
structure SizeConstraints where
  min : Nat
  max : Nat
  deriving DecidableEq, Repr

/-- The type of a table. -/
structure TableType where
  elementType : TableElementType
  size : SizeConstraints
  deriving DecidableEq, Repr

/-- The type of a memory. -/
structure MemoryType where
  size : SizeConstraints
  deriving DecidableEq, Repr

/-- The type of a global: its value type and mutability. -/
structure GlobalType where
  valueType : ValueType
  isMutable : Bool
  deriving DecidableEq, Repr

/-- An initializer expression: the node kinds the validator distinguishes; `error` stands for
every other `InitializerExpression::Type`. The floating-point literals are kept as bit patterns. -/
inductive InitializerExpression where
  | i32_const (value : Int)
  | i64_const (value : Int)
  | f32_const (bits : Nat)
  | f64_const (bits : Nat)
  | get_global (globalIndex : Nat)
  | error
  deriving DecidableEq, Repr

/-! ## Operators -/

/-- The load operators, one per `VALIDATE_LOAD_OPCODE` line. -/
inductive LoadOp where
  | i32_load8_s | i32_load8_u | i32_load16_s | i32_load16_u
  | i64_load8_s | i64_load8_u | i64_load16_s | i64_load16_u
  | i64_load32_s | i64_load32_u
  | i32_load | i64_load | f32_load | f64_load
  deriving DecidableEq, Repr

/-- The store operators, one per `VALIDATE_STORE_OPCODE` line. -/
inductive StoreOp where
  | i32_store8 | i32_store16 | i32_store
  | i64_store8 | i64_store16 | i64_store32 | i64_store
  | f32_store | f64_store
  deriving DecidableEq, Repr

/-- The operators declared with `VALIDATE_BINARY_OPCODE`. -/
inductive BinaryOp where
  | i32_add | i64_add | i32_sub | i64_sub | i32_mul | i64_mul
  | i32_div_s | i64_div_s | i32_div_u | i64_div_u
  | i32_rem_s | i64_rem_s | i32_rem_u | i64_rem_u
  | i32_and | i64_and | i32_or | i64_or | i32_xor | i64_xor
  | i32_shl | i64_shl | i32_shr_u | i64_shr_u | i32_shr_s | i64_shr_s
  | i32_rotr | i64_rotr | i32_rotl | i64_rotl
  | i32_eq | i64_eq | i32_ne | i64_ne
  | i32_lt_s | i64_lt_s | i32_le_s | i64_le_s
  | i32_lt_u | i64_lt_u | i32_le_u | i64_le_u
  | i32_gt_s | i64_gt_s | i32_ge_s | i64_ge_s
  | i32_gt_u | i64_gt_u | i32_ge_u | i64_ge_u
  | f32_add | f64_add | f32_sub | f64_sub | f32_mul | f64_mul
  | f32_div | f64_div | f32_min | f64_min | f32_max | f64_max
  | f32_copysign | f64_copysign
  | f32_eq | f64_eq | f32_ne | f64_ne | f32_lt | f64_lt
  | f32_le | f64_le | f32_gt | f64_gt | f32_ge | f64_ge
  deriving DecidableEq, Repr

/-- The operators declared with `VALIDATE_UNARY_OPCODE`. -/
inductive UnaryOp where
  | i32_clz | i64_clz | i32_ctz | i64_ctz | i32_popcnt | i64_popcnt
  | i32_eqz | i64_eqz
  | f32_abs | f64_abs | f32_neg | f64_neg | f32_ceil | f64_ceil
  | f32_floor | f64_floor | f32_trunc | f64_trunc
  | f32_nearest | f64_nearest | f32_sqrt | f64_sqrt
  | i32_trunc_s_f32 | i32_trunc_s_f64 | i32_trunc_u_f32 | i32_trunc_u_f64
  | i32_wrap_i64
  | i64_trunc_s_f32 | i64_trunc_s_f64 | i64_trunc_u_f32 | i64_trunc_u_f64
  | i64_extend_s_i32 | i64_extend_u_i32
  | f32_convert_s_i32 | f32_convert_u_i32 | f32_convert_s_i64 | f32_convert_u_i64
  | f32_demote_f64 | f32_reinterpret_i32
  | f64_convert_s_i32 | f64_convert_u_i32 | f64_convert_s_i64 | f64_convert_u_i64
  | f64_promote_f32 | f64_reinterpret_i64
  | i32_reinterpret_f32 | i64_reinterpret_f64
  deriving DecidableEq, Repr

/-- One decoded operator with its immediate: what the operation decoder hands to the method of
the same name of `FunctionValidationContext`. -/
inductive Operation where
  | unknown (opcode : Nat)
  | block (resultType : ResultType)
  | loop (resultType : ResultType)
  | if_ (resultType : ResultType)
  | else_
  | end_
  | return_
  | br (targetDepth : Nat)
  | br_table (targetDepths : List Nat) (defaultTargetDepth : Nat)
  | br_if (targetDepth : Nat)
  | nop
  | unreachable
  | drop
  | select
  | get_local (variableIndex : Nat)
  | set_local (variableIndex : Nat)
  | tee_local (variableIndex : Nat)
  | get_global (variableIndex : Nat)
  | set_global (variableIndex : Nat)
  | call (functionIndex : Nat)
  | call_indirect (typeIndex : Nat)
  | grow_memory
  | current_memory
  | error
  | i32_const (value : Int)
  | i64_const (value : Int)
  | f32_const (bits : Nat)
  | f64_const (bits : Nat)
  | load (op : LoadOp) (alignmentLog2 offset : Nat)
  | store (op : StoreOp) (alignmentLog2 offset : Nat)
  | binary (op : BinaryOp)
  | unary (op : UnaryOp)
  deriving DecidableEq, Repr

/-! ## The operator tables of the validator macros -/

/-- The argument `name` of each `VALIDATE_LOAD_OPCODE` line, as the text `#name`. -/
def LoadOp.name : LoadOp → String
  | .i32_load8_s => "i32_load8_s"
  | .i32_load8_u => "i32_load8_u"
  | .i32_load16_s => "i32_load16_s"
  | .i32_load16_u => "i32_load16_u"
  | .i64_load8_s => "i64_load8_s"
  | .i64_load8_u => "i64_load8_u"
  | .i64_load16_s => "i64_load16_s"
  | .i64_load16_u => "i64_load16_u"
  | .i64_load32_s => "i64_load32_s"
  | .i64_load32_u => "i64_load32_u"
  | .i32_load => "i32_load"
  | .i64_load => "i64_load"
  | .f32_load => "f32_load"
  | .f64_load => "f64_load"

/-- The argument `nameString` of each `VALIDATE_LOAD_OPCODE` line. -/
def LoadOp.nameString : LoadOp → String
  | .i32_load8_s => "i32.load8_s"
  | .i32_load8_u => "i32.load8_u"
  | .i32_load16_s => "i32.load16_s"
  | .i32_load16_u => "i32.load16_u"
  | .i64_load8_s => "i64.load8_s"
  | .i64_load8_u => "i64.load8_u"
  | .i64_load16_s => "i64.load16_s"
  | .i64_load16_u => "i64.load16_u"
  | .i64_load32_s => "i64.load32_s"
  | .i64_load32_u => "i64.load32_u"
  | .i32_load => "i32.load"
  | .i64_load => "i64.load"
  | .f32_load => "f32.load"
  | .f64_load => "f64.load"

/-- The argument `naturalAlignmentLog2` of each `VALIDATE_LOAD_OPCODE` line. -/
def LoadOp.naturalAlignmentLog2 : LoadOp → Nat
  | .i32_load8_s => 1
  | .i32_load8_u => 1
  | .i32_load16_s => 2
  | .i32_load16_u => 2
  | .i64_load8_s => 1
  | .i64_load8_u => 1
  | .i64_load16_s => 2
  | .i64_load16_u => 2
  | .i64_load32_s => 4
  | .i64_load32_u => 4
  | .i32_load => 4
  | .i64_load => 8
  | .f32_load => 4
  | .f64_load => 8

/-- The argument `resultType` of each `VALIDATE_LOAD_OPCODE` line. -/
def LoadOp.resultType : LoadOp → ValueType
  | .i32_load8_s => .i32
  | .i32_load8_u => .i32
  | .i32_load16_s => .i32
  | .i32_load16_u => .i32
  | .i64_load8_s => .i64
  | .i64_load8_u => .i64
  | .i64_load16_s => .i64
  | .i64_load16_u => .i64
  | .i64_load32_s => .i64
  | .i64_load32_u => .i64
  | .i32_load => .i32
  | .i64_load => .i64
  | .f32_load => .f32
  | .f64_load => .f64

/-- The argument `nameString` of each `VALIDATE_STORE_OPCODE` line. -/
def StoreOp.nameString : StoreOp → String
  | .i32_store8 => "i32.store8"
  | .i32_store16 => "i32.store16"
  | .i32_store => "i32.store"
  | .i64_store8 => "i64.store8"
  | .i64_store16 => "i64.store16"
  | .i64_store32 => "i64.store32"
  | .i64_store => "i64.store"
  | .f32_store => "f32.store"
  | .f64_store => "f64.store"

/-- The argument `naturalAlignmentLog2` of each `VALIDATE_STORE_OPCODE` line. -/
def StoreOp.naturalAlignmentLog2 : StoreOp → Nat
  | .i32_store8 => 1
  | .i32_store16 => 2
  | .i32_store => 4
  | .i64_store8 => 1
  | .i64_store16 => 2
  | .i64_store32 => 4
  | .i64_store => 8
  | .f32_store => 4
  | .f64_store => 8

/-- The argument `valueTypeId` of each `VALIDATE_STORE_OPCODE` line. -/
def StoreOp.valueTypeId : StoreOp → ValueType
  | .i32_store8 => .i32
  | .i32_store16 => .i32
  | .i32_store => .i32
  | .i64_store8 => .i64
  | .i64_store16 => .i64
  | .i64_store32 => .i64
  | .i64_store => .i64
  | .f32_store => .f32
  | .f64_store => .f64

/-- The argument `nameString` of each `VALIDATE_BINARY_OPCODE` line. -/
def BinaryOp.nameString : BinaryOp → String
  | .i32_add => "i32.add"
  | .i64_add => "i64.add"
  | .i32_sub => "i32.sub"
  | .i64_sub => "i64.sub"
  | .i32_mul => "i32.mul"
  | .i64_mul => "i64.mul"
  | .i32_div_s => "i32.div_s"
  | .i64_div_s => "i64.div_s"
  | .i32_div_u => "i32.div_u"
  | .i64_div_u => "i64.div_u"
  | .i32_rem_s => "i32.rem_s"
  | .i64_rem_s => "i64.rem_s"
  | .i32_rem_u => "i32.rem_u"
  | .i64_rem_u => "i64.rem_u"
  | .i32_and => "i32.and"
  | .i64_and => "i64.and"
  | .i32_or => "i32.or"
  | .i64_or => "i64.or"
  | .i32_xor => "i32.xor"
  | .i64_xor => "i64.xor"
  | .i32_shl => "i32.shl"
  | .i64_shl => "i64.shl"
  | .i32_shr_u => "i32.shr_u"
  | .i64_shr_u => "i64.shr_u"
  | .i32_shr_s => "i32.shr_s"
  | .i64_shr_s => "i64.shr_s"
  | .i32_rotr => "i32.rotr"
  | .i64_rotr => "i64.rotr"
  | .i32_rotl => "i32.rotl"
  | .i64_rotl => "i64.rotl"
  | .i32_eq => "i32.eq"
  | .i64_eq => "i64.eq"
  | .i32_ne => "i32.ne"
  | .i64_ne => "i64.ne"
  | .i32_lt_s => "i32.lt_s"
  | .i64_lt_s => "i64.lt_s"
  | .i32_le_s => "i32.le_s"
  | .i64_le_s => "i64.le_s"
  | .i32_lt_u => "i32.lt_u"
  | .i64_lt_u => "i64.lt_u"
  | .i32_le_u => "i32.le_u"
  | .i64_le_u => "i64.le_u"
  | .i32_gt_s => "i32.gt_s"
  | .i64_gt_s => "i64.gt_s"
  | .i32_ge_s => "i32.ge_s"
  | .i64_ge_s => "i64.ge_s"
  | .i32_gt_u => "i32.gt_u"
  | .i64_gt_u => "i64.gt_u"
  | .i32_ge_u => "i32.ge_u"
  | .i64_ge_u => "i64.ge_u"
  | .f32_add => "f32.add"
  | .f64_add => "f64.add"
  | .f32_sub => "f32.sub"
  | .f64_sub => "f64.sub"
  | .f32_mul => "f32.mul"
  | .f64_mul => "f64.mul"
  | .f32_div => "f32.div"
  | .f64_div => "f64.div"
  | .f32_min => "f32.min"
  | .f64_min => "f64.min"
  | .f32_max => "f32.max"
  | .f64_max => "f64.max"
  | .f32_copysign => "f32.copysign"
  | .f64_copysign => "f64.copysign"
  | .f32_eq => "f32.eq"
  | .f64_eq => "f64.eq"
  | .f32_ne => "f32.ne"
  | .f64_ne => "f64.ne"
  | .f32_lt => "f32.lt"
  | .f64_lt => "f64.lt"
  | .f32_le => "f32.le"
  | .f64_le => "f64.le"
  | .f32_gt => "f32.gt"
  | .f64_gt => "f64.gt"
  | .f32_ge => "f32.ge"
  | .f64_ge => "f64.ge"

/-- The argument `operandTypeId` of each `VALIDATE_BINARY_OPCODE` line. -/
def BinaryOp.operandTypeId : BinaryOp → ValueType
  | .i32_add => .i32
  | .i64_add => .i64
  | .i32_sub => .i32
  | .i64_sub => .i64
  | .i32_mul => .i32
  | .i64_mul => .i64
  | .i32_div_s => .i32
  | .i64_div_s => .i64
  | .i32_div_u => .i32
  | .i64_div_u => .i64
  | .i32_rem_s => .i32
  | .i64_rem_s => .i64
  | .i32_rem_u => .i32
  | .i64_rem_u => .i64
  | .i32_and => .i32
  | .i64_and => .i64
  | .i32_or => .i32
  | .i64_or => .i64
  | .i32_xor => .i32
  | .i64_xor => .i64
  | .i32_shl => .i32
  | .i64_shl => .i64
  | .i32_shr_u => .i32
  | .i64_shr_u => .i64
  | .i32_shr_s => .i32
  | .i64_shr_s => .i64
  | .i32_rotr => .i32
  | .i64_rotr => .i64
  | .i32_rotl => .i32
  | .i64_rotl => .i64
  | .i32_eq => .i32
  | .i64_eq => .i64
  | .i32_ne => .i32
  | .i64_ne => .i64
  | .i32_lt_s => .i32
  | .i64_lt_s => .i64
  | .i32_le_s => .i32
  | .i64_le_s => .i64
  | .i32_lt_u => .i32
  | .i64_lt_u => .i64
  | .i32_le_u => .i32
  | .i64_le_u => .i64
  | .i32_gt_s => .i32
  | .i64_gt_s => .i64
  | .i32_ge_s => .i32
  | .i64_ge_s => .i64
  | .i32_gt_u => .i32
  | .i64_gt_u => .i64
  | .i32_ge_u => .i32
  | .i64_ge_u => .i64
  | .f32_add => .f32
  | .f64_add => .f64
  | .f32_sub => .f32
  | .f64_sub => .f64
  | .f32_mul => .f32
  | .f64_mul => .f64
  | .f32_div => .f32
  | .f64_div => .f64
  | .f32_min => .f32
  | .f64_min => .f64
  | .f32_max => .f32
  | .f64_max => .f64
  | .f32_copysign => .f32
  | .f64_copysign => .f64
  | .f32_eq => .f32
  | .f64_eq => .f64
  | .f32_ne => .f32
  | .f64_ne => .f64
  | .f32_lt => .f32
  | .f64_lt => .f64
  | .f32_le => .f32
  | .f64_le => .f64
  | .f32_gt => .f32
  | .f64_gt => .f64
  | .f32_ge => .f32
  | .f64_ge => .f64

/-- The argument `resultTypeId` of each `VALIDATE_BINARY_OPCODE` line. -/
def BinaryOp.resultTypeId : BinaryOp → ValueType
  | .i32_add => .i32
  | .i64_add => .i64
  | .i32_sub => .i32
  | .i64_sub => .i64
  | .i32_mul => .i32
  | .i64_mul => .i64
  | .i32_div_s => .i32
  | .i64_div_s => .i64
  | .i32_div_u => .i32
  | .i64_div_u => .i64
  | .i32_rem_s => .i32
  | .i64_rem_s => .i64
  | .i32_rem_u => .i32
  | .i64_rem_u => .i64
  | .i32_and => .i32
  | .i64_and => .i64
  | .i32_or => .i32
  | .i64_or => .i64
  | .i32_xor => .i32
  | .i64_xor => .i64
  | .i32_shl => .i32
  | .i64_shl => .i64
  | .i32_shr_u => .i32
  | .i64_shr_u => .i64
  | .i32_shr_s => .i32
  | .i64_shr_s => .i64
  | .i32_rotr => .i32
  | .i64_rotr => .i64
  | .i32_rotl => .i32
  | .i64_rotl => .i64
  | .i32_eq => .i32
  | .i64_eq => .i32
  | .i32_ne => .i32
  | .i64_ne => .i32
  | .i32_lt_s => .i32
  | .i64_lt_s => .i32
  | .i32_le_s => .i32
  | .i64_le_s => .i32
  | .i32_lt_u => .i32
  | .i64_lt_u => .i32
  | .i32_le_u => .i32
  | .i64_le_u => .i32
  | .i32_gt_s => .i32
  | .i64_gt_s => .i32
  | .i32_ge_s => .i32
  | .i64_ge_s => .i32
  | .i32_gt_u => .i32
  | .i64_gt_u => .i32
  | .i32_ge_u => .i32
  | .i64_ge_u => .i32
  | .f32_add => .f32
  | .f64_add => .f64
  | .f32_sub => .f32
  | .f64_sub => .f64
  | .f32_mul => .f32
  | .f64_mul => .f64
  | .f32_div => .f32
  | .f64_div => .f64
  | .f32_min => .f32
  | .f64_min => .f64
  | .f32_max => .f32
  | .f64_max => .f64
  | .f32_copysign => .f32
  | .f64_copysign => .f64
  | .f32_eq => .i32
  | .f64_eq => .i32
  | .f32_ne => .i32
  | .f64_ne => .i32
  | .f32_lt => .i32
  | .f64_lt => .i32
  | .f32_le => .i32
  | .f64_le => .i32
  | .f32_gt => .i32
  | .f64_gt => .i32
  | .f32_ge => .i32
  | .f64_ge => .i32

/-- The argument `nameString` of each `VALIDATE_UNARY_OPCODE` line. -/
def UnaryOp.nameString : UnaryOp → String
  | .i32_clz => "i32.clz"
  | .i64_clz => "i64.clz"
  | .i32_ctz => "i32.ctz"
  | .i64_ctz => "i64.ctz"
  | .i32_popcnt => "i32.popcnt"
  | .i64_popcnt => "i64.popcnt"
  | .i32_eqz => "i32.eqz"
  | .i64_eqz => "i64.eqz"
  | .f32_abs => "f32.abs"
  | .f64_abs => "f64.abs"
  | .f32_neg => "f32.neg"
  | .f64_neg => "f64.neg"
  | .f32_ceil => "f32.ceil"
  | .f64_ceil => "f64.ceil"
  | .f32_floor => "f32.floor"
  | .f64_floor => "f64.floor"
  | .f32_trunc => "f32.trunc"
  | .f64_trunc => "f64.trunc"
  | .f32_nearest => "f32.nearest"
  | .f64_nearest => "f64.nearest"
  | .f32_sqrt => "f32.sqrt"
  | .f64_sqrt => "f64.sqrt"
  | .i32_trunc_s_f32 => "i32.trunc_s/f32"
  | .i32_trunc_s_f64 => "i32.trunc_s/f64"
  | .i32_trunc_u_f32 => "i32.trunc_u/f32"
  | .i32_trunc_u_f64 => "i32.trunc_u/f64"
  | .i32_wrap_i64 => "i32.wrap/i64"
  | .i64_trunc_s_f32 => "i64.trunc_s/f32"
  | .i64_trunc_s_f64 => "i64.trunc_s/f64"
  | .i64_trunc_u_f32 => "i64.trunc_u/f32"
  | .i64_trunc_u_f64 => "i64.trunc_u/f64"
  | .i64_extend_s_i32 => "i64.extend_s/i32"
  | .i64_extend_u_i32 => "i64.extend_u/i32"
  | .f32_convert_s_i32 => "f32.convert_s/i32"
  | .f32_convert_u_i32 => "f32.convert_u/i32"
  | .f32_convert_s_i64 => "f32.convert_s/i64"
  | .f32_convert_u_i64 => "f32.convert_u/i64"
  | .f32_demote_f64 => "f32.demote/f64"
  | .f32_reinterpret_i32 => "f32.reinterpret/i32"
  | .f64_convert_s_i32 => "f64.convert_s/i32"
  | .f64_convert_u_i32 => "f64.convert_u/i32"
  | .f64_convert_s_i64 => "f64.convert_s/i64"
  | .f64_convert_u_i64 => "f64.convert_u/i64"
  | .f64_promote_f32 => "f64.promote/f32"
  | .f64_reinterpret_i64 => "f64.reinterpret/i64"
  | .i32_reinterpret_f32 => "i32.reinterpret/f32"
  | .i64_reinterpret_f64 => "i64.reinterpret/f64"

/-- The argument `operandTypeId` of each `VALIDATE_UNARY_OPCODE` line. -/
def UnaryOp.operandTypeId : UnaryOp → ValueType
  | .i32_clz => .i32
  | .i64_clz => .i64
  | .i32_ctz => .i32
  | .i64_ctz => .i64
  | .i32_popcnt => .i32
  | .i64_popcnt => .i64
  | .i32_eqz => .i32
  | .i64_eqz => .i64
  | .f32_abs => .f32
  | .f64_abs => .f64
  | .f32_neg => .f32
  | .f64_neg => .f64
  | .f32_ceil => .f32
  | .f64_ceil => .f64
  | .f32_floor => .f32
  | .f64_floor => .f64
  | .f32_trunc => .f32
  | .f64_trunc => .f64
  | .f32_nearest => .f32
  | .f64_nearest => .f64
  | .f32_sqrt => .f32
  | .f64_sqrt => .f64
  | .i32_trunc_s_f32 => .f32
  | .i32_trunc_s_f64 => .f64
  | .i32_trunc_u_f32 => .f32
  | .i32_trunc_u_f64 => .f64
  | .i32_wrap_i64 => .i64
  | .i64_trunc_s_f32 => .f32
  | .i64_trunc_s_f64 => .f64
  | .i64_trunc_u_f32 => .f32
  | .i64_trunc_u_f64 => .f64
  | .i64_extend_s_i32 => .i32
  | .i64_extend_u_i32 => .i32
  | .f32_convert_s_i32 => .i32
  | .f32_convert_u_i32 => .i32
  | .f32_convert_s_i64 => .i64
  | .f32_convert_u_i64 => .i64
  | .f32_demote_f64 => .f64
  | .f32_reinterpret_i32 => .i32
  | .f64_convert_s_i32 => .i32
  | .f64_convert_u_i32 => .i32
  | .f64_convert_s_i64 => .i64
  | .f64_convert_u_i64 => .i64
  | .f64_promote_f32 => .f32
  | .f64_reinterpret_i64 => .i64
  | .i32_reinterpret_f32 => .f32
  | .i64_reinterpret_f64 => .f64

/-- The argument `resultTypeId` of each `VALIDATE_UNARY_OPCODE` line. -/
def UnaryOp.resultTypeId : UnaryOp → ValueType
  | .i32_clz => .i32
  | .i64_clz => .i64
  | .i32_ctz => .i32
  | .i64_ctz => .i64
  | .i32_popcnt => .i32
  | .i64_popcnt => .i64
  | .i32_eqz => .i32
  | .i64_eqz => .i32
  | .f32_abs => .f32
  | .f64_abs => .f64
  | .f32_neg => .f32
  | .f64_neg => .f64
  | .f32_ceil => .f32
  | .f64_ceil => .f64
  | .f32_floor => .f32
  | .f64_floor => .f64
  | .f32_trunc => .f32
  | .f64_trunc => .f64
  | .f32_nearest => .f32
  | .f64_nearest => .f64
  | .f32_sqrt => .f32
  | .f64_sqrt => .f64
  | .i32_trunc_s_f32 => .i32
  | .i32_trunc_s_f64 => .i32
  | .i32_trunc_u_f32 => .i32
  | .i32_trunc_u_f64 => .i32
  | .i32_wrap_i64 => .i32
  | .i64_trunc_s_f32 => .i64
  | .i64_trunc_s_f64 => .i64
  | .i64_trunc_u_f32 => .i64
  | .i64_trunc_u_f64 => .i64
  | .i64_extend_s_i32 => .i64
  | .i64_extend_u_i32 => .i64
  | .f32_convert_s_i32 => .f32
  | .f32_convert_u_i32 => .f32
  | .f32_convert_s_i64 => .f32
  | .f32_convert_u_i64 => .f32
  | .f32_demote_f64 => .f32
  | .f32_reinterpret_i32 => .f32
  | .f64_convert_s_i32 => .f64
  | .f64_convert_u_i32 => .f64
  | .f64_convert_s_i64 => .f64
  | .f64_convert_u_i64 => .f64
  | .f64_promote_f32 => .f64
  | .f64_reinterpret_i64 => .f64
  | .i32_reinterpret_f32 => .i32
  | .i64_reinterpret_f64 => .i64

/-! ## The module -/

/-- A function definition: its type index, the types of its non-parameter locals, and its code,
given as the operations the decoder yields from the byte range of the body. -/
structure FunctionDef where
  type : IndexedFunctionType
  nonParameterLocalTypes : List ValueType
  code : List Operation
  deriving DecidableEq, Repr

/-- A table definition. -/
structure TableDef where
  type : TableType
  deriving DecidableEq, Repr

/-- A memory definition. -/
structure MemoryDef where
  type : MemoryType
  deriving DecidableEq, Repr

/-- A global definition: its type and initializer. -/
structure GlobalDef where
  type : GlobalType
  initializer : InitializerExpression
  deriving DecidableEq, Repr

/-- An index space: the imports (each reduced to its declared type) followed by the definitions. -/
structure IndexSpace (Definition Ty : Type) where
  imports : List Ty
  defs : List Definition

/-- The number of objects of an index space: `IndexSpace::size`. -/
def IndexSpace.size {Definition Ty : Type} (space : IndexSpace Definition Ty) : Nat :=
  space.imports.length + space.defs.length

/-- The declared type of the object at an index, `IndexSpace::getType`: an import below
`imports.size()`, a definition from there on; `none` past the end. -/
def IndexSpace.getType {Definition Ty : Type} (typeOf : Definition → Ty)
    (space : IndexSpace Definition Ty) (index : Nat) : Option Ty :=
  if index < space.imports.length then space.imports[index]?
  else (space.defs[index - space.imports.length]?).map typeOf

/-- An export: name, kind and index. -/
structure Export where
  name : String
  kind : ObjectKind
  index : Nat
  deriving DecidableEq, Repr

/-- A data segment: memory index, base offset and the number of its bytes. -/
structure DataSegment where
  memoryIndex : Nat
  baseOffset : InitializerExpression
  data : List Nat
  deriving DecidableEq, Repr

/-- A table (element) segment: table index, base offset and function indices. -/
structure TableSegment where
  tableIndex : Nat
  baseOffset : InitializerExpression
  indices : List Nat
  deriving DecidableEq, Repr

/-- The decoded module as the validator reads it. `startFunctionIndex = UINTPTR_MAX` means that
no start function is declared. -/
structure Module where
  types : List FunctionType
  functions : IndexSpace FunctionDef IndexedFunctionType
  tables : IndexSpace TableDef TableType
  memories : IndexSpace MemoryDef MemoryType
  globals : IndexSpace GlobalDef GlobalType
  exports : List Export
  dataSegments : List DataSegment
  tableSegments : List TableSegment
  startFunctionIndex : Nat

/-! ## Failures -/

/-- How a validator function can fail. Every constructor but the last is a thrown
`ValidationException`, kept in structured form: `validateUnless reason comparison` is the
exception of `VALIDATE_UNLESS(reason,comparison)` (its text is `reason` followed by the source
text of `comparison`), `exception reason` one with a fixed text. `undefinedBehaviour` is not an
exception: it marks an access the source performs without a check and that is out of range. -/
inductive Failure where
  | invalidValueType (encoding : Nat)
  | invalidReturnType (encoding : Nat)
  | invalidExternalKind (encoding : Nat)
  | invalidTableElementType
  | typeMismatch (expected actual : ValueType) (context : String)
  | operandTypeMismatch (expected actual : ValueType) (context : String)
  | validateUnless (reason comparison : String)
  | unknownOpcode (opcode : Nat)
  | exception (reason : String)
  | undefinedBehaviour
  deriving DecidableEq, Repr

/-- The result of a validator function. -/
abbrev Result (α : Type) : Type := Except Failure α

/-- The macro `VALIDATE_INDEX(index,arraySize)`: fails when `index >= arraySize`; the two strings
are the source texts of the macro arguments. -/
def VALIDATE_INDEX (index arraySize : Nat) (indexText arraySizeText : String) : Result Unit :=
  if index ≥ arraySize then
    .error (.validateUnless "invalid index: " (indexText ++ ">=" ++ arraySizeText))
  else .ok ()

/-- The overload `validate(ValueType)`. -/
def validateValueType (valueType : ValueType) : Result Unit :=
  match valueType with
  | .any => .error (.invalidValueType valueType.encoding)
  | .malformed _ => .error (.invalidValueType valueType.encoding)
  | _ => .ok ()

/-- The overload `validate(ResultType)`. -/
def validateResultType (returnType : ResultType) : Result Unit :=
  match returnType with
  | .malformed _ => .error (.invalidReturnType returnType.encoding)
  | _ => .ok ()

/-- The function `validateOperandType`: the relaxed match of an operand popped off the stack. -/
def validateOperandType (expectedType actualType : ValueType) (context : String) :
    Result Unit :=
  if expectedType ≠ actualType ∧ expectedType ≠ ValueType.any ∧ actualType ≠ ValueType.any then
    .error (.operandTypeMismatch expectedType actualType context)
  else .ok ()

/-- The function `validateGlobalIndex`. -/
def validateGlobalIndex (module : Module) (globalIndex : Nat)
    (mustBeMutable mustBeImmutable mustBeImport : Bool) : Result ValueType :=
  match VALIDATE_INDEX globalIndex module.globals.size "globalIndex" "module.globals.size()" with
  | .error e => .error e
  | .ok _ =>
    match module.globals.getType GlobalDef.type globalIndex with
    | none => .error .undefinedBehaviour
    | some globalType =>
      if mustBeMutable = true ∧ globalType.isMutable = false then
        .error (.exception "attempting to mutate immutable global")
      else if mustBeImport = true ∧ globalIndex ≥ module.globals.imports.length then
        .error (.exception
          "global variable initializer expression may only access imported globals")
      else if mustBeImmutable = true ∧ globalType.isMutable = true then
        .error (.exception
          "global variable initializer expression may only access immutable globals")
      else .ok globalType.valueType

/-- The function `validateFunctionIndex`: the signature of the function at an index. The type
index of that function is used without a check. -/
def validateFunctionIndex (module : Module) (functionIndex : Nat) : Result FunctionType :=
  match VALIDATE_INDEX functionIndex module.functions.size "functionIndex"
      "module.functions.size()" with
  | .error e => .error e
  | .ok _ =>
    match module.functions.getType FunctionDef.type functionIndex with
    | none => .error .undefinedBehaviour
    | some indexedType =>
      match module.types[indexedType.index]? with
      | none => .error .undefinedBehaviour
      | some functionType => .ok functionType

/-! ## Validation of the definitions -/

/-- A range-based `for` loop whose body can throw: the body is run on the elements in order and
the first failure ends the loop. -/
def forEach {α : Type} (body : α → Result Unit) : List α → Result Unit
  | [] => .ok ()
  | element :: elements =>
    match body element with
    | .error e => .error e
    | .ok _ => forEach body elements

/-- The overload `validate(SizeConstraints,size_t maxMax)`. -/
def validateSizeConstraints (size : SizeConstraints) (maxMax : Nat) : Result Unit :=
  let max := if size.max = UINT64_MAX then maxMax else size.max
  if size.min > max then .error (.validateUnless "disjoint size bounds: " "size.min>max")
  else if max > maxMax then
    .error (.validateUnless "maximum size exceeds limit: " "max>maxMax")
  else .ok ()

/-- The overload `validate(TableElementType)`. -/
def validateTableElementType (type : TableElementType) : Result Unit :=
  if type ≠ TableElementType.anyfunc then .error .invalidTableElementType else .ok ()

/-- The overload `validate(GlobalType)`. -/
def validateGlobalType (type : GlobalType) : Result Unit :=
  validateValueType type.valueType

/-- The template `validateType` at `ValueType`: strict equality of two types. -/
def validateType (expectedType actualType : ValueType) (context : String) : Result Unit :=
  if expectedType ≠ actualType then .error (.typeMismatch expectedType actualType context)
  else .ok ()

/-- The function `validateInitializer`. -/
def validateInitializer (module : Module) (expression : InitializerExpression)
    (expectedType : ValueType) (context : String) : Result Unit :=
  match expression with
  | .i32_const _ => validateType expectedType ValueType.i32 context
  | .i64_const _ => validateType expectedType ValueType.i64 context
  | .f32_const _ => validateType expectedType ValueType.f32 context
  | .f64_const _ => validateType expectedType ValueType.f64 context
  | .get_global globalIndex =>
    match validateGlobalIndex module globalIndex false true true with
    | .error e => .error e
    | .ok globalValueType => validateType expectedType globalValueType context
  | .error => .error (.exception "invalid initializer expression")

/-- The body of the loop of `validateDefinitions` over the types. -/
def validateFunctionType (functionType : FunctionType) : Result Unit :=
  match forEach validateValueType functionType.parameters with
  | .error e => .error e
  | .ok _ => validateResultType functionType.ret

/-- The body of the loop of `validateDefinitions` over the table imports. -/
def validateTableImport (type : TableType) : Result Unit :=
  match validateTableElementType type.elementType with
  | .error e => .error e
  | .ok _ => validateSizeConstraints type.size UINTPTR_MAX

/-- The body of the loop of `validateDefinitions` over the global imports. -/
def validateGlobalImport (type : GlobalType) : Result Unit :=
  match validateGlobalType type with
  | .error e => .error e
  | .ok _ =>
    if type.isMutable = true then
      .error (.validateUnless "mutable globals cannot be imported: "
        "globalImport.type.isMutable")
    else .ok ()

/-- The body of the loop of `validateDefinitions` over the function definitions. -/
def validateFunctionDefType (module : Module) (functionDef : FunctionDef) : Result Unit :=
  match VALIDATE_INDEX functionDef.type.index module.types.length "functionDef.type.index"
      "module.types.size()" with
  | .error e => .error e
  | .ok _ => forEach validateValueType functionDef.nonParameterLocalTypes

/-- The body of the loop of `validateDefinitions` over the global definitions. -/
def validateGlobalDef (module : Module) (globalDef : GlobalDef) : Result Unit :=
  match validateGlobalType globalDef.type with
  | .error e => .error e
  | .ok _ =>
    validateInitializer module globalDef.initializer globalDef.type.valueType
      "global initializer expression"

/-- The loop of `validateDefinitions` over the exports; `exportNameMap` holds the names of the
exports already visited. -/
def validateExports (module : Module) : List Export → List String → Result Unit
  | [], _ => .ok ()
  | exportIt :: exports, exportNameMap =>
    let indexCheck : Result Unit :=
      match exportIt.kind with
      | .function =>
        VALIDATE_INDEX exportIt.index module.functions.size "exportIt.index"
          "module.functions.size()"
      | .table =>
        VALIDATE_INDEX exportIt.index module.tables.size "exportIt.index"
          "module.tables.size()"
      | .memory =>
        VALIDATE_INDEX exportIt.index module.memories.size "exportIt.index"
          "module.memories.size()"
      | .global =>
        match validateGlobalIndex module exportIt.index false true false with
        | .error e => .error e
        | .ok _ => .ok ()
      | .malformed _ => .error (.exception "unknown export kind")
    match indexCheck with
    | .error e => .error e
    | .ok _ =>
      if exportIt.name ∈ exportNameMap then
        .error (.validateUnless "duplicate export: " "exportNameMap.count(exportIt.name)")
      else validateExports module exports (exportIt.name :: exportNameMap)

/-- Modelled from the spec: `FunctionType::get()` is not among the sources; the start function
is compared with the signature of "no parameters, no results". -/
def FunctionType.empty : FunctionType :=
  { ret := ResultType.none, parameters := [] }

/-- The test of the start function in `validateDefinitions`. The type index of the start
function is used without a check. -/
def validateStartFunction (module : Module) : Result Unit :=
  if module.startFunctionIndex ≠ UINTPTR_MAX then
    match VALIDATE_INDEX module.startFunctionIndex module.functions.size
        "module.startFunctionIndex" "module.functions.size()" with
    | .error e => .error e
    | .ok _ =>
      match module.functions.getType FunctionDef.type module.startFunctionIndex with
      | none => .error .undefinedBehaviour
      | some indexedType =>
        match module.types[indexedType.index]? with
        | none => .error .undefinedBehaviour
        | some startFunctionType =>
          if startFunctionType ≠ FunctionType.empty then
            .error (.validateUnless
              "start function must not have any parameters or results: "
              "startFunctionType != FunctionType::get()")
          else .ok ()
  else .ok ()

/-- The body of the loop of `validateDefinitions` over the data segments. -/
def validateDataSegment (module : Module) (dataSegment : DataSegment) : Result Unit :=
  match VALIDATE_INDEX dataSegment.memoryIndex module.memories.size "dataSegment.memoryIndex"
      "module.memories.size()" with
  | .error e => .error e
  | .ok _ =>
    validateInitializer module dataSegment.baseOffset ValueType.i32
      "data segment base initializer"

/-- The body of the loop of `validateDefinitions` over the table segments. -/
def validateTableSegment (module : Module) (tableSegment : TableSegment) : Result Unit :=
  match VALIDATE_INDEX tableSegment.tableIndex module.tables.size "tableSegment.tableIndex"
      "module.tables.size()" with
  | .error e => .error e
  | .ok _ =>
    match validateInitializer module tableSegment.baseOffset ValueType.i32
        "table segment base initializer" with
    | .error e => .error e
    | .ok _ =>
      forEach (fun functionIndex =>
        VALIDATE_INDEX functionIndex module.functions.size "functionIndex"
          "module.functions.size()") tableSegment.indices

/-- The steps of `validateDefinitions`, in the order of the source. -/
def validateDefinitionsSteps (module : Module) : List (Result Unit) :=
  [ forEach validateFunctionType module.types,
    forEach (fun (functionImport : IndexedFunctionType) =>
      VALIDATE_INDEX functionImport.index module.types.length "functionImport.type.index"
        "module.types.size()") module.functions.imports,
    forEach validateTableImport module.tables.imports,
    forEach (fun (memoryImport : MemoryType) =>
      validateSizeConstraints memoryImport.size maxMemoryPages) module.memories.imports,
    forEach validateGlobalImport module.globals.imports,
    forEach (validateFunctionDefType module) module.functions.defs,
    forEach (validateGlobalDef module) module.globals.defs,
    forEach (fun (tableDef : TableDef) =>
      validateSizeConstraints tableDef.type.size UINT32_MAX) module.tables.defs,
    if module.tables.size > 1 then
      .error (.validateUnless "too many tables: " "module.tables.size()>1")
    else .ok (),
    forEach (fun (memoryDef : MemoryDef) =>
      validateSizeConstraints memoryDef.type.size maxMemoryPages) module.memories.defs,
    if module.memories.size > 1 then
      .error (.validateUnless "too many memories: " "module.memories.size()>1")
    else .ok (),
    validateExports module module.exports [],
    validateStartFunction module,
    forEach (validateDataSegment module) module.dataSegments,
    forEach (validateTableSegment module) module.tableSegments ]

/-- The function `validateDefinitions`: the steps are run in order and the first failure is
the result. -/
def validateDefinitions (module : Module) : Result Unit :=
  forEach id (validateDefinitionsSteps module)

/-! ## The per-function validation context -/

/-- The kinds of control context, `ControlContext::Type`; `ifWithoutElse` is declared by the
source and never constructed. -/
inductive ControlContextType where
  | function
  | block
  | ifWithoutElse
  | ifThen
  | ifElse
  | loop
  deriving DecidableEq, Repr

/-- One entry of the control stack. -/
structure ControlContext where
  type : ControlContextType
  outerStackSize : Nat
  branchArgumentType : ResultType
  resultType : ResultType
  isReachable : Bool
  deriving DecidableEq, Repr

/-- The state of the validation of one function: `struct FunctionValidationContext`. -/
structure FunctionValidationContext where
  module : Module
  functionDef : FunctionDef
  functionType : FunctionType
  locals : List ValueType
  controlStack : List ControlContext
  stack : List ValueType

namespace FunctionValidationContext

/-- The method `getControlStackSize`. -/
def getControlStackSize (ctx : FunctionValidationContext) : Nat :=
  ctx.controlStack.length

/-- The expression `controlStack.back()`, which the source evaluates without a check. -/
def controlStackBack (ctx : FunctionValidationContext) : Result ControlContext :=
  match ctx.controlStack.getLast? with
  | some context => .ok context
  | none => .error .undefinedBehaviour

/-- Assignment to the fields of `controlStack.back()`: the innermost context is replaced. -/
def setControlStackBack (ctx : FunctionValidationContext) (context : ControlContext) :
    FunctionValidationContext :=
  { ctx with controlStack := ctx.controlStack.dropLast ++ [context] }

/-- The call `stack.resize(size)`: the first `size` entries, filled up with value-initialised
entries (encoding `0`, that is `any`) when the stack is shorter. -/
def resizeStack (stack : List ValueType) (size : Nat) : List ValueType :=
  stack.take size ++ List.replicate (size - stack.length) ValueType.any

/-- The method `pushControlStack`. -/
def pushControlStack (ctx : FunctionValidationContext) (type : ControlContextType)
    (branchArgumentType resultType : ResultType) : FunctionValidationContext :=
  { ctx with
    controlStack := ctx.controlStack ++
      [{ type := type, outerStackSize := ctx.stack.length,
         branchArgumentType := branchArgumentType, resultType := resultType,
         isReachable := true }] }

/-- The overload `pushOperand(ValueType)`. -/
def pushOperand (ctx : FunctionValidationContext) (type : ValueType) :
    FunctionValidationContext :=
  { ctx with stack := ctx.stack ++ [type] }

/-- The overload `pushOperand(ResultType)`. -/
def pushOperandResult (ctx : FunctionValidationContext) (type : ResultType) :
    FunctionValidationContext :=
  if type ≠ ResultType.none then ctx.pushOperand (asValueType type) else ctx

/-- The method `popOperand`: the popped type and the context after the pop. -/
def popOperand (ctx : FunctionValidationContext) :
    Result (ValueType × FunctionValidationContext) :=
  match ctx.controlStackBack with
  | .error e => .error e
  | .ok back =>
    if ctx.stack.length > back.outerStackSize then
      match ctx.stack.getLast? with
      | some result => .ok (result, { ctx with stack := ctx.stack.dropLast })
      | none => .error .undefinedBehaviour
    else if back.isReachable = true then
      .error (.exception "invalid stack access")
    else .ok (ValueType.any, ctx)

/-- The method `popAndValidateOperand`. -/
def popAndValidateOperand (ctx : FunctionValidationContext) (context : String)
    (expectedType : ValueType) : Result FunctionValidationContext :=
  match ctx.popOperand with
  | .error e => .error e
  | .ok (actualType, ctx1) =>
    match validateOperandType expectedType actualType context with
    | .error e => .error e
    | .ok _ => .ok ctx1

/-- The loop of `popAndValidateOperands(context,expectedTypes,num)`: `remaining` holds the
expected types not yet popped, in reverse index order, so the last expected type is popped
first. -/
def popAndValidateOperandsLoop (context : String) :
    List ValueType → FunctionValidationContext → Result FunctionValidationContext
  | [], ctx => .ok ctx
  | expectedType :: remaining, ctx =>
    match ctx.popOperand with
    | .error e => .error e
    | .ok (actualType, ctx1) =>
      match validateOperandType expectedType actualType context with
      | .error e => .error e
      | .ok _ => popAndValidateOperandsLoop context remaining ctx1

/-- The method `popAndValidateOperands`: operand `num - operandIndexFromEnd - 1` is checked at
iteration `operandIndexFromEnd`. -/
def popAndValidateOperands (ctx : FunctionValidationContext) (context : String)
    (expectedTypes : List ValueType) : Result FunctionValidationContext :=
  popAndValidateOperandsLoop context expectedTypes.reverse ctx

/-- The method `popAndValidateResultType`. -/
def popAndValidateResultType (ctx : FunctionValidationContext) (context : String)
    (expectedType : ResultType) : Result FunctionValidationContext :=
  if expectedType ≠ ResultType.none then
    ctx.popAndValidateOperand context (asValueType expectedType)
  else .ok ctx

/-- The method `popControlStack(isElse)`. -/
def popControlStack (ctx : FunctionValidationContext) (isElse : Bool) :
    Result FunctionValidationContext :=
  match ctx.controlStackBack with
  | .error e => .error e
  | .ok back =>
    if ctx.stack.length > back.outerStackSize then
      .error (.validateUnless "stack was not empty at end of control structure: "
        "stack.size() > controlStack.back().outerStackSize")
    else if isElse = true ∧ back.type = ControlContextType.ifThen then
      .ok (ctx.setControlStackBack
        { back with type := ControlContextType.ifElse, isReachable := true })
    else if isElse = true then
      .error (.validateUnless "else only allowed in if context: " "isElse")
    else
      let resultType := back.resultType
      if back.type = ControlContextType.ifThen ∧ resultType ≠ ResultType.none then
        .error (.exception "else-less if may not yield a result")
      else
        let popped : FunctionValidationContext :=
          { ctx with controlStack := ctx.controlStack.dropLast }
        if popped.controlStack.length ≠ 0 then .ok (popped.pushOperandResult resultType)
        else .ok popped

/-- The method `enterUnreachable`. -/
def enterUnreachable (ctx : FunctionValidationContext) : Result FunctionValidationContext :=
  match ctx.controlStackBack with
  | .error e => .error e
  | .ok back =>
    let resized : FunctionValidationContext :=
      { ctx with stack := resizeStack ctx.stack back.outerStackSize }
    .ok (resized.setControlStackBack { back with isReachable := false })

/-- The method `validateBranchDepth`; its second test repeats the first and never fires. -/
def validateBranchDepth (ctx : FunctionValidationContext) (depth : Nat) : Result Unit :=
  match VALIDATE_INDEX depth ctx.controlStack.length "depth" "controlStack.size()" with
  | .error e => .error e
  | .ok _ =>
    if depth ≥ ctx.controlStack.length then .error (.exception "invalid branch depth")
    else .ok ()

/-- The method `getBranchTargetByDepth`. -/
def getBranchTargetByDepth (ctx : FunctionValidationContext) (depth : Nat) :
    Result ControlContext :=
  match ctx.validateBranchDepth depth with
  | .error e => .error e
  | .ok _ =>
    match ctx.controlStack[ctx.controlStack.length - depth - 1]? with
    | some target => .ok target
    | none => .error .undefinedBehaviour

/-- The method `validateLocalIndex`. -/
def validateLocalIndex (ctx : FunctionValidationContext) (localIndex : Nat) :
    Result ValueType :=
  match VALIDATE_INDEX localIndex ctx.locals.length "localIndex" "locals.size()" with
  | .error e => .error e
  | .ok _ =>
    match ctx.locals[localIndex]? with
    | some type => .ok type
    | none => .error .undefinedBehaviour

/-! ### Operation dispatch methods -/

/-- The method `unknown`. -/
def unknown (_ctx : FunctionValidationContext) (opcode : Nat) :
    Result FunctionValidationContext :=
  .error (.unknownOpcode opcode)

/-- The method `block`. -/
def block (ctx : FunctionValidationContext) (resultType : ResultType) :
    Result FunctionValidationContext :=
  match validateResultType resultType with
  | .error e => .error e
  | .ok _ => .ok (ctx.pushControlStack ControlContextType.block resultType resultType)

/-- The method `loop`. -/
def loop (ctx : FunctionValidationContext) (resultType : ResultType) :
    Result FunctionValidationContext :=
  match validateResultType resultType with
  | .error e => .error e
  | .ok _ => .ok (ctx.pushControlStack ControlContextType.loop ResultType.none resultType)

/-- The method `if_`. -/
def if_ (ctx : FunctionValidationContext) (resultType : ResultType) :
    Result FunctionValidationContext :=
  match validateResultType resultType with
  | .error e => .error e
  | .ok _ =>
    match ctx.popAndValidateOperand "if condition" ValueType.i32 with
    | .error e => .error e
    | .ok ctx1 => .ok (ctx1.pushControlStack ControlContextType.ifThen resultType resultType)

/-- The method `else_`. -/
def else_ (ctx : FunctionValidationContext) : Result FunctionValidationContext :=
  match ctx.controlStackBack with
  | .error e => .error e
  | .ok back =>
    match ctx.popAndValidateResultType "if result" back.resultType with
    | .error e => .error e
    | .ok ctx1 => ctx1.popControlStack true

/-- The method `end`. -/
def end_ (ctx : FunctionValidationContext) : Result FunctionValidationContext :=
  match ctx.controlStackBack with
  | .error e => .error e
  | .ok back =>
    match ctx.popAndValidateResultType "end result" back.resultType with
    | .error e => .error e
    | .ok ctx1 => ctx1.popControlStack false

/-- The method `return_`. -/
def return_ (ctx : FunctionValidationContext) : Result FunctionValidationContext :=
  match ctx.popAndValidateResultType "ret" ctx.functionType.ret with
  | .error e => .error e
  | .ok ctx1 => ctx1.enterUnreachable

/-- The method `br`. -/
def br (ctx : FunctionValidationContext) (targetDepth : Nat) :
    Result FunctionValidationContext :=
  match ctx.getBranchTargetByDepth targetDepth with
  | .error e => .error e
  | .ok target =>
    match ctx.popAndValidateResultType "br argument" target.branchArgumentType with
    | .error e => .error e
    | .ok ctx1 => ctx1.enterUnreachable

/-- The loop of `br_table` over `imm.targetDepths`: every target's branch argument type is
compared with the one of the default target. -/
def brTableTargets (ctx : FunctionValidationContext) (defaultTargetArgumentType : ResultType) :
    List Nat → Result Unit
  | [] => .ok ()
  | targetDepth :: targetDepths =>
    match ctx.getBranchTargetByDepth targetDepth with
    | .error e => .error e
    | .ok target =>
      if target.branchArgumentType ≠ defaultTargetArgumentType then
        .error (.validateUnless
          "br_table target argument must match default target argument: "
          "targetArgumentType != defaultTargetArgumentType")
      else brTableTargets ctx defaultTargetArgumentType targetDepths

/-- The method `br_table`. -/
def br_table (ctx : FunctionValidationContext) (targetDepths : List Nat)
    (defaultTargetDepth : Nat) : Result FunctionValidationContext :=
  match ctx.popAndValidateOperand "br_table index" ValueType.i32 with
  | .error e => .error e
  | .ok ctx1 =>
    match ctx1.getBranchTargetByDepth defaultTargetDepth with
    | .error e => .error e
    | .ok defaultTarget =>
      let defaultTargetArgumentType := defaultTarget.branchArgumentType
      match ctx1.popAndValidateResultType "br_table argument" defaultTargetArgumentType with
      | .error e => .error e
      | .ok ctx2 =>
        match ctx2.brTableTargets defaultTargetArgumentType targetDepths with
        | .error e => .error e
        | .ok _ => ctx2.enterUnreachable

/-- The method `br_if`. -/
def br_if (ctx : FunctionValidationContext) (targetDepth : Nat) :
    Result FunctionValidationContext :=
  match ctx.popAndValidateOperand "br_if condition" ValueType.i32 with
  | .error e => .error e
  | .ok ctx1 =>
    match ctx1.getBranchTargetByDepth targetDepth with
    | .error e => .error e
    | .ok target =>
      match ctx1.popAndValidateResultType "br_if argument" target.branchArgumentType with
      | .error e => .error e
      | .ok ctx2 =>
        match ctx2.getBranchTargetByDepth targetDepth with
        | .error e => .error e
        | .ok target2 => .ok (ctx2.pushOperandResult target2.branchArgumentType)

/-- The method `nop`. -/
def nop (ctx : FunctionValidationContext) : Result FunctionValidationContext :=
  .ok ctx

/-- The method `unreachable`. -/
def unreachable (ctx : FunctionValidationContext) : Result FunctionValidationContext :=
  ctx.enterUnreachable

/-- The method `drop`. -/
def drop (ctx : FunctionValidationContext) : Result FunctionValidationContext :=
  match ctx.popOperand with
  | .error e => .error e
  | .ok (_, ctx1) => .ok ctx1

/-- The method `select`. -/
def select (ctx : FunctionValidationContext) : Result FunctionValidationContext :=
  match ctx.popOperand with
  | .error e => .error e
  | .ok (condition, ctx1) =>
    match ctx1.popOperand with
    | .error e => .error e
    | .ok (falseType, ctx2) =>
      match ctx2.popOperand with
      | .error e => .error e
      | .ok (trueType, ctx3) =>
        match validateOperandType ValueType.i32 condition "select condition" with
        | .error e => .error e
        | .ok _ =>
          match validateOperandType falseType trueType "select operands" with
          | .error e => .error e
          | .ok _ => .ok (ctx3.pushOperand falseType)

/-- The method `get_local`. -/
def get_local (ctx : FunctionValidationContext) (variableIndex : Nat) :
    Result FunctionValidationContext :=
  match ctx.validateLocalIndex variableIndex with
  | .error e => .error e
  | .ok localType => .ok (ctx.pushOperand localType)

/-- The method `set_local`. -/
def set_local (ctx : FunctionValidationContext) (variableIndex : Nat) :
    Result FunctionValidationContext :=
  match ctx.validateLocalIndex variableIndex with
  | .error e => .error e
  | .ok localType => ctx.popAndValidateOperand "set_local" localType

/-- The method `tee_local`. -/
def tee_local (ctx : FunctionValidationContext) (variableIndex : Nat) :
    Result FunctionValidationContext :=
  match ctx.validateLocalIndex variableIndex with
  | .error e => .error e
  | .ok localType =>
    match ctx.popAndValidateOperand "tee_local" localType with
    | .error e => .error e
    | .ok ctx1 => .ok (ctx1.pushOperand localType)

/-- The method `get_global`. -/
def get_global (ctx : FunctionValidationContext) (variableIndex : Nat) :
    Result FunctionValidationContext :=
  match validateGlobalIndex ctx.module variableIndex false false false with
  | .error e => .error e
  | .ok valueType => .ok (ctx.pushOperand valueType)

/-- The method `set_global`. -/
def set_global (ctx : FunctionValidationContext) (variableIndex : Nat) :
    Result FunctionValidationContext :=
  match validateGlobalIndex ctx.module variableIndex true false false with
  | .error e => .error e
  | .ok valueType => ctx.popAndValidateOperand "set_global" valueType

/-- The method `call`. -/
def call (ctx : FunctionValidationContext) (functionIndex : Nat) :
    Result FunctionValidationContext :=
  match validateFunctionIndex ctx.module functionIndex with
  | .error e => .error e
  | .ok calleeType =>
    match ctx.popAndValidateOperands "call arguments" calleeType.parameters with
    | .error e => .error e
    | .ok ctx1 => .ok (ctx1.pushOperandResult calleeType.ret)

/-- The method `call_indirect`. -/
def call_indirect (ctx : FunctionValidationContext) (typeIndex : Nat) :
    Result FunctionValidationContext :=
  match VALIDATE_INDEX typeIndex ctx.module.types.length "imm.type.index"
      "module.types.size()" with
  | .error e => .error e
  | .ok _ =>
    if ctx.module.tables.size = 0 then
      .error (.validateUnless
        "call_indirect is only valid if there is a default function table: "
        "module.tables.size()==0")
    else
      match ctx.module.types[typeIndex]? with
      | none => .error .undefinedBehaviour
      | some calleeType =>
        match ctx.popAndValidateOperand "call_indirect function index" ValueType.i32 with
        | .error e => .error e
        | .ok ctx1 =>
          match ctx1.popAndValidateOperands "call_indirect arguments"
              calleeType.parameters with
          | .error e => .error e
          | .ok ctx2 => .ok (ctx2.pushOperandResult calleeType.ret)

/-- The method `grow_memory`. -/
def grow_memory (ctx : FunctionValidationContext) : Result FunctionValidationContext :=
  if ctx.module.memories.size = 0 then
    .error (.validateUnless "grow_memory is only valid if there is a default memory"
      "module.memories.size() == 0")
  else
    match ctx.popAndValidateOperand "grow_memory" ValueType.i32 with
    | .error e => .error e
    | .ok ctx1 => .ok (ctx1.pushOperand ValueType.i32)

/-- The method `current_memory`. -/
def current_memory (ctx : FunctionValidationContext) : Result FunctionValidationContext :=
  if ctx.module.memories.size = 0 then
    .error (.validateUnless "current_memory is only valid if there is a default memory"
      "module.memories.size() == 0")
  else .ok (ctx.pushOperand ValueType.i32)

/-- The method `error`. -/
def error (_ctx : FunctionValidationContext) : Result FunctionValidationContext :=
  .error (.exception "error opcode")

/-- The methods declared with `VALIDATE_CONST`. -/
def const (ctx : FunctionValidationContext) (typeId : ValueType) :
    Result FunctionValidationContext :=
  .ok (ctx.pushOperand typeId)

/-- The three `VALIDATE_UNLESS` tests shared by the load and store methods. -/
def validateLoadOrStoreImm (ctx : FunctionValidationContext) (nameString : String)
    (naturalAlignmentLog2 alignmentLog2 offset : Nat) : Result Unit :=
  if alignmentLog2 > naturalAlignmentLog2 then
    .error (.validateUnless (nameString ++ " alignment greater than natural alignment: ")
      ("imm.alignmentLog2>" ++ toString naturalAlignmentLog2))
  else if ctx.module.memories.size = 0 then
    .error (.validateUnless (nameString ++ " in module without default memory: ")
      "module.memories.size()==0")
  else if offset > UINT32_MAX then
    .error (.validateUnless (nameString ++ " offset too large: ") "imm.offset > UINT32_MAX")
  else .ok ()

/-- The methods declared with `VALIDATE_LOAD_OPCODE`. -/
def load (ctx : FunctionValidationContext) (op : LoadOp) (alignmentLog2 offset : Nat) :
    Result FunctionValidationContext :=
  match ctx.popAndValidateOperand op.name ValueType.i32 with
  | .error e => .error e
  | .ok ctx1 =>
    match ctx1.validateLoadOrStoreImm op.nameString op.naturalAlignmentLog2 alignmentLog2
        offset with
    | .error e => .error e
    | .ok _ => .ok (ctx1.pushOperand op.resultType)

/-- The methods declared with `VALIDATE_STORE_OPCODE`. -/
def store (ctx : FunctionValidationContext) (op : StoreOp) (alignmentLog2 offset : Nat) :
    Result FunctionValidationContext :=
  match ctx.popAndValidateOperands op.nameString [ValueType.i32, op.valueTypeId] with
  | .error e => .error e
  | .ok ctx1 =>
    match ctx1.validateLoadOrStoreImm op.nameString op.naturalAlignmentLog2 alignmentLog2
        offset with
    | .error e => .error e
    | .ok _ => .ok ctx1

/-- The methods declared with `VALIDATE_BINARY_OPCODE`. -/
def binary (ctx : FunctionValidationContext) (op : BinaryOp) :
    Result FunctionValidationContext :=
  match ctx.popAndValidateOperands op.nameString [op.operandTypeId, op.operandTypeId] with
  | .error e => .error e
  | .ok ctx1 => .ok (ctx1.pushOperand op.resultTypeId)

/-- The methods declared with `VALIDATE_UNARY_OPCODE`. -/
def unary (ctx : FunctionValidationContext) (op : UnaryOp) :
    Result FunctionValidationContext :=
  match ctx.popAndValidateOperand op.nameString op.operandTypeId with
  | .error e => .error e
  | .ok ctx1 => .ok (ctx1.pushOperand op.resultTypeId)

/-- The call `decoder.decodeOp(functionContext)`: the method of the decoded operator is run on
its immediate. -/
def decodeOp (ctx : FunctionValidationContext) : Operation → Result FunctionValidationContext
  | .unknown opcode => ctx.unknown opcode
  | .block resultType => ctx.block resultType
  | .loop resultType => ctx.loop resultType
  | .if_ resultType => ctx.if_ resultType
  | .else_ => ctx.else_
  | .end_ => ctx.end_
  | .return_ => ctx.return_
  | .br targetDepth => ctx.br targetDepth
  | .br_table targetDepths defaultTargetDepth => ctx.br_table targetDepths defaultTargetDepth
  | .br_if targetDepth => ctx.br_if targetDepth
  | .nop => ctx.nop
  | .unreachable => ctx.unreachable
  | .drop => ctx.drop
  | .select => ctx.select
  | .get_local variableIndex => ctx.get_local variableIndex
  | .set_local variableIndex => ctx.set_local variableIndex
  | .tee_local variableIndex => ctx.tee_local variableIndex
  | .get_global variableIndex => ctx.get_global variableIndex
  | .set_global variableIndex => ctx.set_global variableIndex
  | .call functionIndex => ctx.call functionIndex
  | .call_indirect typeIndex => ctx.call_indirect typeIndex
  | .grow_memory => ctx.grow_memory
  | .current_memory => ctx.current_memory
  | .error => ctx.error
  | .i32_const _ => ctx.const ValueType.i32
  | .i64_const _ => ctx.const ValueType.i64
  | .f32_const _ => ctx.const ValueType.f32
  | .f64_const _ => ctx.const ValueType.f64
  | .load op alignmentLog2 offset => ctx.load op alignmentLog2 offset
  | .store op alignmentLog2 offset => ctx.store op alignmentLog2 offset
  | .binary op => ctx.binary op
  | .unary op => ctx.unary op

/-- The constructor of `FunctionValidationContext`: the locals are the parameters followed by
the non-parameter locals, and the function context is pushed on the empty control stack. The
type index of the definition is used without a check. -/
def create (module : Module) (functionDef : FunctionDef) : Result FunctionValidationContext :=
  match module.types[functionDef.type.index]? with
  | none => .error .undefinedBehaviour
  | some functionType =>
    let fresh : FunctionValidationContext :=
      { module := module, functionDef := functionDef, functionType := functionType,
        locals := functionType.parameters ++ functionDef.nonParameterLocalTypes,
        controlStack := [], stack := [] }
    .ok (fresh.pushControlStack ControlContextType.function functionType.ret functionType.ret)

end FunctionValidationContext

/-! ## The walk of `validateCode` -/

/-- The loop `while(decoder && functionContext.getControlStackSize()) decoder.decodeOp(..)`:
the operations left in the decoder and the context at exit. -/
def decodeLoop : List Operation → FunctionValidationContext →
    Result (List Operation × FunctionValidationContext)
  | [], ctx => .ok ([], ctx)
  | op :: rest, ctx =>
    if ctx.getControlStackSize ≠ 0 then
      match ctx.decodeOp op with
      | .error e => .error e
      | .ok ctx1 => decodeLoop rest ctx1
    else .ok (op :: rest, ctx)

/-- The two tests of `validateCode` after the loop, on a context that has walked `code`. -/
def validateFunctionCode (code : List Operation) (ctx : FunctionValidationContext) :
    Result FunctionValidationContext :=
  match decodeLoop code ctx with
  | .error e => .error e
  | .ok (remaining, ctx1) =>
    if remaining ≠ [] then .error (.exception "function end reached before end of code")
    else if ctx1.getControlStackSize ≠ 0 then
      .error (.exception "end of code reached before end of function")
    else .ok ctx1

/-- The body of the loop of `validateCode` for one function definition: the context is
constructed and walks the code; the result is the context at acceptance. -/
def validateFunctionDef (module : Module) (functionDef : FunctionDef) :
    Result FunctionValidationContext :=
  match FunctionValidationContext.create module functionDef with
  | .error e => .error e
  | .ok ctx => validateFunctionCode functionDef.code ctx

/-- The loop of `validateCode` over the function definitions. -/
def validateCodeDefs (module : Module) : List FunctionDef → Result Unit
  | [] => .ok ()
  | functionDef :: functionDefs =>
    match validateFunctionDef module functionDef with
    | .error e => .error e
    | .ok _ => validateCodeDefs module functionDefs

/-- The function `validateCode`. -/
def validateCode (module : Module) : Result Unit :=
  validateCodeDefs module module.functions.defs

/-- The method `CodeValidationStream::finish`. -/
def CodeValidationStream.finish (ctx : FunctionValidationContext) : Result Unit :=
  if ctx.getControlStackSize ≠ 0 then
    .error (.exception "end of code reached before end of function")
  else .ok ()

/-! ## States of a validation and relations between them -/

/-- The validator states reachable for a function definition: the state right after
construction, and every state a successful operator method yields from a reachable state. -/
inductive Reachable (module : Module) (functionDef : FunctionDef) :
    FunctionValidationContext → Prop where
  | initial {ctx : FunctionValidationContext} :
      FunctionValidationContext.create module functionDef = .ok ctx →
      Reachable module functionDef ctx
  | step {ctx ctx1 : FunctionValidationContext} (op : Operation) :
      Reachable module functionDef ctx → ctx.decodeOp op = .ok ctx1 →
      Reachable module functionDef ctx1

/-- The walk in the words of the spec: `Walk ctx code ctx1` holds when the methods of the
operators of `code`, run in order from `ctx`, all succeed and end in `ctx1`, and the control
stack is non-empty before each operator is consumed. -/
inductive Walk : FunctionValidationContext → List Operation → FunctionValidationContext → Prop
    where
  | done (ctx : FunctionValidationContext) : Walk ctx [] ctx
  | next {ctx ctx1 ctx2 : FunctionValidationContext} {op : Operation} {rest : List Operation} :
      ctx.controlStack ≠ [] → ctx.decodeOp op = .ok ctx1 → Walk ctx1 rest ctx2 →
      Walk ctx (op :: rest) ctx2

/-- The relaxed match of the spec: two value types match when they are equal or either one is
`any`. -/
def Matches (expectedType actualType : ValueType) : Prop :=
  expectedType = actualType ∨ expectedType = ValueType.any ∨ actualType = ValueType.any

instance (expectedType actualType : ValueType) : Decidable (Matches expectedType actualType) :=
  inferInstanceAs (Decidable (_ ∨ _))

/-- The branch argument type a control context must carry: `none` for a loop, its own result
type for a function, block, then-branch or else-branch. -/
def BranchArgumentOK (context : ControlContext) : Prop :=
  (context.type = ControlContextType.loop → context.branchArgumentType = ResultType.none) ∧
  (context.type = ControlContextType.function ∨ context.type = ControlContextType.block ∨
      context.type = ControlContextType.ifThen ∨ context.type = ControlContextType.ifElse →
    context.branchArgumentType = context.resultType)

/-- The two contexts hold the same module, function definition, function type and locals. -/
def SameFunction (ctx ctx1 : FunctionValidationContext) : Prop :=
  ctx1.module = ctx.module ∧ ctx1.functionDef = ctx.functionDef ∧
  ctx1.functionType = ctx.functionType ∧ ctx1.locals = ctx.locals

/-- The effect of the methods that only pop and push operands: the control stack is the same,
and a stack that reaches the floor of the innermost context still reaches it and keeps its
entries below that floor. -/
def OperandStep (ctx ctx1 : FunctionValidationContext) : Prop :=
  SameFunction ctx ctx1 ∧ ctx1.controlStack = ctx.controlStack ∧
  ∀ back, ctx.controlStack.getLast? = some back → back.outerStackSize ≤ ctx.stack.length →
    back.outerStackSize ≤ ctx1.stack.length ∧
    ctx1.stack.take back.outerStackSize = ctx.stack.take back.outerStackSize

/-- What an operator method does to the control stack after its operand pops: nothing, enter
the unreachable state, push a context, or pop (or flip) the innermost context. -/
inductive ControlEffect (mid ctx1 : FunctionValidationContext) : Prop where
  | unchanged : ctx1 = mid → ControlEffect mid ctx1
  | unreachable : mid.enterUnreachable = .ok ctx1 → ControlEffect mid ctx1
  | push (type : ControlContextType) (branchArgumentType resultType : ResultType) :
      ctx1 = mid.pushControlStack type branchArgumentType resultType →
      (type = ControlContextType.block ∨ type = ControlContextType.ifThen ∨
        type = ControlContextType.loop) →
      (type = ControlContextType.loop → branchArgumentType = ResultType.none) →
      (type ≠ ControlContextType.loop → branchArgumentType = resultType) →
      ControlEffect mid ctx1
  | pop (isElse : Bool) : mid.popControlStack isElse = .ok ctx1 → ControlEffect mid ctx1

/-- The floors of the control stack are ordered: the outer stack sizes do not decrease towards
the innermost context, and none exceeds the height of the operand stack. -/
def FloorsOrdered (ctx : FunctionValidationContext) : Prop :=
  (ctx.controlStack.map ControlContext.outerStackSize).Pairwise (· ≤ ·) ∧
  ∀ context ∈ ctx.controlStack, context.outerStackSize ≤ ctx.stack.length

/-- The bottom of a non-empty control stack has floor `0`, and an empty control stack comes
with an empty operand stack. -/
def BottomAtZero (ctx : FunctionValidationContext) : Prop :=
  (∀ bottom, ctx.controlStack.head? = some bottom → bottom.outerStackSize = 0) ∧
  (ctx.controlStack = [] → ctx.stack = [])

/-- The stack index `i` is the floor of an unreachable control context, and every control context
further in starts above `i`: an entry at index `i` lies in the frame of that unreachable
context, at its bottom. -/
def UnreachableFloorAt (controlStack : List ControlContext) (i : Nat) : Prop :=
  ∃ outer context inner, controlStack = outer ++ context :: inner ∧
    context.outerStackSize = i ∧ context.isReachable = false ∧
    ∀ c ∈ inner, i < c.outerStackSize

/-- Every `any` on the operand stack sits exactly at the floor of an unreachable control context
and in the frame of that context. -/
def AnyAtUnreachableFloor (ctx : FunctionValidationContext) : Prop :=
  ∀ i, ctx.stack[i]? = some ValueType.any → UnreachableFloorAt ctx.controlStack i

/-- The locals of the context and the globals of its module have no type `any`. -/
def CleanTypes (ctx : FunctionValidationContext) : Prop :=
  (∀ type ∈ ctx.locals, type ≠ ValueType.any) ∧
  ∀ index globalType, ctx.module.globals.getType GlobalDef.type index = some globalType →
    globalType.valueType ≠ ValueType.any

/-- Every `any` on the stack of `ctx1` is an entry of the stack of `ctx` at the same index: the
step from `ctx` to `ctx1` put no `any` on the stack. -/
def AnyFrom (ctx ctx1 : FunctionValidationContext) : Prop :=
  ∀ i : Nat, ctx1.stack[i]? = some ValueType.any → ctx.stack[i]? = some ValueType.any

/-- An operand step that puts no `any` on the stack. -/
def CleanStep (ctx ctx1 : FunctionValidationContext) : Prop :=
  OperandStep ctx ctx1 ∧ AnyFrom ctx ctx1

/-- An operand step that keeps every `any` at the floor of an unreachable context. -/
def AnyStep (ctx ctx1 : FunctionValidationContext) : Prop :=
  OperandStep ctx ctx1 ∧
  (FloorsOrdered ctx → AnyAtUnreachableFloor ctx → AnyAtUnreachableFloor ctx1)

/-- The states reachable for a function definition of a module that `validateDefinitions`
accepts. -/
def ValidatedReachable (module : Module) (functionDef : FunctionDef)
    (ctx : FunctionValidationContext) : Prop :=
  validateDefinitions module = .ok () ∧ functionDef ∈ module.functions.defs ∧
  Reachable module functionDef ctx

/-! ## The signatures the operator names imply -/

/-- The characters of a name before the first separator. -/
def charsBefore (separator : Char) : List Char → List Char
  | [] => []
  | c :: cs => if c = separator then [] else c :: charsBefore separator cs

/-- The characters of a name after the first separator, if there is one. -/
def charsAfter (separator : Char) : List Char → Option (List Char)
  | [] => none
  | c :: cs => if c = separator then some cs else charsAfter separator cs

/-- The value type written `i32`, `i64`, `f32` or `f64`. -/
def valueTypeOfChars (chars : List Char) : Option ValueType :=
  if chars = "i32".toList then some ValueType.i32
  else if chars = "i64".toList then some ValueType.i64
  else if chars = "f32".toList then some ValueType.f32
  else if chars = "f64".toList then some ValueType.f64
  else none

/-- The comparison operators of the MVP: they produce an `i32`. -/
def comparisonNames : List String :=
  ["eqz", "eq", "ne", "lt_s", "lt_u", "le_s", "le_u", "gt_s", "gt_u", "ge_s", "ge_u",
   "lt", "le", "gt", "ge"]

/-- The operators of the MVP with one operand; conversions (`X.op/Y`) have one operand too. -/
def unaryNames : List String :=
  ["eqz", "clz", "ctz", "popcnt", "abs", "neg", "ceil", "floor", "trunc", "nearest", "sqrt"]

/-- The signature a numeric operator name implies in the Wasm MVP, as the list of operand types
and the result type: a conversion `X.op/Y` takes a `Y` and yields an `X`; a comparison `TT.op`
takes operands of type `TT` and yields an `i32`; every other `TT.op` takes and yields `TT`. -/
def signatureOfName (name : String) : Option (List ValueType × ValueType) :=
  match valueTypeOfChars (charsBefore '.' name.toList), charsAfter '.' name.toList with
  | some type, some operator =>
    match charsAfter '/' operator with
    | some source =>
      match valueTypeOfChars source with
      | some sourceType => some ([sourceType], type)
      | none => none
    | none =>
      let result := if String.mk operator ∈ comparisonNames then ValueType.i32 else type
      if String.mk operator ∈ unaryNames then some ([type], result)
      else some ([type, type], result)
  | _, _ => none

/-! ## Sample states -/

/-- A module with the two signatures `() -> i32` and `() -> ()` and nothing else. -/
def sampleModule : Module :=
  { types := [{ ret := ResultType.i32, parameters := [] },
              { ret := ResultType.none, parameters := [] }],
    functions := { imports := [], defs := [] },
    tables := { imports := [], defs := [] },
    memories := { imports := [], defs := [] },
    globals := { imports := [], defs := [] },
    exports := [], dataSegments := [], tableSegments := [],
    startFunctionIndex := UINTPTR_MAX }

/-- A function definition of `sampleModule` without locals. -/
def sampleFunctionDef (typeIndex : Nat) (code : List Operation) : FunctionDef :=
  { type := { index := typeIndex }, nonParameterLocalTypes := [], code := code }

/-- A validation context of the function `() -> ()` of `sampleModule` with the given stacks. -/
def sampleContext (controlStack : List ControlContext) (stack : List ValueType) :
    FunctionValidationContext :=
  { module := sampleModule, functionDef := sampleFunctionDef 1 [],
    functionType := { ret := ResultType.none, parameters := [] },
    locals := [], controlStack := controlStack, stack := stack }

/-- The function context of a function without result. -/
def sampleFunctionContext : ControlContext :=
  { type := ControlContextType.function, outerStackSize := 0,
    branchArgumentType := ResultType.none, resultType := ResultType.none, isReachable := true }

/-- A control context of the given kind and result type on floor `outerStackSize`, with the
branch argument type equal to the result type. -/
def sampleInnerContext (type : ControlContextType) (outerStackSize : Nat)
    (resultType : ResultType) (isReachable : Bool) : ControlContext :=
  { type := type, outerStackSize := outerStackSize, branchArgumentType := resultType,
    resultType := resultType, isReachable := isReachable }

/-- The module `sampleModule` with one memory definition added. -/
def sampleMemoryModule : Module :=
  { sampleModule with
    memories := { imports := [], defs := [{ type := { size := { min := 1, max := 1 } } }] } }

/-- A validation context of the function `() -> ()` of `sampleMemoryModule`. -/
def sampleMemoryContext (controlStack : List ControlContext) (stack : List ValueType) :
    FunctionValidationContext :=
  { module := sampleMemoryModule, functionDef := sampleFunctionDef 1 [],
    functionType := { ret := ResultType.none, parameters := [] },
    locals := [], controlStack := controlStack, stack := stack }

/-- A module with the three signatures `() -> i32`, `() -> ()` and `(i32, i64) -> f32`, and
two function definitions, of the third and of the second signature. -/
def sampleCallModule : Module :=
  { types := [{ ret := ResultType.i32, parameters := [] },
              { ret := ResultType.none, parameters := [] },
              { ret := ResultType.f32, parameters := [ValueType.i32, ValueType.i64] }],
    functions := { imports := [], defs := [sampleFunctionDef 2 [], sampleFunctionDef 1 []] },
    tables := { imports := [], defs := [] },
    memories := { imports := [], defs := [] },
    globals := { imports := [], defs := [] },
    exports := [], dataSegments := [], tableSegments := [],
    startFunctionIndex := UINTPTR_MAX }

/-- A validation context of the function `() -> ()` of `sampleCallModule`. -/
def sampleCallContext (controlStack : List ControlContext) (stack : List ValueType) :
    FunctionValidationContext :=
  { module := sampleCallModule, functionDef := sampleFunctionDef 1 [],
    functionType := { ret := ResultType.none, parameters := [] },
    locals := [], controlStack := controlStack, stack := stack }

/-- The index of an export lies below the size of the index space of its kind; an export of
an unknown kind is never in range. -/
def ExportInRange (module : Module) (exportIt : Export) : Prop :=
  match exportIt.kind with
  | .function => exportIt.index < module.functions.size
  | .table => exportIt.index < module.tables.size
  | .memory => exportIt.index < module.memories.size
  | .global => exportIt.index < module.globals.size
  | .malformed _ => False

/-- A module with one function `() -> ()`, one table, one memory and one imported immutable
global, which exports the function and the memory, starts with the function and has one data
segment and one table segment. -/
def sampleLinkedModule : Module :=
  { types := [{ ret := ResultType.none, parameters := [] }],
    functions := { imports := [], defs := [sampleFunctionDef 0 [Operation.end_]] },
    tables := { imports := [],
                defs := [{ type := { elementType := TableElementType.anyfunc,
                                     size := { min := 1, max := UINT64_MAX } } }] },
    memories := { imports := [], defs := [{ type := { size := { min := 1, max := 2 } } }] },
    globals := { imports := [{ valueType := ValueType.i32, isMutable := false }], defs := [] },
    exports := [{ name := "main", kind := ObjectKind.function, index := 0 },
                { name := "memory", kind := ObjectKind.memory, index := 0 }],
    dataSegments := [{ memoryIndex := 0, baseOffset := InitializerExpression.i32_const 0,
                       data := [1, 2] }],
    tableSegments := [{ tableIndex := 0, baseOffset := InitializerExpression.get_global 0,
                        indices := [0] }],
    startFunctionIndex := 0 }

/-- The module `sampleLinkedModule` with the memory exported under the name of the function. -/
def sampleDuplicateExportModule : Module :=
  { sampleLinkedModule with
    exports := [{ name := "main", kind := ObjectKind.function, index := 0 },
                { name := "main", kind := ObjectKind.memory, index := 0 }] }

/-- The module `sampleLinkedModule` with a second signature `(i32) -> ()`, of which the
function definition (and so the start function) is. -/
def sampleStartModule : Module :=
  { sampleLinkedModule with
    types := [{ ret := ResultType.none, parameters := [] },
              { ret := ResultType.none, parameters := [ValueType.i32] }],
    functions := { imports := [], defs := [sampleFunctionDef 1 [Operation.end_]] } }

/-- Where an operand type an operator leaves on the stack comes from: the stack before the
operator, the `any` of a pop at an unreachable floor, a type `validateValueType` accepts, a
local, a global, the result of a signature of the module, or the branch argument of a
control context. -/
def Sourced (ctx : FunctionValidationContext) (type : ValueType) : Prop :=
  type ∈ ctx.stack ∨ type = ValueType.any ∨ validateValueType type = .ok () ∨
  type ∈ ctx.locals ∨
  (∃ index globalType, ctx.module.globals.getType GlobalDef.type index = some globalType ∧
    globalType.valueType = type) ∨
  (∃ signature ∈ ctx.module.types,
    signature.ret ≠ ResultType.none ∧ type = asValueType signature.ret) ∨
  (∃ context ∈ ctx.controlStack,
    context.branchArgumentType ≠ ResultType.none ∧
      type = asValueType context.branchArgumentType)

/-- An operand step all of whose entries have a known source. -/
def SourcedStep (ctx ctx1 : FunctionValidationContext) : Prop :=
  OperandStep ctx ctx1 ∧ ∀ type ∈ ctx1.stack, Sourced ctx type

/-- What each operator does to the control stack once its operands are moved: `block`, `loop`
and `if` push a context of their kind with a validated result type, `else` and `end` run
`popControlStack`, `return`, `br`, `br_table` and `unreachable` run `enterUnreachable`, and
every other operator is done. -/
def OperatorEffect (mid ctx1 : FunctionValidationContext) : Operation → Prop
  | .block resultType =>
    validateResultType resultType = .ok () ∧
      ctx1 = mid.pushControlStack ControlContextType.block resultType resultType
  | .loop resultType =>
    validateResultType resultType = .ok () ∧
      ctx1 = mid.pushControlStack ControlContextType.loop ResultType.none resultType
  | .if_ resultType =>
    validateResultType resultType = .ok () ∧
      ctx1 = mid.pushControlStack ControlContextType.ifThen resultType resultType
  | .else_ => mid.popControlStack true = .ok ctx1
  | .end_ => mid.popControlStack false = .ok ctx1
  | .return_ => mid.enterUnreachable = .ok ctx1
  | .br _ => mid.enterUnreachable = .ok ctx1
  | .br_table _ _ => mid.enterUnreachable = .ok ctx1
  | .unreachable => mid.enterUnreachable = .ok ctx1
  | _ => ctx1 = mid

/-- The shape of the control stack of a walk: the bottom context is the function context, on
floor `0` and with the result type of the function as result and branch argument type, and
no context above it is a function context. -/
def FunctionAtBottom (ctx : FunctionValidationContext) : Prop :=
  ∀ bottom rest, ctx.controlStack = bottom :: rest →
    bottom.type = ControlContextType.function ∧ bottom.outerStackSize = 0 ∧
    bottom.resultType = ctx.functionType.ret ∧
    bottom.branchArgumentType = ctx.functionType.ret ∧
    ∀ context ∈ rest, context.type ≠ ControlContextType.function

/-- The types of the function and of its module are well formed: every local and every global
has a type `validateValueType` accepts, and every signature of the module has a result type
`validateResultType` accepts. -/
def ConcreteTypes (ctx : FunctionValidationContext) : Prop :=
  (∀ type ∈ ctx.locals, validateValueType type = .ok ()) ∧
  (∀ index globalType, ctx.module.globals.getType GlobalDef.type index = some globalType →
    validateValueType globalType.valueType = .ok ()) ∧
  ∀ signature ∈ ctx.module.types, validateResultType signature.ret = .ok ()

/-- Every operand-stack entry is `any` or a type `validateValueType` accepts, and the result
and branch argument types of every control context are types `validateResultType` accepts. -/
def WellTyped (ctx : FunctionValidationContext) : Prop :=
  (∀ type ∈ ctx.stack, type = ValueType.any ∨ validateValueType type = .ok ()) ∧
  ∀ context ∈ ctx.controlStack,
    validateResultType context.resultType = .ok () ∧
    validateResultType context.branchArgumentType = .ok ()

/-- The module with the size bounds of every table and memory, imported or defined, replaced
by `size`. -/
def Module.withSizes (module : Module) (size : SizeConstraints) : Module :=
  { module with
    tables :=
      { imports := module.tables.imports.map
          (fun tableImport => { tableImport with size := size }),
        defs := module.tables.defs.map
          (fun tableDef => { type := { tableDef.type with size := size } }) },
    memories :=
      { imports := module.memories.imports.map (fun _ => { size := size }),
        defs := module.memories.defs.map (fun _ => { type := { size := size } }) } }

/-- Size bounds every ceiling accepts: minimum `0` and no maximum. -/
def unboundedSize : SizeConstraints :=
  { min := 0, max := UINT64_MAX }

/-- A function definition of `sampleModule` with one non-parameter local of type `any`, which
`validateDefinitions` does not accept. -/
def sampleAnyLocalDef (typeIndex : Nat) : FunctionDef :=
  { type := { index := typeIndex }, nonParameterLocalTypes := [ValueType.any], code := [] }

/-- A validation context of the function `() -> ()` of `sampleModule` with one local of type
`any`. -/
def sampleAnyLocalContext (controlStack : List ControlContext) (stack : List ValueType) :
    FunctionValidationContext :=
  { module := sampleModule, functionDef := sampleAnyLocalDef 1,
    functionType := { ret := ResultType.none, parameters := [] },
    locals := [ValueType.any], controlStack := controlStack, stack := stack }

/-- The module `sampleCallModule` with the single function definition `functionDef`. -/
def sampleDefModule (functionDef : FunctionDef) : Module :=
  { sampleCallModule with functions := { imports := [], defs := [functionDef] } }

/-- A validation context of a function `() -> ()` without locals of `sampleDefModule`. -/
def sampleDefContext (functionDef : FunctionDef) (controlStack : List ControlContext)
    (stack : List ValueType) : FunctionValidationContext :=
  { module := sampleDefModule functionDef, functionDef := functionDef,
    functionType := { ret := ResultType.none, parameters := [] },
    locals := [], controlStack := controlStack, stack := stack }

/-- A function `() -> ()` whose code goes on after the `end` of the function: `end; block;
end`. -/
def sampleTrailingDef : FunctionDef :=
  sampleFunctionDef 1 [Operation.end_, Operation.block ResultType.none, Operation.end_]

/-- A function `() -> ()` whose code goes on after the `end` of the function with a block
that yields an `i32`: `end; block i32; return; end`. -/
def sampleTrailingReturnDef : FunctionDef :=
  sampleFunctionDef 1 [Operation.end_, Operation.block ResultType.i32, Operation.return_,
    Operation.end_]

/-- The module `sampleModule` with the given tables and memories. -/
def sampleSizedModule (tableImports : List TableType) (tableDefs : List TableDef)
    (memoryImports : List MemoryType) (memoryDefs : List MemoryDef) : Module :=
  { sampleModule with
    tables := { imports := tableImports, defs := tableDefs },
    memories := { imports := memoryImports, defs := memoryDefs } }

/-! ## Elementary facts about the helpers -/

namespace FunctionValidationContext

theorem controlStackBack_eq_ok {ctx : FunctionValidationContext} {back : ControlContext} :
    ctx.controlStackBack = .ok back ↔ ctx.controlStack.getLast? = some back := by
  unfold controlStackBack
  split <;> simp_all

theorem controlStackBack_of_getLast {ctx : FunctionValidationContext} {back : ControlContext}
    (h : ctx.controlStack.getLast? = some back) : ctx.controlStackBack = .ok back :=
  controlStackBack_eq_ok.2 h

/-- Inversion of a successful `popOperand`: either the top entry above the floor was removed,
or the stack is at (or below) the floor of an unreachable context and `any` is returned. -/
theorem popOperand_ok {ctx ctx1 : FunctionValidationContext} {result : ValueType}
    (h : ctx.popOperand = .ok (result, ctx1)) :
    ∃ back, ctx.controlStack.getLast? = some back ∧
      ((back.outerStackSize < ctx.stack.length ∧ ctx.stack = ctx.stack.dropLast ++ [result] ∧
          ctx1 = { ctx with stack := ctx.stack.dropLast }) ∨
       (ctx.stack.length ≤ back.outerStackSize ∧ back.isReachable = false ∧
          result = ValueType.any ∧ ctx1 = ctx)) := by
  unfold popOperand at h
  split at h
  · cases h
  · rename_i back hback
    refine ⟨back, controlStackBack_eq_ok.1 hback, ?_⟩
    split at h
    · rename_i hlen
      split at h
      · rename_i top htop
        injection h with h
        injection h with h1 h2
        subst h1 h2
        exact Or.inl ⟨hlen, (List.dropLast_append_getLast? _ htop).symm, rfl⟩
      · cases h
    · rename_i hlen
      split at h
      · cases h
      · rename_i hreach
        injection h with h
        injection h with h1 h2
        subst h1 h2
        exact Or.inr ⟨Nat.le_of_not_lt hlen, by simpa using hreach, rfl, rfl⟩

theorem validateOperandType_eq_ok {expectedType actualType : ValueType} {context : String} :
    validateOperandType expectedType actualType context = .ok () ↔
      Matches expectedType actualType := by
  unfold validateOperandType Matches
  split
  · rename_i h
    simp only [reduceCtorEq, false_iff]
    tauto
  · rename_i h
    simp only [true_iff]
    tauto

end FunctionValidationContext

/-! ### Methods that only move operands -/

theorem OperandStep.refl (ctx : FunctionValidationContext) : OperandStep ctx ctx :=
  ⟨⟨rfl, rfl, rfl, rfl⟩, rfl, fun _ _ h => ⟨h, rfl⟩⟩

theorem OperandStep.trans {ctx ctx1 ctx2 : FunctionValidationContext}
    (h1 : OperandStep ctx ctx1) (h2 : OperandStep ctx1 ctx2) : OperandStep ctx ctx2 := by
  obtain ⟨⟨a1, b1, c1, d1⟩, e1, f1⟩ := h1
  obtain ⟨⟨a2, b2, c2, d2⟩, e2, f2⟩ := h2
  refine ⟨⟨a2.trans a1, b2.trans b1, c2.trans c1, d2.trans d1⟩, e2.trans e1, ?_⟩
  intro back hback hlen
  obtain ⟨g1, t1⟩ := f1 back hback hlen
  obtain ⟨g2, t2⟩ := f2 back (e1 ▸ hback) g1
  exact ⟨g2, t2.trans t1⟩

namespace FunctionValidationContext

theorem operandStep_pushOperand (ctx : FunctionValidationContext) (type : ValueType) :
    OperandStep ctx (ctx.pushOperand type) := by
  refine ⟨⟨rfl, rfl, rfl, rfl⟩, rfl, ?_⟩
  intro back _ hlen
  simp only [pushOperand, List.length_append, List.length_singleton]
  exact ⟨Nat.le_succ_of_le hlen, List.take_append_of_le_length hlen⟩

theorem operandStep_pushOperandResult (ctx : FunctionValidationContext) (type : ResultType) :
    OperandStep ctx (ctx.pushOperandResult type) := by
  unfold pushOperandResult
  split
  · exact operandStep_pushOperand ctx _
  · exact OperandStep.refl ctx

theorem operandStep_popOperand {ctx ctx1 : FunctionValidationContext} {result : ValueType}
    (h : ctx.popOperand = .ok (result, ctx1)) : OperandStep ctx ctx1 := by
  obtain ⟨back, hback, h | h⟩ := popOperand_ok h
  · obtain ⟨hlt, _, rfl⟩ := h
    refine ⟨⟨rfl, rfl, rfl, rfl⟩, rfl, ?_⟩
    intro back1 hback1 _
    have hb : back1 = back := by
      rw [hback] at hback1
      exact (Option.some.inj hback1).symm
    subst hb
    simp only [List.length_dropLast]
    refine ⟨by omega, ?_⟩
    rw [List.dropLast_eq_take, List.take_take]
    congr 1
    omega
  · obtain ⟨_, _, _, rfl⟩ := h
    exact OperandStep.refl _

theorem popAndValidateOperand_ok {ctx ctx1 : FunctionValidationContext} {context : String}
    {expectedType : ValueType} (h : ctx.popAndValidateOperand context expectedType = .ok ctx1) :
    ∃ actualType, ctx.popOperand = .ok (actualType, ctx1) ∧ Matches expectedType actualType := by
  unfold popAndValidateOperand at h
  split at h
  · cases h
  · rename_i actualType ctx2 hpop
    split at h
    · cases h
    · rename_i hval
      injection h with h
      subst h
      exact ⟨actualType, hpop, validateOperandType_eq_ok.1 hval⟩

theorem operandStep_popAndValidateOperand {ctx ctx1 : FunctionValidationContext}
    {context : String} {expectedType : ValueType}
    (h : ctx.popAndValidateOperand context expectedType = .ok ctx1) : OperandStep ctx ctx1 := by
  obtain ⟨_, hpop, _⟩ := popAndValidateOperand_ok h
  exact operandStep_popOperand hpop

theorem operandStep_popAndValidateOperandsLoop (context : String) :
    ∀ (expectedTypes : List ValueType) (ctx ctx1 : FunctionValidationContext),
      popAndValidateOperandsLoop context expectedTypes ctx = .ok ctx1 → OperandStep ctx ctx1
  | [], ctx, ctx1, h => by
    simp only [popAndValidateOperandsLoop] at h
    injection h with h
    subst h
    exact OperandStep.refl ctx
  | expectedType :: remaining, ctx, ctx1, h => by
    simp only [popAndValidateOperandsLoop] at h
    split at h
    · cases h
    · rename_i actualType ctx2 hpop
      split at h
      · cases h
      · exact (operandStep_popOperand hpop).trans
          (operandStep_popAndValidateOperandsLoop context remaining ctx2 ctx1 h)

theorem operandStep_popAndValidateOperands {ctx ctx1 : FunctionValidationContext}
    {context : String} {expectedTypes : List ValueType}
    (h : ctx.popAndValidateOperands context expectedTypes = .ok ctx1) : OperandStep ctx ctx1 :=
  operandStep_popAndValidateOperandsLoop context _ ctx ctx1 h

theorem operandStep_popAndValidateResultType {ctx ctx1 : FunctionValidationContext}
    {context : String} {expectedType : ResultType}
    (h : ctx.popAndValidateResultType context expectedType = .ok ctx1) :
    OperandStep ctx ctx1 := by
  unfold popAndValidateResultType at h
  split at h
  · exact operandStep_popAndValidateOperand h
  · injection h with h
    subst h
    exact OperandStep.refl ctx

/-- Every successful operator method is a sequence of operand moves followed by one effect on
the control stack. -/
theorem decodeOp_shape {ctx ctx1 : FunctionValidationContext} {op : Operation}
    (h : ctx.decodeOp op = .ok ctx1) :
    ∃ mid, OperandStep ctx mid ∧ ControlEffect mid ctx1 := by
  cases op <;> simp only [decodeOp] at h
  case unknown opcode => cases h
  case block resultType =>
    unfold block at h
    split at h
    · cases h
    · injection h with h
      exact ⟨ctx, OperandStep.refl ctx, .push _ _ _ h.symm (Or.inl rfl) (by simp) (by simp)⟩
  case loop resultType =>
    unfold loop at h
    split at h
    · cases h
    · injection h with h
      exact ⟨ctx, OperandStep.refl ctx,
        .push _ _ _ h.symm (Or.inr (Or.inr rfl)) (by simp) (by simp)⟩
  case if_ resultType =>
    unfold if_ at h
    split at h
    · cases h
    · split at h
      · cases h
      · rename_i ctx2 hpop
        injection h with h
        exact ⟨ctx2, operandStep_popAndValidateOperand hpop,
          .push _ _ _ h.symm (Or.inr (Or.inl rfl)) (by simp) (by simp)⟩
  case else_ =>
    unfold else_ at h
    split at h
    · cases h
    · split at h
      · cases h
      · rename_i ctx2 hpop
        exact ⟨ctx2, operandStep_popAndValidateResultType hpop, .pop true h⟩
  case end_ =>
    unfold end_ at h
    split at h
    · cases h
    · split at h
      · cases h
      · rename_i ctx2 hpop
        exact ⟨ctx2, operandStep_popAndValidateResultType hpop, .pop false h⟩
  case return_ =>
    unfold return_ at h
    split at h
    · cases h
    · rename_i ctx2 hpop
      exact ⟨ctx2, operandStep_popAndValidateResultType hpop, .unreachable h⟩
  case br targetDepth =>
    unfold br at h
    split at h
    · cases h
    · split at h
      · cases h
      · rename_i ctx2 hpop
        exact ⟨ctx2, operandStep_popAndValidateResultType hpop, .unreachable h⟩
  case br_table targetDepths defaultTargetDepth =>
    unfold br_table at h
    split at h
    · cases h
    · rename_i ctx2 hpop
      split at h
      · cases h
      · simp only at h
        split at h
        · cases h
        · rename_i ctx3 hpop3
          split at h
          · cases h
          · exact ⟨ctx3, (operandStep_popAndValidateOperand hpop).trans
              (operandStep_popAndValidateResultType hpop3), .unreachable h⟩
  case br_if targetDepth =>
    unfold br_if at h
    split at h
    · cases h
    · rename_i ctx2 hpop
      split at h
      · cases h
      · split at h
        · cases h
        · rename_i ctx3 hpop3
          split at h
          · cases h
          · injection h with h
            exact ⟨ctx1, ((operandStep_popAndValidateOperand hpop).trans
              (operandStep_popAndValidateResultType hpop3)).trans
                (h ▸ operandStep_pushOperandResult ctx3 _), .unchanged rfl⟩
  case nop =>
    unfold nop at h
    injection h with h
    exact ⟨ctx, OperandStep.refl ctx, .unchanged h.symm⟩
  case unreachable =>
    exact ⟨ctx, OperandStep.refl ctx, .unreachable h⟩
  case drop =>
    unfold drop at h
    split at h
    · cases h
    · rename_i hpop
      injection h with h
      subst h
      exact ⟨_, operandStep_popOperand hpop, .unchanged rfl⟩
  case select =>
    unfold select at h
    split at h
    · cases h
    · rename_i hpop1
      split at h
      · cases h
      · rename_i hpop2
        split at h
        · cases h
        · rename_i hpop3
          split at h
          · cases h
          · split at h
            · cases h
            · injection h with h
              exact ⟨ctx1, (((operandStep_popOperand hpop1).trans
                (operandStep_popOperand hpop2)).trans (operandStep_popOperand hpop3)).trans
                  (h ▸ operandStep_pushOperand _ _), .unchanged rfl⟩
  case get_local variableIndex =>
    unfold get_local at h
    split at h
    · cases h
    · injection h with h
      exact ⟨ctx1, h ▸ operandStep_pushOperand _ _, .unchanged rfl⟩
  case set_local variableIndex =>
    unfold set_local at h
    split at h
    · cases h
    · exact ⟨ctx1, operandStep_popAndValidateOperand h, .unchanged rfl⟩
  case tee_local variableIndex =>
    unfold tee_local at h
    split at h
    · cases h
    · split at h
      · cases h
      · rename_i hpop
        injection h with h
        exact ⟨ctx1, (operandStep_popAndValidateOperand hpop).trans
          (h ▸ operandStep_pushOperand _ _), .unchanged rfl⟩
  case get_global variableIndex =>
    unfold get_global at h
    split at h
    · cases h
    · injection h with h
      exact ⟨ctx1, h ▸ operandStep_pushOperand _ _, .unchanged rfl⟩
  case set_global variableIndex =>
    unfold set_global at h
    split at h
    · cases h
    · exact ⟨ctx1, operandStep_popAndValidateOperand h, .unchanged rfl⟩
  case call functionIndex =>
    unfold call at h
    split at h
    · cases h
    · split at h
      · cases h
      · rename_i hpop
        injection h with h
        exact ⟨ctx1, (operandStep_popAndValidateOperands hpop).trans
          (h ▸ operandStep_pushOperandResult _ _), .unchanged rfl⟩
  case call_indirect typeIndex =>
    unfold call_indirect at h
    split at h
    · cases h
    · split at h
      · cases h
      · split at h
        · cases h
        · split at h
          · cases h
          · rename_i hpop1
            split at h
            · cases h
            · rename_i hpop2
              injection h with h
              exact ⟨ctx1, ((operandStep_popAndValidateOperand hpop1).trans
                (operandStep_popAndValidateOperands hpop2)).trans
                  (h ▸ operandStep_pushOperandResult _ _), .unchanged rfl⟩
  case grow_memory =>
    unfold grow_memory at h
    split at h
    · cases h
    · split at h
      · cases h
      · rename_i hpop
        injection h with h
        exact ⟨ctx1, (operandStep_popAndValidateOperand hpop).trans
          (h ▸ operandStep_pushOperand _ _), .unchanged rfl⟩
  case current_memory =>
    unfold current_memory at h
    split at h
    · cases h
    · injection h with h
      exact ⟨ctx1, h ▸ operandStep_pushOperand _ _, .unchanged rfl⟩
  case error => cases h
  case i32_const value =>
    injection h with h
    exact ⟨ctx1, h ▸ operandStep_pushOperand _ _, .unchanged rfl⟩
  case i64_const value =>
    injection h with h
    exact ⟨ctx1, h ▸ operandStep_pushOperand _ _, .unchanged rfl⟩
  case f32_const bits =>
    injection h with h
    exact ⟨ctx1, h ▸ operandStep_pushOperand _ _, .unchanged rfl⟩
  case f64_const bits =>
    injection h with h
    exact ⟨ctx1, h ▸ operandStep_pushOperand _ _, .unchanged rfl⟩
  case load op alignmentLog2 offset =>
    unfold load at h
    split at h
    · cases h
    · rename_i hpop
      split at h
      · cases h
      · injection h with h
        exact ⟨ctx1, (operandStep_popAndValidateOperand hpop).trans
          (h ▸ operandStep_pushOperand _ _), .unchanged rfl⟩
  case store op alignmentLog2 offset =>
    unfold store at h
    split at h
    · cases h
    · rename_i hpop
      split at h
      · cases h
      · injection h with h
        subst h
        exact ⟨_, operandStep_popAndValidateOperands hpop, .unchanged rfl⟩
  case binary op =>
    unfold binary at h
    split at h
    · cases h
    · rename_i hpop
      injection h with h
      exact ⟨ctx1, (operandStep_popAndValidateOperands hpop).trans
        (h ▸ operandStep_pushOperand _ _), .unchanged rfl⟩
  case unary op =>
    unfold unary at h
    split at h
    · cases h
    · rename_i hpop
      injection h with h
      exact ⟨ctx1, (operandStep_popAndValidateOperand hpop).trans
        (h ▸ operandStep_pushOperand _ _), .unchanged rfl⟩

/-! ### The effects on the control stack -/

/-- Inversion of a successful `enterUnreachable`. -/
theorem enterUnreachable_ok {mid ctx1 : FunctionValidationContext}
    (h : mid.enterUnreachable = .ok ctx1) :
    ∃ outer back, mid.controlStack = outer ++ [back] ∧
      ctx1.controlStack = outer ++ [{ back with isReachable := false }] ∧
      ctx1.stack = resizeStack mid.stack back.outerStackSize ∧ SameFunction mid ctx1 := by
  unfold enterUnreachable at h
  split at h
  · cases h
  · rename_i back hback
    obtain ⟨outer, houter⟩ := List.getLast?_eq_some_iff.1 (controlStackBack_eq_ok.1 hback)
    injection h with h
    subst h
    refine ⟨outer, back, houter, ?_, rfl, ⟨rfl, rfl, rfl, rfl⟩⟩
    simp [setControlStackBack, houter]

/-- Inversion of a successful `popControlStack`: the stack is not above the floor, and either
an `ifThen` context is flipped by `else`, or the innermost context is popped and its result
pushed when a context remains. -/
theorem popControlStack_ok {mid ctx1 : FunctionValidationContext} {isElse : Bool}
    (h : mid.popControlStack isElse = .ok ctx1) :
    ∃ outer back, mid.controlStack = outer ++ [back] ∧
      mid.stack.length ≤ back.outerStackSize ∧ SameFunction mid ctx1 ∧
      ((isElse = true ∧ back.type = ControlContextType.ifThen ∧
          ctx1.controlStack =
            outer ++ [{ back with type := ControlContextType.ifElse, isReachable := true }] ∧
          ctx1.stack = mid.stack) ∨
       (isElse = false ∧
          ¬ (back.type = ControlContextType.ifThen ∧ back.resultType ≠ ResultType.none) ∧
          ctx1.controlStack = outer ∧
          ctx1.stack = mid.stack ++
            (if outer = [] ∨ back.resultType = ResultType.none then []
             else [asValueType back.resultType]))) := by
  unfold popControlStack at h
  split at h
  · cases h
  · rename_i back hback
    obtain ⟨outer, houter⟩ := List.getLast?_eq_some_iff.1 (controlStackBack_eq_ok.1 hback)
    refine ⟨outer, back, houter, ?_⟩
    split at h
    · cases h
    · rename_i hlen
      refine ⟨Nat.le_of_not_lt hlen, ?_⟩
      split at h
      · rename_i helse
        injection h with h
        subst h
        refine ⟨⟨rfl, rfl, rfl, rfl⟩, Or.inl ⟨helse.1, helse.2, ?_, rfl⟩⟩
        simp [setControlStackBack, houter]
      · rename_i hnot
        split at h
        · cases h
        · rename_i hfalse
          have hfalse1 : isElse = false := by simpa using hfalse
          simp only at h
          split at h
          · cases h
          · rename_i hres
            split at h
            · rename_i hne
              injection h with h
              subst h
              have hout : outer ≠ [] := by
                intro hnil
                apply hne
                simp [houter, hnil]
              refine ⟨?_, Or.inr ⟨hfalse1, hres, ?_, ?_⟩⟩
              · unfold pushOperandResult
                split <;> exact ⟨rfl, rfl, rfl, rfl⟩
              · unfold pushOperandResult
                split <;> simp [pushOperand, houter]
              · unfold pushOperandResult
                split
                · rename_i hrt
                  simp [pushOperand, hout, hrt]
                · rename_i hrt
                  have hrt1 : back.resultType = ResultType.none := by simpa using hrt
                  simp [hrt1]
            · rename_i hne
              injection h with h
              subst h
              have hout : outer = [] := by
                have hlen0 : (mid.controlStack.dropLast).length = 0 := by simpa using hne
                simpa [houter] using hlen0
              refine ⟨⟨rfl, rfl, rfl, rfl⟩, Or.inr ⟨hfalse1, hres, ?_, ?_⟩⟩
              · simp [houter]
              · simp [hout]

/-! ### The floors stay ordered -/

theorem pairwise_concat_le {α : Type} (f : α → Nat) (l : List α) (b : α)
    (h : ((l ++ [b]).map f).Pairwise (· ≤ ·)) : ∀ c ∈ l ++ [b], f c ≤ f b := by
  intro c hc
  rw [List.map_append, List.pairwise_append] at h
  rcases List.mem_append.1 hc with hin | hin
  · exact h.2.2 (f c) (List.mem_map_of_mem f hin) (f b) (by simp)
  · simp only [List.mem_singleton] at hin
    rw [hin]

theorem floorsOrdered_operandStep {ctx mid : FunctionValidationContext}
    (hinv : FloorsOrdered ctx) (h : OperandStep ctx mid) : FloorsOrdered mid := by
  obtain ⟨_, hcs, hstack⟩ := h
  obtain ⟨hsorted, hbound⟩ := hinv
  refine ⟨hcs ▸ hsorted, ?_⟩
  rw [hcs]
  intro context hmem
  rcases List.eq_nil_or_concat ctx.controlStack with hnil | ⟨outer, back, hconcat⟩
  · simp [hnil] at hmem
  · rw [List.concat_eq_append] at hconcat
    have hback : ctx.controlStack.getLast? = some back := by simp [hconcat]
    have hbackMem : back ∈ ctx.controlStack := by simp [hconcat]
    have hfloor := (hstack back hback (hbound back hbackMem)).1
    have hle : context.outerStackSize ≤ back.outerStackSize := by
      rw [hconcat] at hsorted hmem
      exact pairwise_concat_le _ outer back hsorted context hmem
    exact Nat.le_trans hle hfloor

theorem floorsOrdered_controlEffect {mid ctx1 : FunctionValidationContext}
    (hinv : FloorsOrdered mid) (h : ControlEffect mid ctx1) : FloorsOrdered ctx1 := by
  obtain ⟨hsorted, hbound⟩ := hinv
  cases h with
  | unchanged h => subst h; exact ⟨hsorted, hbound⟩
  | unreachable h =>
    obtain ⟨outer, back, hcs, hcs1, hstack1, _⟩ := enterUnreachable_ok h
    have hbackle : back.outerStackSize ≤ mid.stack.length := hbound back (by simp [hcs])
    have hlen : ctx1.stack.length = back.outerStackSize := by
      rw [hstack1]
      simp only [resizeStack, List.length_append, List.length_take, List.length_replicate]
      omega
    rw [hcs] at hsorted hbound
    refine ⟨?_, ?_⟩
    · rw [hcs1]
      simpa using hsorted
    · rw [hcs1, hlen]
      intro context hmem
      rcases List.mem_append.1 hmem with hin | hin
      · exact pairwise_concat_le _ outer back hsorted context (List.mem_append_left _ hin)
      · simp only [List.mem_singleton] at hin
        rw [hin]
  | push type branchArgumentType resultType h _ _ _ =>
    subst h
    refine ⟨?_, ?_⟩
    · simp only [pushControlStack, List.map_append, List.map_cons, List.map_nil,
        List.pairwise_append, List.pairwise_cons, List.not_mem_nil, false_implies,
        implies_true, List.Pairwise.nil, and_self, List.mem_map, List.mem_singleton,
        forall_exists_index, and_imp, forall_apply_eq_imp_iff₂, true_and]
      refine ⟨hsorted, ?_⟩
      intro context hmem b hb
      rw [hb]
      exact hbound context hmem
    · intro context hmem
      simp only [pushControlStack, List.mem_append, List.mem_singleton] at hmem
      rcases hmem with hin | hin
      · exact hbound context hin
      · rw [hin]
        exact Nat.le_refl _
  | pop isElse h =>
    obtain ⟨outer, back, hcs, hlen, _, hcase | hcase⟩ := popControlStack_ok h
    · obtain ⟨_, _, hcs1, hstack1⟩ := hcase
      rw [hcs] at hsorted hbound
      refine ⟨?_, ?_⟩
      · rw [hcs1]
        simpa using hsorted
      · rw [hcs1, hstack1]
        intro context hmem
        rcases List.mem_append.1 hmem with hin | hin
        · exact hbound context (List.mem_append_left _ hin)
        · simp only [List.mem_singleton] at hin
          rw [hin]
          exact hbound back (by simp)
    · obtain ⟨_, _, hcs1, hstack1⟩ := hcase
      rw [hcs] at hsorted hbound
      refine ⟨?_, ?_⟩
      · rw [hcs1]
        simp only [List.map_append, List.pairwise_append] at hsorted
        exact hsorted.1
      · rw [hcs1, hstack1]
        intro context hmem
        have := hbound context (List.mem_append_left _ hmem)
        simp only [List.length_append]
        omega

theorem floorsOrdered_create {module : Module} {functionDef : FunctionDef}
    {ctx : FunctionValidationContext}
    (h : FunctionValidationContext.create module functionDef = .ok ctx) :
    FloorsOrdered ctx := by
  unfold create at h
  split at h
  · cases h
  · injection h with h
    subst h
    simp [FloorsOrdered, pushControlStack]

theorem floorsOrdered_decodeOp {ctx ctx1 : FunctionValidationContext} {op : Operation}
    (hinv : FloorsOrdered ctx) (h : ctx.decodeOp op = .ok ctx1) : FloorsOrdered ctx1 := by
  obtain ⟨mid, hstep, heffect⟩ := decodeOp_shape h
  exact floorsOrdered_controlEffect (floorsOrdered_operandStep hinv hstep) heffect

/-! ### The branch argument types -/

theorem branchArgumentOK_controlEffect {mid ctx1 : FunctionValidationContext}
    (hinv : ∀ context ∈ mid.controlStack, BranchArgumentOK context)
    (h : ControlEffect mid ctx1) : ∀ context ∈ ctx1.controlStack, BranchArgumentOK context := by
  cases h with
  | unchanged h => subst h; exact hinv
  | unreachable h =>
    obtain ⟨outer, back, hcs, hcs1, _, _⟩ := enterUnreachable_ok h
    rw [hcs] at hinv
    rw [hcs1]
    intro context hmem
    rcases List.mem_append.1 hmem with hin | hin
    · exact hinv context (List.mem_append_left _ hin)
    · simp only [List.mem_singleton] at hin
      subst hin
      exact hinv back (by simp)
  | push type branchArgumentType resultType h hkind hloop hother =>
    subst h
    intro context hmem
    simp only [pushControlStack, List.mem_append, List.mem_singleton] at hmem
    rcases hmem with hin | hin
    · exact hinv context hin
    · subst hin
      refine ⟨fun hl => hloop hl, fun hk => hother ?_⟩
      intro hl
      simp only at hk
      rw [hl] at hk
      simp at hk
  | pop isElse h =>
    obtain ⟨outer, back, hcs, _, _, hcase | hcase⟩ := popControlStack_ok h
    · obtain ⟨_, hthen, hcs1, _⟩ := hcase
      rw [hcs] at hinv
      rw [hcs1]
      intro context hmem
      rcases List.mem_append.1 hmem with hin | hin
      · exact hinv context (List.mem_append_left _ hin)
      · simp only [List.mem_singleton] at hin
        subst hin
        have hback := (hinv back (by simp)).2 (Or.inr (Or.inr (Or.inl hthen)))
        exact ⟨fun hl => by simp at hl, fun _ => hback⟩
    · obtain ⟨_, _, hcs1, _⟩ := hcase
      rw [hcs] at hinv
      rw [hcs1]
      intro context hmem
      exact hinv context (List.mem_append_left _ hmem)

theorem branchArgumentOK_create {module : Module} {functionDef : FunctionDef}
    {ctx : FunctionValidationContext}
    (h : FunctionValidationContext.create module functionDef = .ok ctx) :
    ∀ context ∈ ctx.controlStack, BranchArgumentOK context := by
  unfold create at h
  split at h
  · cases h
  · injection h with h
    subst h
    intro context hmem
    simp only [pushControlStack, List.nil_append, List.mem_singleton] at hmem
    subst hmem
    exact ⟨fun hl => by simp at hl, fun _ => rfl⟩

theorem branchArgumentOK_decodeOp {ctx ctx1 : FunctionValidationContext} {op : Operation}
    (hinv : ∀ context ∈ ctx.controlStack, BranchArgumentOK context)
    (h : ctx.decodeOp op = .ok ctx1) : ∀ context ∈ ctx1.controlStack, BranchArgumentOK context := by
  obtain ⟨mid, hstep, heffect⟩ := decodeOp_shape h
  exact branchArgumentOK_controlEffect (hstep.2.1 ▸ hinv) heffect

/-! ### The bottom of the control stack -/

theorem bottomAtZero_create {module : Module} {functionDef : FunctionDef}
    {ctx : FunctionValidationContext}
    (h : FunctionValidationContext.create module functionDef = .ok ctx) :
    BottomAtZero ctx ∧ ctx.controlStack ≠ [] := by
  unfold create at h
  split at h
  · cases h
  · injection h with h
    subst h
    simp [BottomAtZero, pushControlStack]

theorem bottomAtZero_decodeOp {ctx ctx1 : FunctionValidationContext} {op : Operation}
    (hinv : BottomAtZero ctx) (hne : ctx.controlStack ≠ [])
    (h : ctx.decodeOp op = .ok ctx1) : BottomAtZero ctx1 := by
  obtain ⟨mid, ⟨_, hcsmid, _⟩, heffect⟩ := decodeOp_shape h
  have hhead : ∀ bottom, mid.controlStack.head? = some bottom → bottom.outerStackSize = 0 :=
    hcsmid ▸ hinv.1
  have hnemid : mid.controlStack ≠ [] := hcsmid ▸ hne
  cases heffect with
  | unchanged h => subst h; exact ⟨hhead, fun hnil => absurd hnil hnemid⟩
  | unreachable h =>
    obtain ⟨outer, back, hcs, hcs1, _, _⟩ := enterUnreachable_ok h
    rw [hcs] at hhead
    refine ⟨?_, fun hnil => ?_⟩
    · rw [hcs1]
      intro bottom hbottom
      cases outer with
      | nil =>
        simp only [List.nil_append, List.head?_cons, Option.some.injEq] at hbottom
        subst hbottom
        exact hhead back (by simp)
      | cons first others => exact hhead bottom (by simpa using hbottom)
    · rw [hcs1] at hnil
      simp at hnil
  | push type branchArgumentType resultType h _ _ _ =>
    subst h
    refine ⟨?_, fun hnil => ?_⟩
    · intro bottom hbottom
      apply hhead bottom
      cases hmid : mid.controlStack with
      | nil => exact absurd hmid hnemid
      | cons first others => simpa [pushControlStack, hmid] using hbottom
    · simp [pushControlStack] at hnil
  | pop isElse h =>
    obtain ⟨outer, back, hcs, hlen, _, hcase | hcase⟩ := popControlStack_ok h
    · obtain ⟨_, _, hcs1, _⟩ := hcase
      rw [hcs] at hhead
      refine ⟨?_, fun hnil => ?_⟩
      · rw [hcs1]
        intro bottom hbottom
        cases outer with
        | nil =>
          simp only [List.nil_append, List.head?_cons, Option.some.injEq] at hbottom
          subst hbottom
          exact hhead back (by simp)
        | cons first others => exact hhead bottom (by simpa using hbottom)
      · rw [hcs1] at hnil
        simp at hnil
    · obtain ⟨_, _, hcs1, hstack1⟩ := hcase
      rw [hcs] at hhead
      refine ⟨?_, fun hnil => ?_⟩
      · rw [hcs1]
        intro bottom hbottom
        cases outer with
        | nil => simp at hbottom
        | cons first others => exact hhead bottom (by simpa using hbottom)
      · rw [hcs1] at hnil
        subst hnil
        have hzero : back.outerStackSize = 0 := hhead back (by simp)
        rw [hzero] at hlen
        have hmidnil : mid.stack = [] := List.length_eq_zero.1 (Nat.le_zero.1 hlen)
        rw [hstack1, hmidnil]
        simp

end FunctionValidationContext

/-! ### The walk -/

/-- The loop of `validateCode` consumes a prefix of the code by a `Walk`, and leaves operators
unread only when the control stack became empty. -/
theorem decodeLoop_ok : ∀ (code : List Operation) (ctx : FunctionValidationContext)
    (remaining : List Operation) (ctx1 : FunctionValidationContext),
    decodeLoop code ctx = .ok (remaining, ctx1) →
    ∃ consumed, code = consumed ++ remaining ∧ Walk ctx consumed ctx1 ∧
      (remaining ≠ [] → ctx1.controlStack = [])
  | [], ctx, remaining, ctx1, h => by
    simp only [decodeLoop] at h
    injection h with h
    injection h with h1 h2
    subst h1 h2
    exact ⟨[], rfl, Walk.done ctx, fun hne => absurd rfl hne⟩
  | op :: rest, ctx, remaining, ctx1, h => by
    simp only [decodeLoop] at h
    split at h
    · rename_i hsize
      split at h
      · cases h
      · rename_i ctx2 hop
        obtain ⟨consumed, hcode, hwalk, hrem⟩ := decodeLoop_ok rest ctx2 remaining ctx1 h
        refine ⟨op :: consumed, by simp [hcode], Walk.next ?_ hop hwalk, hrem⟩
        intro hnil
        apply hsize
        simp [FunctionValidationContext.getControlStackSize, hnil]
    · rename_i hsize
      injection h with h
      injection h with h1 h2
      subst h1 h2
      refine ⟨[], rfl, Walk.done ctx, fun _ => ?_⟩
      have : ctx.controlStack.length = 0 := by
        simpa [FunctionValidationContext.getControlStackSize] using hsize
      exact List.length_eq_zero.1 this

/-- A walk is reproduced by the loop of `validateCode`, whatever follows the walked code, as
long as the walk ends before those operators or with an empty control stack. -/
theorem decodeLoop_of_walk {ctx ctx1 : FunctionValidationContext} {code : List Operation}
    (h : Walk ctx code ctx1) (remaining : List Operation)
    (hstop : remaining ≠ [] → ctx1.controlStack = []) :
    decodeLoop (code ++ remaining) ctx = .ok (remaining, ctx1) := by
  induction h with
  | done ctx =>
    cases remaining with
    | nil => simp [decodeLoop]
    | cons op rest =>
      have hnil := hstop (by simp)
      simp [decodeLoop, FunctionValidationContext.getControlStackSize, hnil]
  | @next ctxa ctxb ctxc op rest hne hop _ ih =>
    have hsize : ¬ ctxa.getControlStackSize = 0 := by
      intro hzero
      exact hne (List.length_eq_zero.1 hzero)
    simp only [List.cons_append, decodeLoop, ne_eq, hsize, not_false_eq_true, if_true, hop]
    exact ih hstop

theorem Walk.invariants {ctx ctx1 : FunctionValidationContext} {code : List Operation}
    (h : Walk ctx code ctx1) (hfloors : FloorsOrdered ctx) (hbottom : BottomAtZero ctx) :
    FloorsOrdered ctx1 ∧ BottomAtZero ctx1 := by
  induction h with
  | done ctx => exact ⟨hfloors, hbottom⟩
  | next hne hop _ ih =>
    exact ih (FunctionValidationContext.floorsOrdered_decodeOp hfloors hop)
      (FunctionValidationContext.bottomAtZero_decodeOp hbottom hne hop)

theorem Reachable.floorsOrdered {module : Module} {functionDef : FunctionDef}
    {ctx : FunctionValidationContext} (h : Reachable module functionDef ctx) :
    FloorsOrdered ctx := by
  induction h with
  | initial h => exact FunctionValidationContext.floorsOrdered_create h
  | step op _ h ih => exact FunctionValidationContext.floorsOrdered_decodeOp ih h

theorem Reachable.branchArgumentOK {module : Module} {functionDef : FunctionDef}
    {ctx : FunctionValidationContext} (h : Reachable module functionDef ctx) :
    ∀ context ∈ ctx.controlStack, BranchArgumentOK context := by
  induction h with
  | initial h => exact FunctionValidationContext.branchArgumentOK_create h
  | step op _ h ih => exact FunctionValidationContext.branchArgumentOK_decodeOp ih h

/-- The states a walk passes through are reachable states. -/
theorem Walk.reachable {module : Module} {functionDef : FunctionDef}
    {ctx ctx1 : FunctionValidationContext} {code : List Operation}
    (h : Walk ctx code ctx1) (hreach : Reachable module functionDef ctx) :
    Reachable module functionDef ctx1 := by
  induction h with
  | done ctx => exact hreach
  | next _ hop _ ih => exact ih (Reachable.step _ hreach hop)

/-- Acceptance by the tests of `validateCode` is a complete walk that ends on an empty control
stack. -/
theorem validateFunctionCode_eq_ok {code : List Operation}
    {ctx ctx1 : FunctionValidationContext} :
    validateFunctionCode code ctx = .ok ctx1 ↔ Walk ctx code ctx1 ∧ ctx1.controlStack = [] := by
  constructor
  · intro h
    unfold validateFunctionCode at h
    split at h
    · cases h
    · rename_i remaining ctx2 hloop
      split at h
      · cases h
      · rename_i hrem
        split at h
        · cases h
        · rename_i hsize
          injection h with h
          subst h
          obtain ⟨consumed, hcode, hwalk, _⟩ := decodeLoop_ok code ctx remaining ctx2 hloop
          have hnil : remaining = [] := by simpa using hrem
          subst hnil
          rw [List.append_nil] at hcode
          subst hcode
          refine ⟨hwalk, ?_⟩
          have : ctx2.controlStack.length = 0 := by
            simpa [FunctionValidationContext.getControlStackSize] using hsize
          exact List.length_eq_zero.1 this
  · rintro ⟨hwalk, hnil⟩
    have hloop := decodeLoop_of_walk hwalk [] (fun hne => absurd rfl hne)
    rw [List.append_nil] at hloop
    simp [validateFunctionCode, hloop, FunctionValidationContext.getControlStackSize, hnil]

/-! ## The stack discipline of the walk -/

/-- C1, operand-stack floor invariant: in every state reached for a function (the state right
after construction and the state after each successful operator method), if the innermost
control context is reachable then the operand stack is at least as high as the outer stack
size of that context. The states of the walk of `validateCode` are among these states
(`Walk.reachable`). -/
theorem operand_stack_floor_invariant (module : Module) (functionDef : FunctionDef)
    (ctx : FunctionValidationContext) (back : ControlContext)
    (hreach : Reachable module functionDef ctx)
    (hback : ctx.controlStack.getLast? = some back) (_hlive : back.isReachable = true) :
    back.outerStackSize ≤ ctx.stack.length := by
  obtain ⟨outer, hcs⟩ := List.getLast?_eq_some_iff.1 hback
  exact hreach.floorsOrdered.2 back (by simp [hcs])

theorem operand_stack_floor_invariant_witness :
    Reachable sampleModule (sampleFunctionDef 1 [])
        (sampleContext [sampleFunctionContext] [ValueType.i32]) ∧
      sampleFunctionContext.outerStackSize ≤
        (sampleContext [sampleFunctionContext] [ValueType.i32]).stack.length :=
  have hreach : Reachable sampleModule (sampleFunctionDef 1 [])
      (sampleContext [sampleFunctionContext] [ValueType.i32]) :=
    Reachable.step (Operation.i32_const 7) (Reachable.initial rfl) rfl
  ⟨hreach, operand_stack_floor_invariant sampleModule (sampleFunctionDef 1 [])
    (sampleContext [sampleFunctionContext] [ValueType.i32]) sampleFunctionContext hreach rfl rfl⟩

/-- C2, acceptance implies that both stacks are empty: when the walk of `validateCode` accepts
the code of a function definition, the context after the last operator has an empty operand
stack and an empty control stack. -/
theorem acceptance_empties_both_stacks (module : Module) (functionDef : FunctionDef)
    (ctx : FunctionValidationContext)
    (h : validateFunctionDef module functionDef = .ok ctx) :
    ctx.stack = [] ∧ ctx.controlStack = [] := by
  unfold validateFunctionDef at h
  split at h
  · cases h
  · rename_i ctx0 hcreate
    obtain ⟨hwalk, hnil⟩ := validateFunctionCode_eq_ok.1 h
    have hinv := hwalk.invariants (FunctionValidationContext.floorsOrdered_create hcreate)
      (FunctionValidationContext.bottomAtZero_create hcreate).1
    exact ⟨hinv.2.2 hnil, hnil⟩

theorem acceptance_empties_both_stacks_witness :
    validateFunctionDef sampleModule
        (sampleFunctionDef 0 [Operation.block ResultType.i32, Operation.unreachable,
          Operation.end_, Operation.end_]) =
      .ok { module := sampleModule,
            functionDef := sampleFunctionDef 0 [Operation.block ResultType.i32,
              Operation.unreachable, Operation.end_, Operation.end_],
            functionType := { ret := ResultType.i32, parameters := [] },
            locals := [], controlStack := [], stack := [] } ∧
      ([] : List ValueType) = [] ∧ ([] : List ControlContext) = [] :=
  ⟨rfl, acceptance_empties_both_stacks sampleModule
    (sampleFunctionDef 0 [Operation.block ResultType.i32, Operation.unreachable,
      Operation.end_, Operation.end_])
    { module := sampleModule,
      functionDef := sampleFunctionDef 0 [Operation.block ResultType.i32,
        Operation.unreachable, Operation.end_, Operation.end_],
      functionType := { ret := ResultType.i32, parameters := [] },
      locals := [], controlStack := [], stack := [] } rfl⟩

/-- C3, function-end boundary: the tests of `validateCode` accept a body exactly when the
methods of its operators, run in order, all succeed with a non-empty control stack before each
operator, and the control stack is empty after the last one. In particular a function with an
empty body is rejected, a body that goes on after the control stack became empty is rejected
("function end reached before end of code"), and a body that ends with a non-empty control
stack is rejected ("end of code reached before end of function"). -/
theorem function_end_boundary :
    (∀ (code : List Operation) (ctx ctx1 : FunctionValidationContext),
      validateFunctionCode code ctx = .ok ctx1 ↔ Walk ctx code ctx1 ∧ ctx1.controlStack = []) ∧
    (∀ (module : Module) (functionDef : FunctionDef) (ctx : FunctionValidationContext),
      functionDef.code = [] → FunctionValidationContext.create module functionDef = .ok ctx →
      validateFunctionDef module functionDef =
        .error (.exception "end of code reached before end of function")) ∧
    (∀ (consumed : List Operation) (op : Operation) (rest : List Operation)
        (ctx ctx1 : FunctionValidationContext),
      Walk ctx consumed ctx1 → ctx1.controlStack = [] →
      validateFunctionCode (consumed ++ op :: rest) ctx =
        .error (.exception "function end reached before end of code")) ∧
    (∀ (code : List Operation) (ctx ctx1 : FunctionValidationContext),
      Walk ctx code ctx1 → ctx1.controlStack ≠ [] →
      validateFunctionCode code ctx =
        .error (.exception "end of code reached before end of function")) := by
  refine ⟨fun code ctx ctx1 => validateFunctionCode_eq_ok, ?_, ?_, ?_⟩
  · intro module functionDef ctx hcode hcreate
    have hne := (FunctionValidationContext.bottomAtZero_create hcreate).2
    have hsize : ¬ ctx.controlStack.length = 0 := fun hzero =>
      hne (List.length_eq_zero.1 hzero)
    simp [validateFunctionDef, hcreate, hcode, validateFunctionCode, decodeLoop,
      FunctionValidationContext.getControlStackSize, hsize]
  · intro consumed op rest ctx ctx1 hwalk hnil
    have hloop := decodeLoop_of_walk hwalk (op :: rest) (fun _ => hnil)
    simp [validateFunctionCode, hloop]
  · intro code ctx ctx1 hwalk hne
    have hloop := decodeLoop_of_walk hwalk [] (fun h => absurd rfl h)
    rw [List.append_nil] at hloop
    have hsize : ¬ ctx1.controlStack.length = 0 := fun hzero =>
      hne (List.length_eq_zero.1 hzero)
    simp [validateFunctionCode, hloop, FunctionValidationContext.getControlStackSize, hsize]

/-! ## Operand pops and the relaxed type match -/

/-- C4, contract of `popOperand`: in a state whose innermost control context is `back`, if the
operand stack is higher than the outer stack size of `back` then exactly the top entry is
removed and returned; otherwise, if `back` is reachable the pop fails with "invalid stack
access", and if it is unreachable the pop returns `any` and leaves the operand stack as it is.
A successful pop never changes the control stack. -/
theorem popOperand_contract (ctx : FunctionValidationContext) (back : ControlContext)
    (hback : ctx.controlStack.getLast? = some back) :
    (back.outerStackSize < ctx.stack.length →
      ∃ below top, ctx.stack = below ++ [top] ∧
        ctx.popOperand = .ok (top, { ctx with stack := below })) ∧
    (ctx.stack.length ≤ back.outerStackSize → back.isReachable = true →
      ctx.popOperand = .error (.exception "invalid stack access")) ∧
    (ctx.stack.length ≤ back.outerStackSize → back.isReachable = false →
      ctx.popOperand = .ok (ValueType.any, ctx)) ∧
    (∀ result ctx1, ctx.popOperand = .ok (result, ctx1) →
      ctx1.controlStack = ctx.controlStack) := by
  have hb := FunctionValidationContext.controlStackBack_of_getLast hback
  refine ⟨?_, ?_, ?_, ?_⟩
  · intro hlt
    rcases List.eq_nil_or_concat ctx.stack with hnil | ⟨below, top, hconcat⟩
    · rw [hnil] at hlt
      exact absurd hlt (Nat.not_lt_zero _)
    · rw [List.concat_eq_append] at hconcat
      refine ⟨below, top, hconcat, ?_⟩
      have hlast : ctx.stack.getLast? = some top := by simp [hconcat]
      have hdrop : ctx.stack.dropLast = below := by simp [hconcat]
      simp only [FunctionValidationContext.popOperand, hb, gt_iff_lt, hlt, if_true, hlast,
        hdrop]
  · intro hle hlive
    simp [FunctionValidationContext.popOperand, hb, Nat.not_lt.2 hle, hlive]
  · intro hle hdead
    simp [FunctionValidationContext.popOperand, hb, Nat.not_lt.2 hle, hdead]
  · intro result ctx1 hpop
    exact (FunctionValidationContext.operandStep_popOperand hpop).2.1

theorem popOperand_contract_witness :
    (sampleContext [sampleFunctionContext] [ValueType.i32]).popOperand =
        .ok (ValueType.i32, sampleContext [sampleFunctionContext] []) ∧
      (sampleContext [sampleFunctionContext] []).popOperand =
        .error (.exception "invalid stack access") :=
  ⟨rfl, (popOperand_contract (sampleContext [sampleFunctionContext] [])
    sampleFunctionContext rfl).2.1 (Nat.le_refl 0) rfl⟩

/-- C5, relaxed type match: `validateOperandType` succeeds exactly when the expected and the
actual type are equal or one of them is `any`; the relation is reflexive and symmetric; and
`popAndValidateOperand` fails exactly when `popOperand` fails or the popped type does not match
the expected type under this rule. -/
theorem relaxed_type_match :
    (∀ (expectedType actualType : ValueType) (context : String),
      validateOperandType expectedType actualType context = .ok () ↔
        (expectedType = actualType ∨ expectedType = ValueType.any ∨
          actualType = ValueType.any)) ∧
    (∀ (type : ValueType) (context : String), validateOperandType type type context = .ok ()) ∧
    (∀ (expectedType actualType : ValueType) (context : String),
      validateOperandType expectedType actualType context = .ok () ↔
        validateOperandType actualType expectedType context = .ok ()) ∧
    (∀ (ctx : FunctionValidationContext) (context : String) (expectedType : ValueType),
      (∃ e, ctx.popAndValidateOperand context expectedType = .error e) ↔
        ((∃ e, ctx.popOperand = .error e) ∨
          ∃ actualType ctx1, ctx.popOperand = .ok (actualType, ctx1) ∧
            ¬ (expectedType = actualType ∨ expectedType = ValueType.any ∨
              actualType = ValueType.any))) := by
  refine ⟨fun e a c => FunctionValidationContext.validateOperandType_eq_ok, ?_, ?_, ?_⟩
  · intro type context
    exact FunctionValidationContext.validateOperandType_eq_ok.2 (Or.inl rfl)
  · intro e a c
    rw [FunctionValidationContext.validateOperandType_eq_ok,
      FunctionValidationContext.validateOperandType_eq_ok]
    unfold Matches
    constructor <;> rintro (h | h | h)
    · exact Or.inl h.symm
    · exact Or.inr (Or.inr h)
    · exact Or.inr (Or.inl h)
    · exact Or.inl h.symm
    · exact Or.inr (Or.inr h)
    · exact Or.inr (Or.inl h)
  · intro ctx context expectedType
    unfold FunctionValidationContext.popAndValidateOperand
    cases hpop : ctx.popOperand with
    | error e => simp
    | ok popped =>
      obtain ⟨actualType, ctx1⟩ := popped
      simp only [reduceCtorEq, exists_false, Except.ok.injEq, Prod.mk.injEq, false_or]
      cases hval : validateOperandType expectedType actualType context with
      | error e =>
        have hno : ¬ Matches expectedType actualType := fun hm => by
          rw [FunctionValidationContext.validateOperandType_eq_ok.2 hm] at hval
          cases hval
        simp only [Except.error.injEq, exists_eq', true_iff]
        exact ⟨actualType, ctx1, ⟨rfl, rfl⟩, hno⟩
      | ok u =>
        have hm : Matches expectedType actualType :=
          FunctionValidationContext.validateOperandType_eq_ok.1 hval
        simp only [reduceCtorEq, exists_false, false_iff, not_exists, not_and, not_not]
        rintro a c ⟨rfl, rfl⟩
        exact hm

/-! ## `end` and `else` -/

/-- With an innermost control context, a failing `popOperand` is a thrown exception. -/
theorem popOperand_ne_undefined {ctx : FunctionValidationContext} {back : ControlContext}
    (hback : ctx.controlStack.getLast? = some back) :
    ctx.popOperand ≠ .error Failure.undefinedBehaviour := by
  have hb := FunctionValidationContext.controlStackBack_of_getLast hback
  unfold FunctionValidationContext.popOperand
  rw [hb]
  simp only
  split
  · rename_i hlt
    split
    · simp
    · rename_i hnone
      have hnil : ctx.stack = [] := List.getLast?_eq_none_iff.1 hnone
      rw [hnil] at hlt
      exact absurd hlt (Nat.not_lt_zero _)
  · split <;> simp

/-- With an innermost control context, a failing `popAndValidateResultType` is a thrown
exception. -/
theorem popAndValidateResultType_ne_undefined {ctx : FunctionValidationContext}
    {back : ControlContext} (hback : ctx.controlStack.getLast? = some back)
    (context : String) (expectedType : ResultType) :
    ctx.popAndValidateResultType context expectedType ≠ .error Failure.undefinedBehaviour := by
  unfold FunctionValidationContext.popAndValidateResultType
  split
  · unfold FunctionValidationContext.popAndValidateOperand
    have hpop := popOperand_ne_undefined hback
    split
    · rename_i e he
      intro heq
      injection heq with heq
      subst heq
      exact hpop he
    · split
      · rename_i e he
        unfold validateOperandType at he
        split at he
        · injection he with he
          subst he
          simp
        · cases he
      · simp
  · simp

/-- With an innermost control context, a failing `popControlStack` is a thrown exception. -/
theorem popControlStack_ne_undefined {ctx : FunctionValidationContext} {back : ControlContext}
    (hback : ctx.controlStack.getLast? = some back) (isElse : Bool) :
    ctx.popControlStack isElse ≠ .error Failure.undefinedBehaviour := by
  have hb := FunctionValidationContext.controlStackBack_of_getLast hback
  unfold FunctionValidationContext.popControlStack
  rw [hb]
  simp only
  repeat' split
  all_goals simp

/-- With an innermost control context, `end` and `else` fail only by throwing an exception. -/
theorem end_else_ne_undefined {ctx : FunctionValidationContext} {back : ControlContext}
    (hback : ctx.controlStack.getLast? = some back) :
    ctx.end_ ≠ .error Failure.undefinedBehaviour ∧
      ctx.else_ ≠ .error Failure.undefinedBehaviour := by
  have hb := FunctionValidationContext.controlStackBack_of_getLast hback
  unfold FunctionValidationContext.end_ FunctionValidationContext.else_
  rw [hb]
  simp only
  constructor
  · cases hpop : ctx.popAndValidateResultType "end result" back.resultType with
    | error e =>
      intro heq
      injection heq with heq
      subst heq
      exact popAndValidateResultType_ne_undefined hback _ _ hpop
    | ok ctx2 =>
      have hback2 : ctx2.controlStack.getLast? = some back := by
        rw [(FunctionValidationContext.operandStep_popAndValidateResultType hpop).2.1]
        exact hback
      exact popControlStack_ne_undefined hback2 false
  · cases hpop : ctx.popAndValidateResultType "if result" back.resultType with
    | error e =>
      intro heq
      injection heq with heq
      subst heq
      exact popAndValidateResultType_ne_undefined hback _ _ hpop
    | ok ctx2 =>
      have hback2 : ctx2.controlStack.getLast? = some back := by
        rw [(FunctionValidationContext.operandStep_popAndValidateResultType hpop).2.1]
        exact hback
      exact popControlStack_ne_undefined hback2 true

/-- A successful `popAndValidateResultType` keeps the control stack, and either keeps the operand
stack or removes its top entry, which then lay above the innermost floor. -/
theorem popAndValidateResultType_ok {ctx ctx1 : FunctionValidationContext} {context : String}
    {expectedType : ResultType}
    (h : ctx.popAndValidateResultType context expectedType = .ok ctx1) :
    ctx1.controlStack = ctx.controlStack ∧
      (ctx1.stack = ctx.stack ∨
        ∃ back top, ctx.controlStack.getLast? = some back ∧
          back.outerStackSize < ctx.stack.length ∧ ctx.stack = ctx1.stack ++ [top]) := by
  refine ⟨(FunctionValidationContext.operandStep_popAndValidateResultType h).2.1, ?_⟩
  unfold FunctionValidationContext.popAndValidateResultType at h
  split at h
  · obtain ⟨actualType, hpop, _⟩ := FunctionValidationContext.popAndValidateOperand_ok h
    obtain ⟨back, hback, hcase | hcase⟩ := FunctionValidationContext.popOperand_ok hpop
    · obtain ⟨hlt, hstack, rfl⟩ := hcase
      exact Or.inr ⟨back, actualType, hback, hlt, hstack⟩
    · obtain ⟨_, _, _, rfl⟩ := hcase
      exact Or.inl rfl
  · injection h with h
    subst h
    exact Or.inl rfl

/-- When the stack left by `popAndValidateResultType` is not above the innermost floor, it is the
old stack cut at that floor. -/
theorem stack_at_floor_after_pop {ctx ctx1 : FunctionValidationContext} {context : String}
    {expectedType : ResultType} {back : ControlContext}
    (h : ctx.popAndValidateResultType context expectedType = .ok ctx1)
    (hback : ctx.controlStack.getLast? = some back)
    (hfloor : ctx1.stack.length ≤ back.outerStackSize) :
    ctx1.stack = ctx.stack.take back.outerStackSize := by
  obtain ⟨_, hsame | ⟨back1, top, hback1, hlt, hstack⟩⟩ := popAndValidateResultType_ok h
  · rw [hsame] at hfloor ⊢
    exact (List.take_of_length_le hfloor).symm
  · rw [hback] at hback1
    have hb : back1 = back := (Option.some.inj hback1).symm
    subst hb
    rw [hstack, List.length_append, List.length_singleton] at hlt
    have hlen : back1.outerStackSize = ctx1.stack.length := by omega
    rw [hstack, hlen, List.take_left']
    rfl

/-- C6, `end` materialises the declared result: when `end` succeeds on a state with at least
two control contexts, the innermost context `back` is removed and all other contexts are kept,
and the operand stack becomes the first `back.outerStackSize` entries of the old stack followed
by the value type of `back.resultType` when that is not `none`. The pushed entry is the value
type of the declared result, never `any`, whatever operand was popped for the result. -/
theorem end_materialises_result (ctx ctx1 : FunctionValidationContext)
    (outer : List ControlContext) (enclosing back : ControlContext)
    (hcs : ctx.controlStack = outer ++ [enclosing, back]) (h : ctx.end_ = .ok ctx1) :
    ctx1.controlStack = outer ++ [enclosing] ∧
    ctx1.stack = ctx.stack.take back.outerStackSize ++
      (if back.resultType = ResultType.none then [] else [asValueType back.resultType]) ∧
    (back.resultType ≠ ResultType.none → asValueType back.resultType ≠ ValueType.any) := by
  have hlast : ctx.controlStack.getLast? = some back := by
    rw [hcs, show outer ++ [enclosing, back] = (outer ++ [enclosing]) ++ [back] by simp]
    exact List.getLast?_concat _
  have hb := FunctionValidationContext.controlStackBack_of_getLast hlast
  unfold FunctionValidationContext.end_ at h
  rw [hb] at h
  simp only at h
  split at h
  · cases h
  · rename_i ctx2 hpop
    obtain ⟨outer1, back1, hcs2, hlen, _, hcase | hcase⟩ :=
      FunctionValidationContext.popControlStack_ok h
    · obtain ⟨helse, _⟩ := hcase
      cases helse
    · obtain ⟨_, _, hcs1, hstack1⟩ := hcase
      have hsame := (popAndValidateResultType_ok hpop).1
      rw [hcs2, hcs, show outer ++ [enclosing, back] = (outer ++ [enclosing]) ++ [back] by simp]
        at hsame
      obtain ⟨houter, hbackeq⟩ := List.append_inj' hsame rfl
      have hbk : back1 = back := by simpa using hbackeq
      subst hbk
      subst houter
      refine ⟨hcs1, ?_, ?_⟩
      · rw [hstack1, stack_at_floor_after_pop hpop hlast hlen]
        simp
      · intro hne
        cases hrt : back1.resultType <;> simp_all [asValueType]

theorem end_materialises_result_witness :
    (sampleContext [sampleFunctionContext,
        sampleInnerContext ControlContextType.block 0 ResultType.i32 false] []).end_ =
      .ok (sampleContext [sampleFunctionContext] [ValueType.i32]) ∧
    (sampleContext [sampleFunctionContext] [ValueType.i32]).stack =
      ([] : List ValueType).take 0 ++ [ValueType.i32] :=
  ⟨rfl, (end_materialises_result
    (sampleContext [sampleFunctionContext,
      sampleInnerContext ControlContextType.block 0 ResultType.i32 false] [])
    (sampleContext [sampleFunctionContext] [ValueType.i32]) [] sampleFunctionContext
    (sampleInnerContext ControlContextType.block 0 ResultType.i32 false) rfl rfl).2.1⟩

/-- C7, an else-less `if` may not yield a result: on a state whose innermost context is an
`ifThen` with a result type other than `none`, `end` fails whatever the operand stack holds; on
a state whose innermost context is a reachable `ifThen` with result type `none` and whose
operand stack is exactly as high as the floor of that context, `end` succeeds. The failure is
a thrown exception, not an unchecked access. -/
theorem elseless_if_yields_no_result (ctx : FunctionValidationContext) (back : ControlContext)
    (hback : ctx.controlStack.getLast? = some back)
    (hthen : back.type = ControlContextType.ifThen) :
    (back.resultType ≠ ResultType.none →
      ∃ e, ctx.end_ = .error e ∧ e ≠ Failure.undefinedBehaviour) ∧
    (back.resultType = ResultType.none → back.isReachable = true →
      ctx.stack.length = back.outerStackSize → ∃ ctx1, ctx.end_ = .ok ctx1) := by
  have hb := FunctionValidationContext.controlStackBack_of_getLast hback
  constructor
  · intro hne
    cases hend : ctx.end_ with
    | error e =>
      exact ⟨e, rfl, fun he => (end_else_ne_undefined hback).1 (he ▸ hend)⟩
    | ok ctx1 =>
      exfalso
      unfold FunctionValidationContext.end_ at hend
      rw [hb] at hend
      simp only at hend
      split at hend
      · cases hend
      · rename_i ctx2 hpop
        obtain ⟨outer1, back1, hcs2, _, _, hcase | hcase⟩ :=
          FunctionValidationContext.popControlStack_ok hend
        · obtain ⟨helse, _⟩ := hcase
          cases helse
        · obtain ⟨_, hnot, _, _⟩ := hcase
          have hlast2 : ctx2.controlStack.getLast? = some back := by
            rw [(popAndValidateResultType_ok hpop).1]
            exact hback
          rw [hcs2, List.getLast?_concat] at hlast2
          have hbk : back1 = back := Option.some.inj hlast2
          subst hbk
          exact hnot ⟨hthen, hne⟩
  · intro hnone _ hlen
    unfold FunctionValidationContext.end_
    rw [hb]
    simp only [FunctionValidationContext.popAndValidateResultType, hnone, ne_eq,
      not_true_eq_false, if_false]
    unfold FunctionValidationContext.popControlStack
    rw [hb]
    have hfloor : ¬ ctx.stack.length > back.outerStackSize := by omega
    simp only [hfloor, if_false, Bool.false_eq_true, false_and, hnone, ne_eq,
      not_true_eq_false, and_false]
    split <;> exact ⟨_, rfl⟩

theorem elseless_if_yields_no_result_witness :
    (∃ e, (sampleContext [sampleFunctionContext,
        sampleInnerContext ControlContextType.ifThen 0 ResultType.i32 true]
        [ValueType.i32]).end_ = .error e ∧ e ≠ Failure.undefinedBehaviour) ∧
    (∃ ctx1, (sampleContext [sampleFunctionContext,
        sampleInnerContext ControlContextType.ifThen 0 ResultType.none true] []).end_ =
      .ok ctx1) :=
  ⟨(elseless_if_yields_no_result
      (sampleContext [sampleFunctionContext,
        sampleInnerContext ControlContextType.ifThen 0 ResultType.i32 true] [ValueType.i32])
      (sampleInnerContext ControlContextType.ifThen 0 ResultType.i32 true) rfl rfl).1
      (by decide),
    (elseless_if_yields_no_result
      (sampleContext [sampleFunctionContext,
        sampleInnerContext ControlContextType.ifThen 0 ResultType.none true] [])
      (sampleInnerContext ControlContextType.ifThen 0 ResultType.none true) rfl rfl).2
      rfl rfl rfl⟩

/-- C8 as stated fails: after `i32.const 0; if; i32.const 1` in a function `() -> ()` the
innermost context is an `ifThen` without result on floor `0`, popping and checking its result
type succeeds (nothing is popped), and yet `else` is rejected because the operand stack is
above the floor: the stack is not truncated. -/
theorem else_truncates_counterexample :
    Reachable sampleModule (sampleFunctionDef 1 [])
      (sampleContext [sampleFunctionContext,
        sampleInnerContext ControlContextType.ifThen 0 ResultType.none true]
        [ValueType.i32]) ∧
    (sampleContext [sampleFunctionContext,
        sampleInnerContext ControlContextType.ifThen 0 ResultType.none true]
        [ValueType.i32]).popAndValidateResultType "if result" ResultType.none =
      .ok (sampleContext [sampleFunctionContext,
        sampleInnerContext ControlContextType.ifThen 0 ResultType.none true]
        [ValueType.i32]) ∧
    (sampleContext [sampleFunctionContext,
        sampleInnerContext ControlContextType.ifThen 0 ResultType.none true]
        [ValueType.i32]).else_ =
      .error (.validateUnless "stack was not empty at end of control structure: "
        "stack.size() > controlStack.back().outerStackSize") :=
  ⟨Reachable.step (Operation.i32_const 1)
      (Reachable.step (Operation.if_ ResultType.none)
        (Reachable.step (Operation.i32_const 0) (Reachable.initial rfl) rfl) rfl) rfl,
    rfl, rfl⟩

/-- C8 amended, `else` checks the floor and flips: on a state whose innermost context `back` is
an `ifThen`, and on which popping and checking `back.resultType` succeeds and leaves the stack
of `ctx1`, `else` succeeds if that stack is not higher than `back.outerStackSize` and fails
with "stack was not empty at end of control structure" if it is higher. On success the operand
stack is the old stack cut to its first `back.outerStackSize` entries, the innermost context
has kind `ifElse` and is reachable with its other fields unchanged, and every other control
context is unchanged. -/
theorem else_flips_at_floor (ctx ctx1 : FunctionValidationContext)
    (outer : List ControlContext) (back : ControlContext)
    (hcs : ctx.controlStack = outer ++ [back])
    (hthen : back.type = ControlContextType.ifThen)
    (hpop : ctx.popAndValidateResultType "if result" back.resultType = .ok ctx1) :
    (ctx1.stack.length ≤ back.outerStackSize →
      ∃ ctx2, ctx.else_ = .ok ctx2 ∧ ctx2.stack = ctx.stack.take back.outerStackSize ∧
        ctx2.controlStack =
          outer ++ [{ back with type := ControlContextType.ifElse, isReachable := true }]) ∧
    (back.outerStackSize < ctx1.stack.length →
      ctx.else_ = .error (.validateUnless "stack was not empty at end of control structure: "
        "stack.size() > controlStack.back().outerStackSize")) := by
  have hlast : ctx.controlStack.getLast? = some back := by
    rw [hcs]
    exact List.getLast?_concat _
  have hb := FunctionValidationContext.controlStackBack_of_getLast hlast
  have hcs1 : ctx1.controlStack = outer ++ [back] := by
    rw [(popAndValidateResultType_ok hpop).1, hcs]
  have hb1 : ctx1.controlStackBack = .ok back :=
    FunctionValidationContext.controlStackBack_of_getLast (by
      rw [hcs1]
      exact List.getLast?_concat _)
  constructor
  · intro hfloor
    have hnot : ¬ ctx1.stack.length > back.outerStackSize := by omega
    refine ⟨ctx1.setControlStackBack
      { back with type := ControlContextType.ifElse, isReachable := true }, ?_, ?_, ?_⟩
    · unfold FunctionValidationContext.else_
      rw [hb]
      simp only [hpop]
      unfold FunctionValidationContext.popControlStack
      rw [hb1]
      simp only [hnot, if_false, hthen, and_self, if_true]
    · exact (stack_at_floor_after_pop hpop hlast hfloor :
        ctx1.stack = ctx.stack.take back.outerStackSize)
    · simp [FunctionValidationContext.setControlStackBack, hcs1]
  · intro habove
    unfold FunctionValidationContext.else_
    rw [hb]
    simp only [hpop]
    unfold FunctionValidationContext.popControlStack
    rw [hb1]
    simp only [gt_iff_lt, habove, if_true]

theorem else_flips_at_floor_witness :
    ∃ ctx2, (sampleContext [sampleFunctionContext,
        sampleInnerContext ControlContextType.ifThen 0 ResultType.i32 true]
        [ValueType.i32]).else_ = .ok ctx2 ∧
      ctx2.stack = [ValueType.i32].take 0 ∧
      ctx2.controlStack = [sampleFunctionContext,
        sampleInnerContext ControlContextType.ifElse 0 ResultType.i32 true] :=
  (else_flips_at_floor
    (sampleContext [sampleFunctionContext,
      sampleInnerContext ControlContextType.ifThen 0 ResultType.i32 true] [ValueType.i32])
    (sampleContext [sampleFunctionContext,
      sampleInnerContext ControlContextType.ifThen 0 ResultType.i32 true] [])
    [sampleFunctionContext]
    (sampleInnerContext ControlContextType.ifThen 0 ResultType.i32 true) rfl rfl rfl).1
    (Nat.le_refl 0)

/-- C9, `else` is only allowed in an `ifThen` context: on a state whose innermost context has
kind `function`, `block`, `loop` or `ifElse` (the last being the case of a second `else` of the
same `if`), the method `else_` fails, by a thrown exception. -/
theorem else_only_in_if_then (ctx : FunctionValidationContext) (back : ControlContext)
    (hback : ctx.controlStack.getLast? = some back)
    (hkind : back.type = ControlContextType.function ∨ back.type = ControlContextType.block ∨
      back.type = ControlContextType.loop ∨ back.type = ControlContextType.ifElse) :
    ∃ e, ctx.else_ = .error e ∧ e ≠ Failure.undefinedBehaviour := by
  have hb := FunctionValidationContext.controlStackBack_of_getLast hback
  cases helse : ctx.else_ with
  | error e =>
    exact ⟨e, rfl, fun he => (end_else_ne_undefined hback).2 (he ▸ helse)⟩
  | ok ctx1 =>
    exfalso
    unfold FunctionValidationContext.else_ at helse
    rw [hb] at helse
    simp only at helse
    split at helse
    · cases helse
    · rename_i ctx2 hpop
      obtain ⟨outer1, back1, hcs2, _, _, hcase | hcase⟩ :=
        FunctionValidationContext.popControlStack_ok helse
      · obtain ⟨_, hthen, _, _⟩ := hcase
        have hlast2 : ctx2.controlStack.getLast? = some back := by
          rw [(popAndValidateResultType_ok hpop).1]
          exact hback
        rw [hcs2, List.getLast?_concat] at hlast2
        have hbk : back1 = back := Option.some.inj hlast2
        subst hbk
        rw [hthen] at hkind
        simp at hkind
      · obtain ⟨hfalse, _⟩ := hcase
        cases hfalse

theorem else_only_in_if_then_witness :
    ∃ e, (sampleContext [sampleFunctionContext,
      sampleInnerContext ControlContextType.ifElse 0 ResultType.none true] []).else_ =
        .error e ∧ e ≠ Failure.undefinedBehaviour :=
  else_only_in_if_then
    (sampleContext [sampleFunctionContext,
      sampleInnerContext ControlContextType.ifElse 0 ResultType.none true] [])
    (sampleInnerContext ControlContextType.ifElse 0 ResultType.none true) rfl
    (Or.inr (Or.inr (Or.inr rfl)))

/-! ## Branch argument types -/

/-- C10, branch-argument-type invariant: in every state reachable from the initial state by
successful operator methods, a control context of kind `loop` has branch argument type `none`,
and a control context of kind `function`, `block`, `ifThen` or `ifElse` has a branch argument
type equal to its own result type. -/
theorem branch_argument_type_invariant (module : Module) (functionDef : FunctionDef)
    (ctx : FunctionValidationContext) (context : ControlContext)
    (hreach : Reachable module functionDef ctx) (hmem : context ∈ ctx.controlStack) :
    (context.type = ControlContextType.loop →
      context.branchArgumentType = ResultType.none) ∧
    (context.type = ControlContextType.function ∨ context.type = ControlContextType.block ∨
        context.type = ControlContextType.ifThen ∨ context.type = ControlContextType.ifElse →
      context.branchArgumentType = context.resultType) :=
  hreach.branchArgumentOK context hmem

theorem branch_argument_type_invariant_witness :
    Reachable sampleModule (sampleFunctionDef 1 [])
      (sampleContext [sampleFunctionContext,
        { type := ControlContextType.loop, outerStackSize := 0,
          branchArgumentType := ResultType.none, resultType := ResultType.i32,
          isReachable := true }] []) ∧
    ResultType.none = ResultType.none :=
  have hreach : Reachable sampleModule (sampleFunctionDef 1 [])
      (sampleContext [sampleFunctionContext,
        { type := ControlContextType.loop, outerStackSize := 0,
          branchArgumentType := ResultType.none, resultType := ResultType.i32,
          isReachable := true }] []) :=
    Reachable.step (Operation.loop ResultType.i32) (Reachable.initial rfl) rfl
  ⟨hreach, (branch_argument_type_invariant sampleModule (sampleFunctionDef 1 [])
    (sampleContext [sampleFunctionContext,
      { type := ControlContextType.loop, outerStackSize := 0,
        branchArgumentType := ResultType.none, resultType := ResultType.i32,
        isReachable := true }] [])
    { type := ControlContextType.loop, outerStackSize := 0,
      branchArgumentType := ResultType.none, resultType := ResultType.i32,
      isReachable := true } hreach (by simp [sampleContext])).1 rfl⟩

/-! ## Branches -/

theorem getBranchTargetByDepth_of_lt {ctx : FunctionValidationContext} {depth : Nat}
    (h : depth < ctx.controlStack.length) :
    ∃ target, ctx.controlStack[ctx.controlStack.length - depth - 1]? = some target ∧
      ctx.getBranchTargetByDepth depth = .ok target := by
  have hidx : ctx.controlStack.length - depth - 1 < ctx.controlStack.length := by omega
  refine ⟨ctx.controlStack[ctx.controlStack.length - depth - 1], List.getElem?_eq_getElem hidx,
    ?_⟩
  have hnot : ¬ depth ≥ ctx.controlStack.length := by omega
  simp [FunctionValidationContext.getBranchTargetByDepth,
    FunctionValidationContext.validateBranchDepth, VALIDATE_INDEX, hnot,
    List.getElem?_eq_getElem hidx]

theorem getBranchTargetByDepth_of_ge {ctx : FunctionValidationContext} {depth : Nat}
    (h : ctx.controlStack.length ≤ depth) :
    ctx.getBranchTargetByDepth depth =
      .error (.validateUnless "invalid index: " "depth>=controlStack.size()") := by
  have hge : depth ≥ ctx.controlStack.length := h
  simp only [FunctionValidationContext.getBranchTargetByDepth,
    FunctionValidationContext.validateBranchDepth, VALIDATE_INDEX, hge, if_true]
  rfl

theorem length_resizeStack (stack : List ValueType) (size : Nat) :
    (FunctionValidationContext.resizeStack stack size).length = size := by
  simp only [FunctionValidationContext.resizeStack, List.length_append, List.length_take,
    List.length_replicate]
  omega

theorem resizeStack_of_le {stack : List ValueType} {size : Nat} (h : size ≤ stack.length) :
    FunctionValidationContext.resizeStack stack size = stack.take size := by
  simp [FunctionValidationContext.resizeStack, Nat.sub_eq_zero_of_le h]

theorem enterUnreachable_of_back {ctx : FunctionValidationContext}
    {outer : List ControlContext} {back : ControlContext}
    (hcs : ctx.controlStack = outer ++ [back]) :
    ∃ ctx1, ctx.enterUnreachable = .ok ctx1 ∧
      ctx1.controlStack = outer ++ [{ back with isReachable := false }] ∧
      ctx1.stack = FunctionValidationContext.resizeStack ctx.stack back.outerStackSize := by
  have hb : ctx.controlStackBack = .ok back :=
    FunctionValidationContext.controlStackBack_of_getLast (by
      rw [hcs]
      exact List.getLast?_concat _)
  refine ⟨FunctionValidationContext.setControlStackBack
      { ctx with stack := FunctionValidationContext.resizeStack ctx.stack back.outerStackSize }
      { back with isReachable := false }, ?_, ?_, rfl⟩
  · simp only [FunctionValidationContext.enterUnreachable, hb]
  · simp [FunctionValidationContext.setControlStackBack, hcs]

/-- The state after a method that pops operands and then enters the unreachable state: the
innermost context is marked unreachable, the stack has the height of its floor, and it is the
old stack cut at the floor when the old stack reached the floor. -/
theorem enterUnreachable_after_pops {ctx mid ctx1 : FunctionValidationContext}
    {outer : List ControlContext} {back : ControlContext}
    (hcs : ctx.controlStack = outer ++ [back]) (hstep : OperandStep ctx mid)
    (h : mid.enterUnreachable = .ok ctx1) :
    ctx1.controlStack = outer ++ [{ back with isReachable := false }] ∧
      ctx1.stack.length = back.outerStackSize ∧
      (back.outerStackSize ≤ ctx.stack.length →
        ctx1.stack = ctx.stack.take back.outerStackSize) := by
  have hmid : mid.controlStack = outer ++ [back] := by rw [hstep.2.1, hcs]
  obtain ⟨ctx2, hok, hcs2, hstack2⟩ := enterUnreachable_of_back hmid
  rw [hok] at h
  injection h with h
  subst h
  refine ⟨hcs2, by rw [hstack2, length_resizeStack], fun hfloor => ?_⟩
  have hlast : ctx.controlStack.getLast? = some back := by
    rw [hcs]
    exact List.getLast?_concat _
  obtain ⟨hle, htake⟩ := hstep.2.2 back hlast hfloor
  rw [hstack2, resizeStack_of_le hle, htake]

/-- C11, `br d`: on a state with a control stack of length `len`, `br d` fails when `d >= len`;
when `d < len` the target is `controlStack[len - d - 1]` and `br d` succeeds exactly when
popping and checking the branch argument type of the target succeeds. On success the innermost
context `back` is marked unreachable, nothing else in the control stack changes, the operand
stack has the height `back.outerStackSize`, and it is the old stack truncated to that height
whenever the old stack reached the floor of `back` (which it does in every reachable state,
`Reachable.floorsOrdered`). -/
theorem br_contract (ctx : FunctionValidationContext) (d : Nat) :
    (ctx.controlStack.length ≤ d →
      ctx.br d = .error (.validateUnless "invalid index: " "depth>=controlStack.size()")) ∧
    (d < ctx.controlStack.length →
      ∃ target, ctx.controlStack[ctx.controlStack.length - d - 1]? = some target ∧
        ((∃ ctx1, ctx.br d = .ok ctx1) ↔
          ∃ ctx2, ctx.popAndValidateResultType "br argument" target.branchArgumentType =
            .ok ctx2) ∧
        ∀ ctx1, ctx.br d = .ok ctx1 → ∀ outer back, ctx.controlStack = outer ++ [back] →
          ctx1.controlStack = outer ++ [{ back with isReachable := false }] ∧
          ctx1.stack.length = back.outerStackSize ∧
          (back.outerStackSize ≤ ctx.stack.length →
            ctx1.stack = ctx.stack.take back.outerStackSize)) := by
  constructor
  · intro hge
    simp only [FunctionValidationContext.br, getBranchTargetByDepth_of_ge hge]
  · intro hlt
    obtain ⟨target, htarget, hget⟩ := getBranchTargetByDepth_of_lt hlt
    refine ⟨target, htarget, ?_, ?_⟩
    · constructor
      · rintro ⟨ctx1, h⟩
        simp only [FunctionValidationContext.br, hget] at h
        split at h
        · cases h
        · rename_i ctx2 hpop
          exact ⟨ctx2, hpop⟩
      · rintro ⟨ctx2, hpop⟩
        rcases List.eq_nil_or_concat ctx.controlStack with hnil | ⟨outer, back, hconcat⟩
        · rw [hnil] at hlt
          exact absurd hlt (Nat.not_lt_zero _)
        · rw [List.concat_eq_append] at hconcat
          have hcs2 : ctx2.controlStack = outer ++ [back] := by
            rw [(FunctionValidationContext.operandStep_popAndValidateResultType hpop).2.1,
              hconcat]
          obtain ⟨ctx1, hok, _⟩ := enterUnreachable_of_back hcs2
          exact ⟨ctx1, by simp only [FunctionValidationContext.br, hget, hpop, hok]⟩
    · intro ctx1 h outer back hcs
      simp only [FunctionValidationContext.br, hget] at h
      split at h
      · cases h
      · rename_i ctx2 hpop
        exact enterUnreachable_after_pops hcs
          (FunctionValidationContext.operandStep_popAndValidateResultType hpop) h

theorem getBranchTargetByDepth_congr {ctx ctx1 : FunctionValidationContext}
    (h : ctx1.controlStack = ctx.controlStack) (depth : Nat) :
    ctx1.getBranchTargetByDepth depth = ctx.getBranchTargetByDepth depth := by
  simp only [FunctionValidationContext.getBranchTargetByDepth,
    FunctionValidationContext.validateBranchDepth, h]

/-- The loop of `br_table` succeeds exactly when every listed depth is in range and selects a
target whose branch argument type equals the one of the default target. -/
theorem brTableTargets_eq_ok {ctx : FunctionValidationContext} {argumentType : ResultType} :
    ∀ targetDepths : List Nat,
      ctx.brTableTargets argumentType targetDepths = .ok () ↔
        ∀ d ∈ targetDepths, d < ctx.controlStack.length ∧
          ∃ target, ctx.controlStack[ctx.controlStack.length - d - 1]? = some target ∧
            target.branchArgumentType = argumentType
  | [] => by simp [FunctionValidationContext.brTableTargets]
  | d :: rest => by
    have ih := @brTableTargets_eq_ok ctx argumentType rest
    simp only [FunctionValidationContext.brTableTargets, List.mem_cons, forall_eq_or_imp]
    rcases Nat.lt_or_ge d ctx.controlStack.length with hlt | hge
    · obtain ⟨target, htarget, hget⟩ := getBranchTargetByDepth_of_lt hlt
      simp only [hget, htarget, Option.some.injEq, exists_eq_left', hlt, true_and]
      by_cases heq : target.branchArgumentType = argumentType
      · simp only [heq, ne_eq, not_true_eq_false, if_false, true_and]
        exact ih
      · simp [heq]
    · rw [getBranchTargetByDepth_of_ge hge]
      simp only [reduceCtorEq, false_iff, not_and]
      intro h
      exact absurd h.1 (Nat.not_lt.2 hge)

/-- C13, `br_table` compares targets strictly: `br_table` succeeds exactly when popping an
`i32` index succeeds, the default depth is in range, popping and checking the branch argument
type `T` of the default target succeeds, and every listed depth is in range and selects a
target whose branch argument type is equal to `T` (plain equality, also in an unreachable
context). On success the innermost context is marked unreachable and the stack has the height
of its floor (the old stack truncated, whenever the old stack reached that floor). A listed
target of type `i32` is rejected against a default of type `none` in an unreachable context,
and `block () (i32.const 0; br_table [0, 0] 0) end` is accepted. -/
theorem br_table_contract (ctx : FunctionValidationContext) (targetDepths : List Nat)
    (defaultTargetDepth : Nat) :
    ((∃ ctx1, ctx.br_table targetDepths defaultTargetDepth = .ok ctx1) ↔
      ∃ ctxi, ctx.popAndValidateOperand "br_table index" ValueType.i32 = .ok ctxi ∧
        defaultTargetDepth < ctx.controlStack.length ∧
        ∃ defaultTarget,
          ctx.controlStack[ctx.controlStack.length - defaultTargetDepth - 1]? =
            some defaultTarget ∧
          (∃ ctxa, ctxi.popAndValidateResultType "br_table argument"
            defaultTarget.branchArgumentType = .ok ctxa) ∧
          ∀ d ∈ targetDepths, d < ctx.controlStack.length ∧
            ∃ target, ctx.controlStack[ctx.controlStack.length - d - 1]? = some target ∧
              target.branchArgumentType = defaultTarget.branchArgumentType) ∧
    (∀ ctx1, ctx.br_table targetDepths defaultTargetDepth = .ok ctx1 →
      ∀ outer back, ctx.controlStack = outer ++ [back] →
        ctx1.controlStack = outer ++ [{ back with isReachable := false }] ∧
        ctx1.stack.length = back.outerStackSize ∧
        (back.outerStackSize ≤ ctx.stack.length →
          ctx1.stack = ctx.stack.take back.outerStackSize)) ∧
    (sampleContext [sampleFunctionContext,
        sampleInnerContext ControlContextType.block 0 ResultType.i32 false] []).br_table [0] 1 =
      .error (.validateUnless "br_table target argument must match default target argument: "
        "targetArgumentType != defaultTargetArgumentType") ∧
    (∃ accepted, validateFunctionDef sampleModule
      (sampleFunctionDef 1 [Operation.block ResultType.none, Operation.i32_const 0,
        Operation.br_table [0, 0] 0, Operation.end_, Operation.end_]) = .ok accepted) := by
  refine ⟨?_, ?_, rfl, ⟨_, rfl⟩⟩
  · constructor
    · rintro ⟨ctx1, h⟩
      unfold FunctionValidationContext.br_table at h
      split at h
      · cases h
      · rename_i ctxi hpopi
        have hcsi := (FunctionValidationContext.operandStep_popAndValidateOperand hpopi).2.1
        split at h
        · cases h
        · rename_i defaultTarget hget
          simp only at h
          split at h
          · cases h
          · rename_i ctxa hpopa
            have hcsa :=
              (FunctionValidationContext.operandStep_popAndValidateResultType hpopa).2.1
            split at h
            · cases h
            · rename_i htargets
              rw [getBranchTargetByDepth_congr hcsi] at hget
              have hlt : defaultTargetDepth < ctx.controlStack.length := by
                by_contra hnot
                rw [getBranchTargetByDepth_of_ge (Nat.le_of_not_lt hnot)] at hget
                cases hget
              obtain ⟨target, htarget, hget1⟩ := getBranchTargetByDepth_of_lt hlt
              rw [hget1] at hget
              injection hget with hget
              subst hget
              refine ⟨ctxi, hpopi, hlt, target, htarget, ⟨ctxa, hpopa⟩, ?_⟩
              have := (brTableTargets_eq_ok targetDepths).1 htargets
              rw [hcsa, hcsi] at this
              exact this
    · rintro ⟨ctxi, hpopi, hlt, defaultTarget, hdefault, ⟨ctxa, hpopa⟩, htargets⟩
      have hcsi := (FunctionValidationContext.operandStep_popAndValidateOperand hpopi).2.1
      have hcsa := (FunctionValidationContext.operandStep_popAndValidateResultType hpopa).2.1
      obtain ⟨target, htarget, hget⟩ := getBranchTargetByDepth_of_lt hlt
      rw [hdefault] at htarget
      injection htarget with htarget
      subst htarget
      have hloop : ctxa.brTableTargets defaultTarget.branchArgumentType targetDepths =
          .ok () := by
        rw [brTableTargets_eq_ok, hcsa, hcsi]
        exact htargets
      rcases List.eq_nil_or_concat ctx.controlStack with hnil | ⟨outer, back, hconcat⟩
      · rw [hnil] at hlt
        exact absurd hlt (Nat.not_lt_zero _)
      · rw [List.concat_eq_append] at hconcat
        have hcs2 : ctxa.controlStack = outer ++ [back] := by rw [hcsa, hcsi, hconcat]
        obtain ⟨ctx1, hok, _⟩ := enterUnreachable_of_back hcs2
        refine ⟨ctx1, ?_⟩
        simp only [FunctionValidationContext.br_table, hpopi,
          getBranchTargetByDepth_congr hcsi, hget, hpopa, hloop, hok]
  · intro ctx1 h outer back hcs
    unfold FunctionValidationContext.br_table at h
    split at h
    · cases h
    · rename_i ctxi hpopi
      split at h
      · cases h
      · simp only at h
        split at h
        · cases h
        · rename_i ctxa hpopa
          split at h
          · cases h
          · exact enterUnreachable_after_pops hcs
              ((FunctionValidationContext.operandStep_popAndValidateOperand hpopi).trans
                (FunctionValidationContext.operandStep_popAndValidateResultType hpopa)) h

/-! ## Pops in a reachable context -/

/-- In a reachable innermost context a pop succeeds exactly on a stack whose top entry lies
above the floor, and removes that entry. -/
theorem popOperand_reachable_iff {ctx : FunctionValidationContext} {back : ControlContext}
    (hback : ctx.controlStack.getLast? = some back) (hlive : back.isReachable = true)
    (result : ValueType) (ctx1 : FunctionValidationContext) :
    ctx.popOperand = .ok (result, ctx1) ↔
      ∃ rest, ctx.stack = rest ++ [result] ∧ back.outerStackSize ≤ rest.length ∧
        ctx1 = { ctx with stack := rest } := by
  constructor
  · intro h
    obtain ⟨back1, hback1, hcase | hcase⟩ := FunctionValidationContext.popOperand_ok h
    · rw [hback] at hback1
      have hb : back1 = back := (Option.some.inj hback1).symm
      subst hb
      obtain ⟨hlt, hstack, hctx1⟩ := hcase
      refine ⟨ctx.stack.dropLast, hstack, ?_, hctx1⟩
      simp only [List.length_dropLast]
      omega
    · rw [hback] at hback1
      have hb : back1 = back := (Option.some.inj hback1).symm
      subst hb
      rw [hlive] at hcase
      exact absurd hcase.2.1 (by simp)
  · rintro ⟨rest, hstack, hfloor, rfl⟩
    have hb := FunctionValidationContext.controlStackBack_of_getLast hback
    have hlt : ctx.stack.length > back.outerStackSize := by
      rw [hstack, List.length_append, List.length_singleton]
      omega
    have hlast : ctx.stack.getLast? = some result := by simp [hstack]
    have hdrop : ctx.stack.dropLast = rest := by simp [hstack]
    simp only [FunctionValidationContext.popOperand, hb, hlt, if_true, hlast, hdrop]

/-- In a reachable innermost context the loop of `popAndValidateOperands` succeeds exactly when
the frame of that context holds an operand for every expected type, matching it under the
relaxed rule; `popped` lists the operands from the top of the stack downwards. -/
theorem popAndValidateOperandsLoop_reachable_iff (context : String) :
    ∀ (expectedTypes : List ValueType) (ctx ctx1 : FunctionValidationContext)
      (back : ControlContext),
      ctx.controlStack.getLast? = some back → back.isReachable = true →
      (FunctionValidationContext.popAndValidateOperandsLoop context expectedTypes ctx =
          .ok ctx1 ↔
        ∃ rest popped, ctx.stack = rest ++ popped.reverse ∧
          List.Forall₂ Matches expectedTypes popped ∧
          expectedTypes.length ≤ ctx.stack.length - back.outerStackSize ∧
          ctx1 = { ctx with stack := rest })
  | [], ctx, ctx1, back, _, _ => by
    simp only [FunctionValidationContext.popAndValidateOperandsLoop, Except.ok.injEq,
      List.forall₂_nil_left_iff, List.length_nil, Nat.zero_le, true_and]
    constructor
    · rintro rfl
      exact ⟨ctx.stack, [], by simp, rfl, rfl⟩
    · rintro ⟨rest, popped, hstack, rfl, rfl⟩
      simp only [List.reverse_nil, List.append_nil] at hstack
      rw [← hstack]
  | expectedType :: remaining, ctx, ctx1, back, hback, hlive => by
    simp only [FunctionValidationContext.popAndValidateOperandsLoop]
    constructor
    · intro h
      split at h
      · cases h
      · rename_i actualType ctxa hpop
        split at h
        · cases h
        · rename_i hval
          obtain ⟨resta, hstack, hfloor, rfl⟩ :=
            (popOperand_reachable_iff hback hlive actualType ctxa).1 hpop
          obtain ⟨rest, popped, hstacka, hall, hlen, rfl⟩ :=
            (popAndValidateOperandsLoop_reachable_iff context remaining
              { ctx with stack := resta } ctx1 back hback hlive).1 h
          have hstacka1 : resta = rest ++ popped.reverse := hstacka
          have hlen1 : remaining.length ≤ resta.length - back.outerStackSize := hlen
          refine ⟨rest, actualType :: popped, ?_,
            List.Forall₂.cons (FunctionValidationContext.validateOperandType_eq_ok.1 hval)
              hall, ?_, rfl⟩
          · rw [hstack, hstacka1]
            simp
          · rw [hstack, List.length_append, List.length_singleton, List.length_cons]
            omega
    · rintro ⟨rest, popped, hstack, hall, hlen, rfl⟩
      cases hall with
      | cons hhead htail =>
        rename_i actualType popped1
        have hstack1 : ctx.stack = (rest ++ popped1.reverse) ++ [actualType] := by
          rw [hstack]
          simp
        have hlenStack : ctx.stack.length = rest.length + popped1.length + 1 := by
          rw [hstack1]
          simp only [List.length_append, List.length_reverse, List.length_singleton]
        have hlen2 : remaining.length + 1 ≤ ctx.stack.length - back.outerStackSize := by
          simpa using hlen
        have hlen1 : back.outerStackSize ≤ (rest ++ popped1.reverse).length := by
          simp only [List.length_append, List.length_reverse]
          omega
        have hpop := (popOperand_reachable_iff hback hlive actualType
          { ctx with stack := rest ++ popped1.reverse }).2 ⟨_, hstack1, hlen1, rfl⟩
        rw [hpop]
        simp only [FunctionValidationContext.validateOperandType_eq_ok.2 hhead]
        refine (popAndValidateOperandsLoop_reachable_iff context remaining
          { ctx with stack := rest ++ popped1.reverse } _ back hback hlive).2
          ⟨rest, popped1, rfl, htail, ?_, rfl⟩
        simp only [List.length_append, List.length_reverse]
        omega

/-- In a reachable innermost context `popAndValidateOperands` succeeds exactly when the frame
of that context holds as many operands as there are expected types and its top operands, read
from bottom to top, match the expected types position by position; they are removed. -/
theorem popAndValidateOperands_reachable_iff {ctx : FunctionValidationContext}
    {back : ControlContext} (hback : ctx.controlStack.getLast? = some back)
    (hlive : back.isReachable = true) (context : String) (expectedTypes : List ValueType)
    (ctx1 : FunctionValidationContext) :
    ctx.popAndValidateOperands context expectedTypes = .ok ctx1 ↔
      ∃ rest operands, ctx.stack = rest ++ operands ∧
        List.Forall₂ Matches expectedTypes operands ∧
        expectedTypes.length ≤ ctx.stack.length - back.outerStackSize ∧
        ctx1 = { ctx with stack := rest } := by
  unfold FunctionValidationContext.popAndValidateOperands
  rw [popAndValidateOperandsLoop_reachable_iff context _ ctx ctx1 back hback hlive]
  constructor
  · rintro ⟨rest, popped, hstack, hall, hlen, hctx1⟩
    refine ⟨rest, popped.reverse, hstack, ?_, by simpa using hlen, hctx1⟩
    have := List.rel_reverse hall
    simpa using this
  · rintro ⟨rest, operands, hstack, hall, hlen, hctx1⟩
    refine ⟨rest, operands.reverse, by simpa using hstack, List.rel_reverse hall,
      by simpa using hlen, hctx1⟩

/-- The instance of `popAndValidateOperands_reachable_iff` for two expected types. -/
theorem popAndValidateOperands_pair_iff {ctx : FunctionValidationContext}
    {back : ControlContext} (hback : ctx.controlStack.getLast? = some back)
    (hlive : back.isReachable = true) (context : String) (lowerType upperType : ValueType)
    (ctx1 : FunctionValidationContext) :
    ctx.popAndValidateOperands context [lowerType, upperType] = .ok ctx1 ↔
      ∃ rest lower upper, ctx.stack = rest ++ [lower, upper] ∧
        back.outerStackSize ≤ rest.length ∧ Matches lowerType lower ∧
        Matches upperType upper ∧ ctx1 = { ctx with stack := rest } := by
  rw [popAndValidateOperands_reachable_iff hback hlive]
  constructor
  · rintro ⟨rest, operands, hstack, hall, hlen, hctx1⟩
    cases hall with
    | cons hlower htail =>
      cases htail with
      | cons hupper hnil =>
        cases hnil
        rename_i lower upper
        refine ⟨rest, lower, upper, hstack, ?_, hlower, hupper, hctx1⟩
        have hl := congrArg List.length hstack
        simp only [List.length_append, List.length_cons, List.length_nil] at hl hlen
        omega
  · rintro ⟨rest, lower, upper, hstack, hfloor, hlower, hupper, hctx1⟩
    refine ⟨rest, [lower, upper], hstack,
      List.Forall₂.cons hlower (List.Forall₂.cons hupper List.Forall₂.nil), ?_, hctx1⟩
    have hl := congrArg List.length hstack
    simp only [List.length_append, List.length_cons, List.length_nil] at hl ⊢
    omega

/-! ## Loads and stores -/

/-- C16, the code against the claim: the alignment hint is compared with the byte count of
the access (`1`, `2`, `4`, `8`), not with its base-2 logarithm. In a module with a memory,
`i32.load8_s` with hint `1`, `i64.load` with hint `8` and `f64.store` with hint `8` are all
accepted, although the hints exceed `log2` of the access sizes (`0`, `3`, `3`); the first hint
above the table entry is rejected. -/
theorem alignment_bound_is_byte_count :
    (sampleMemoryContext [sampleFunctionContext] [ValueType.i32]).load LoadOp.i32_load8_s 1 0 =
      .ok (sampleMemoryContext [sampleFunctionContext] [ValueType.i32]) ∧
    (sampleMemoryContext [sampleFunctionContext] [ValueType.i32]).load LoadOp.i64_load 8 0 =
      .ok (sampleMemoryContext [sampleFunctionContext] [ValueType.i64]) ∧
    (sampleMemoryContext [sampleFunctionContext] [ValueType.i32, ValueType.f64]).store
        StoreOp.f64_store 8 0 =
      .ok (sampleMemoryContext [sampleFunctionContext] []) ∧
    (sampleMemoryContext [sampleFunctionContext] [ValueType.i32]).load LoadOp.i32_load8_s 2 0 =
      .error (.validateUnless "i32.load8_s alignment greater than natural alignment: "
        "imm.alignmentLog2>1") :=
  ⟨rfl, rfl, rfl, rfl⟩

/-- With alignment hint `0` and offset `0` in a module with a memory, the tests on the
immediate of a load or store pass. -/
theorem validateLoadOrStoreImm_zero {ctx : FunctionValidationContext}
    (hmemory : ctx.module.memories.size ≠ 0) (nameString : String)
    (naturalAlignmentLog2 : Nat) :
    ctx.validateLoadOrStoreImm nameString naturalAlignmentLog2 0 0 = .ok () := by
  simp [FunctionValidationContext.validateLoadOrStoreImm, hmemory]

/-- C17, store operand order: for every store operator, in a module with a memory, with
alignment hint `0` and offset `0`, on a state whose innermost context is reachable, the method
succeeds exactly when the frame of that context holds at least two operands of which the top
one matches the value type of the store and the one below matches `i32`; these two operands are
removed and nothing is pushed. A stack that ends with the value type below an `i32` is
rejected when the value type is not `i32`. -/
theorem store_operand_order (ctx : FunctionValidationContext) (op : StoreOp)
    (back : ControlContext) (hback : ctx.controlStack.getLast? = some back)
    (hlive : back.isReachable = true) (hmemory : ctx.module.memories.size ≠ 0) :
    (∀ ctx1, ctx.store op 0 0 = .ok ctx1 ↔
      ∃ rest address value, ctx.stack = rest ++ [address, value] ∧
        back.outerStackSize ≤ rest.length ∧ Matches ValueType.i32 address ∧
        Matches op.valueTypeId value ∧ ctx1 = { ctx with stack := rest }) ∧
    (∀ rest, op.valueTypeId ≠ ValueType.i32 →
      ctx.stack = rest ++ [op.valueTypeId, ValueType.i32] →
      ∃ e, ctx.store op 0 0 = .error e) := by
  have hiff : ∀ ctx1, ctx.store op 0 0 = .ok ctx1 ↔
      ∃ rest address value, ctx.stack = rest ++ [address, value] ∧
        back.outerStackSize ≤ rest.length ∧ Matches ValueType.i32 address ∧
        Matches op.valueTypeId value ∧ ctx1 = { ctx with stack := rest } := by
    intro ctx1
    rw [← popAndValidateOperands_pair_iff hback hlive op.nameString]
    unfold FunctionValidationContext.store
    cases hpop : ctx.popAndValidateOperands op.nameString
        [ValueType.i32, op.valueTypeId] with
    | error e => simp
    | ok ctx2 =>
      have hmod : ctx2.module = ctx.module :=
        (FunctionValidationContext.operandStep_popAndValidateOperands hpop).1.1
      have hmem2 : ctx2.module.memories.size ≠ 0 := by rw [hmod]; exact hmemory
      simp only [validateLoadOrStoreImm_zero hmem2]
  refine ⟨hiff, ?_⟩
  intro rest hne hstack
  cases hstore : ctx.store op 0 0 with
  | error e => exact ⟨e, rfl⟩
  | ok ctx1 =>
    exfalso
    obtain ⟨rest1, address, value, hstack1, _, _, hvalue, _⟩ := (hiff ctx1).1 hstore
    rw [hstack] at hstack1
    have hsplit : rest ++ [op.valueTypeId, ValueType.i32] =
        (rest ++ [op.valueTypeId]) ++ [ValueType.i32] := by simp
    have hsplit1 : rest1 ++ [address, value] = (rest1 ++ [address]) ++ [value] := by simp
    rw [hsplit, hsplit1] at hstack1
    have hv : [ValueType.i32] = [value] := (List.append_inj' hstack1 rfl).2
    injection hv with hv
    subst hv
    rcases hvalue with h | h | h
    · exact hne h
    · cases op <;> simp [StoreOp.valueTypeId] at h
    · cases h

theorem store_operand_order_witness :
    (sampleMemoryContext [sampleFunctionContext] [ValueType.i32, ValueType.i64]).store
        StoreOp.i64_store 0 0 = .ok (sampleMemoryContext [sampleFunctionContext] []) ∧
    ∃ e, (sampleMemoryContext [sampleFunctionContext] [ValueType.i64, ValueType.i32]).store
        StoreOp.i64_store 0 0 = .error e :=
  ⟨((store_operand_order
      (sampleMemoryContext [sampleFunctionContext] [ValueType.i32, ValueType.i64])
      StoreOp.i64_store sampleFunctionContext rfl rfl (by decide)).1
      (sampleMemoryContext [sampleFunctionContext] [])).2
      ⟨[], ValueType.i32, ValueType.i64, rfl, Nat.le_refl 0, Or.inl rfl, Or.inl rfl, rfl⟩,
    (store_operand_order
      (sampleMemoryContext [sampleFunctionContext] [ValueType.i64, ValueType.i32])
      StoreOp.i64_store sampleFunctionContext rfl rfl (by decide)).2 [] (by decide) rfl⟩

/-! ## Globals -/

/-- An index below the size of an index space has a declared type. -/
theorem IndexSpace.getType_of_lt {Definition Ty : Type} (typeOf : Definition → Ty)
    (space : IndexSpace Definition Ty) {index : Nat} (h : index < space.size) :
    ∃ type, space.getType typeOf index = some type := by
  unfold IndexSpace.getType
  unfold IndexSpace.size at h
  split
  · rename_i hlt
    exact ⟨_, List.getElem?_eq_getElem hlt⟩
  · rename_i hnot
    have hidx : index - space.imports.length < space.defs.length := by omega
    exact ⟨_, by rw [List.getElem?_eq_getElem hidx]; rfl⟩

/-- The mutability test of `validateGlobalIndex` in the two forms the function validator uses:
with `mustBeMutable` (as in `set_global`) and without any requirement (as in `get_global`). -/
theorem validateGlobalIndex_access (module : Module) (index : Nat) (mustBeMutable : Bool) :
    (module.globals.size ≤ index →
      validateGlobalIndex module index mustBeMutable false false =
        .error (.validateUnless "invalid index: " "globalIndex>=module.globals.size()")) ∧
    (∀ globalType, index < module.globals.size →
      module.globals.getType GlobalDef.type index = some globalType →
      validateGlobalIndex module index mustBeMutable false false =
        if mustBeMutable = true ∧ globalType.isMutable = false then
          .error (.exception "attempting to mutate immutable global")
        else .ok globalType.valueType) := by
  constructor
  · intro hge
    have hge1 : index ≥ module.globals.size := hge
    simp only [validateGlobalIndex, VALIDATE_INDEX, hge1, if_true]
    rfl
  · intro globalType hlt hget
    have hnot : ¬ index ≥ module.globals.size := by omega
    simp [validateGlobalIndex, VALIDATE_INDEX, hnot, hget]

/-- C19, `set_global` requires a mutable global: `set_global i` succeeds exactly when `i` is
below the number of globals (imports and definitions), global `i` is mutable, and popping one
operand and checking it against the declared value type of global `i` succeeds; `get_global i`
succeeds for every index in range, whatever the mutability, and pushes the declared value
type; both fail on an index out of range. -/
theorem global_access_contract (ctx : FunctionValidationContext) (i : Nat) :
    ((∃ ctx1, ctx.set_global i = .ok ctx1) ↔
      i < ctx.module.globals.size ∧
      ∃ globalType, ctx.module.globals.getType GlobalDef.type i = some globalType ∧
        globalType.isMutable = true ∧
        ∃ ctx1, ctx.popAndValidateOperand "set_global" globalType.valueType = .ok ctx1) ∧
    (i < ctx.module.globals.size →
      ∃ globalType, ctx.module.globals.getType GlobalDef.type i = some globalType ∧
        ctx.get_global i = .ok (ctx.pushOperand globalType.valueType)) ∧
    (ctx.module.globals.size ≤ i →
      (∃ e, ctx.get_global i = .error e) ∧ ∃ e, ctx.set_global i = .error e) := by
  refine ⟨?_, ?_, ?_⟩
  · rcases Nat.lt_or_ge i ctx.module.globals.size with hlt | hge
    · obtain ⟨globalType, hget⟩ := IndexSpace.getType_of_lt GlobalDef.type _ hlt
      have hval := (validateGlobalIndex_access ctx.module i true).2 globalType hlt hget
      simp only [FunctionValidationContext.set_global, hval, hlt, hget, true_and,
        Option.some.injEq, exists_eq_left']
      cases hmut : globalType.isMutable <;> simp
    · have hval := (validateGlobalIndex_access ctx.module i true).1 hge
      simp only [FunctionValidationContext.set_global, hval, reduceCtorEq, exists_false,
        false_iff, not_and]
      intro hlt
      exact absurd hlt (Nat.not_lt.2 hge)
  · intro hlt
    obtain ⟨globalType, hget⟩ := IndexSpace.getType_of_lt GlobalDef.type _ hlt
    have hval := (validateGlobalIndex_access ctx.module i false).2 globalType hlt hget
    refine ⟨globalType, hget, ?_⟩
    simp [FunctionValidationContext.get_global, hval]
  · intro hge
    simp [FunctionValidationContext.get_global, FunctionValidationContext.set_global,
      (validateGlobalIndex_access ctx.module i false).1 hge,
      (validateGlobalIndex_access ctx.module i true).1 hge]

/-! ## What an accepted module guarantees -/

theorem forEach_eq_ok {α : Type} (body : α → Result Unit) :
    ∀ elements : List α, forEach body elements = .ok () ↔ ∀ x ∈ elements, body x = .ok ()
  | [] => by simp [forEach]
  | element :: elements => by
    have ih := forEach_eq_ok body elements
    simp only [forEach, List.mem_cons, forall_eq_or_imp]
    cases hbody : body element with
    | error e => simp
    | ok u => simpa using ih

theorem VALIDATE_INDEX_eq_ok {index arraySize : Nat} {indexText arraySizeText : String} :
    VALIDATE_INDEX index arraySize indexText arraySizeText = .ok () ↔ index < arraySize := by
  unfold VALIDATE_INDEX
  split
  · rename_i h
    simp only [reduceCtorEq, false_iff, Nat.not_lt]
    exact h
  · rename_i h
    simp only [true_iff]
    omega

theorem validateValueType_eq_ok {valueType : ValueType} :
    validateValueType valueType = .ok () ↔
      valueType = ValueType.i32 ∨ valueType = ValueType.i64 ∨ valueType = ValueType.f32 ∨
        valueType = ValueType.f64 := by
  cases valueType <;> simp [validateValueType]

/-- Every step of an accepted `validateDefinitions` succeeded. -/
theorem validateDefinitions_steps {module : Module} (h : validateDefinitions module = .ok ()) :
    ∀ step ∈ validateDefinitionsSteps module, step = .ok () :=
  (forEach_eq_ok id _).1 h

/-- The declared type of an index comes from an import or from a definition. -/
theorem IndexSpace.getType_mem {Definition Ty : Type} (typeOf : Definition → Ty)
    (space : IndexSpace Definition Ty) {index : Nat} {type : Ty}
    (h : space.getType typeOf index = some type) :
    type ∈ space.imports ∨ ∃ definition ∈ space.defs, typeOf definition = type := by
  unfold IndexSpace.getType at h
  split at h
  · exact Or.inl (List.getElem?_mem h)
  · cases hdef : space.defs[index - space.imports.length]? with
    | none => simp [hdef] at h
    | some definition =>
      rw [hdef] at h
      simp only [Option.map_some', Option.some.injEq] at h
      exact Or.inr ⟨definition, List.getElem?_mem hdef, h⟩

/-- In an accepted module every function index in range has a signature in the type table. -/
theorem validateDefinitions_function_signature {module : Module}
    (h : validateDefinitions module = .ok ()) {functionIndex : Nat}
    (hlt : functionIndex < module.functions.size) :
    ∃ indexedType signature,
      module.functions.getType FunctionDef.type functionIndex = some indexedType ∧
      module.types[indexedType.index]? = some signature := by
  have hsteps := validateDefinitions_steps h
  have himports := hsteps (forEach (fun (functionImport : IndexedFunctionType) =>
      VALIDATE_INDEX functionImport.index module.types.length "functionImport.type.index"
        "module.types.size()") module.functions.imports)
    (by simp [validateDefinitionsSteps])
  have hdefs := hsteps (forEach (validateFunctionDefType module) module.functions.defs)
    (by simp [validateDefinitionsSteps])
  rw [forEach_eq_ok] at himports hdefs
  obtain ⟨indexedType, hget⟩ := IndexSpace.getType_of_lt FunctionDef.type _ hlt
  have hidx : indexedType.index < module.types.length := by
    rcases IndexSpace.getType_mem FunctionDef.type _ hget with hin | ⟨definition, hin, heq⟩
    · exact VALIDATE_INDEX_eq_ok.1 (himports indexedType hin)
    · have hdef := hdefs definition hin
      unfold validateFunctionDefType at hdef
      split at hdef
      · cases hdef
      · rename_i hindex
        rw [← heq]
        exact VALIDATE_INDEX_eq_ok.1 hindex
  exact ⟨indexedType, module.types[indexedType.index], hget, List.getElem?_eq_getElem hidx⟩

/-! ## Calls -/

/-- C18, `call f` pops the parameters in reverse and pushes the result: in a module accepted by
`validateDefinitions`, for a function index `f` in range with signature `(p1, .., pn) -> r`, on
a state whose innermost context is reachable, `call f` succeeds exactly when the frame of that
context holds at least `n` operands and the top `n` operands, read from bottom to top, match
`p1, .., pn` position by position; these operands are removed and the value type of `r` is
pushed when `r` is not `none`. For `f` not below the number of functions `call f` fails. -/
theorem call_contract (ctx : FunctionValidationContext) (back : ControlContext) (f : Nat)
    (hvalid : validateDefinitions ctx.module = .ok ())
    (hback : ctx.controlStack.getLast? = some back) (hlive : back.isReachable = true) :
    (f < ctx.module.functions.size →
      ∃ indexedType signature,
        ctx.module.functions.getType FunctionDef.type f = some indexedType ∧
        ctx.module.types[indexedType.index]? = some signature ∧
        ∀ ctx1, ctx.call f = .ok ctx1 ↔
          ∃ rest operands, ctx.stack = rest ++ operands ∧
            List.Forall₂ Matches signature.parameters operands ∧
            signature.parameters.length ≤ ctx.stack.length - back.outerStackSize ∧
            ctx1 = { ctx with stack := rest ++
              (if signature.ret = ResultType.none then []
               else [asValueType signature.ret]) }) ∧
    (ctx.module.functions.size ≤ f →
      ctx.call f =
        .error (.validateUnless "invalid index: " "functionIndex>=module.functions.size()")) := by
  constructor
  · intro hlt
    obtain ⟨indexedType, signature, hget, htype⟩ :=
      validateDefinitions_function_signature hvalid hlt
    refine ⟨indexedType, signature, hget, htype, ?_⟩
    intro ctx1
    have hnot : ¬ f ≥ ctx.module.functions.size := by omega
    have hindex : validateFunctionIndex ctx.module f = .ok signature := by
      simp [validateFunctionIndex, VALIDATE_INDEX, hnot, hget, htype]
    simp only [FunctionValidationContext.call, hindex]
    constructor
    · intro h
      split at h
      · cases h
      · rename_i ctx2 hpop
        injection h with h
        obtain ⟨rest, operands, hstack, hall, hlen, rfl⟩ :=
          (popAndValidateOperands_reachable_iff hback hlive _ _ ctx2).1 hpop
        refine ⟨rest, operands, hstack, hall, hlen, ?_⟩
        rw [← h]
        unfold FunctionValidationContext.pushOperandResult
        by_cases hret : signature.ret = ResultType.none
        · simp [hret]
        · simp [hret, FunctionValidationContext.pushOperand]
    · rintro ⟨rest, operands, hstack, hall, hlen, rfl⟩
      have hpop := (popAndValidateOperands_reachable_iff hback hlive "call arguments"
        signature.parameters { ctx with stack := rest }).2
        ⟨rest, operands, hstack, hall, hlen, rfl⟩
      rw [hpop]
      unfold FunctionValidationContext.pushOperandResult
      by_cases hret : signature.ret = ResultType.none
      · simp [hret]
      · simp [hret, FunctionValidationContext.pushOperand]
  · intro hge
    have hge1 : f ≥ ctx.module.functions.size := hge
    simp only [FunctionValidationContext.call, validateFunctionIndex, VALIDATE_INDEX, hge1,
      if_true]
    rfl

theorem call_contract_witness :
    (sampleCallContext [sampleFunctionContext] [ValueType.f64, ValueType.i32,
        ValueType.i64]).call 0 =
      .ok (sampleCallContext [sampleFunctionContext] [ValueType.f64, ValueType.f32]) ∧
    (sampleCallContext [sampleFunctionContext] []).call 2 =
      .error (.validateUnless "invalid index: " "functionIndex>=module.functions.size()") :=
  ⟨by
    obtain ⟨indexedType, signature, hget, htype, hiff⟩ :=
      (call_contract
        (sampleCallContext [sampleFunctionContext] [ValueType.f64, ValueType.i32,
          ValueType.i64]) sampleFunctionContext 0 rfl rfl rfl).1 (by decide)
    have hindexed : indexedType = { index := 2 } := (Option.some.inj hget).symm
    subst hindexed
    have hsignature : signature =
        { ret := ResultType.f32, parameters := [ValueType.i32, ValueType.i64] } :=
      (Option.some.inj htype).symm
    subst hsignature
    exact (hiff _).2 ⟨[ValueType.f64], [ValueType.i32, ValueType.i64], rfl,
      List.Forall₂.cons (Or.inl rfl) (List.Forall₂.cons (Or.inl rfl) List.Forall₂.nil),
      by decide, rfl⟩,
   (call_contract (sampleCallContext [sampleFunctionContext] []) sampleFunctionContext 2
      rfl rfl rfl).2 (by decide)⟩

/-! ## Where `any` can lie on the operand stack -/

theorem UnreachableFloorAt.within_outer {outer : List ControlContext} {back : ControlContext}
    {i : Nat} (h : UnreachableFloorAt (outer ++ [back]) i) (hi : i < back.outerStackSize) :
    UnreachableFloorAt outer i := by
  obtain ⟨o, c, inner, hcs, hfloor, hdead, hinner⟩ := h
  rcases List.eq_nil_or_concat inner with hnil | ⟨inner1, x, hconcat⟩
  · subst hnil
    have hc : [back] = [c] := (List.append_inj' hcs rfl).2
    injection hc with hc
    subst hc
    omega
  · rw [List.concat_eq_append] at hconcat
    subst hconcat
    have hsplit : o ++ c :: (inner1 ++ [x]) = (o ++ c :: inner1) ++ [x] := by simp
    rw [hsplit] at hcs
    have houter : outer = o ++ c :: inner1 := (List.append_inj' hcs rfl).1
    exact ⟨o, c, inner1, houter, hfloor, hdead,
      fun c1 hc1 => hinner c1 (List.mem_append_left _ hc1)⟩

theorem UnreachableFloorAt.extend {outer : List ControlContext} {i : Nat}
    (h : UnreachableFloorAt outer i) (extra : List ControlContext)
    (hextra : ∀ c ∈ extra, i < c.outerStackSize) : UnreachableFloorAt (outer ++ extra) i := by
  obtain ⟨o, c, inner, hcs, hfloor, hdead, hinner⟩ := h
  refine ⟨o, c, inner ++ extra, by simp [hcs], hfloor, hdead, ?_⟩
  intro c1 hc1
  rcases List.mem_append.1 hc1 with hin | hin
  · exact hinner c1 hin
  · exact hextra c1 hin

theorem UnreachableFloorAt.at_back {outer : List ControlContext} {back : ControlContext}
    {i : Nat} (h : UnreachableFloorAt (outer ++ [back]) i) (hi : back.outerStackSize ≤ i) :
    back.outerStackSize = i ∧ back.isReachable = false := by
  obtain ⟨o, c, inner, hcs, hfloor, hdead, hinner⟩ := h
  rcases List.eq_nil_or_concat inner with hnil | ⟨inner1, x, hconcat⟩
  · subst hnil
    have hc : [back] = [c] := (List.append_inj' hcs rfl).2
    injection hc with hc
    subst hc
    exact ⟨hfloor, hdead⟩
  · rw [List.concat_eq_append] at hconcat
    subst hconcat
    have hsplit : o ++ c :: (inner1 ++ [x]) = (o ++ c :: inner1) ++ [x] := by simp
    rw [hsplit] at hcs
    have hx : [back] = [x] := (List.append_inj' hcs rfl).2
    injection hx with hx
    subst hx
    have := hinner back (by simp)
    omega

theorem UnreachableFloorAt.of_back (outer : List ControlContext) {back : ControlContext}
    (hdead : back.isReachable = false) :
    UnreachableFloorAt (outer ++ [back]) back.outerStackSize :=
  ⟨outer, back, [], rfl, rfl, hdead, fun _ h => by simp at h⟩

/-- An `any` in the frame of the innermost context sits at the floor of that context, and the
context is unreachable. -/
theorem any_in_innermost_frame {ctx : FunctionValidationContext} {back : ControlContext}
    (hany : AnyAtUnreachableFloor ctx) (hback : ctx.controlStack.getLast? = some back)
    {i : Nat} (hi : ctx.stack[i]? = some ValueType.any) (hfloor : back.outerStackSize ≤ i) :
    back.outerStackSize = i ∧ back.isReachable = false := by
  obtain ⟨outer, hcs⟩ := List.getLast?_eq_some_iff.1 hback
  have h := hany i hi
  rw [hcs] at h
  exact h.at_back hfloor

theorem anyAtFloor_of_take {ctx ctx1 : FunctionValidationContext}
    (hcs : ctx1.controlStack = ctx.controlStack) (n : Nat)
    (hstack : ctx1.stack = ctx.stack.take n) (h : AnyAtUnreachableFloor ctx) :
    AnyAtUnreachableFloor ctx1 := by
  intro i hi
  rw [hstack, List.getElem?_take] at hi
  rw [hcs]
  split at hi
  · exact h i hi
  · cases hi

theorem anyAtFloor_pushOperand {ctx : FunctionValidationContext} {type : ValueType}
    (h : AnyAtUnreachableFloor ctx) (hclean : type ≠ ValueType.any) :
    AnyAtUnreachableFloor (ctx.pushOperand type) := by
  intro i hi
  simp only [FunctionValidationContext.pushOperand, List.getElem?_append] at hi
  split at hi
  · exact h i hi
  · rename_i hnot
    have hidx : i - ctx.stack.length = 0 ∨ 0 < i - ctx.stack.length := Nat.eq_zero_or_pos _
    rcases hidx with hz | hpos
    · rw [hz] at hi
      simp only [List.getElem?_cons_zero, Option.some.injEq] at hi
      exact absurd hi hclean
    · have : [type][i - ctx.stack.length]? = none := by
        apply List.getElem?_eq_none
        simp only [List.length_singleton]
        omega
      rw [this] at hi
      cases hi

theorem anyAtFloor_pushAny {ctx : FunctionValidationContext} {outer : List ControlContext}
    {back : ControlContext} (h : AnyAtUnreachableFloor ctx)
    (hcs : ctx.controlStack = outer ++ [back]) (hdead : back.isReachable = false)
    (hlen : ctx.stack.length = back.outerStackSize) :
    AnyAtUnreachableFloor (ctx.pushOperand ValueType.any) := by
  intro i hi
  simp only [FunctionValidationContext.pushOperand, List.getElem?_append] at hi
  split at hi
  · exact h i hi
  · rename_i hnot
    have hidx : i - ctx.stack.length = 0 ∨ 0 < i - ctx.stack.length := Nat.eq_zero_or_pos _
    rcases hidx with hz | hpos
    · have hi1 : i = back.outerStackSize := by omega
      subst hi1
      show UnreachableFloorAt ctx.controlStack back.outerStackSize
      rw [hcs]
      exact UnreachableFloorAt.of_back outer hdead
    · have : [ValueType.any][i - ctx.stack.length]? = none := by
        apply List.getElem?_eq_none
        simp only [List.length_singleton]
        omega
      rw [this] at hi
      cases hi

theorem AnyStep.anyRefl (ctx : FunctionValidationContext) : AnyStep ctx ctx :=
  ⟨OperandStep.refl ctx, fun _ h => h⟩

theorem AnyStep.anyTrans {ctx ctx1 ctx2 : FunctionValidationContext}
    (h1 : AnyStep ctx ctx1) (h2 : AnyStep ctx1 ctx2) : AnyStep ctx ctx2 :=
  ⟨h1.1.trans h2.1, fun hfloors hany =>
    h2.2 (FunctionValidationContext.floorsOrdered_operandStep hfloors h1.1)
      (h1.2 hfloors hany)⟩

theorem anyStep_pushOperand (ctx : FunctionValidationContext) (type : ValueType)
    (hclean : type ≠ ValueType.any) : AnyStep ctx (ctx.pushOperand type) :=
  ⟨FunctionValidationContext.operandStep_pushOperand ctx type,
    fun _ hany => anyAtFloor_pushOperand hany hclean⟩

theorem asValueType_ne_any {type : ResultType} (h : type ≠ ResultType.none) :
    asValueType type ≠ ValueType.any := by
  cases type <;> simp_all [asValueType]

theorem anyStep_pushOperandResult (ctx : FunctionValidationContext) (type : ResultType) :
    AnyStep ctx (ctx.pushOperandResult type) := by
  unfold FunctionValidationContext.pushOperandResult
  split
  · rename_i hne
    exact anyStep_pushOperand ctx _ (asValueType_ne_any hne)
  · exact AnyStep.anyRefl ctx

theorem anyStep_popOperand {ctx ctx1 : FunctionValidationContext} {result : ValueType}
    (h : ctx.popOperand = .ok (result, ctx1)) : AnyStep ctx ctx1 := by
  refine ⟨FunctionValidationContext.operandStep_popOperand h, fun _ hany => ?_⟩
  obtain ⟨back, _, hcase | hcase⟩ := FunctionValidationContext.popOperand_ok h
  · obtain ⟨_, _, rfl⟩ := hcase
    exact @anyAtFloor_of_take ctx _ rfl (ctx.stack.length - 1)
      (List.dropLast_eq_take _) hany
  · obtain ⟨_, _, _, rfl⟩ := hcase
    exact hany

theorem anyStep_popAndValidateOperand {ctx ctx1 : FunctionValidationContext}
    {context : String} {expectedType : ValueType}
    (h : ctx.popAndValidateOperand context expectedType = .ok ctx1) : AnyStep ctx ctx1 := by
  obtain ⟨_, hpop, _⟩ := FunctionValidationContext.popAndValidateOperand_ok h
  exact anyStep_popOperand hpop

theorem anyStep_popAndValidateOperandsLoop (context : String) :
    ∀ (expectedTypes : List ValueType) (ctx ctx1 : FunctionValidationContext),
      FunctionValidationContext.popAndValidateOperandsLoop context expectedTypes ctx =
        .ok ctx1 → AnyStep ctx ctx1
  | [], ctx, ctx1, h => by
    simp only [FunctionValidationContext.popAndValidateOperandsLoop] at h
    injection h with h
    subst h
    exact AnyStep.anyRefl ctx
  | expectedType :: remaining, ctx, ctx1, h => by
    simp only [FunctionValidationContext.popAndValidateOperandsLoop] at h
    split at h
    · cases h
    · rename_i actualType ctx2 hpop
      split at h
      · cases h
      · exact (anyStep_popOperand hpop).anyTrans
          (anyStep_popAndValidateOperandsLoop context remaining ctx2 ctx1 h)

theorem anyStep_popAndValidateOperands {ctx ctx1 : FunctionValidationContext}
    {context : String} {expectedTypes : List ValueType}
    (h : ctx.popAndValidateOperands context expectedTypes = .ok ctx1) : AnyStep ctx ctx1 :=
  anyStep_popAndValidateOperandsLoop context _ ctx ctx1 h

theorem anyStep_popAndValidateResultType {ctx ctx1 : FunctionValidationContext}
    {context : String} {expectedType : ResultType}
    (h : ctx.popAndValidateResultType context expectedType = .ok ctx1) : AnyStep ctx ctx1 := by
  unfold FunctionValidationContext.popAndValidateResultType at h
  split at h
  · exact anyStep_popAndValidateOperand h
  · injection h with h
    subst h
    exact AnyStep.anyRefl ctx

/-- A pop that returns `any` leaves the stack exactly at the floor of the innermost context,
which is unreachable: either the pop found the stack at that floor, or it removed an `any`
that sat at that floor. -/
theorem pop_any_leaves_floor {ctx ctx1 : FunctionValidationContext}
    (hfloors : FloorsOrdered ctx) (hany : AnyAtUnreachableFloor ctx)
    (h : ctx.popOperand = .ok (ValueType.any, ctx1)) :
    ∃ outer back, ctx1.controlStack = outer ++ [back] ∧ back.isReachable = false ∧
      ctx1.stack.length = back.outerStackSize := by
  obtain ⟨back, hback, hcase | hcase⟩ := FunctionValidationContext.popOperand_ok h
  · obtain ⟨hlt, hstack, rfl⟩ := hcase
    obtain ⟨outer, hcs⟩ := List.getLast?_eq_some_iff.1 hback
    have hentry : ctx.stack[ctx.stack.dropLast.length]? = some ValueType.any := by
      have := List.getElem?_concat_length ctx.stack.dropLast ValueType.any
      rw [← hstack] at this
      exact this
    have hfloor : back.outerStackSize ≤ ctx.stack.dropLast.length := by
      simp only [List.length_dropLast]
      omega
    obtain ⟨heq, hdead⟩ := any_in_innermost_frame hany hback hentry hfloor
    exact ⟨outer, back, hcs, hdead, heq.symm⟩
  · obtain ⟨hle, hdead, _, rfl⟩ := hcase
    obtain ⟨outer, hcs⟩ := List.getLast?_eq_some_iff.1 hback
    have hge := hfloors.2 back (by simp [hcs])
    exact ⟨outer, back, hcs, hdead, by omega⟩

/-- On a stack at the floor of an unreachable innermost context a pop returns `any` and changes
nothing. -/
theorem popOperand_at_dead_floor {ctx : FunctionValidationContext}
    {outer : List ControlContext} {back : ControlContext}
    (hcs : ctx.controlStack = outer ++ [back]) (hdead : back.isReachable = false)
    (hlen : ctx.stack.length = back.outerStackSize) :
    ctx.popOperand = .ok (ValueType.any, ctx) := by
  have hb : ctx.controlStackBack = .ok back :=
    FunctionValidationContext.controlStackBack_of_getLast (by
      rw [hcs]
      exact List.getLast?_concat _)
  have hnot : ¬ ctx.stack.length > back.outerStackSize := by omega
  simp [FunctionValidationContext.popOperand, hb, hnot, hdead]

/-- Inversion of a successful `select`: three pops, the two checks, and the push of the type
returned by the second pop. -/
theorem select_ok {ctx ctx1 : FunctionValidationContext} (h : ctx.select = .ok ctx1) :
    ∃ condition falseType trueType ctxa ctxb ctxc,
      ctx.popOperand = .ok (condition, ctxa) ∧ ctxa.popOperand = .ok (falseType, ctxb) ∧
      ctxb.popOperand = .ok (trueType, ctxc) ∧ Matches ValueType.i32 condition ∧
      Matches falseType trueType ∧ ctx1 = ctxc.pushOperand falseType := by
  unfold FunctionValidationContext.select at h
  split at h
  · cases h
  · rename_i condition ctxa hpop1
    split at h
    · cases h
    · rename_i falseType ctxb hpop2
      split at h
      · cases h
      · rename_i trueType ctxc hpop3
        split at h
        · cases h
        · rename_i hcond
          split at h
          · cases h
          · rename_i hmatch
            injection h with h
            exact ⟨condition, falseType, trueType, ctxa, ctxb, ctxc, hpop1, hpop2, hpop3,
              FunctionValidationContext.validateOperandType_eq_ok.1 hcond,
              FunctionValidationContext.validateOperandType_eq_ok.1 hmatch, h.symm⟩

theorem anyStep_select {ctx ctx1 : FunctionValidationContext} (h : ctx.select = .ok ctx1) :
    AnyStep ctx ctx1 := by
  obtain ⟨condition, falseType, trueType, ctxa, ctxb, ctxc, hpop1, hpop2, hpop3, _, _, rfl⟩ :=
    select_ok h
  have hpops : AnyStep ctx ctxc :=
    ((anyStep_popOperand hpop1).anyTrans (anyStep_popOperand hpop2)).anyTrans
      (anyStep_popOperand hpop3)
  refine ⟨hpops.1.trans (FunctionValidationContext.operandStep_pushOperand _ _), ?_⟩
  intro hfloors hany
  by_cases hf : falseType = ValueType.any
  · subst hf
    have hfloorsa := FunctionValidationContext.floorsOrdered_operandStep hfloors
      (FunctionValidationContext.operandStep_popOperand hpop1)
    have hanya := (anyStep_popOperand hpop1).2 hfloors hany
    obtain ⟨outer, back, hcs, hdead, hlen⟩ := pop_any_leaves_floor hfloorsa hanya hpop2
    rw [popOperand_at_dead_floor hcs hdead hlen] at hpop3
    injection hpop3 with hpop3
    injection hpop3 with _ hctx
    subst hctx
    exact anyAtFloor_pushAny (hpops.2 hfloors hany) hcs hdead hlen
  · exact anyAtFloor_pushOperand (hpops.2 hfloors hany) hf

/-! ### The operator methods keep `any` at unreachable floors -/

theorem LoadOp.resultType_ne_any (op : LoadOp) : op.resultType ≠ ValueType.any := by
  cases op <;> decide

theorem BinaryOp.resultTypeId_ne_any (op : BinaryOp) : op.resultTypeId ≠ ValueType.any := by
  cases op <;> decide

theorem UnaryOp.unaryResult_ne_any (op : UnaryOp) : op.resultTypeId ≠ ValueType.any := by
  cases op <;> decide

theorem validateLocalIndex_mem {ctx : FunctionValidationContext} {localIndex : Nat}
    {type : ValueType} (h : ctx.validateLocalIndex localIndex = .ok type) :
    type ∈ ctx.locals := by
  unfold FunctionValidationContext.validateLocalIndex at h
  split at h
  · cases h
  · split at h
    · rename_i hget
      injection h with h
      subst h
      exact List.getElem?_mem hget
    · cases h

theorem validateGlobalIndex_type {module : Module} {globalIndex : Nat}
    {mustBeMutable mustBeImmutable mustBeImport : Bool} {valueType : ValueType}
    (h : validateGlobalIndex module globalIndex mustBeMutable mustBeImmutable mustBeImport =
      .ok valueType) :
    ∃ globalType, module.globals.getType GlobalDef.type globalIndex = some globalType ∧
      globalType.valueType = valueType := by
  unfold validateGlobalIndex at h
  split at h
  · cases h
  · split at h
    · cases h
    · rename_i globalType hget
      split at h
      · cases h
      · split at h
        · cases h
        · split at h
          · cases h
          · injection h with h
            exact ⟨globalType, hget, h⟩

namespace FunctionValidationContext

/-- Every successful operator method, on a context with clean types, is a sequence of operand
moves that keep `any` at unreachable floors, followed by one effect on the control stack. -/
theorem decodeOp_anyShape {ctx ctx1 : FunctionValidationContext} {op : Operation}
    (hclean : CleanTypes ctx) (h : ctx.decodeOp op = .ok ctx1) :
    ∃ mid, AnyStep ctx mid ∧ ControlEffect mid ctx1 := by
  cases op <;> simp only [decodeOp] at h
  case unknown opcode => cases h
  case block resultType =>
    unfold block at h
    split at h
    · cases h
    · injection h with h
      exact ⟨ctx, AnyStep.anyRefl ctx, .push _ _ _ h.symm (Or.inl rfl) (by simp) (by simp)⟩
  case loop resultType =>
    unfold loop at h
    split at h
    · cases h
    · injection h with h
      exact ⟨ctx, AnyStep.anyRefl ctx,
        .push _ _ _ h.symm (Or.inr (Or.inr rfl)) (by simp) (by simp)⟩
  case if_ resultType =>
    unfold if_ at h
    split at h
    · cases h
    · split at h
      · cases h
      · rename_i ctx2 hpop
        injection h with h
        exact ⟨ctx2, anyStep_popAndValidateOperand hpop,
          .push _ _ _ h.symm (Or.inr (Or.inl rfl)) (by simp) (by simp)⟩
  case else_ =>
    unfold else_ at h
    split at h
    · cases h
    · split at h
      · cases h
      · rename_i ctx2 hpop
        exact ⟨ctx2, anyStep_popAndValidateResultType hpop, .pop true h⟩
  case end_ =>
    unfold end_ at h
    split at h
    · cases h
    · split at h
      · cases h
      · rename_i ctx2 hpop
        exact ⟨ctx2, anyStep_popAndValidateResultType hpop, .pop false h⟩
  case return_ =>
    unfold return_ at h
    split at h
    · cases h
    · rename_i ctx2 hpop
      exact ⟨ctx2, anyStep_popAndValidateResultType hpop, .unreachable h⟩
  case br targetDepth =>
    unfold br at h
    split at h
    · cases h
    · split at h
      · cases h
      · rename_i ctx2 hpop
        exact ⟨ctx2, anyStep_popAndValidateResultType hpop, .unreachable h⟩
  case br_table targetDepths defaultTargetDepth =>
    unfold br_table at h
    split at h
    · cases h
    · rename_i ctx2 hpop
      split at h
      · cases h
      · simp only at h
        split at h
        · cases h
        · rename_i ctx3 hpop3
          split at h
          · cases h
          · exact ⟨ctx3, (anyStep_popAndValidateOperand hpop).anyTrans
              (anyStep_popAndValidateResultType hpop3), .unreachable h⟩
  case br_if targetDepth =>
    unfold br_if at h
    split at h
    · cases h
    · rename_i ctx2 hpop
      split at h
      · cases h
      · split at h
        · cases h
        · rename_i ctx3 hpop3
          split at h
          · cases h
          · injection h with h
            exact ⟨ctx1, ((anyStep_popAndValidateOperand hpop).anyTrans
              (anyStep_popAndValidateResultType hpop3)).anyTrans
                (h ▸ anyStep_pushOperandResult ctx3 _), .unchanged rfl⟩
  case nop =>
    unfold nop at h
    injection h with h
    exact ⟨ctx, AnyStep.anyRefl ctx, .unchanged h.symm⟩
  case unreachable =>
    exact ⟨ctx, AnyStep.anyRefl ctx, .unreachable h⟩
  case drop =>
    unfold drop at h
    split at h
    · cases h
    · rename_i hpop
      injection h with h
      subst h
      exact ⟨_, anyStep_popOperand hpop, .unchanged rfl⟩
  case select =>
    exact ⟨ctx1, anyStep_select h, .unchanged rfl⟩
  case get_local variableIndex =>
    unfold get_local at h
    split at h
    · cases h
    · rename_i localType hindex
      injection h with h
      exact ⟨ctx1, h ▸ anyStep_pushOperand _ _
        (hclean.1 _ (validateLocalIndex_mem hindex)), .unchanged rfl⟩
  case set_local variableIndex =>
    unfold set_local at h
    split at h
    · cases h
    · exact ⟨ctx1, anyStep_popAndValidateOperand h, .unchanged rfl⟩
  case tee_local variableIndex =>
    unfold tee_local at h
    split at h
    · cases h
    · rename_i localType hindex
      split at h
      · cases h
      · rename_i hpop
        injection h with h
        exact ⟨ctx1, (anyStep_popAndValidateOperand hpop).anyTrans
          (h ▸ anyStep_pushOperand _ _ (hclean.1 _ (validateLocalIndex_mem hindex))),
          .unchanged rfl⟩
  case get_global variableIndex =>
    unfold get_global at h
    split at h
    · cases h
    · rename_i valueType hindex
      injection h with h
      obtain ⟨globalType, hget, htype⟩ := validateGlobalIndex_type hindex
      exact ⟨ctx1, h ▸ anyStep_pushOperand _ _ (htype ▸ hclean.2 _ _ hget),
        .unchanged rfl⟩
  case set_global variableIndex =>
    unfold set_global at h
    split at h
    · cases h
    · exact ⟨ctx1, anyStep_popAndValidateOperand h, .unchanged rfl⟩
  case call functionIndex =>
    unfold call at h
    split at h
    · cases h
    · split at h
      · cases h
      · rename_i hpop
        injection h with h
        exact ⟨ctx1, (anyStep_popAndValidateOperands hpop).anyTrans
          (h ▸ anyStep_pushOperandResult _ _), .unchanged rfl⟩
  case call_indirect typeIndex =>
    unfold call_indirect at h
    split at h
    · cases h
    · split at h
      · cases h
      · split at h
        · cases h
        · split at h
          · cases h
          · rename_i hpop1
            split at h
            · cases h
            · rename_i hpop2
              injection h with h
              exact ⟨ctx1, ((anyStep_popAndValidateOperand hpop1).anyTrans
                (anyStep_popAndValidateOperands hpop2)).anyTrans
                  (h ▸ anyStep_pushOperandResult _ _), .unchanged rfl⟩
  case grow_memory =>
    unfold grow_memory at h
    split at h
    · cases h
    · split at h
      · cases h
      · rename_i hpop
        injection h with h
        exact ⟨ctx1, (anyStep_popAndValidateOperand hpop).anyTrans
          (h ▸ anyStep_pushOperand _ _ (by decide)), .unchanged rfl⟩
  case current_memory =>
    unfold current_memory at h
    split at h
    · cases h
    · injection h with h
      exact ⟨ctx1, h ▸ anyStep_pushOperand _ _ (by decide), .unchanged rfl⟩
  case error => cases h
  case i32_const value =>
    injection h with h
    exact ⟨ctx1, h ▸ anyStep_pushOperand _ _ (by decide), .unchanged rfl⟩
  case i64_const value =>
    injection h with h
    exact ⟨ctx1, h ▸ anyStep_pushOperand _ _ (by decide), .unchanged rfl⟩
  case f32_const bits =>
    injection h with h
    exact ⟨ctx1, h ▸ anyStep_pushOperand _ _ (by decide), .unchanged rfl⟩
  case f64_const bits =>
    injection h with h
    exact ⟨ctx1, h ▸ anyStep_pushOperand _ _ (by decide), .unchanged rfl⟩
  case load op alignmentLog2 offset =>
    unfold load at h
    split at h
    · cases h
    · rename_i hpop
      split at h
      · cases h
      · injection h with h
        exact ⟨ctx1, (anyStep_popAndValidateOperand hpop).anyTrans
          (h ▸ anyStep_pushOperand _ _ (LoadOp.resultType_ne_any op)), .unchanged rfl⟩
  case store op alignmentLog2 offset =>
    unfold store at h
    split at h
    · cases h
    · rename_i hpop
      split at h
      · cases h
      · injection h with h
        subst h
        exact ⟨_, anyStep_popAndValidateOperands hpop, .unchanged rfl⟩
  case binary op =>
    unfold binary at h
    split at h
    · cases h
    · rename_i hpop
      injection h with h
      exact ⟨ctx1, (anyStep_popAndValidateOperands hpop).anyTrans
        (h ▸ anyStep_pushOperand _ _ (BinaryOp.resultTypeId_ne_any op)), .unchanged rfl⟩
  case unary op =>
    unfold unary at h
    split at h
    · cases h
    · rename_i hpop
      injection h with h
      exact ⟨ctx1, (anyStep_popAndValidateOperand hpop).anyTrans
        (h ▸ anyStep_pushOperand _ _ (UnaryOp.unaryResult_ne_any op)), .unchanged rfl⟩

end FunctionValidationContext

theorem controlEffect_sameFunction {mid ctx1 : FunctionValidationContext}
    (h : ControlEffect mid ctx1) : SameFunction mid ctx1 := by
  cases h with
  | unchanged h => subst h; exact ⟨rfl, rfl, rfl, rfl⟩
  | unreachable h =>
    obtain ⟨_, _, _, _, _, hsame⟩ := FunctionValidationContext.enterUnreachable_ok h
    exact hsame
  | push type branchArgumentType resultType h _ _ _ => subst h; exact ⟨rfl, rfl, rfl, rfl⟩
  | pop isElse h =>
    obtain ⟨_, _, _, _, hsame, _⟩ := FunctionValidationContext.popControlStack_ok h
    exact hsame

theorem cleanTypes_sameFunction {ctx ctx1 : FunctionValidationContext}
    (hclean : CleanTypes ctx) (h : SameFunction ctx ctx1) : CleanTypes ctx1 := by
  obtain ⟨hmodule, _, _, hlocals⟩ := h
  unfold CleanTypes
  rw [hmodule, hlocals]
  exact hclean

theorem anyAtFloor_controlEffect {mid ctx1 : FunctionValidationContext}
    (hfloors : FloorsOrdered mid) (hany : AnyAtUnreachableFloor mid)
    (h : ControlEffect mid ctx1) : AnyAtUnreachableFloor ctx1 := by
  cases h with
  | unchanged h => subst h; exact hany
  | unreachable h =>
    obtain ⟨outer, back, hcs, hcs1, hstack1, _⟩ :=
      FunctionValidationContext.enterUnreachable_ok h
    have hbackle : back.outerStackSize ≤ mid.stack.length := hfloors.2 back (by simp [hcs])
    rw [resizeStack_of_le hbackle] at hstack1
    intro i hi
    rw [hstack1, List.getElem?_take] at hi
    split at hi
    · rename_i hlt
      have hmid := hany i hi
      rw [hcs] at hmid
      rw [hcs1]
      exact (hmid.within_outer hlt).extend _ (fun c hc => by
        simp only [List.mem_singleton] at hc
        subst hc
        exact hlt)
    · cases hi
  | push type branchArgumentType resultType h _ _ _ =>
    subst h
    intro i hi
    have hi1 : mid.stack[i]? = some ValueType.any := hi
    have hlt : i < mid.stack.length := (List.getElem?_eq_some_iff.1 hi1).1
    exact (hany i hi1).extend _ (fun c hc => by
      simp only [List.mem_singleton] at hc
      subst hc
      exact hlt)
  | pop isElse h =>
    obtain ⟨outer, back, hcs, hlen, _, hcase | hcase⟩ :=
      FunctionValidationContext.popControlStack_ok h
    · obtain ⟨_, _, hcs1, hstack1⟩ := hcase
      intro i hi
      rw [hstack1] at hi
      have hlt : i < mid.stack.length := (List.getElem?_eq_some_iff.1 hi).1
      have hmid := hany i hi
      rw [hcs] at hmid
      rw [hcs1]
      exact (hmid.within_outer (by omega)).extend _ (fun c hc => by
        simp only [List.mem_singleton] at hc
        subst hc
        show i < back.outerStackSize
        omega)
    · obtain ⟨_, _, hcs1, hstack1⟩ := hcase
      intro i hi
      rw [hstack1, List.getElem?_append] at hi
      rw [hcs1]
      split at hi
      · rename_i hlt
        have hmid := hany i hi
        rw [hcs] at hmid
        exact hmid.within_outer (by omega)
      · exfalso
        split at hi
        · simp at hi
        · rename_i hpush
          have hne : back.resultType ≠ ResultType.none := fun hnone => hpush (Or.inr hnone)
          have hidx : i - mid.stack.length = 0 ∨ 0 < i - mid.stack.length :=
            Nat.eq_zero_or_pos _
          rcases hidx with hz | hpos
          · rw [hz] at hi
            simp only [List.getElem?_cons_zero, Option.some.injEq] at hi
            exact asValueType_ne_any hne hi
          · have hnone : [asValueType back.resultType][i - mid.stack.length]? = none := by
              apply List.getElem?_eq_none
              simp only [List.length_singleton]
              omega
            rw [hnone] at hi
            cases hi

/-- In an accepted module the context constructed for one of its function definitions has
clean types: no local and no global has type `any`. -/
theorem cleanTypes_create {module : Module} {functionDef : FunctionDef}
    {ctx : FunctionValidationContext} (hvalid : validateDefinitions module = .ok ())
    (hmem : functionDef ∈ module.functions.defs)
    (h : FunctionValidationContext.create module functionDef = .ok ctx) : CleanTypes ctx := by
  have hsteps := validateDefinitions_steps hvalid
  have htypes := hsteps (forEach validateFunctionType module.types)
    (by simp [validateDefinitionsSteps])
  have hdefs := hsteps (forEach (validateFunctionDefType module) module.functions.defs)
    (by simp [validateDefinitionsSteps])
  have hglobalImports := hsteps (forEach validateGlobalImport module.globals.imports)
    (by simp [validateDefinitionsSteps])
  have hglobalDefs := hsteps (forEach (validateGlobalDef module) module.globals.defs)
    (by simp [validateDefinitionsSteps])
  rw [forEach_eq_ok] at htypes hdefs hglobalImports hglobalDefs
  have hvalue : ∀ {type : ValueType}, validateValueType type = .ok () →
      type ≠ ValueType.any := by
    intro type hok hany
    subst hany
    simp [validateValueType] at hok
  unfold FunctionValidationContext.create at h
  split at h
  · cases h
  · rename_i functionType htype
    injection h with h
    subst h
    constructor
    · intro type hin
      simp only [FunctionValidationContext.pushControlStack, List.mem_append] at hin
      rcases hin with hin | hin
      · have hft := htypes functionType (List.getElem?_mem htype)
        unfold validateFunctionType at hft
        split at hft
        · cases hft
        · rename_i hparams
          exact hvalue ((forEach_eq_ok _ _).1 hparams type hin)
      · have hdef := hdefs functionDef hmem
        unfold validateFunctionDefType at hdef
        split at hdef
        · cases hdef
        · exact hvalue ((forEach_eq_ok _ _).1 hdef type hin)
    · intro index globalType hget
      have hget1 : module.globals.getType GlobalDef.type index = some globalType := hget
      rcases IndexSpace.getType_mem GlobalDef.type _ hget1 with hin | ⟨definition, hin, heq⟩
      · have himport := hglobalImports globalType hin
        unfold validateGlobalImport at himport
        split at himport
        · cases himport
        · rename_i hglobal
          exact hvalue hglobal
      · have hdef := hglobalDefs definition hin
        unfold validateGlobalDef at hdef
        split at hdef
        · cases hdef
        · rename_i hglobal
          rw [← heq]
          exact hvalue hglobal

theorem anyAtFloor_create {module : Module} {functionDef : FunctionDef}
    {ctx : FunctionValidationContext}
    (h : FunctionValidationContext.create module functionDef = .ok ctx) :
    AnyAtUnreachableFloor ctx := by
  unfold FunctionValidationContext.create at h
  split at h
  · cases h
  · injection h with h
    subst h
    intro i hi
    simp [FunctionValidationContext.pushControlStack] at hi

/-- The invariants of a state reachable in an accepted module: clean types, ordered floors, and
every `any` at the floor of an unreachable context. -/
theorem ValidatedReachable.sound {module : Module} {functionDef : FunctionDef}
    {ctx : FunctionValidationContext} (h : ValidatedReachable module functionDef ctx) :
    CleanTypes ctx ∧ FloorsOrdered ctx ∧ AnyAtUnreachableFloor ctx := by
  obtain ⟨hvalid, hmem, hreach⟩ := h
  induction hreach with
  | initial hcreate =>
    exact ⟨cleanTypes_create hvalid hmem hcreate,
      FunctionValidationContext.floorsOrdered_create hcreate, anyAtFloor_create hcreate⟩
  | step op _ hop ih =>
    obtain ⟨hclean, hfloors, hany⟩ := ih
    obtain ⟨mid, hstep, heffect⟩ := FunctionValidationContext.decodeOp_anyShape hclean hop
    have hfloorsMid := FunctionValidationContext.floorsOrdered_operandStep hfloors hstep.1
    exact ⟨cleanTypes_sameFunction (cleanTypes_sameFunction hclean hstep.1.1)
        (controlEffect_sameFunction heffect),
      FunctionValidationContext.floorsOrdered_controlEffect hfloorsMid heffect,
      anyAtFloor_controlEffect hfloorsMid (hstep.2 hfloors hany) heffect⟩

/-- In a state reachable in an accepted module whose innermost context is reachable, no entry
of the frame of that context is `any`. -/
theorem ValidatedReachable.frame_clean {module : Module} {functionDef : FunctionDef}
    {ctx : FunctionValidationContext} (h : ValidatedReachable module functionDef ctx)
    {back : ControlContext} (hback : ctx.controlStack.getLast? = some back)
    (hlive : back.isReachable = true) {i : Nat} (hfloor : back.outerStackSize ≤ i) :
    ctx.stack[i]? ≠ some ValueType.any := by
  intro hi
  have := (any_in_innermost_frame h.sound.2.2 hback hi hfloor).2
  rw [hlive] at this
  cases this

/-! ### The operator methods other than `select` put no `any` on the stack -/

theorem CleanStep.cleanRefl (ctx : FunctionValidationContext) : CleanStep ctx ctx :=
  ⟨OperandStep.refl ctx, fun _ h => h⟩

theorem CleanStep.cleanTrans {ctx ctx1 ctx2 : FunctionValidationContext}
    (h1 : CleanStep ctx ctx1) (h2 : CleanStep ctx1 ctx2) : CleanStep ctx ctx2 :=
  ⟨h1.1.trans h2.1, fun i hi => h1.2 i (h2.2 i hi)⟩

theorem cleanStep_pushOperand (ctx : FunctionValidationContext) (type : ValueType)
    (hclean : type ≠ ValueType.any) : CleanStep ctx (ctx.pushOperand type) := by
  refine ⟨FunctionValidationContext.operandStep_pushOperand ctx type, ?_⟩
  intro i hi
  simp only [FunctionValidationContext.pushOperand, List.getElem?_append] at hi
  split at hi
  · exact hi
  · have hidx : i - ctx.stack.length = 0 ∨ 0 < i - ctx.stack.length := Nat.eq_zero_or_pos _
    rcases hidx with hz | hpos
    · rw [hz] at hi
      simp only [List.getElem?_cons_zero, Option.some.injEq] at hi
      exact absurd hi hclean
    · have : [type][i - ctx.stack.length]? = none := by
        apply List.getElem?_eq_none
        simp only [List.length_singleton]
        omega
      rw [this] at hi
      cases hi

theorem cleanStep_pushOperandResult (ctx : FunctionValidationContext) (type : ResultType) :
    CleanStep ctx (ctx.pushOperandResult type) := by
  unfold FunctionValidationContext.pushOperandResult
  split
  · rename_i hne
    exact cleanStep_pushOperand ctx _ (asValueType_ne_any hne)
  · exact CleanStep.cleanRefl ctx

theorem cleanStep_popOperand {ctx ctx1 : FunctionValidationContext} {result : ValueType}
    (h : ctx.popOperand = .ok (result, ctx1)) : CleanStep ctx ctx1 := by
  refine ⟨FunctionValidationContext.operandStep_popOperand h, ?_⟩
  obtain ⟨back, _, hcase | hcase⟩ := FunctionValidationContext.popOperand_ok h
  · obtain ⟨_, _, rfl⟩ := hcase
    intro i hi
    have hi1 : ctx.stack.dropLast[i]? = some ValueType.any := hi
    rw [List.dropLast_eq_take, List.getElem?_take] at hi1
    split at hi1
    · exact hi1
    · cases hi1
  · obtain ⟨_, _, _, rfl⟩ := hcase
    exact fun _ hi => hi

theorem cleanStep_popAndValidateOperand {ctx ctx1 : FunctionValidationContext}
    {context : String} {expectedType : ValueType}
    (h : ctx.popAndValidateOperand context expectedType = .ok ctx1) : CleanStep ctx ctx1 := by
  obtain ⟨_, hpop, _⟩ := FunctionValidationContext.popAndValidateOperand_ok h
  exact cleanStep_popOperand hpop

theorem cleanStep_popAndValidateOperandsLoop (context : String) :
    ∀ (expectedTypes : List ValueType) (ctx ctx1 : FunctionValidationContext),
      FunctionValidationContext.popAndValidateOperandsLoop context expectedTypes ctx =
        .ok ctx1 → CleanStep ctx ctx1
  | [], ctx, ctx1, h => by
    simp only [FunctionValidationContext.popAndValidateOperandsLoop] at h
    injection h with h
    subst h
    exact CleanStep.cleanRefl ctx
  | expectedType :: remaining, ctx, ctx1, h => by
    simp only [FunctionValidationContext.popAndValidateOperandsLoop] at h
    split at h
    · cases h
    · rename_i actualType ctx2 hpop
      split at h
      · cases h
      · exact (cleanStep_popOperand hpop).cleanTrans
          (cleanStep_popAndValidateOperandsLoop context remaining ctx2 ctx1 h)

theorem cleanStep_popAndValidateOperands {ctx ctx1 : FunctionValidationContext}
    {context : String} {expectedTypes : List ValueType}
    (h : ctx.popAndValidateOperands context expectedTypes = .ok ctx1) : CleanStep ctx ctx1 :=
  cleanStep_popAndValidateOperandsLoop context _ ctx ctx1 h

theorem cleanStep_popAndValidateResultType {ctx ctx1 : FunctionValidationContext}
    {context : String} {expectedType : ResultType}
    (h : ctx.popAndValidateResultType context expectedType = .ok ctx1) :
    CleanStep ctx ctx1 := by
  unfold FunctionValidationContext.popAndValidateResultType at h
  split at h
  · exact cleanStep_popAndValidateOperand h
  · injection h with h
    subst h
    exact CleanStep.cleanRefl ctx

/-- A control effect on a state with ordered floors puts no `any` on the stack. -/
theorem anyFrom_controlEffect {mid ctx1 : FunctionValidationContext}
    (hfloors : FloorsOrdered mid) (h : ControlEffect mid ctx1) : AnyFrom mid ctx1 := by
  cases h with
  | unchanged h => subst h; exact fun _ hi => hi
  | unreachable h =>
    obtain ⟨outer, back, hcs, _, hstack1, _⟩ :=
      FunctionValidationContext.enterUnreachable_ok h
    have hbackle : back.outerStackSize ≤ mid.stack.length := hfloors.2 back (by simp [hcs])
    rw [resizeStack_of_le hbackle] at hstack1
    intro i hi
    rw [hstack1, List.getElem?_take] at hi
    split at hi
    · exact hi
    · cases hi
  | push type branchArgumentType resultType h _ _ _ => subst h; exact fun _ hi => hi
  | pop isElse h =>
    obtain ⟨outer, back, _, _, _, hcase | hcase⟩ :=
      FunctionValidationContext.popControlStack_ok h
    · obtain ⟨_, _, _, hstack1⟩ := hcase
      intro i hi
      rw [hstack1] at hi
      exact hi
    · obtain ⟨_, _, _, hstack1⟩ := hcase
      intro i hi
      rw [hstack1, List.getElem?_append] at hi
      split at hi
      · exact hi
      · exfalso
        split at hi
        · simp at hi
        · rename_i hpush
          have hne : back.resultType ≠ ResultType.none := fun hnone => hpush (Or.inr hnone)
          have hidx : i - mid.stack.length = 0 ∨ 0 < i - mid.stack.length :=
            Nat.eq_zero_or_pos _
          rcases hidx with hz | hpos
          · rw [hz] at hi
            simp only [List.getElem?_cons_zero, Option.some.injEq] at hi
            exact asValueType_ne_any hne hi
          · have hnone : [asValueType back.resultType][i - mid.stack.length]? = none := by
              apply List.getElem?_eq_none
              simp only [List.length_singleton]
              omega
            rw [hnone] at hi
            cases hi

namespace FunctionValidationContext

/-- Every successful operator method other than `select`, on a context with clean types, is a
sequence of operand moves that put no `any` on the stack, followed by one effect on the control
stack. -/
theorem decodeOp_cleanShape {ctx ctx1 : FunctionValidationContext} {op : Operation}
    (hclean : CleanTypes ctx) (hselect : op ≠ Operation.select)
    (h : ctx.decodeOp op = .ok ctx1) :
    ∃ mid, CleanStep ctx mid ∧ ControlEffect mid ctx1 := by
  cases op <;> simp only [decodeOp] at h
  case unknown opcode => cases h
  case block resultType =>
    unfold block at h
    split at h
    · cases h
    · injection h with h
      exact ⟨ctx, CleanStep.cleanRefl ctx, .push _ _ _ h.symm (Or.inl rfl) (by simp) (by simp)⟩
  case loop resultType =>
    unfold loop at h
    split at h
    · cases h
    · injection h with h
      exact ⟨ctx, CleanStep.cleanRefl ctx,
        .push _ _ _ h.symm (Or.inr (Or.inr rfl)) (by simp) (by simp)⟩
  case if_ resultType =>
    unfold if_ at h
    split at h
    · cases h
    · split at h
      · cases h
      · rename_i ctx2 hpop
        injection h with h
        exact ⟨ctx2, cleanStep_popAndValidateOperand hpop,
          .push _ _ _ h.symm (Or.inr (Or.inl rfl)) (by simp) (by simp)⟩
  case else_ =>
    unfold else_ at h
    split at h
    · cases h
    · split at h
      · cases h
      · rename_i ctx2 hpop
        exact ⟨ctx2, cleanStep_popAndValidateResultType hpop, .pop true h⟩
  case end_ =>
    unfold end_ at h
    split at h
    · cases h
    · split at h
      · cases h
      · rename_i ctx2 hpop
        exact ⟨ctx2, cleanStep_popAndValidateResultType hpop, .pop false h⟩
  case return_ =>
    unfold return_ at h
    split at h
    · cases h
    · rename_i ctx2 hpop
      exact ⟨ctx2, cleanStep_popAndValidateResultType hpop, .unreachable h⟩
  case br targetDepth =>
    unfold br at h
    split at h
    · cases h
    · split at h
      · cases h
      · rename_i ctx2 hpop
        exact ⟨ctx2, cleanStep_popAndValidateResultType hpop, .unreachable h⟩
  case br_table targetDepths defaultTargetDepth =>
    unfold br_table at h
    split at h
    · cases h
    · rename_i ctx2 hpop
      split at h
      · cases h
      · simp only at h
        split at h
        · cases h
        · rename_i ctx3 hpop3
          split at h
          · cases h
          · exact ⟨ctx3, (cleanStep_popAndValidateOperand hpop).cleanTrans
              (cleanStep_popAndValidateResultType hpop3), .unreachable h⟩
  case br_if targetDepth =>
    unfold br_if at h
    split at h
    · cases h
    · rename_i ctx2 hpop
      split at h
      · cases h
      · split at h
        · cases h
        · rename_i ctx3 hpop3
          split at h
          · cases h
          · injection h with h
            exact ⟨ctx1, ((cleanStep_popAndValidateOperand hpop).cleanTrans
              (cleanStep_popAndValidateResultType hpop3)).cleanTrans
                (h ▸ cleanStep_pushOperandResult ctx3 _), .unchanged rfl⟩
  case nop =>
    unfold nop at h
    injection h with h
    exact ⟨ctx, CleanStep.cleanRefl ctx, .unchanged h.symm⟩
  case unreachable =>
    exact ⟨ctx, CleanStep.cleanRefl ctx, .unreachable h⟩
  case drop =>
    unfold drop at h
    split at h
    · cases h
    · rename_i hpop
      injection h with h
      subst h
      exact ⟨_, cleanStep_popOperand hpop, .unchanged rfl⟩
  case select => exact absurd rfl hselect
  case get_local variableIndex =>
    unfold get_local at h
    split at h
    · cases h
    · rename_i localType hindex
      injection h with h
      exact ⟨ctx1, h ▸ cleanStep_pushOperand _ _
        (hclean.1 _ (validateLocalIndex_mem hindex)), .unchanged rfl⟩
  case set_local variableIndex =>
    unfold set_local at h
    split at h
    · cases h
    · exact ⟨ctx1, cleanStep_popAndValidateOperand h, .unchanged rfl⟩
  case tee_local variableIndex =>
    unfold tee_local at h
    split at h
    · cases h
    · rename_i localType hindex
      split at h
      · cases h
      · rename_i hpop
        injection h with h
        exact ⟨ctx1, (cleanStep_popAndValidateOperand hpop).cleanTrans
          (h ▸ cleanStep_pushOperand _ _ (hclean.1 _ (validateLocalIndex_mem hindex))),
          .unchanged rfl⟩
  case get_global variableIndex =>
    unfold get_global at h
    split at h
    · cases h
    · rename_i valueType hindex
      injection h with h
      obtain ⟨globalType, hget, htype⟩ := validateGlobalIndex_type hindex
      exact ⟨ctx1, h ▸ cleanStep_pushOperand _ _ (htype ▸ hclean.2 _ _ hget),
        .unchanged rfl⟩
  case set_global variableIndex =>
    unfold set_global at h
    split at h
    · cases h
    · exact ⟨ctx1, cleanStep_popAndValidateOperand h, .unchanged rfl⟩
  case call functionIndex =>
    unfold call at h
    split at h
    · cases h
    · split at h
      · cases h
      · rename_i hpop
        injection h with h
        exact ⟨ctx1, (cleanStep_popAndValidateOperands hpop).cleanTrans
          (h ▸ cleanStep_pushOperandResult _ _), .unchanged rfl⟩
  case call_indirect typeIndex =>
    unfold call_indirect at h
    split at h
    · cases h
    · split at h
      · cases h
      · split at h
        · cases h
        · split at h
          · cases h
          · rename_i hpop1
            split at h
            · cases h
            · rename_i hpop2
              injection h with h
              exact ⟨ctx1, ((cleanStep_popAndValidateOperand hpop1).cleanTrans
                (cleanStep_popAndValidateOperands hpop2)).cleanTrans
                  (h ▸ cleanStep_pushOperandResult _ _), .unchanged rfl⟩
  case grow_memory =>
    unfold grow_memory at h
    split at h
    · cases h
    · split at h
      · cases h
      · rename_i hpop
        injection h with h
        exact ⟨ctx1, (cleanStep_popAndValidateOperand hpop).cleanTrans
          (h ▸ cleanStep_pushOperand _ _ (by decide)), .unchanged rfl⟩
  case current_memory =>
    unfold current_memory at h
    split at h
    · cases h
    · injection h with h
      exact ⟨ctx1, h ▸ cleanStep_pushOperand _ _ (by decide), .unchanged rfl⟩
  case error => cases h
  case i32_const value =>
    injection h with h
    exact ⟨ctx1, h ▸ cleanStep_pushOperand _ _ (by decide), .unchanged rfl⟩
  case i64_const value =>
    injection h with h
    exact ⟨ctx1, h ▸ cleanStep_pushOperand _ _ (by decide), .unchanged rfl⟩
  case f32_const bits =>
    injection h with h
    exact ⟨ctx1, h ▸ cleanStep_pushOperand _ _ (by decide), .unchanged rfl⟩
  case f64_const bits =>
    injection h with h
    exact ⟨ctx1, h ▸ cleanStep_pushOperand _ _ (by decide), .unchanged rfl⟩
  case load op alignmentLog2 offset =>
    unfold load at h
    split at h
    · cases h
    · rename_i hpop
      split at h
      · cases h
      · injection h with h
        exact ⟨ctx1, (cleanStep_popAndValidateOperand hpop).cleanTrans
          (h ▸ cleanStep_pushOperand _ _ (LoadOp.resultType_ne_any op)), .unchanged rfl⟩
  case store op alignmentLog2 offset =>
    unfold store at h
    split at h
    · cases h
    · rename_i hpop
      split at h
      · cases h
      · injection h with h
        subst h
        exact ⟨_, cleanStep_popAndValidateOperands hpop, .unchanged rfl⟩
  case binary op =>
    unfold binary at h
    split at h
    · cases h
    · rename_i hpop
      injection h with h
      exact ⟨ctx1, (cleanStep_popAndValidateOperands hpop).cleanTrans
        (h ▸ cleanStep_pushOperand _ _ (BinaryOp.resultTypeId_ne_any op)), .unchanged rfl⟩
  case unary op =>
    unfold unary at h
    split at h
    · cases h
    · rename_i hpop
      injection h with h
      exact ⟨ctx1, (cleanStep_popAndValidateOperand hpop).cleanTrans
        (h ▸ cleanStep_pushOperand _ _ (UnaryOp.unaryResult_ne_any op)), .unchanged rfl⟩

end FunctionValidationContext

/-! ## `br_if`, `select` and the entries `any` -/

/-- An operand that matches a type other than `any` and is not `any` itself has that type. -/
theorem Matches.eq_of_ne_any {expectedType actualType : ValueType}
    (h : Matches expectedType actualType) (hexpected : expectedType ≠ ValueType.any)
    (hactual : actualType ≠ ValueType.any) : actualType = expectedType := by
  rcases h with h | h | h
  · exact h.symm
  · exact absurd h hexpected
  · exact absurd h hactual

/-- The sample state after `i32.const` in the function `() -> ()` of `sampleCallModule` is
reachable in an accepted module. -/
theorem sampleCallContext_reachable :
    ValidatedReachable sampleCallModule (sampleFunctionDef 1 [])
      (sampleCallContext [sampleFunctionContext] [ValueType.i32]) :=
  ⟨rfl, List.Mem.tail _ (List.Mem.head _),
    Reachable.step (Operation.i32_const 0) (Reachable.initial rfl) rfl⟩

/-- C12 amended, `br_if d` falls through with the argument restored: when `br_if d` succeeds,
with `T` the branch argument type of the target at depth `d`, the control stack is unchanged
(with all its reachability flags), and the operand stack is the old stack with the condition
popped and checked against `i32`, the argument popped and checked against `T`, and the value
type of `T` pushed back when `T` is not `none`. In a state, reached by successful operator
methods in a module that `validateDefinitions` accepts, whose innermost context is reachable
this is exactly the old stack without its top entry, which is the `i32` condition. -/
theorem br_if_falls_through (ctx ctx1 : FunctionValidationContext) (d : Nat)
    (h : ctx.br_if d = .ok ctx1) :
    ctx1.controlStack = ctx.controlStack ∧
    (∃ target ctxc ctxa, d < ctx.controlStack.length ∧
      ctx.controlStack[ctx.controlStack.length - d - 1]? = some target ∧
      ctx.popAndValidateOperand "br_if condition" ValueType.i32 = .ok ctxc ∧
      ctxc.popAndValidateResultType "br_if argument" target.branchArgumentType = .ok ctxa ∧
      ctx1.stack = ctxa.stack ++
        (if target.branchArgumentType = ResultType.none then []
         else [asValueType target.branchArgumentType])) ∧
    (∀ module functionDef back, ValidatedReachable module functionDef ctx →
      ctx.controlStack.getLast? = some back → back.isReachable = true →
      ctx.stack = ctx1.stack ++ [ValueType.i32]) := by
  unfold FunctionValidationContext.br_if at h
  split at h
  · cases h
  · rename_i ctxc hpopc
    have hcsc := (FunctionValidationContext.operandStep_popAndValidateOperand hpopc).2.1
    split at h
    · cases h
    · rename_i target hget
      split at h
      · cases h
      · rename_i ctxa hpopa
        have hcsa := (FunctionValidationContext.operandStep_popAndValidateResultType hpopa).2.1
        split at h
        · cases h
        · rename_i target2 hget2
          injection h with h
          rw [getBranchTargetByDepth_congr hcsc] at hget
          rw [getBranchTargetByDepth_congr (hcsa.trans hcsc), hget] at hget2
          injection hget2 with hget2
          subst hget2
          have hlt : d < ctx.controlStack.length := by
            by_contra hnot
            rw [getBranchTargetByDepth_of_ge (Nat.le_of_not_lt hnot)] at hget
            cases hget
          obtain ⟨target1, htarget, hget1⟩ := getBranchTargetByDepth_of_lt hlt
          rw [hget1] at hget
          injection hget with hget
          subst hget
          have hstack1 : ctx1.stack = ctxa.stack ++
              (if target1.branchArgumentType = ResultType.none then []
               else [asValueType target1.branchArgumentType]) := by
            rw [← h]
            unfold FunctionValidationContext.pushOperandResult
            by_cases hnone : target1.branchArgumentType = ResultType.none
            · simp [hnone]
            · simp [hnone, FunctionValidationContext.pushOperand]
          refine ⟨?_, ⟨target1, ctxc, ctxa, hlt, htarget, hpopc, hpopa, hstack1⟩, ?_⟩
          · rw [← h]
            unfold FunctionValidationContext.pushOperandResult
            split
            · exact hcsa.trans hcsc
            · exact hcsa.trans hcsc
          · intro module functionDef back hvalid hback hlive
            obtain ⟨condition, hpop, hmatch⟩ :=
              FunctionValidationContext.popAndValidateOperand_ok hpopc
            obtain ⟨restc, hstackc, hfloorc, hctxc⟩ :=
              (popOperand_reachable_iff hback hlive condition ctxc).1 hpop
            have hcondition : condition = ValueType.i32 := by
              apply hmatch.eq_of_ne_any (by decide)
              intro hany
              apply hvalid.frame_clean hback hlive hfloorc
              rw [hstackc, hany]
              exact List.getElem?_concat_length _ _
            subst hcondition
            rw [hstackc, hstack1]
            by_cases hnone : target1.branchArgumentType = ResultType.none
            · simp only [hnone, if_true, List.append_nil]
              simp only [FunctionValidationContext.popAndValidateResultType, hnone, ne_eq,
                not_true_eq_false, if_false] at hpopa
              injection hpopa with hpopa
              rw [← hpopa, hctxc]
            · simp only [hnone, if_false]
              simp only [FunctionValidationContext.popAndValidateResultType, ne_eq, hnone,
                not_false_eq_true, if_true] at hpopa
              obtain ⟨argument, hpop2, hmatch2⟩ :=
                FunctionValidationContext.popAndValidateOperand_ok hpopa
              have hbackc : ctxc.controlStack.getLast? = some back := by
                rw [hcsc]
                exact hback
              obtain ⟨resta, hstacka, hfloora, hctxa⟩ :=
                (popOperand_reachable_iff hbackc hlive argument ctxa).1 hpop2
              have hrestc : restc = resta ++ [argument] := by
                rw [hctxc] at hstacka
                exact hstacka
              have hargument : argument = asValueType target1.branchArgumentType := by
                apply hmatch2.eq_of_ne_any (asValueType_ne_any hnone)
                intro hany
                apply hvalid.frame_clean hback hlive hfloora
                rw [hstackc, hrestc, hany, List.getElem?_append_left (by simp)]
                exact List.getElem?_concat_length _ _
              rw [hrestc, hctxa, hargument]

theorem br_if_falls_through_witness :
    (sampleCallContext [sampleFunctionContext,
        sampleInnerContext ControlContextType.block 0 ResultType.i32 true]
        [ValueType.i32]).controlStack =
      (sampleCallContext [sampleFunctionContext,
        sampleInnerContext ControlContextType.block 0 ResultType.i32 true]
        [ValueType.i32, ValueType.i32]).controlStack ∧
    (sampleCallContext [sampleFunctionContext,
        sampleInnerContext ControlContextType.block 0 ResultType.i32 true]
        [ValueType.i32, ValueType.i32]).stack =
      (sampleCallContext [sampleFunctionContext,
        sampleInnerContext ControlContextType.block 0 ResultType.i32 true]
        [ValueType.i32]).stack ++ [ValueType.i32] :=
  ⟨(br_if_falls_through
      (sampleCallContext [sampleFunctionContext,
        sampleInnerContext ControlContextType.block 0 ResultType.i32 true]
        [ValueType.i32, ValueType.i32])
      (sampleCallContext [sampleFunctionContext,
        sampleInnerContext ControlContextType.block 0 ResultType.i32 true]
        [ValueType.i32]) 0 rfl).1,
    (br_if_falls_through
      (sampleCallContext [sampleFunctionContext,
        sampleInnerContext ControlContextType.block 0 ResultType.i32 true]
        [ValueType.i32, ValueType.i32])
      (sampleCallContext [sampleFunctionContext,
        sampleInnerContext ControlContextType.block 0 ResultType.i32 true]
        [ValueType.i32]) 0 rfl).2.2 sampleCallModule (sampleFunctionDef 1 [])
      (sampleInnerContext ControlContextType.block 0 ResultType.i32 true)
      ⟨rfl, List.Mem.tail _ (List.Mem.head _),
        Reachable.step (Operation.i32_const 1)
          (Reachable.step (Operation.i32_const 0)
            (Reachable.step (Operation.block ResultType.i32) (Reachable.initial rfl) rfl)
            rfl) rfl⟩ rfl rfl⟩

/-- C14 amended, the result type of `select`: when `select` succeeds, with `condition`,
`falseType` and `trueType` the types returned by its three pops in that order, `condition`
matches `i32` and `falseType` matches `trueType` under the relaxed rule, and exactly one
operand is pushed on the stack left by the pops, which is `falseType`: the matched type when
the two types are equal and when `trueType` is `any`; when `falseType` is `any` the pushed type
is `any`, which is `trueType` in every state reached by successful operator methods in a module
that `validateDefinitions` accepts (there a second pop that returns `any` leaves the stack at
the floor of an unreachable context, so the third pop returns `any` too). -/
theorem select_result_type (ctx ctx1 : FunctionValidationContext)
    (h : ctx.select = .ok ctx1) :
    ∃ condition falseType trueType ctxa ctxb ctxc pushed,
      ctx.popOperand = .ok (condition, ctxa) ∧ ctxa.popOperand = .ok (falseType, ctxb) ∧
      ctxb.popOperand = .ok (trueType, ctxc) ∧
      (ValueType.i32 = condition ∨ ValueType.i32 = ValueType.any ∨
        condition = ValueType.any) ∧
      (falseType = trueType ∨ falseType = ValueType.any ∨ trueType = ValueType.any) ∧
      ctx1.controlStack = ctx.controlStack ∧ ctx1.stack = ctxc.stack ++ [pushed] ∧
      (falseType = trueType → pushed = falseType) ∧
      (trueType = ValueType.any → pushed = falseType) ∧
      (∀ module functionDef, ValidatedReachable module functionDef ctx →
        falseType = ValueType.any → pushed = trueType) ∧
      pushed = falseType := by
  obtain ⟨condition, falseType, trueType, ctxa, ctxb, ctxc, hpop1, hpop2, hpop3, hcond,
    hmatch, rfl⟩ := select_ok h
  refine ⟨condition, falseType, trueType, ctxa, ctxb, ctxc, falseType, hpop1, hpop2, hpop3,
    hcond, hmatch, ?_, rfl, fun _ => rfl, fun _ => rfl, ?_, rfl⟩
  · show ctxc.controlStack = ctx.controlStack
    rw [(FunctionValidationContext.operandStep_popOperand hpop3).2.1,
      (FunctionValidationContext.operandStep_popOperand hpop2).2.1,
      (FunctionValidationContext.operandStep_popOperand hpop1).2.1]
  · intro module functionDef hvalid hf
    subst hf
    obtain ⟨_, hfloors, hany⟩ := hvalid.sound
    have hfloorsa := FunctionValidationContext.floorsOrdered_operandStep hfloors
      (FunctionValidationContext.operandStep_popOperand hpop1)
    have hanya := (anyStep_popOperand hpop1).2 hfloors hany
    obtain ⟨outer, back, hcs, hdead, hlen⟩ := pop_any_leaves_floor hfloorsa hanya hpop2
    rw [popOperand_at_dead_floor hcs hdead hlen] at hpop3
    exact (Prod.mk.inj (Except.ok.inj hpop3)).1

theorem select_result_type_witness :
    ∃ condition falseType trueType ctxa ctxb ctxc pushed,
      (sampleCallContext
        [sampleInnerContext ControlContextType.function 0 ResultType.none false]
        [ValueType.i32]).popOperand = .ok (condition, ctxa) ∧
      ctxa.popOperand = .ok (falseType, ctxb) ∧ ctxb.popOperand = .ok (trueType, ctxc) ∧
      (ValueType.i32 = condition ∨ ValueType.i32 = ValueType.any ∨
        condition = ValueType.any) ∧
      (falseType = trueType ∨ falseType = ValueType.any ∨ trueType = ValueType.any) ∧
      (sampleCallContext
        [sampleInnerContext ControlContextType.function 0 ResultType.none false]
        [ValueType.any]).controlStack =
        (sampleCallContext
          [sampleInnerContext ControlContextType.function 0 ResultType.none false]
          [ValueType.i32]).controlStack ∧
      (sampleCallContext
        [sampleInnerContext ControlContextType.function 0 ResultType.none false]
        [ValueType.any]).stack = ctxc.stack ++ [pushed] ∧
      (falseType = trueType → pushed = falseType) ∧
      (trueType = ValueType.any → pushed = falseType) ∧
      (∀ module functionDef, ValidatedReachable module functionDef
          (sampleCallContext
            [sampleInnerContext ControlContextType.function 0 ResultType.none false]
            [ValueType.i32]) →
        falseType = ValueType.any → pushed = trueType) ∧
      pushed = falseType :=
  select_result_type
    (sampleCallContext
      [sampleInnerContext ControlContextType.function 0 ResultType.none false]
      [ValueType.i32])
    (sampleCallContext
      [sampleInnerContext ControlContextType.function 0 ResultType.none false]
      [ValueType.any]) rfl

/-- C15 as stated fails: in the accepted module `sampleCallModule`, after `unreachable; select`
in its function `() -> ()` the three pops of `select` return `any` and `select` pushes the type
of its second pop, so the operand stack holds an `any`. -/
theorem any_stored_counterexample :
    ValidatedReachable sampleCallModule (sampleFunctionDef 1 [])
      (sampleCallContext
        [sampleInnerContext ControlContextType.function 0 ResultType.none false]
        [ValueType.any]) ∧
    ValueType.any ∈ (sampleCallContext
      [sampleInnerContext ControlContextType.function 0 ResultType.none false]
      [ValueType.any]).stack :=
  ⟨⟨rfl, List.Mem.tail _ (List.Mem.head _),
    Reachable.step Operation.select
      (Reachable.step Operation.unreachable (Reachable.initial rfl) rfl) rfl⟩,
    List.Mem.head _⟩

/-- C15 amended, `any` lies only at unreachable floors: in every state reached by successful
operator methods for a function of an accepted module, every operand-stack entry `any` sits at
the floor of an unreachable control context, in the frame of that context; a pop returns `any`
only when the innermost context is unreachable; no operator method other than `select` puts an
`any` on the stack; and an `any` put there by `select` is the top entry and sits at the floor
of the unreachable innermost context. -/
theorem any_only_at_unreachable_floor (module : Module) (functionDef : FunctionDef)
    (ctx : FunctionValidationContext) (h : ValidatedReachable module functionDef ctx) :
    (∀ i : Nat, ctx.stack[i]? = some ValueType.any →
      UnreachableFloorAt ctx.controlStack i) ∧
    (∀ ctx1, ctx.popOperand = .ok (ValueType.any, ctx1) →
      ∃ outer back, ctx.controlStack = outer ++ [back] ∧ back.isReachable = false) ∧
    (∀ op ctx1, op ≠ Operation.select → ctx.decodeOp op = .ok ctx1 →
      ∀ i : Nat, ctx1.stack[i]? = some ValueType.any → ctx.stack[i]? = some ValueType.any) ∧
    (∀ ctx1, ctx.decodeOp Operation.select = .ok ctx1 →
      ∀ i : Nat, ctx1.stack[i]? = some ValueType.any →
        ctx.stack[i]? = some ValueType.any ∨
        ∃ outer back, ctx.controlStack = outer ++ [back] ∧ back.isReachable = false ∧
          back.outerStackSize = i ∧ ctx1.stack.length = i + 1) := by
  obtain ⟨hclean, hfloors, hany⟩ := h.sound
  refine ⟨hany, ?_, ?_, ?_⟩
  · intro ctx1 hpop
    obtain ⟨outer, back, hcs, hdead, _⟩ := pop_any_leaves_floor hfloors hany hpop
    rw [(FunctionValidationContext.operandStep_popOperand hpop).2.1] at hcs
    exact ⟨outer, back, hcs, hdead⟩
  · intro op ctx1 hselect hop i hi
    obtain ⟨mid, hstep, heffect⟩ :=
      FunctionValidationContext.decodeOp_cleanShape hclean hselect hop
    have hfloorsMid := FunctionValidationContext.floorsOrdered_operandStep hfloors hstep.1
    exact hstep.2 i (anyFrom_controlEffect hfloorsMid heffect i hi)
  · intro ctx1 hop i hi
    have hsel : ctx.select = .ok ctx1 := hop
    obtain ⟨condition, falseType, trueType, ctxa, ctxb, ctxc, hpop1, hpop2, hpop3, _, _,
      rfl⟩ := select_ok hsel
    have hpops : CleanStep ctx ctxc :=
      ((cleanStep_popOperand hpop1).cleanTrans (cleanStep_popOperand hpop2)).cleanTrans
        (cleanStep_popOperand hpop3)
    simp only [FunctionValidationContext.pushOperand, List.getElem?_append] at hi
    split at hi
    · exact Or.inl (hpops.2 i hi)
    · rename_i hnot
      right
      have hidx : i - ctxc.stack.length = 0 ∨ 0 < i - ctxc.stack.length :=
        Nat.eq_zero_or_pos _
      rcases hidx with hz | hpos
      · rw [hz] at hi
        simp only [List.getElem?_cons_zero, Option.some.injEq] at hi
        subst hi
        have hfloorsa := FunctionValidationContext.floorsOrdered_operandStep hfloors
          (FunctionValidationContext.operandStep_popOperand hpop1)
        have hanya := (anyStep_popOperand hpop1).2 hfloors hany
        obtain ⟨outer, back, hcs, hdead, hlen⟩ := pop_any_leaves_floor hfloorsa hanya hpop2
        rw [popOperand_at_dead_floor hcs hdead hlen] at hpop3
        injection hpop3 with hpop3
        injection hpop3 with _ hctx
        subst hctx
        have hcs0 : ctx.controlStack = outer ++ [back] := by
          rw [← hcs, (FunctionValidationContext.operandStep_popOperand hpop2).2.1,
            (FunctionValidationContext.operandStep_popOperand hpop1).2.1]
        refine ⟨outer, back, hcs0, hdead, by omega, ?_⟩
        simp only [FunctionValidationContext.pushOperand, List.length_append,
          List.length_singleton]
        omega
      · have hnone : [falseType][i - ctxc.stack.length]? = none := by
          apply List.getElem?_eq_none
          simp only [List.length_singleton]
          omega
        rw [hnone] at hi
        cases hi

theorem any_only_at_unreachable_floor_witness :
    UnreachableFloorAt
      (sampleCallContext
        [sampleInnerContext ControlContextType.function 0 ResultType.none false]
        [ValueType.any]).controlStack 0 :=
  (any_only_at_unreachable_floor sampleCallModule (sampleFunctionDef 1 [])
    (sampleCallContext
      [sampleInnerContext ControlContextType.function 0 ResultType.none false]
      [ValueType.any])
    ⟨rfl, List.Mem.tail _ (List.Mem.head _),
      Reachable.step Operation.select
        (Reachable.step Operation.unreachable (Reachable.initial rfl) rfl) rfl⟩).1 0 rfl

/-! ## The numeric operators -/

theorem BinaryOp.operandTypeId_ne_any (op : BinaryOp) : op.operandTypeId ≠ ValueType.any := by
  cases op <;> decide

theorem UnaryOp.unaryOperand_ne_any (op : UnaryOp) : op.operandTypeId ≠ ValueType.any := by
  cases op <;> decide

theorem getElem?_append_pair {α : Type} (rest : List α) (lower upper : α) :
    (rest ++ [lower, upper])[rest.length]? = some lower ∧
      (rest ++ [lower, upper])[rest.length + 1]? = some upper := by
  constructor
  · rw [List.getElem?_append_right (Nat.le_refl _)]
    simp
  · rw [List.getElem?_append_right (Nat.le_succ _)]
    simp

/-- In a reachable innermost context a binary operator succeeds exactly when the frame holds
two operands that match its operand type; they are replaced by its result type. -/
theorem binary_reachable_iff {ctx : FunctionValidationContext} {back : ControlContext}
    (hback : ctx.controlStack.getLast? = some back) (hlive : back.isReachable = true)
    (op : BinaryOp) (ctx1 : FunctionValidationContext) :
    ctx.decodeOp (Operation.binary op) = .ok ctx1 ↔
      ∃ rest lower upper, ctx.stack = rest ++ [lower, upper] ∧
        back.outerStackSize ≤ rest.length ∧ Matches op.operandTypeId lower ∧
        Matches op.operandTypeId upper ∧
        ctx1 = { ctx with stack := rest ++ [op.resultTypeId] } := by
  simp only [FunctionValidationContext.decodeOp, FunctionValidationContext.binary]
  constructor
  · intro h
    split at h
    · cases h
    · rename_i ctx2 hpop
      injection h with h
      obtain ⟨rest, lower, upper, hstack, hfloor, hlower, hupper, rfl⟩ :=
        (popAndValidateOperands_pair_iff hback hlive _ _ _ ctx2).1 hpop
      exact ⟨rest, lower, upper, hstack, hfloor, hlower, hupper, h.symm⟩
  · rintro ⟨rest, lower, upper, hstack, hfloor, hlower, hupper, rfl⟩
    have hpop := (popAndValidateOperands_pair_iff hback hlive op.nameString op.operandTypeId
      op.operandTypeId { ctx with stack := rest }).2
      ⟨rest, lower, upper, hstack, hfloor, hlower, hupper, rfl⟩
    rw [hpop]
    rfl

/-- In a reachable innermost context a unary operator succeeds exactly when the frame holds an
operand that matches its operand type; it is replaced by the result type. -/
theorem unary_reachable_iff {ctx : FunctionValidationContext} {back : ControlContext}
    (hback : ctx.controlStack.getLast? = some back) (hlive : back.isReachable = true)
    (op : UnaryOp) (ctx1 : FunctionValidationContext) :
    ctx.decodeOp (Operation.unary op) = .ok ctx1 ↔
      ∃ rest operand, ctx.stack = rest ++ [operand] ∧ back.outerStackSize ≤ rest.length ∧
        Matches op.operandTypeId operand ∧
        ctx1 = { ctx with stack := rest ++ [op.resultTypeId] } := by
  simp only [FunctionValidationContext.decodeOp, FunctionValidationContext.unary]
  constructor
  · intro h
    split at h
    · cases h
    · rename_i ctx2 hpop
      injection h with h
      obtain ⟨operand, hpop1, hmatch⟩ := FunctionValidationContext.popAndValidateOperand_ok hpop
      obtain ⟨rest, hstack, hfloor, rfl⟩ :=
        (popOperand_reachable_iff hback hlive operand ctx2).1 hpop1
      exact ⟨rest, operand, hstack, hfloor, hmatch, h.symm⟩
  · rintro ⟨rest, operand, hstack, hfloor, hmatch, rfl⟩
    have hpop := (popOperand_reachable_iff hback hlive operand
      { ctx with stack := rest }).2 ⟨rest, hstack, hfloor, rfl⟩
    simp only [FunctionValidationContext.popAndValidateOperand, hpop,
      FunctionValidationContext.validateOperandType_eq_ok.2 hmatch]
    rfl

/-- C20 amended, the numeric operator table has the signatures the operator names imply in the
Wasm MVP: for every operator declared with `VALIDATE_BINARY_OPCODE` or `VALIDATE_UNARY_OPCODE`
the operand type and result type of the table are those of its name (`TT.op` takes and yields
`TT`, a comparison or `eqz` yields `i32`, a conversion `X.op/Y` takes `Y` and yields `X`), with
two operands for the binary and one for the unary operators; `TT.const` pushes `TT`. In a
reachable context the method succeeds exactly when the top operands of the frame match those
types under the relaxed rule, and in a state reached by successful operator methods in a module
that `validateDefinitions` accepts exactly when they are those types; the operands are replaced
by the result type. `i32.const 1; i64.const 2; i32.add` is rejected with a type mismatch,
expected `i32`, got `i64`. -/
theorem numeric_signatures :
    (∀ op : BinaryOp, signatureOfName op.nameString =
      some ([op.operandTypeId, op.operandTypeId], op.resultTypeId)) ∧
    (∀ op : UnaryOp, signatureOfName op.nameString =
      some ([op.operandTypeId], op.resultTypeId)) ∧
    (∀ (ctx : FunctionValidationContext) (value : Int) (bits : Nat),
      ctx.decodeOp (Operation.i32_const value) = .ok (ctx.pushOperand ValueType.i32) ∧
      ctx.decodeOp (Operation.i64_const value) = .ok (ctx.pushOperand ValueType.i64) ∧
      ctx.decodeOp (Operation.f32_const bits) = .ok (ctx.pushOperand ValueType.f32) ∧
      ctx.decodeOp (Operation.f64_const bits) = .ok (ctx.pushOperand ValueType.f64)) ∧
    (∀ (ctx ctx1 : FunctionValidationContext) (back : ControlContext) (op : BinaryOp),
      ctx.controlStack.getLast? = some back → back.isReachable = true →
      (ctx.decodeOp (Operation.binary op) = .ok ctx1 ↔
        ∃ rest lower upper, ctx.stack = rest ++ [lower, upper] ∧
          back.outerStackSize ≤ rest.length ∧ Matches op.operandTypeId lower ∧
          Matches op.operandTypeId upper ∧
          ctx1 = { ctx with stack := rest ++ [op.resultTypeId] })) ∧
    (∀ (ctx ctx1 : FunctionValidationContext) (back : ControlContext) (op : UnaryOp),
      ctx.controlStack.getLast? = some back → back.isReachable = true →
      (ctx.decodeOp (Operation.unary op) = .ok ctx1 ↔
        ∃ rest operand, ctx.stack = rest ++ [operand] ∧ back.outerStackSize ≤ rest.length ∧
          Matches op.operandTypeId operand ∧
          ctx1 = { ctx with stack := rest ++ [op.resultTypeId] })) ∧
    (∀ (module : Module) (functionDef : FunctionDef) (ctx ctx1 : FunctionValidationContext)
        (back : ControlContext) (op : BinaryOp),
      ValidatedReachable module functionDef ctx →
      ctx.controlStack.getLast? = some back → back.isReachable = true →
      (ctx.decodeOp (Operation.binary op) = .ok ctx1 ↔
        ∃ rest, ctx.stack = rest ++ [op.operandTypeId, op.operandTypeId] ∧
          back.outerStackSize ≤ rest.length ∧
          ctx1 = { ctx with stack := rest ++ [op.resultTypeId] })) ∧
    (∀ (module : Module) (functionDef : FunctionDef) (ctx ctx1 : FunctionValidationContext)
        (back : ControlContext) (op : UnaryOp),
      ValidatedReachable module functionDef ctx →
      ctx.controlStack.getLast? = some back → back.isReachable = true →
      (ctx.decodeOp (Operation.unary op) = .ok ctx1 ↔
        ∃ rest, ctx.stack = rest ++ [op.operandTypeId] ∧ back.outerStackSize ≤ rest.length ∧
          ctx1 = { ctx with stack := rest ++ [op.resultTypeId] })) ∧
    validateFunctionDef sampleModule
        (sampleFunctionDef 0 [Operation.i32_const 1, Operation.i64_const 2,
          Operation.binary BinaryOp.i32_add, Operation.end_]) =
      .error (.operandTypeMismatch ValueType.i32 ValueType.i64 "i32.add") := by
  refine ⟨?_, ?_, fun ctx value bits => ⟨rfl, rfl, rfl, rfl⟩, ?_, ?_, ?_, ?_, rfl⟩
  · intro op
    cases op <;> rfl
  · intro op
    cases op <;> rfl
  · intro ctx ctx1 back op hback hlive
    exact binary_reachable_iff hback hlive op ctx1
  · intro ctx ctx1 back op hback hlive
    exact unary_reachable_iff hback hlive op ctx1
  · intro module functionDef ctx ctx1 back op hvalid hback hlive
    rw [binary_reachable_iff hback hlive]
    constructor
    · rintro ⟨rest, lower, upper, hstack, hfloor, hlower, hupper, hctx1⟩
      have hl : lower = op.operandTypeId := by
        apply hlower.eq_of_ne_any (BinaryOp.operandTypeId_ne_any op)
        intro hany
        apply hvalid.frame_clean hback hlive hfloor
        rw [hstack, hany]
        exact (getElem?_append_pair _ _ _).1
      have hu : upper = op.operandTypeId := by
        apply hupper.eq_of_ne_any (BinaryOp.operandTypeId_ne_any op)
        intro hany
        apply hvalid.frame_clean hback hlive (Nat.le_succ_of_le hfloor)
        rw [hstack, hany]
        exact (getElem?_append_pair _ _ _).2
      subst hl hu
      exact ⟨rest, hstack, hfloor, hctx1⟩
    · rintro ⟨rest, hstack, hfloor, hctx1⟩
      exact ⟨rest, _, _, hstack, hfloor, Or.inl rfl, Or.inl rfl, hctx1⟩
  · intro module functionDef ctx ctx1 back op hvalid hback hlive
    rw [unary_reachable_iff hback hlive]
    constructor
    · rintro ⟨rest, operand, hstack, hfloor, hmatch, hctx1⟩
      have ho : operand = op.operandTypeId := by
        apply hmatch.eq_of_ne_any (UnaryOp.unaryOperand_ne_any op)
        intro hany
        apply hvalid.frame_clean hback hlive hfloor
        rw [hstack, hany]
        simp
      subst ho
      exact ⟨rest, hstack, hfloor, hctx1⟩
    · rintro ⟨rest, hstack, hfloor, hctx1⟩
      exact ⟨rest, _, hstack, hfloor, Or.inl rfl, hctx1⟩

theorem numeric_signatures_witness :
    (sampleCallContext [sampleFunctionContext]
        [ValueType.i32, ValueType.i32]).decodeOp (Operation.binary BinaryOp.i32_add) =
        .ok (sampleCallContext [sampleFunctionContext] [ValueType.i32]) ↔
      ∃ rest, (sampleCallContext [sampleFunctionContext]
          [ValueType.i32, ValueType.i32]).stack =
          rest ++ [BinaryOp.i32_add.operandTypeId, BinaryOp.i32_add.operandTypeId] ∧
        sampleFunctionContext.outerStackSize ≤ rest.length ∧
        sampleCallContext [sampleFunctionContext] [ValueType.i32] =
          { sampleCallContext [sampleFunctionContext] [ValueType.i32, ValueType.i32] with
            stack := rest ++ [BinaryOp.i32_add.resultTypeId] } :=
  numeric_signatures.2.2.2.2.2.1 sampleCallModule (sampleFunctionDef 1 [])
    (sampleCallContext [sampleFunctionContext] [ValueType.i32, ValueType.i32])
    (sampleCallContext [sampleFunctionContext] [ValueType.i32]) sampleFunctionContext
    BinaryOp.i32_add
    ⟨rfl, List.Mem.tail _ (List.Mem.head _),
      Reachable.step (Operation.i32_const 1)
        (Reachable.step (Operation.i32_const 0) (Reachable.initial rfl) rfl) rfl⟩ rfl rfl

/-! ## The size bounds in `validateDefinitions` -/

/-- The bounds `unboundedSize` satisfy the rule for every ceiling. -/
theorem validateSizeConstraints_unbounded (maxMax : Nat) :
    validateSizeConstraints unboundedSize maxMax = .ok () := by
  simp [validateSizeConstraints, unboundedSize]

/-- The loop over the exports reads of the tables and memories only their number. -/
theorem validateExports_withSizes (module : Module) (size : SizeConstraints) :
    ∀ (exports : List Export) (exportNameMap : List String),
      validateExports (module.withSizes size) exports exportNameMap =
        validateExports module exports exportNameMap
  | [], _ => rfl
  | exportIt :: exports, exportNameMap => by
    have ih := validateExports_withSizes module size exports (exportIt.name :: exportNameMap)
    have htables : (module.withSizes size).tables.size = module.tables.size := by
      simp [Module.withSizes, IndexSpace.size]
    have hmemories : (module.withSizes size).memories.size = module.memories.size := by
      simp [Module.withSizes, IndexSpace.size]
    unfold validateExports
    rw [ih, htables, hmemories]
    rfl

/-- Acceptance by `validateDefinitions` as the conjunction of its steps. -/
theorem validateDefinitions_eq_ok (module : Module) :
    validateDefinitions module = .ok () ↔
      ∀ step ∈ validateDefinitionsSteps module, step = .ok () :=
  forEach_eq_ok id _

/-- The size bounds of the tables and memories of a module enter `validateDefinitions` through
the size rule only, with the ceiling `UINT32_MAX` for the table definitions, `UINTPTR_MAX` for
the table imports and `maxMemoryPages` for the memory imports and definitions: a module is
accepted exactly when it is accepted with all its bounds replaced by `unboundedSize` and
every bound satisfies the rule with the ceiling of its kind. -/
theorem validateDefinitions_withSizes (module : Module) :
    validateDefinitions module = .ok () ↔
      validateDefinitions (module.withSizes unboundedSize) = .ok () ∧
      (∀ tableDef ∈ module.tables.defs,
        validateSizeConstraints tableDef.type.size UINT32_MAX = .ok ()) ∧
      (∀ tableImport ∈ module.tables.imports,
        validateSizeConstraints tableImport.size UINTPTR_MAX = .ok ()) ∧
      (∀ memoryImport ∈ module.memories.imports,
        validateSizeConstraints memoryImport.size maxMemoryPages = .ok ()) ∧
      (∀ memoryDef ∈ module.memories.defs,
        validateSizeConstraints memoryDef.type.size maxMemoryPages = .ok ()) := by
  have htables : (module.withSizes unboundedSize).tables.size = module.tables.size := by
    simp [Module.withSizes, IndexSpace.size]
  have hmemories : (module.withSizes unboundedSize).memories.size = module.memories.size := by
    simp [Module.withSizes, IndexSpace.size]
  have hinit : ∀ expression expectedType context,
      validateInitializer (module.withSizes unboundedSize) expression expectedType context =
        validateInitializer module expression expectedType context := by
    intro expression expectedType context
    cases expression <;> rfl
  have hglobal : validateGlobalDef (module.withSizes unboundedSize) =
      validateGlobalDef module := by
    funext globalDef
    unfold validateGlobalDef
    rw [hinit]
  have hdef : validateFunctionDefType (module.withSizes unboundedSize) =
      validateFunctionDefType module := rfl
  have hstart : validateStartFunction (module.withSizes unboundedSize) =
      validateStartFunction module := rfl
  have hdata : validateDataSegment (module.withSizes unboundedSize) =
      validateDataSegment module := by
    funext dataSegment
    unfold validateDataSegment
    rw [hinit, hmemories]
  have htableSegment : validateTableSegment (module.withSizes unboundedSize) =
      validateTableSegment module := by
    funext tableSegment
    unfold validateTableSegment
    rw [hinit, htables]
    rfl
  have himport : ∀ tableImport : TableType,
      validateTableImport tableImport = .ok () ↔
        validateTableImport { tableImport with size := unboundedSize } = .ok () ∧
        validateSizeConstraints tableImport.size UINTPTR_MAX = .ok () := by
    intro tableImport
    unfold validateTableImport
    cases validateTableElementType tableImport.elementType with
    | error e => simp
    | ok u => simp [validateSizeConstraints_unbounded]
  rw [validateDefinitions_eq_ok, validateDefinitions_eq_ok]
  simp only [validateDefinitionsSteps, List.mem_cons, List.mem_singleton, forall_eq_or_imp,
    forall_eq, List.not_mem_nil, hglobal, hdef, hstart, hdata, htableSegment, htables,
    hmemories, validateExports_withSizes, forEach_eq_ok, IsEmpty.forall_iff, implies_true,
    and_true]
  simp only [Module.withSizes, List.mem_map, forall_exists_index, and_imp,
    forall_apply_eq_imp_iff₂, validateSizeConstraints_unbounded, implies_true, true_and]
  constructor
  · rintro ⟨h1, h2, h3, h4, h5, h6, h7, h8, h9, h10, h11, h12, h13, h14, h15⟩
    exact ⟨⟨h1, h2, fun t ht => ((himport t).1 (h3 t ht)).1, h5, h6, h7, h9, h11, h12, h13,
      h14, h15⟩, h8, fun t ht => ((himport t).1 (h3 t ht)).2, h4, h10⟩
  · rintro ⟨⟨h1, h2, h3, h5, h6, h7, h9, h11, h12, h13, h14, h15⟩, h8, h3b, h4, h10⟩
    exact ⟨h1, h2, fun t ht => (himport t).2 ⟨h3 t ht, h3b t ht⟩, h4, h5, h6, h7, h8, h9,
      h10, h11, h12, h13, h14, h15⟩

/-! ## Size constraints and initializer expressions -/

/-- C22, the size-constraints rule: with `m` the declared maximum when one is present (the
stored maximum is not `UINT64_MAX`) and the ceiling `C` otherwise, `validateSizeConstraints`
succeeds exactly when `min <= m` and `m <= C`; `validateDefinitions` applies it with ceiling
`UINT32_MAX` to every table definition, `UINTPTR_MAX` to every table import and
`maxMemoryPages` to every memory import and definition: an accepted module satisfies the rule
with these ceilings, and these are the ceilings, since a module is accepted exactly when it is
accepted with all its size bounds replaced by unbounded ones and each of its bounds satisfies
the rule with the ceiling of its kind. At the boundaries: a table with maximum
`UINT32_MAX + 1` is accepted as import and rejected as definition, a table definition with
maximum `UINT32_MAX` is accepted, and a memory, imported or defined, is accepted with
maximum `maxMemoryPages` and rejected with `maxMemoryPages + 1`. -/
theorem size_constraints_rule :
    (∀ (size : SizeConstraints) (C : Nat),
      validateSizeConstraints size C = .ok () ↔
        ∃ m, m = (if size.max = UINT64_MAX then C else size.max) ∧ size.min ≤ m ∧ m ≤ C) ∧
    (∀ module : Module, validateDefinitions module = .ok () →
      (∀ tableDef ∈ module.tables.defs,
        validateSizeConstraints tableDef.type.size UINT32_MAX = .ok ()) ∧
      (∀ tableImport ∈ module.tables.imports,
        validateSizeConstraints tableImport.size UINTPTR_MAX = .ok ()) ∧
      (∀ memoryImport ∈ module.memories.imports,
        validateSizeConstraints memoryImport.size maxMemoryPages = .ok ()) ∧
      (∀ memoryDef ∈ module.memories.defs,
        validateSizeConstraints memoryDef.type.size maxMemoryPages = .ok ())) ∧
    (∀ module : Module, validateDefinitions module = .ok () ↔
      validateDefinitions (module.withSizes unboundedSize) = .ok () ∧
      (∀ tableDef ∈ module.tables.defs,
        validateSizeConstraints tableDef.type.size UINT32_MAX = .ok ()) ∧
      (∀ tableImport ∈ module.tables.imports,
        validateSizeConstraints tableImport.size UINTPTR_MAX = .ok ()) ∧
      (∀ memoryImport ∈ module.memories.imports,
        validateSizeConstraints memoryImport.size maxMemoryPages = .ok ()) ∧
      (∀ memoryDef ∈ module.memories.defs,
        validateSizeConstraints memoryDef.type.size maxMemoryPages = .ok ())) ∧
    (validateDefinitions (sampleSizedModule
        [{ elementType := TableElementType.anyfunc,
           size := { min := 0, max := UINT32_MAX + 1 } }] [] [] []) = .ok () ∧
      validateDefinitions (sampleSizedModule []
        [{ type := { elementType := TableElementType.anyfunc,
                     size := { min := 0, max := UINT32_MAX + 1 } } }] [] []) =
        .error (.validateUnless "maximum size exceeds limit: " "max>maxMax") ∧
      validateDefinitions (sampleSizedModule []
        [{ type := { elementType := TableElementType.anyfunc,
                     size := { min := 0, max := UINT32_MAX } } }] [] []) = .ok () ∧
      validateDefinitions (sampleSizedModule [] []
        [{ size := { min := 0, max := maxMemoryPages } }] []) = .ok () ∧
      validateDefinitions (sampleSizedModule [] []
        [{ size := { min := 0, max := maxMemoryPages + 1 } }] []) =
        .error (.validateUnless "maximum size exceeds limit: " "max>maxMax") ∧
      validateDefinitions (sampleSizedModule [] [] []
        [{ type := { size := { min := 0, max := maxMemoryPages } } }]) = .ok () ∧
      validateDefinitions (sampleSizedModule [] [] []
        [{ type := { size := { min := 0, max := maxMemoryPages + 1 } } }]) =
        .error (.validateUnless "maximum size exceeds limit: " "max>maxMax")) := by
  refine ⟨?_, ?_, validateDefinitions_withSizes, rfl, rfl, rfl, rfl, rfl, rfl, rfl⟩
  · intro size C
    have hrule : ∀ m, (if size.min > m then
          (.error (.validateUnless "disjoint size bounds: " "size.min>max") : Result Unit)
        else if m > C then
          .error (.validateUnless "maximum size exceeds limit: " "max>maxMax")
        else .ok ()) = .ok () ↔ size.min ≤ m ∧ m ≤ C := by
      intro m
      by_cases h1 : size.min > m
      · rw [if_pos h1]
        constructor
        · intro h
          cases h
        · intro h
          omega
      · rw [if_neg h1]
        by_cases h2 : m > C
        · rw [if_pos h2]
          constructor
          · intro h
            cases h
          · intro h
            omega
        · rw [if_neg h2]
          constructor
          · intro _
            omega
          · intro _
            rfl
    constructor
    · intro h
      exact ⟨_, rfl, (hrule _).1 h⟩
    · rintro ⟨m, rfl, h⟩
      exact (hrule _).2 h
  · intro module h
    have hsteps := validateDefinitions_steps h
    have htableDefs := hsteps (forEach (fun (tableDef : TableDef) =>
      validateSizeConstraints tableDef.type.size UINT32_MAX) module.tables.defs)
      (by simp [validateDefinitionsSteps])
    have htableImports := hsteps (forEach validateTableImport module.tables.imports)
      (by simp [validateDefinitionsSteps])
    have hmemoryImports := hsteps (forEach (fun (memoryImport : MemoryType) =>
      validateSizeConstraints memoryImport.size maxMemoryPages) module.memories.imports)
      (by simp [validateDefinitionsSteps])
    have hmemoryDefs := hsteps (forEach (fun (memoryDef : MemoryDef) =>
      validateSizeConstraints memoryDef.type.size maxMemoryPages) module.memories.defs)
      (by simp [validateDefinitionsSteps])
    rw [forEach_eq_ok] at htableDefs htableImports hmemoryImports hmemoryDefs
    refine ⟨htableDefs, ?_, hmemoryImports, hmemoryDefs⟩
    intro tableImport hin
    have himport := htableImports tableImport hin
    unfold validateTableImport at himport
    split at himport
    · cases himport
    · exact himport

/-- C23, initializer-expression typing: `validateInitializer` with expected type `T` succeeds
exactly when the expression is a constant of exactly the type `T`, or `get_global idx` with
`idx` below the number of imported globals, that import immutable and of value type `T`; the
error node fails. -/
theorem initializer_typing (module : Module) (expression : InitializerExpression)
    (T : ValueType) (context : String) :
    (validateInitializer module expression T context = .ok () ↔
      ((∃ value, expression = .i32_const value) ∧ T = ValueType.i32) ∨
      ((∃ value, expression = .i64_const value) ∧ T = ValueType.i64) ∨
      ((∃ value, expression = .f32_const value) ∧ T = ValueType.f32) ∨
      ((∃ value, expression = .f64_const value) ∧ T = ValueType.f64) ∨
      (∃ idx globalType, expression = .get_global idx ∧
        idx < module.globals.imports.length ∧
        module.globals.imports[idx]? = some globalType ∧
        globalType.isMutable = false ∧ globalType.valueType = T)) ∧
    validateInitializer module .error T context =
      .error (.exception "invalid initializer expression") := by
  refine ⟨?_, rfl⟩
  cases expression with
  | i32_const value =>
    simp only [validateInitializer, validateType]
    split <;> simp_all
  | i64_const value =>
    simp only [validateInitializer, validateType]
    split <;> simp_all
  | f32_const value =>
    simp only [validateInitializer, validateType]
    split <;> simp_all
  | f64_const value =>
    simp only [validateInitializer, validateType]
    split <;> simp_all
  | error => simp [validateInitializer]
  | get_global globalIndex =>
    simp only [validateInitializer, reduceCtorEq, false_and, exists_false, and_false,
      false_or, InitializerExpression.get_global.injEq, exists_and_left, exists_eq_left']
    rcases Nat.lt_or_ge globalIndex module.globals.imports.length with hlt | hge
    · have hsize : ¬ globalIndex ≥ module.globals.size := by
        unfold IndexSpace.size
        omega
      have hget : module.globals.getType GlobalDef.type globalIndex =
          some module.globals.imports[globalIndex] := by
        unfold IndexSpace.getType
        rw [if_pos hlt]
        exact List.getElem?_eq_getElem hlt
      have hnot : ¬ globalIndex ≥ module.globals.imports.length := by omega
      simp only [validateGlobalIndex, VALIDATE_INDEX, hsize, if_false, hget, hnot,
        Bool.false_eq_true, false_and, and_false, true_and, List.getElem?_eq_getElem hlt,
        Option.some.injEq, exists_eq_left', hlt]
      cases hmut : module.globals.imports[globalIndex].isMutable
      · simp only [Bool.false_eq_true, if_false, validateType, true_and]
        split
        · rename_i hne
          simp only [reduceCtorEq, false_iff]
          exact fun heq => hne heq.symm
        · rename_i hne
          simp only [true_iff]
          exact (not_not.1 hne).symm
      · simp
    · have hnot : ¬ globalIndex < module.globals.imports.length := by omega
      simp only [hnot, false_and, iff_false]
      have hfails : ∀ valueType,
          validateGlobalIndex module globalIndex false true true ≠ .ok valueType := by
        intro valueType
        unfold validateGlobalIndex
        split
        · simp
        · split
          · simp
          · simp [hge]
      cases hglobal : validateGlobalIndex module globalIndex false true true with
      | error e => simp
      | ok valueType => exact absurd hglobal (hfails valueType)

/-! ## Failures of the definitions that are exceptions -/

theorem VALIDATE_INDEX_ne_undefined (index arraySize : Nat) (indexText arraySizeText : String) :
    VALIDATE_INDEX index arraySize indexText arraySizeText ≠ .error .undefinedBehaviour := by
  unfold VALIDATE_INDEX
  split <;> simp

theorem validateValueType_ne_undefined (valueType : ValueType) :
    validateValueType valueType ≠ .error .undefinedBehaviour := by
  cases valueType <;> simp [validateValueType]

theorem validateResultType_ne_undefined (returnType : ResultType) :
    validateResultType returnType ≠ .error .undefinedBehaviour := by
  cases returnType <;> simp [validateResultType]

theorem validateSizeConstraints_ne_undefined (size : SizeConstraints) (maxMax : Nat) :
    validateSizeConstraints size maxMax ≠ .error .undefinedBehaviour := by
  unfold validateSizeConstraints
  simp only []
  split_ifs <;> simp

theorem validateType_ne_undefined (expectedType actualType : ValueType) (context : String) :
    validateType expectedType actualType context ≠ .error .undefinedBehaviour := by
  unfold validateType
  split <;> simp

/-- The function `validateGlobalIndex` reads the type of a global only after the range check,
so it never reads out of range. -/
theorem validateGlobalIndex_ne_undefined (module : Module) (globalIndex : Nat)
    (mustBeMutable mustBeImmutable mustBeImport : Bool) :
    validateGlobalIndex module globalIndex mustBeMutable mustBeImmutable mustBeImport ≠
      .error .undefinedBehaviour := by
  unfold validateGlobalIndex VALIDATE_INDEX
  by_cases hge : globalIndex ≥ module.globals.size
  · simp [hge]
  · obtain ⟨globalType, hget⟩ :=
      IndexSpace.getType_of_lt GlobalDef.type module.globals (Nat.lt_of_not_ge hge)
    simp only [hge, if_false, hget]
    split
    · simp
    · split
      · simp
      · split <;> simp

theorem validateInitializer_ne_undefined (module : Module)
    (expression : InitializerExpression) (expectedType : ValueType) (context : String) :
    validateInitializer module expression expectedType context ≠
      .error .undefinedBehaviour := by
  cases expression with
  | get_global globalIndex =>
    simp only [validateInitializer]
    cases hglobal : validateGlobalIndex module globalIndex false true true with
    | error e =>
      simp only []
      intro h
      apply validateGlobalIndex_ne_undefined module globalIndex false true true
      rw [hglobal, Except.error.inj h]
    | ok valueType =>
      simp only []
      exact validateType_ne_undefined _ _ _
  | error => simp [validateInitializer]
  | i32_const value => exact validateType_ne_undefined _ _ _
  | i64_const value => exact validateType_ne_undefined _ _ _
  | f32_const value => exact validateType_ne_undefined _ _ _
  | f64_const value => exact validateType_ne_undefined _ _ _

theorem forEach_ne_undefined {α : Type} (body : α → Result Unit) :
    ∀ elements : List α, (∀ x ∈ elements, body x ≠ .error .undefinedBehaviour) →
      forEach body elements ≠ .error .undefinedBehaviour
  | [], _ => by simp [forEach]
  | element :: elements, h => by
    have ih := forEach_ne_undefined body elements
      (fun x hx => h x (List.mem_cons_of_mem _ hx))
    have hhead := h element (List.mem_cons_self _ _)
    unfold forEach
    cases hbody : body element with
    | error e =>
      intro hfail
      apply hhead
      rw [hbody]
      exact hfail
    | ok u => exact ih

/-- A loop that fails on an initial part of a list fails in the same way on the whole list. -/
theorem forEach_append_error {α : Type} (body : α → Result Unit) {e : Failure} :
    ∀ (first rest : List α), forEach body first = .error e →
      forEach body (first ++ rest) = .error e
  | [], _, h => by simp [forEach] at h
  | element :: elements, rest, h => by
    rw [List.cons_append]
    unfold forEach at h ⊢
    cases hbody : body element with
    | error e1 =>
      rw [hbody] at h
      exact h
    | ok u =>
      rw [hbody] at h
      exact forEach_append_error body elements rest h

/-- The loop over the exports never reads out of range. -/
theorem validateExports_ne_undefined (module : Module) :
    ∀ (exports : List Export) (exportNameMap : List String),
      validateExports module exports exportNameMap ≠ .error .undefinedBehaviour
  | [], _ => by simp [validateExports]
  | exportIt :: exports, exportNameMap => by
    have ih := validateExports_ne_undefined module exports (exportIt.name :: exportNameMap)
    unfold validateExports
    simp only []
    cases hkind : exportIt.kind with
    | function =>
      simp only []
      cases hindex : VALIDATE_INDEX exportIt.index module.functions.size "exportIt.index"
          "module.functions.size()" with
      | error e =>
        intro h
        apply VALIDATE_INDEX_ne_undefined exportIt.index module.functions.size
          "exportIt.index" "module.functions.size()"
        rw [hindex]
        exact h
      | ok u =>
        simp only []
        split
        · simp
        · exact ih
    | table =>
      simp only []
      cases hindex : VALIDATE_INDEX exportIt.index module.tables.size "exportIt.index"
          "module.tables.size()" with
      | error e =>
        intro h
        apply VALIDATE_INDEX_ne_undefined exportIt.index module.tables.size
          "exportIt.index" "module.tables.size()"
        rw [hindex]
        exact h
      | ok u =>
        simp only []
        split
        · simp
        · exact ih
    | memory =>
      simp only []
      cases hindex : VALIDATE_INDEX exportIt.index module.memories.size "exportIt.index"
          "module.memories.size()" with
      | error e =>
        intro h
        apply VALIDATE_INDEX_ne_undefined exportIt.index module.memories.size
          "exportIt.index" "module.memories.size()"
        rw [hindex]
        exact h
      | ok u =>
        simp only []
        split
        · simp
        · exact ih
    | global =>
      simp only []
      cases hindex : validateGlobalIndex module exportIt.index false true false with
      | error e =>
        simp only []
        intro h
        apply validateGlobalIndex_ne_undefined module exportIt.index false true false
        rw [hindex, Except.error.inj h]
      | ok u =>
        simp only []
        split
        · simp
        · exact ih
    | malformed k => simp

/-- What an accepted list of exports guarantees: the names are pairwise distinct and distinct
from the names seen before, and every index is in range for its kind. -/
theorem validateExports_ok (module : Module) :
    ∀ (exports : List Export) (exportNameMap : List String),
      validateExports module exports exportNameMap = .ok () →
      (exports.map Export.name).Nodup ∧
      ∀ exportIt ∈ exports, exportIt.name ∉ exportNameMap ∧ ExportInRange module exportIt
  | [], _, _ => by simp
  | exportIt :: exports, exportNameMap, h => by
    have ih := validateExports_ok module exports (exportIt.name :: exportNameMap)
    unfold validateExports at h
    simp only [] at h
    have hrange : ExportInRange module exportIt ∧
        (if exportIt.name ∈ exportNameMap then
          (.error (.validateUnless "duplicate export: " "exportNameMap.count(exportIt.name)") :
            Result Unit)
        else validateExports module exports (exportIt.name :: exportNameMap)) = .ok () := by
      unfold ExportInRange
      cases hkind : exportIt.kind with
      | function =>
        rw [hkind] at h
        simp only [] at h
        split at h
        · cases h
        · rename_i hindex
          exact ⟨VALIDATE_INDEX_eq_ok.1 hindex, h⟩
      | table =>
        rw [hkind] at h
        simp only [] at h
        split at h
        · cases h
        · rename_i hindex
          exact ⟨VALIDATE_INDEX_eq_ok.1 hindex, h⟩
      | memory =>
        rw [hkind] at h
        simp only [] at h
        split at h
        · cases h
        · rename_i hindex
          exact ⟨VALIDATE_INDEX_eq_ok.1 hindex, h⟩
      | global =>
        rw [hkind] at h
        simp only [] at h
        cases hindex : validateGlobalIndex module exportIt.index false true false with
        | error e =>
          rw [hindex] at h
          cases h
        | ok valueType =>
          rw [hindex] at h
          refine ⟨?_, h⟩
          by_contra hge
          have hge1 : exportIt.index ≥ module.globals.size := Nat.le_of_not_lt hge
          simp [validateGlobalIndex, VALIDATE_INDEX, hge1] at hindex
      | malformed k =>
        rw [hkind] at h
        cases h
    obtain ⟨hinRange, hrest⟩ := hrange
    split at hrest
    · cases hrest
    · rename_i hnew
      obtain ⟨hnodup, hall⟩ := ih hrest
      refine ⟨?_, ?_⟩
      · rw [List.map_cons, List.nodup_cons]
        refine ⟨?_, hnodup⟩
        intro hin
        obtain ⟨other, hother, hname⟩ := List.mem_map.1 hin
        apply (hall other hother).1
        rw [hname]
        exact List.mem_cons_self _ _
      · intro item hitem
        rcases List.mem_cons.1 hitem with rfl | hitem
        · exact ⟨hnew, hinRange⟩
        · exact ⟨fun hin => (hall item hitem).1 (List.mem_cons_of_mem _ hin),
            (hall item hitem).2⟩

theorem forEach_append_ok {α : Type} (body : α → Result Unit) :
    ∀ (first rest : List α), forEach body first = .ok () →
      forEach body (first ++ rest) = forEach body rest
  | [], _, _ => rfl
  | element :: elements, rest, h => by
    rw [List.cons_append]
    cases hbody : body element with
    | error e1 => simp [forEach, hbody] at h
    | ok u =>
      have h1 : forEach body elements = .ok () := by simpa [forEach, hbody] using h
      simp only [forEach, hbody]
      exact forEach_append_ok body elements rest h1

/-- A failure passed on from a step that never reads out of range is an exception. -/
theorem error_ne_undefined {α β : Type} {first : Result α} {e : Failure}
    (heq : first = .error e) (hfirst : first ≠ .error .undefinedBehaviour) :
    (.error e : Result β) ≠ .error .undefinedBehaviour := by
  intro h
  apply hfirst
  rw [heq, Except.error.inj h]

/-- The steps of `validateDefinitions` up to the exports never read out of range. -/
theorem validateDefinitions_early_steps (module : Module) :
    ∀ step ∈ (validateDefinitionsSteps module).take 12, step ≠ .error .undefinedBehaviour := by
  intro step hstep
  simp only [validateDefinitionsSteps, List.take_succ_cons, List.take_zero, List.mem_cons,
    List.mem_singleton, List.not_mem_nil, or_false] at hstep
  rcases hstep with rfl | rfl | rfl | rfl | rfl | rfl | rfl | rfl | rfl | rfl | rfl | rfl
  · apply forEach_ne_undefined
    intro functionType _
    unfold validateFunctionType
    split
    · rename_i e heq
      exact error_ne_undefined heq
        (forEach_ne_undefined _ _ (fun x _ => validateValueType_ne_undefined x))
    · exact validateResultType_ne_undefined _
  · exact forEach_ne_undefined _ _ (fun x _ => VALIDATE_INDEX_ne_undefined _ _ _ _)
  · apply forEach_ne_undefined
    intro tableImport _
    unfold validateTableImport validateTableElementType
    split
    · rename_i e heq
      split at heq
      · cases heq
        simp
      · cases heq
    · exact validateSizeConstraints_ne_undefined _ _
  · exact forEach_ne_undefined _ _ (fun x _ => validateSizeConstraints_ne_undefined _ _)
  · apply forEach_ne_undefined
    intro globalImport _
    unfold validateGlobalImport validateGlobalType
    split
    · rename_i e heq
      exact error_ne_undefined heq (validateValueType_ne_undefined _)
    · split <;> simp
  · apply forEach_ne_undefined
    intro functionDef _
    unfold validateFunctionDefType
    split
    · rename_i e heq
      exact error_ne_undefined heq (VALIDATE_INDEX_ne_undefined _ _ _ _)
    · exact forEach_ne_undefined _ _ (fun x _ => validateValueType_ne_undefined x)
  · apply forEach_ne_undefined
    intro globalDef _
    unfold validateGlobalDef validateGlobalType
    split
    · rename_i e heq
      exact error_ne_undefined heq (validateValueType_ne_undefined _)
    · exact validateInitializer_ne_undefined _ _ _ _
  · exact forEach_ne_undefined _ _ (fun x _ => validateSizeConstraints_ne_undefined _ _)
  · split <;> simp
  · exact forEach_ne_undefined _ _ (fun x _ => validateSizeConstraints_ne_undefined _ _)
  · split <;> simp
  · exact validateExports_ne_undefined _ _ _

/-- A module whose exports are not accepted is rejected with an exception. -/
theorem validateDefinitions_of_exports {module : Module}
    (h : validateExports module module.exports [] ≠ .ok ()) :
    ∃ e, validateDefinitions module = .error e ∧ e ≠ .undefinedBehaviour := by
  have hsplit : validateDefinitionsSteps module =
      (validateDefinitionsSteps module).take 12 ++ (validateDefinitionsSteps module).drop 12 :=
    (List.take_append_drop 12 _).symm
  have hne := forEach_ne_undefined id _ (validateDefinitions_early_steps module)
  cases hres : forEach id ((validateDefinitionsSteps module).take 12) with
  | ok u =>
    exfalso
    apply h
    exact (forEach_eq_ok id _).1 hres _ (by simp [validateDefinitionsSteps])
  | error e =>
    refine ⟨e, ?_, ?_⟩
    · unfold validateDefinitions
      rw [hsplit]
      exact forEach_append_error id _ _ hres
    · rintro rfl
      exact hne hres

/-- The loop over the exports does not read the start function index. -/
theorem validateExports_start (module : Module) (start : Nat) :
    ∀ (exports : List Export) (exportNameMap : List String),
      validateExports { module with startFunctionIndex := start } exports exportNameMap =
        validateExports module exports exportNameMap
  | [], _ => rfl
  | exportIt :: exports, exportNameMap => by
    have ih := validateExports_start module start exports (exportIt.name :: exportNameMap)
    unfold validateExports
    rw [ih]
    rfl

/-- The steps of `validateDefinitions` before the test of the start function do not read the
start function index. -/
theorem validateDefinitionsSteps_start (module : Module) (start : Nat) :
    (validateDefinitionsSteps { module with startFunctionIndex := start }).take 12 =
      (validateDefinitionsSteps module).take 12 := by
  have hinit : ∀ expression expectedType context,
      validateInitializer { module with startFunctionIndex := start } expression expectedType
        context = validateInitializer module expression expectedType context := by
    intro expression expectedType context
    cases expression <;> rfl
  have hglobal : validateGlobalDef { module with startFunctionIndex := start } =
      validateGlobalDef module := by
    funext globalDef
    unfold validateGlobalDef
    rw [hinit]
  have hdef : validateFunctionDefType { module with startFunctionIndex := start } =
      validateFunctionDefType module := rfl
  simp only [validateDefinitionsSteps, List.take_succ_cons, List.take_zero, hglobal, hdef,
    validateExports_start]

/-! ## Exports, start function and referential integrity -/

/-- C24, duplicate export names are always rejected: a module whose export list holds the
same name at two different positions is rejected by `validateDefinitions`, with an
exception. -/
theorem duplicate_exports_rejected (module : Module) (i j : Nat) (first second : Export)
    (hij : i ≠ j) (hfirst : module.exports[i]? = some first)
    (hsecond : module.exports[j]? = some second) (hname : first.name = second.name) :
    ∃ e, validateDefinitions module = .error e ∧ e ≠ .undefinedBehaviour := by
  apply validateDefinitions_of_exports
  intro hok
  have hnodup := (validateExports_ok module _ _ hok).1
  obtain ⟨hi, hgeti⟩ := List.getElem?_eq_some_iff.1 hfirst
  obtain ⟨hj, hgetj⟩ := List.getElem?_eq_some_iff.1 hsecond
  have hi1 : i < (module.exports.map Export.name).length := by simpa using hi
  have hj1 : j < (module.exports.map Export.name).length := by simpa using hj
  have heq : (module.exports.map Export.name)[i] = (module.exports.map Export.name)[j] := by
    rw [List.getElem_map, List.getElem_map, hgeti, hgetj, hname]
  exact hij ((List.Nodup.getElem_inj_iff hnodup).1 heq)

theorem duplicate_exports_rejected_witness :
    ∃ e, validateDefinitions sampleDuplicateExportModule = .error e ∧
      e ≠ .undefinedBehaviour :=
  duplicate_exports_rejected sampleDuplicateExportModule 0 1
    { name := "main", kind := ObjectKind.function, index := 0 }
    { name := "main", kind := ObjectKind.memory, index := 0 } (by decide) rfl rfl rfl

/-- C25, the shape of the start function: in an accepted module that declares a start function
index, the index is below the number of functions and the signature of that function has no
parameters and no result; conversely a module whose start function has a parameter or a
result is rejected, and when the module is accepted without the start function the failure
is the diagnostic of the start function. -/
theorem start_function_shape (module : Module) :
    (validateDefinitions module = .ok () → module.startFunctionIndex ≠ UINTPTR_MAX →
      module.startFunctionIndex < module.functions.size ∧
      ∃ indexedType signature,
        module.functions.getType FunctionDef.type module.startFunctionIndex =
          some indexedType ∧
        module.types[indexedType.index]? = some signature ∧
        signature.parameters = [] ∧ signature.ret = ResultType.none) ∧
    (∀ indexedType signature, module.startFunctionIndex ≠ UINTPTR_MAX →
      module.functions.getType FunctionDef.type module.startFunctionIndex =
        some indexedType →
      module.types[indexedType.index]? = some signature →
      signature.parameters ≠ [] ∨ signature.ret ≠ ResultType.none →
      (∃ e, validateDefinitions module = .error e) ∧
      (validateDefinitions { module with startFunctionIndex := UINTPTR_MAX } = .ok () →
        validateDefinitions module = .error (.validateUnless
          "start function must not have any parameters or results: "
          "startFunctionType != FunctionType::get()"))) := by
  have hstart : validateDefinitions module = .ok () → validateStartFunction module = .ok () :=
    fun h => validateDefinitions_steps h _ (by simp [validateDefinitionsSteps])
  constructor
  · intro h hdeclared
    have hstep := hstart h
    unfold validateStartFunction at hstep
    rw [if_pos hdeclared] at hstep
    split at hstep
    · cases hstep
    · rename_i hindex
      refine ⟨VALIDATE_INDEX_eq_ok.1 hindex, ?_⟩
      split at hstep
      · cases hstep
      · rename_i indexedType hget
        split at hstep
        · cases hstep
        · rename_i signature htype
          split at hstep
          · cases hstep
          · rename_i hempty
            have hsig : signature = FunctionType.empty := not_not.1 hempty
            exact ⟨indexedType, signature, hget, htype, by rw [hsig]; rfl, by rw [hsig]; rfl⟩
  · intro indexedType signature hdeclared hget htype hshape
    have hne : signature ≠ FunctionType.empty := by
      rintro rfl
      rcases hshape with h | h
      · exact h rfl
      · exact h rfl
    have hlt : ¬ module.startFunctionIndex ≥ module.functions.size := by
      intro hge
      unfold IndexSpace.getType at hget
      unfold IndexSpace.size at hge
      split at hget
      · omega
      · have hnone : module.functions.defs[module.startFunctionIndex -
            module.functions.imports.length]? = none :=
          List.getElem?_eq_none (by omega)
        rw [hnone] at hget
        cases hget
    have hfail : validateStartFunction module = .error (.validateUnless
        "start function must not have any parameters or results: "
        "startFunctionType != FunctionType::get()") := by
      unfold validateStartFunction VALIDATE_INDEX
      simp only [hdeclared, hlt, hget, htype, hne, ne_eq, not_false_eq_true, if_true,
        if_false]
    constructor
    · cases hres : validateDefinitions module with
      | error e => exact ⟨e, rfl⟩
      | ok u =>
        have hok := hstart hres
        rw [hfail] at hok
        cases hok
    · intro hother
      have hsteps := validateDefinitions_steps hother
      have hsplit : validateDefinitionsSteps module =
          (validateDefinitionsSteps module).take 12 ++
            (validateStartFunction module :: (validateDefinitionsSteps module).drop 13) := rfl
      have hearly : forEach id ((validateDefinitionsSteps module).take 12) = .ok () := by
        rw [forEach_eq_ok]
        intro step hstep
        apply hsteps
        rw [← validateDefinitionsSteps_start module UINTPTR_MAX] at hstep
        exact List.mem_of_mem_take hstep
      unfold validateDefinitions
      rw [hsplit, forEach_append_ok id _ _ hearly]
      unfold forEach
      simp only [id, hfail]

/-- C26, referential integrity of an accepted module: the type index of every function import
and definition is below the number of types; the index of every export is below the size of
the index space of its kind; the memory index of every data segment, the table index of
every table segment and each of its function indices are in range; and there is at most one
table and at most one memory. -/
theorem referential_integrity (module : Module) (h : validateDefinitions module = .ok ()) :
    (∀ functionImport ∈ module.functions.imports,
      functionImport.index < module.types.length) ∧
    (∀ functionDef ∈ module.functions.defs, functionDef.type.index < module.types.length) ∧
    (∀ exportIt ∈ module.exports, ExportInRange module exportIt) ∧
    (∀ dataSegment ∈ module.dataSegments, dataSegment.memoryIndex < module.memories.size) ∧
    (∀ tableSegment ∈ module.tableSegments,
      tableSegment.tableIndex < module.tables.size ∧
      ∀ functionIndex ∈ tableSegment.indices, functionIndex < module.functions.size) ∧
    module.tables.size ≤ 1 ∧ module.memories.size ≤ 1 := by
  have hsteps := validateDefinitions_steps h
  have himports := hsteps (forEach (fun (functionImport : IndexedFunctionType) =>
      VALIDATE_INDEX functionImport.index module.types.length "functionImport.type.index"
        "module.types.size()") module.functions.imports)
    (by simp [validateDefinitionsSteps])
  have hdefs := hsteps (forEach (validateFunctionDefType module) module.functions.defs)
    (by simp [validateDefinitionsSteps])
  have hexports := hsteps (validateExports module module.exports [])
    (by simp [validateDefinitionsSteps])
  have hdata := hsteps (forEach (validateDataSegment module) module.dataSegments)
    (by simp [validateDefinitionsSteps])
  have htable := hsteps (forEach (validateTableSegment module) module.tableSegments)
    (by simp [validateDefinitionsSteps])
  have htables := hsteps (if module.tables.size > 1 then
      .error (.validateUnless "too many tables: " "module.tables.size()>1")
    else .ok ()) (by simp [validateDefinitionsSteps])
  have hmemories := hsteps (if module.memories.size > 1 then
      .error (.validateUnless "too many memories: " "module.memories.size()>1")
    else .ok ()) (by simp [validateDefinitionsSteps])
  rw [forEach_eq_ok] at himports hdefs hdata htable
  refine ⟨fun x hx => VALIDATE_INDEX_eq_ok.1 (himports x hx), ?_,
    fun x hx => ((validateExports_ok module _ _ hexports).2 x hx).2, ?_, ?_, ?_, ?_⟩
  · intro functionDef hin
    have hdef := hdefs functionDef hin
    unfold validateFunctionDefType at hdef
    split at hdef
    · cases hdef
    · rename_i hindex
      exact VALIDATE_INDEX_eq_ok.1 hindex
  · intro dataSegment hin
    have hsegment := hdata dataSegment hin
    unfold validateDataSegment at hsegment
    split at hsegment
    · cases hsegment
    · rename_i hindex
      exact VALIDATE_INDEX_eq_ok.1 hindex
  · intro tableSegment hin
    have hsegment := htable tableSegment hin
    unfold validateTableSegment at hsegment
    split at hsegment
    · cases hsegment
    · rename_i hindex
      refine ⟨VALIDATE_INDEX_eq_ok.1 hindex, ?_⟩
      split at hsegment
      · cases hsegment
      · rw [forEach_eq_ok] at hsegment
        exact fun x hx => VALIDATE_INDEX_eq_ok.1 (hsegment x hx)
  · split at htables
    · cases htables
    · omega
  · split at hmemories
    · cases hmemories
    · omega

theorem referential_integrity_witness :
    validateDefinitions sampleLinkedModule = .ok () ∧
    (∀ exportIt ∈ sampleLinkedModule.exports, ExportInRange sampleLinkedModule exportIt) ∧
    sampleLinkedModule.tables.size ≤ 1 :=
  ⟨rfl, (referential_integrity sampleLinkedModule rfl).2.2.1,
    (referential_integrity sampleLinkedModule rfl).2.2.2.2.2.1⟩

/-! ## The operators one by one: sources of the operands and effect on the control stack -/

theorem SourcedStep.sourcedRefl (ctx : FunctionValidationContext) : SourcedStep ctx ctx :=
  ⟨OperandStep.refl ctx, fun _ h => Or.inl h⟩

/-- A source after an operand step is a source before it. -/
theorem Sourced.of_step {ctx ctx1 : FunctionValidationContext} (hstep : SourcedStep ctx ctx1)
    {type : ValueType} (h : Sourced ctx1 type) : Sourced ctx type := by
  obtain ⟨⟨⟨hmodule, _, _, hlocals⟩, hcs, _⟩, hstack⟩ := hstep
  unfold Sourced at h
  rw [hmodule, hlocals, hcs] at h
  rcases h with hin | hother
  · exact hstack type hin
  · exact Or.inr hother

theorem SourcedStep.sourcedTrans {ctx ctx1 ctx2 : FunctionValidationContext}
    (h1 : SourcedStep ctx ctx1) (h2 : SourcedStep ctx1 ctx2) : SourcedStep ctx ctx2 :=
  ⟨h1.1.trans h2.1, fun type hin => Sourced.of_step h1 (h2.2 type hin)⟩

theorem sourcedStep_pushOperand (ctx : FunctionValidationContext) {type : ValueType}
    (hsource : Sourced ctx type) : SourcedStep ctx (ctx.pushOperand type) := by
  refine ⟨FunctionValidationContext.operandStep_pushOperand ctx type, ?_⟩
  intro entry hin
  simp only [FunctionValidationContext.pushOperand, List.mem_append, List.mem_singleton] at hin
  rcases hin with hin | rfl
  · exact Or.inl hin
  · exact hsource

/-- Pushing, after an operand step, a type that has a source before the step. -/
theorem sourcedStep_push_of {ctx mid : FunctionValidationContext} {type : ValueType}
    (hstep : SourcedStep ctx mid) (hsource : Sourced ctx type) :
    SourcedStep ctx (mid.pushOperand type) := by
  refine ⟨hstep.1.trans (FunctionValidationContext.operandStep_pushOperand mid type), ?_⟩
  intro entry hin
  simp only [FunctionValidationContext.pushOperand, List.mem_append, List.mem_singleton] at hin
  rcases hin with hin | rfl
  · exact hstep.2 entry hin
  · exact hsource

theorem sourcedStep_pushOperandResult (ctx : FunctionValidationContext) {type : ResultType}
    (hsource : type ≠ ResultType.none → Sourced ctx (asValueType type)) :
    SourcedStep ctx (ctx.pushOperandResult type) := by
  unfold FunctionValidationContext.pushOperandResult
  split
  · rename_i hne
    exact sourcedStep_pushOperand ctx (hsource hne)
  · exact SourcedStep.sourcedRefl ctx

theorem sourcedStep_popOperand {ctx ctx1 : FunctionValidationContext} {result : ValueType}
    (h : ctx.popOperand = .ok (result, ctx1)) : SourcedStep ctx ctx1 ∧ Sourced ctx result := by
  have hstep := FunctionValidationContext.operandStep_popOperand h
  obtain ⟨back, _, hpop | hpop⟩ := FunctionValidationContext.popOperand_ok h
  · obtain ⟨_, hstack, rfl⟩ := hpop
    refine ⟨⟨hstep, fun type hin => Or.inl (List.mem_of_mem_dropLast hin)⟩, Or.inl ?_⟩
    rw [hstack]
    simp
  · obtain ⟨_, _, rfl, rfl⟩ := hpop
    exact ⟨SourcedStep.sourcedRefl _, Or.inr (Or.inl rfl)⟩

theorem sourcedStep_popAndValidateOperand {ctx ctx1 : FunctionValidationContext}
    {context : String} {expectedType : ValueType}
    (h : ctx.popAndValidateOperand context expectedType = .ok ctx1) : SourcedStep ctx ctx1 := by
  obtain ⟨_, hpop, _⟩ := FunctionValidationContext.popAndValidateOperand_ok h
  exact (sourcedStep_popOperand hpop).1

theorem sourcedStep_popAndValidateOperandsLoop (context : String) :
    ∀ (expectedTypes : List ValueType) (ctx ctx1 : FunctionValidationContext),
      FunctionValidationContext.popAndValidateOperandsLoop context expectedTypes ctx =
        .ok ctx1 → SourcedStep ctx ctx1
  | [], ctx, ctx1, h => by
    simp only [FunctionValidationContext.popAndValidateOperandsLoop] at h
    injection h with h
    subst h
    exact SourcedStep.sourcedRefl ctx
  | expectedType :: remaining, ctx, ctx1, h => by
    simp only [FunctionValidationContext.popAndValidateOperandsLoop] at h
    split at h
    · cases h
    · rename_i actualType ctx2 hpop
      split at h
      · cases h
      · exact (sourcedStep_popOperand hpop).1.sourcedTrans
          (sourcedStep_popAndValidateOperandsLoop context remaining ctx2 ctx1 h)

theorem sourcedStep_popAndValidateOperands {ctx ctx1 : FunctionValidationContext}
    {context : String} {expectedTypes : List ValueType}
    (h : ctx.popAndValidateOperands context expectedTypes = .ok ctx1) : SourcedStep ctx ctx1 :=
  sourcedStep_popAndValidateOperandsLoop context _ ctx ctx1 h

theorem sourcedStep_popAndValidateResultType {ctx ctx1 : FunctionValidationContext}
    {context : String} {expectedType : ResultType}
    (h : ctx.popAndValidateResultType context expectedType = .ok ctx1) :
    SourcedStep ctx ctx1 := by
  unfold FunctionValidationContext.popAndValidateResultType at h
  split at h
  · exact sourcedStep_popAndValidateOperand h
  · injection h with h
    subst h
    exact SourcedStep.sourcedRefl ctx

/-- A branch target is a context of the control stack. -/
theorem getBranchTargetByDepth_mem {ctx : FunctionValidationContext} {depth : Nat}
    {target : ControlContext} (h : ctx.getBranchTargetByDepth depth = .ok target) :
    target ∈ ctx.controlStack := by
  unfold FunctionValidationContext.getBranchTargetByDepth at h
  split at h
  · cases h
  · split at h
    · rename_i hget
      injection h with h
      subst h
      exact List.getElem?_mem hget
    · cases h

/-- The signature `validateFunctionIndex` returns is one of the type table. -/
theorem validateFunctionIndex_mem {module : Module} {functionIndex : Nat}
    {signature : FunctionType} (h : validateFunctionIndex module functionIndex = .ok signature) :
    signature ∈ module.types := by
  unfold validateFunctionIndex at h
  split at h
  · cases h
  · split at h
    · cases h
    · split at h
      · cases h
      · rename_i hget
        injection h with h
        subst h
        exact List.getElem?_mem hget

theorem sourced_concrete (ctx : FunctionValidationContext) {type : ValueType}
    (h : validateValueType type = .ok ()) : Sourced ctx type :=
  Or.inr (Or.inr (Or.inl h))

theorem LoadOp.resultType_concrete (op : LoadOp) :
    validateValueType op.resultType = .ok () := by
  cases op <;> rfl

theorem BinaryOp.resultTypeId_concrete (op : BinaryOp) :
    validateValueType op.resultTypeId = .ok () := by
  cases op <;> rfl

theorem UnaryOp.unaryResult_concrete (op : UnaryOp) :
    validateValueType op.resultTypeId = .ok () := by
  cases op <;> rfl

namespace FunctionValidationContext

/-- Every successful operator method is a sequence of operand moves whose entries have a known
source, followed by the effect of that operator on the control stack. -/
theorem decodeOp_detail {ctx ctx1 : FunctionValidationContext} {op : Operation}
    (h : ctx.decodeOp op = .ok ctx1) :
    ∃ mid, SourcedStep ctx mid ∧ OperatorEffect mid ctx1 op := by
  cases op <;> simp only [decodeOp] at h
  case unknown opcode => cases h
  case block resultType =>
    unfold block at h
    split at h
    · cases h
    · rename_i hvalid
      injection h with h
      exact ⟨ctx, SourcedStep.sourcedRefl ctx, hvalid, h.symm⟩
  case loop resultType =>
    unfold loop at h
    split at h
    · cases h
    · rename_i hvalid
      injection h with h
      exact ⟨ctx, SourcedStep.sourcedRefl ctx, hvalid, h.symm⟩
  case if_ resultType =>
    unfold if_ at h
    split at h
    · cases h
    · rename_i hvalid
      split at h
      · cases h
      · rename_i ctx2 hpop
        injection h with h
        exact ⟨ctx2, sourcedStep_popAndValidateOperand hpop, hvalid, h.symm⟩
  case else_ =>
    unfold else_ at h
    split at h
    · cases h
    · split at h
      · cases h
      · rename_i ctx2 hpop
        exact ⟨ctx2, sourcedStep_popAndValidateResultType hpop, h⟩
  case end_ =>
    unfold end_ at h
    split at h
    · cases h
    · split at h
      · cases h
      · rename_i ctx2 hpop
        exact ⟨ctx2, sourcedStep_popAndValidateResultType hpop, h⟩
  case return_ =>
    unfold return_ at h
    split at h
    · cases h
    · rename_i ctx2 hpop
      exact ⟨ctx2, sourcedStep_popAndValidateResultType hpop, h⟩
  case br targetDepth =>
    unfold br at h
    split at h
    · cases h
    · split at h
      · cases h
      · rename_i ctx2 hpop
        exact ⟨ctx2, sourcedStep_popAndValidateResultType hpop, h⟩
  case br_table targetDepths defaultTargetDepth =>
    unfold br_table at h
    split at h
    · cases h
    · rename_i ctx2 hpop
      split at h
      · cases h
      · simp only at h
        split at h
        · cases h
        · rename_i ctx3 hpop3
          split at h
          · cases h
          · exact ⟨ctx3, (sourcedStep_popAndValidateOperand hpop).sourcedTrans
              (sourcedStep_popAndValidateResultType hpop3), h⟩
  case br_if targetDepth =>
    unfold br_if at h
    split at h
    · cases h
    · rename_i ctx2 hpop
      split at h
      · cases h
      · split at h
        · cases h
        · rename_i ctx3 hpop3
          split at h
          · cases h
          · rename_i target2 htarget2
            injection h with h
            refine ⟨ctx1, ((sourcedStep_popAndValidateOperand hpop).sourcedTrans
              (sourcedStep_popAndValidateResultType hpop3)).sourcedTrans
                (h ▸ sourcedStep_pushOperandResult ctx3 ?_), rfl⟩
            intro hne
            exact Or.inr (Or.inr (Or.inr (Or.inr (Or.inr (Or.inr
              ⟨target2, getBranchTargetByDepth_mem htarget2, hne, rfl⟩)))))
  case nop =>
    unfold nop at h
    injection h with h
    exact ⟨ctx, SourcedStep.sourcedRefl ctx, h.symm⟩
  case unreachable =>
    exact ⟨ctx, SourcedStep.sourcedRefl ctx, h⟩
  case drop =>
    unfold drop at h
    split at h
    · cases h
    · rename_i hpop
      injection h with h
      subst h
      exact ⟨_, (sourcedStep_popOperand hpop).1, rfl⟩
  case select =>
    unfold select at h
    split at h
    · cases h
    · rename_i hpop1
      split at h
      · cases h
      · rename_i hpop2
        split at h
        · cases h
        · rename_i hpop3
          split at h
          · cases h
          · split at h
            · cases h
            · injection h with h
              have hstep1 := (sourcedStep_popOperand hpop1).1
              have hfalse := Sourced.of_step hstep1 (sourcedStep_popOperand hpop2).2
              have hstep3 := (hstep1.sourcedTrans (sourcedStep_popOperand hpop2).1).sourcedTrans
                (sourcedStep_popOperand hpop3).1
              exact ⟨ctx1, h ▸ sourcedStep_push_of hstep3 hfalse, rfl⟩
  case get_local variableIndex =>
    unfold get_local at h
    split at h
    · cases h
    · rename_i hlocal
      injection h with h
      exact ⟨ctx1, h ▸ sourcedStep_pushOperand _
        (Or.inr (Or.inr (Or.inr (Or.inl (validateLocalIndex_mem hlocal))))), rfl⟩
  case set_local variableIndex =>
    unfold set_local at h
    split at h
    · cases h
    · exact ⟨ctx1, sourcedStep_popAndValidateOperand h, rfl⟩
  case tee_local variableIndex =>
    unfold tee_local at h
    split at h
    · cases h
    · rename_i hlocal
      split at h
      · cases h
      · rename_i ctx2 hpop
        injection h with h
        have hstep := sourcedStep_popAndValidateOperand hpop
        have hmem : Sourced ctx2 _ := Or.inr (Or.inr (Or.inr (Or.inl
          (hstep.1.1.2.2.2 ▸ validateLocalIndex_mem hlocal))))
        exact ⟨ctx1, hstep.sourcedTrans (h ▸ sourcedStep_pushOperand _ hmem), rfl⟩
  case get_global variableIndex =>
    unfold get_global at h
    split at h
    · cases h
    · rename_i hglobal
      injection h with h
      obtain ⟨globalType, hget, htype⟩ := validateGlobalIndex_type hglobal
      exact ⟨ctx1, h ▸ sourcedStep_pushOperand _
        (Or.inr (Or.inr (Or.inr (Or.inr (Or.inl ⟨_, globalType, hget, htype⟩))))), rfl⟩
  case set_global variableIndex =>
    unfold set_global at h
    split at h
    · cases h
    · exact ⟨ctx1, sourcedStep_popAndValidateOperand h, rfl⟩
  case call functionIndex =>
    unfold call at h
    split at h
    · cases h
    · rename_i calleeType hcallee
      split at h
      · cases h
      · rename_i ctx2 hpop
        injection h with h
        have hstep := sourcedStep_popAndValidateOperands hpop
        refine ⟨ctx1, hstep.sourcedTrans (h ▸ sourcedStep_pushOperandResult _ ?_), rfl⟩
        intro hne
        refine Or.inr (Or.inr (Or.inr (Or.inr (Or.inr (Or.inl ⟨calleeType, ?_, hne, rfl⟩)))))
        rw [hstep.1.1.1]
        exact validateFunctionIndex_mem hcallee
  case call_indirect typeIndex =>
    unfold call_indirect at h
    split at h
    · cases h
    · split at h
      · cases h
      · split at h
        · cases h
        · rename_i calleeType hcallee
          split at h
          · cases h
          · rename_i ctx2 hpop1
            split at h
            · cases h
            · rename_i ctx3 hpop2
              injection h with h
              have hstep := (sourcedStep_popAndValidateOperand hpop1).sourcedTrans
                (sourcedStep_popAndValidateOperands hpop2)
              refine ⟨ctx1, hstep.sourcedTrans
                (h ▸ sourcedStep_pushOperandResult _ ?_), rfl⟩
              intro hne
              refine Or.inr (Or.inr (Or.inr (Or.inr (Or.inr (Or.inl
                ⟨calleeType, ?_, hne, rfl⟩)))))
              rw [hstep.1.1.1]
              exact List.getElem?_mem hcallee
  case grow_memory =>
    unfold grow_memory at h
    split at h
    · cases h
    · split at h
      · cases h
      · rename_i hpop
        injection h with h
        exact ⟨ctx1, (sourcedStep_popAndValidateOperand hpop).sourcedTrans
          (h ▸ sourcedStep_pushOperand _ (sourced_concrete _ rfl)), rfl⟩
  case current_memory =>
    unfold current_memory at h
    split at h
    · cases h
    · injection h with h
      exact ⟨ctx1, h ▸ sourcedStep_pushOperand _ (sourced_concrete _ rfl), rfl⟩
  case error => cases h
  case i32_const value =>
    injection h with h
    exact ⟨ctx1, h ▸ sourcedStep_pushOperand _ (sourced_concrete _ rfl), rfl⟩
  case i64_const value =>
    injection h with h
    exact ⟨ctx1, h ▸ sourcedStep_pushOperand _ (sourced_concrete _ rfl), rfl⟩
  case f32_const bits =>
    injection h with h
    exact ⟨ctx1, h ▸ sourcedStep_pushOperand _ (sourced_concrete _ rfl), rfl⟩
  case f64_const bits =>
    injection h with h
    exact ⟨ctx1, h ▸ sourcedStep_pushOperand _ (sourced_concrete _ rfl), rfl⟩
  case load op alignmentLog2 offset =>
    unfold load at h
    split at h
    · cases h
    · rename_i hpop
      split at h
      · cases h
      · injection h with h
        exact ⟨ctx1, (sourcedStep_popAndValidateOperand hpop).sourcedTrans
          (h ▸ sourcedStep_pushOperand _
            (sourced_concrete _ (LoadOp.resultType_concrete op))), rfl⟩
  case store op alignmentLog2 offset =>
    unfold store at h
    split at h
    · cases h
    · rename_i hpop
      split at h
      · cases h
      · injection h with h
        subst h
        exact ⟨_, sourcedStep_popAndValidateOperands hpop, rfl⟩
  case binary op =>
    unfold binary at h
    split at h
    · cases h
    · rename_i hpop
      injection h with h
      exact ⟨ctx1, (sourcedStep_popAndValidateOperands hpop).sourcedTrans
        (h ▸ sourcedStep_pushOperand _
          (sourced_concrete _ (BinaryOp.resultTypeId_concrete op))), rfl⟩
  case unary op =>
    unfold unary at h
    split at h
    · cases h
    · rename_i hpop
      injection h with h
      exact ⟨ctx1, (sourcedStep_popAndValidateOperand hpop).sourcedTrans
        (h ▸ sourcedStep_pushOperand _
          (sourced_concrete _ (UnaryOp.unaryResult_concrete op))), rfl⟩

end FunctionValidationContext

/-- The five ways an operator can end, read off `OperatorEffect`. -/
theorem operatorEffect_cases {mid ctx1 : FunctionValidationContext} {op : Operation}
    (h : OperatorEffect mid ctx1 op) :
    ((∃ resultType, op = .block resultType ∨ op = .loop resultType ∨ op = .if_ resultType) ∧
      ∃ type branchArgumentType resultType,
        ctx1 = mid.pushControlStack type branchArgumentType resultType ∧
        type ≠ ControlContextType.function ∧ validateResultType resultType = .ok () ∧
        (branchArgumentType = resultType ∨ branchArgumentType = ResultType.none)) ∨
    (op = .else_ ∧ mid.popControlStack true = .ok ctx1) ∨
    (op = .end_ ∧ mid.popControlStack false = .ok ctx1) ∨
    (((∀ resultType, op ≠ .block resultType ∧ op ≠ .loop resultType ∧
        op ≠ .if_ resultType) ∧ op ≠ .else_ ∧ op ≠ .end_) ∧
      (mid.enterUnreachable = .ok ctx1 ∨ ctx1 = mid)) := by
  cases op
  case block resultType =>
    exact Or.inl ⟨⟨resultType, Or.inl rfl⟩, _, _, _, h.2, by simp, h.1, Or.inl rfl⟩
  case loop resultType =>
    exact Or.inl ⟨⟨resultType, Or.inr (Or.inl rfl)⟩, _, _, _, h.2, by simp, h.1, Or.inr rfl⟩
  case if_ resultType =>
    exact Or.inl ⟨⟨resultType, Or.inr (Or.inr rfl)⟩, _, _, _, h.2, by simp, h.1, Or.inl rfl⟩
  case else_ => exact Or.inr (Or.inl ⟨rfl, h⟩)
  case end_ => exact Or.inr (Or.inr (Or.inl ⟨rfl, h⟩))
  case return_ => exact Or.inr (Or.inr (Or.inr ⟨by simp, Or.inl h⟩))
  case br => exact Or.inr (Or.inr (Or.inr ⟨by simp, Or.inl h⟩))
  case br_table => exact Or.inr (Or.inr (Or.inr ⟨by simp, Or.inl h⟩))
  case unreachable => exact Or.inr (Or.inr (Or.inr ⟨by simp, Or.inl h⟩))
  all_goals exact Or.inr (Or.inr (Or.inr ⟨by simp, Or.inr h⟩))

/-- The frame of a successful operator method on a control stack `outer ++ [back]`: the
function data are kept; a stack that reaches the floor of `back` keeps its entries below that
floor; and the control stack gains one context that is not a function context (`block`,
`loop`, `if`), has `back` flipped to the else-branch (`else`), loses `back` (`end`), or
keeps `back` up to its reachability (every other operator). -/
theorem decodeOp_frame {ctx ctx1 : FunctionValidationContext} {op : Operation}
    {outer : List ControlContext} {back : ControlContext}
    (hcs : ctx.controlStack = outer ++ [back]) (h : ctx.decodeOp op = .ok ctx1) :
    SameFunction ctx ctx1 ∧
    (back.outerStackSize ≤ ctx.stack.length →
      ctx1.stack.take back.outerStackSize = ctx.stack.take back.outerStackSize) ∧
    (((∃ resultType, op = .block resultType ∨ op = .loop resultType ∨ op = .if_ resultType) ∧
        ∃ pushed, pushed.type ≠ ControlContextType.function ∧
          ctx1.controlStack = outer ++ [back, pushed]) ∨
      (op = .else_ ∧ back.type = ControlContextType.ifThen ∧
        ctx1.controlStack =
          outer ++ [{ back with type := ControlContextType.ifElse, isReachable := true }]) ∨
      (op = .end_ ∧ ctx1.controlStack = outer) ∨
      (((∀ resultType, op ≠ .block resultType ∧ op ≠ .loop resultType ∧
          op ≠ .if_ resultType) ∧ op ≠ .else_ ∧ op ≠ .end_) ∧
        ∃ reachable, ctx1.controlStack = outer ++ [{ back with isReachable := reachable }])) := by
  obtain ⟨mid, ⟨⟨hsame, hmidcs, hfloor⟩, _⟩, heffect⟩ :=
    FunctionValidationContext.decodeOp_detail h
  have hlast : ctx.controlStack.getLast? = some back := by simp [hcs]
  have hmid : mid.controlStack = outer ++ [back] := hmidcs.trans hcs
  have hsplit : ∀ {outer1 : List ControlContext} {back1 : ControlContext},
      mid.controlStack = outer1 ++ [back1] → outer1 = outer ∧ back1 = back := by
    intro outer1 back1 h1
    rw [hmid] at h1
    have := List.append_inj' h1 rfl
    exact ⟨this.1.symm, (List.singleton_inj.1 this.2).symm⟩
  rcases operatorEffect_cases heffect with
    ⟨hop, type, branchArgumentType, resultType, rfl, htype, _, _⟩ | ⟨hop, hpop⟩ | ⟨hop, hpop⟩ |
    ⟨hop, henter | rfl⟩
  · refine ⟨hsame, fun hlen => (hfloor back hlast hlen).2, Or.inl ⟨hop,
      { type := type, outerStackSize := mid.stack.length,
        branchArgumentType := branchArgumentType, resultType := resultType,
        isReachable := true }, htype, ?_⟩⟩
    simp [FunctionValidationContext.pushControlStack, hmid]
  · obtain ⟨outer1, back1, hcs1, hlen1, hsame1, hflip | hend⟩ :=
      FunctionValidationContext.popControlStack_ok hpop
    · obtain ⟨rfl, rfl⟩ := hsplit hcs1
      obtain ⟨_, hkind, hcsNew, hstack⟩ := hflip
      refine ⟨⟨hsame1.1.trans hsame.1, hsame1.2.1.trans hsame.2.1,
        hsame1.2.2.1.trans hsame.2.2.1, hsame1.2.2.2.trans hsame.2.2.2⟩, ?_,
        Or.inr (Or.inl ⟨hop, hkind, hcsNew⟩)⟩
      intro hlen
      rw [hstack]
      exact (hfloor _ hlast hlen).2
    · exact absurd hend.1 (by simp)
  · obtain ⟨outer1, back1, hcs1, hlen1, hsame1, hflip | hend⟩ :=
      FunctionValidationContext.popControlStack_ok hpop
    · exact absurd hflip.1 (by simp)
    · obtain ⟨rfl, rfl⟩ := hsplit hcs1
      obtain ⟨_, _, hcsNew, hstack⟩ := hend
      refine ⟨⟨hsame1.1.trans hsame.1, hsame1.2.1.trans hsame.2.1,
        hsame1.2.2.1.trans hsame.2.2.1, hsame1.2.2.2.trans hsame.2.2.2⟩, ?_,
        Or.inr (Or.inr (Or.inl ⟨hop, hcsNew⟩))⟩
      intro hlen
      obtain ⟨hge, htake⟩ := hfloor _ hlast hlen
      rw [hstack, List.take_append_of_le_length hge]
      exact htake
  · obtain ⟨outer1, back1, hcs1, hcsNew, hstack, hsame1⟩ :=
      FunctionValidationContext.enterUnreachable_ok henter
    obtain ⟨rfl, rfl⟩ := hsplit hcs1
    refine ⟨⟨hsame1.1.trans hsame.1, hsame1.2.1.trans hsame.2.1,
      hsame1.2.2.1.trans hsame.2.2.1, hsame1.2.2.2.trans hsame.2.2.2⟩, ?_,
      Or.inr (Or.inr (Or.inr ⟨hop, false, hcsNew⟩))⟩
    intro hlen
    obtain ⟨hge, htake⟩ := hfloor _ hlast hlen
    rw [hstack, resizeStack_of_le hge, List.take_take, Nat.min_self]
    exact htake
  · exact ⟨hsame, fun hlen => (hfloor back hlast hlen).2,
      Or.inr (Or.inr (Or.inr ⟨hop, back.isReachable, hmid⟩))⟩

/-- C28, the frame of every operator method: a successful method on a state with the
non-empty control stack `outer ++ [back]` keeps the locals; keeps the operand-stack entries
below the floor of `back` (on a stack that reaches that floor, as the stack of every
reachable state does); and leaves the control stack as `outer ++ [back, pushed]` for
`block`, `loop` and `if`, as `outer` for `end`, as `outer` and `back` flipped from `ifThen` to
`ifElse` for `else`, and as `outer` and `back` with at most its reachability changed for every
other operator. -/
theorem handler_frame (ctx ctx1 : FunctionValidationContext) (op : Operation)
    (outer : List ControlContext) (back : ControlContext)
    (hcs : ctx.controlStack = outer ++ [back]) (h : ctx.decodeOp op = .ok ctx1) :
    ctx1.locals = ctx.locals ∧
    ((back.outerStackSize ≤ ctx.stack.length ∨
        ∃ module functionDef, Reachable module functionDef ctx) →
      ctx1.stack.take back.outerStackSize = ctx.stack.take back.outerStackSize) ∧
    ((∃ resultType, op = .block resultType ∨ op = .loop resultType ∨ op = .if_ resultType) →
      ∃ pushed, ctx1.controlStack = outer ++ [back, pushed]) ∧
    (op = .end_ → ctx1.controlStack = outer) ∧
    (op = .else_ → back.type = ControlContextType.ifThen ∧
      ctx1.controlStack =
        outer ++ [{ back with type := ControlContextType.ifElse, isReachable := true }]) ∧
    ((∀ resultType, op ≠ .block resultType ∧ op ≠ .loop resultType ∧ op ≠ .if_ resultType) →
      op ≠ .else_ → op ≠ .end_ →
      ∃ reachable, ctx1.controlStack = outer ++ [{ back with isReachable := reachable }]) := by
  obtain ⟨hsame, hstack, hcontrol⟩ := decodeOp_frame hcs h
  refine ⟨hsame.2.2.2, ?_, ?_, ?_, ?_, ?_⟩
  · rintro (hlen | ⟨module, functionDef, hreach⟩)
    · exact hstack hlen
    · exact hstack (hreach.floorsOrdered.2 back (by simp [hcs]))
  · rintro ⟨resultType, hop⟩
    rcases hcontrol with ⟨_, pushed, _, hpushed⟩ | ⟨rfl, _⟩ | ⟨rfl, _⟩ | ⟨⟨hnot, _, _⟩, _⟩
    · exact ⟨pushed, hpushed⟩
    · simp at hop
    · simp at hop
    · rcases hop with hop | hop | hop
      · exact absurd hop (hnot resultType).1
      · exact absurd hop (hnot resultType).2.1
      · exact absurd hop (hnot resultType).2.2
  · rintro rfl
    rcases hcontrol with ⟨⟨_, hop⟩, _⟩ | ⟨hop, _⟩ | ⟨_, hend⟩ | ⟨⟨_, _, hnot⟩, _⟩
    · simp at hop
    · cases hop
    · exact hend
    · exact absurd rfl hnot
  · rintro rfl
    rcases hcontrol with ⟨⟨_, hop⟩, _⟩ | ⟨_, hflip⟩ | ⟨hop, _⟩ | ⟨⟨_, hnot, _⟩, _⟩
    · simp at hop
    · exact hflip
    · cases hop
    · exact absurd rfl hnot
  · intro hnot helse hend
    rcases hcontrol with ⟨⟨resultType, hop⟩, _⟩ | ⟨hop, _⟩ | ⟨hop, _⟩ | ⟨_, hkeep⟩
    · rcases hop with hop | hop | hop
      · exact absurd hop (hnot resultType).1
      · exact absurd hop (hnot resultType).2.1
      · exact absurd hop (hnot resultType).2.2
    · exact absurd hop helse
    · exact absurd hop hend
    · exact hkeep

theorem handler_frame_witness :
    ((sampleContext [sampleFunctionContext] [ValueType.i32]).pushControlStack
        ControlContextType.block ResultType.none ResultType.none).stack.take 0 =
      (sampleContext [sampleFunctionContext] [ValueType.i32]).stack.take 0 :=
  (handler_frame (sampleContext [sampleFunctionContext] [ValueType.i32]) _
    (Operation.block ResultType.none) [] sampleFunctionContext rfl rfl).2.1
      (Or.inl (Nat.zero_le _))

/-! ## The function context stays at the bottom of the control stack -/

theorem functionAtBottom_create {module : Module} {functionDef : FunctionDef}
    {ctx : FunctionValidationContext}
    (h : FunctionValidationContext.create module functionDef = .ok ctx) :
    FunctionAtBottom ctx ∧ ctx.controlStack ≠ [] ∧ ctx.module = module ∧
      ctx.functionDef = functionDef ∧
      module.types[functionDef.type.index]? = some ctx.functionType := by
  unfold FunctionValidationContext.create at h
  split at h
  · cases h
  · rename_i functionType htype
    injection h with h
    subst h
    refine ⟨?_, by simp [FunctionValidationContext.pushControlStack], rfl, rfl, htype⟩
    intro bottom rest hcs
    simp only [FunctionValidationContext.pushControlStack, List.nil_append,
      List.cons.injEq] at hcs
    obtain ⟨rfl, rfl⟩ := hcs
    simp [FunctionValidationContext.pushControlStack]

/-- A successful operator method on a non-empty control stack keeps the function context at
the bottom. -/
theorem functionAtBottom_decodeOp {ctx ctx1 : FunctionValidationContext} {op : Operation}
    (hbottom : FunctionAtBottom ctx) (hne : ctx.controlStack ≠ [])
    (h : ctx.decodeOp op = .ok ctx1) : FunctionAtBottom ctx1 := by
  rcases List.eq_nil_or_concat ctx.controlStack with hnil | ⟨outer, back, hcs⟩
  · exact absurd hnil hne
  rw [List.concat_eq_append] at hcs
  obtain ⟨hsame, _, hcontrol⟩ := decodeOp_frame hcs h
  intro bottom1 rest1 hcs1
  rw [hsame.2.2.1]
  cases outer with
  | nil =>
    have hback := hbottom back [] (by simpa using hcs)
    rcases hcontrol with ⟨_, pushed, hpushed, hnew⟩ | ⟨_, hkind, _⟩ | ⟨_, hnew⟩ |
      ⟨_, reachable, hnew⟩
    · rw [hnew] at hcs1
      simp only [List.nil_append, List.cons.injEq] at hcs1
      obtain ⟨rfl, rfl⟩ := hcs1
      refine ⟨hback.1, hback.2.1, hback.2.2.1, hback.2.2.2.1, ?_⟩
      intro context hin
      rw [List.mem_singleton.1 hin]
      exact hpushed
    · rw [hback.1] at hkind
      cases hkind
    · rw [hnew] at hcs1
      cases hcs1
    · rw [hnew] at hcs1
      simp only [List.nil_append, List.cons.injEq] at hcs1
      obtain ⟨rfl, rfl⟩ := hcs1
      exact ⟨hback.1, hback.2.1, hback.2.2.1, hback.2.2.2.1, by simp⟩
  | cons bottom outer1 =>
    have hall := hbottom bottom (outer1 ++ [back]) (by simpa using hcs)
    obtain ⟨h1, h2, h3, h4, hrest⟩ := hall
    have houter : ∀ context ∈ outer1, context.type ≠ ControlContextType.function :=
      fun context hin => hrest context (List.mem_append_left _ hin)
    have hbackType : back.type ≠ ControlContextType.function :=
      hrest back (List.mem_append_right _ (List.mem_singleton_self _))
    rcases hcontrol with ⟨_, pushed, hpushed, hnew⟩ | ⟨_, hkind, hnew⟩ | ⟨_, hnew⟩ |
      ⟨_, reachable, hnew⟩
    · rw [hnew] at hcs1
      simp only [List.cons_append, List.cons.injEq] at hcs1
      obtain ⟨rfl, rfl⟩ := hcs1
      refine ⟨h1, h2, h3, h4, ?_⟩
      intro context hin
      simp only [List.mem_append, List.mem_cons, List.not_mem_nil, or_false] at hin
      rcases hin with hin | rfl | rfl
      · exact houter context hin
      · exact hbackType
      · exact hpushed
    · rw [hnew] at hcs1
      simp only [List.cons_append, List.cons.injEq] at hcs1
      obtain ⟨rfl, rfl⟩ := hcs1
      refine ⟨h1, h2, h3, h4, ?_⟩
      intro context hin
      simp only [List.mem_append, List.mem_singleton] at hin
      rcases hin with hin | rfl
      · exact houter context hin
      · simp
    · rw [hnew] at hcs1
      simp only [List.cons.injEq] at hcs1
      obtain ⟨rfl, rfl⟩ := hcs1
      exact ⟨h1, h2, h3, h4, houter⟩
    · rw [hnew] at hcs1
      simp only [List.cons_append, List.cons.injEq] at hcs1
      obtain ⟨rfl, rfl⟩ := hcs1
      refine ⟨h1, h2, h3, h4, ?_⟩
      intro context hin
      simp only [List.mem_append, List.mem_singleton] at hin
      rcases hin with hin | rfl
      · exact houter context hin
      · exact hbackType

/-- Along a walk the function context stays at the bottom, and the function data are kept. -/
theorem Walk.functionAtBottom {ctx ctx1 : FunctionValidationContext} {code : List Operation}
    (hwalk : Walk ctx code ctx1) (hbottom : FunctionAtBottom ctx) :
    FunctionAtBottom ctx1 ∧ SameFunction ctx ctx1 := by
  induction hwalk with
  | done ctx => exact ⟨hbottom, rfl, rfl, rfl, rfl⟩
  | @next ctxa ctxb ctxc op rest hne hop _ ih =>
    obtain ⟨hc, hsame2⟩ := ih (functionAtBottom_decodeOp hbottom hne hop)
    obtain ⟨mid, hstep, heffect⟩ := FunctionValidationContext.decodeOp_shape hop
    have hsame1 := controlEffect_sameFunction heffect
    have hsame0 := hstep.1
    exact ⟨hc, hsame2.1.trans (hsame1.1.trans hsame0.1),
      hsame2.2.1.trans (hsame1.2.1.trans hsame0.2.1),
      hsame2.2.2.1.trans (hsame1.2.2.1.trans hsame0.2.2.1),
      hsame2.2.2.2.trans (hsame1.2.2.2.trans hsame0.2.2.2)⟩

/-- The shape of the control stack along the walk of `validateCode`: in every state reached
from the initial state by successful operator methods each run on a non-empty control stack,
the bottom context of a non-empty control stack is a function context on floor `0` whose
result type is the declared result type of the function, and no other context is a function
context; and an operator method empties the control stack only when it is `end` and the
function context is the innermost (and only) context. -/
theorem control_stack_shape (module : Module) (functionDef : FunctionDef)
    (initial ctx : FunctionValidationContext) (code : List Operation)
    (hcreate : FunctionValidationContext.create module functionDef = .ok initial)
    (hwalk : Walk initial code ctx) :
    (∀ bottom rest, ctx.controlStack = bottom :: rest →
      bottom.type = ControlContextType.function ∧ bottom.outerStackSize = 0 ∧
      (∃ functionType, module.types[functionDef.type.index]? = some functionType ∧
        bottom.resultType = functionType.ret) ∧
      ∀ context ∈ rest, context.type ≠ ControlContextType.function) ∧
    (∀ op ctx1, ctx.controlStack ≠ [] → ctx.decodeOp op = .ok ctx1 → ctx1.controlStack = [] →
      op = .end_ ∧ ∃ bottom, ctx.controlStack = [bottom] ∧
        bottom.type = ControlContextType.function) := by
  obtain ⟨hinitial, _, _, _, htype⟩ := functionAtBottom_create hcreate
  obtain ⟨hbottom, hsame⟩ := hwalk.functionAtBottom hinitial
  constructor
  · intro bottom rest hcs
    obtain ⟨h1, h2, h3, _, h5⟩ := hbottom bottom rest hcs
    exact ⟨h1, h2, ⟨initial.functionType, htype, by rw [h3, hsame.2.2.1]⟩, h5⟩
  · intro op ctx1 hne hop hempty
    rcases List.eq_nil_or_concat ctx.controlStack with hnil | ⟨outer, back, hcs⟩
    · exact absurd hnil hne
    rw [List.concat_eq_append] at hcs
    obtain ⟨_, _, hcontrol⟩ := decodeOp_frame hcs hop
    rcases hcontrol with ⟨_, pushed, _, hnew⟩ | ⟨_, _, hnew⟩ | ⟨hend, hnew⟩ |
      ⟨_, reachable, hnew⟩
    · rw [hnew] at hempty
      simp at hempty
    · rw [hnew] at hempty
      simp at hempty
    · rw [hnew] at hempty
      subst hempty
      refine ⟨hend, back, by simpa using hcs, ?_⟩
      exact (hbottom back [] (by simpa using hcs)).1
    · rw [hnew] at hempty
      simp at hempty

theorem control_stack_shape_witness :
    sampleFunctionContext.type = ControlContextType.function ∧
    sampleFunctionContext.outerStackSize = 0 ∧
    (∃ functionType, sampleModule.types[(sampleFunctionDef 1 []).type.index]? =
        some functionType ∧ sampleFunctionContext.resultType = functionType.ret) ∧
    ∀ context ∈ [sampleInnerContext ControlContextType.block 0 ResultType.i32 true],
      context.type ≠ ControlContextType.function :=
  (control_stack_shape sampleModule (sampleFunctionDef 1 [])
    (sampleContext [sampleFunctionContext] [])
    (sampleContext [sampleFunctionContext,
      sampleInnerContext ControlContextType.block 0 ResultType.i32 true] [])
    [Operation.block ResultType.i32] rfl
    (Walk.next (by decide) rfl (Walk.done _))).1 sampleFunctionContext
      [sampleInnerContext ControlContextType.block 0 ResultType.i32 true] rfl

/-! ## `return` and the branch to the function context -/

/-- The success of `popAndValidateResultType` and the context it yields do not depend on the
text passed for the diagnostic. -/
theorem popAndValidateResultType_context (ctx ctx1 : FunctionValidationContext)
    (first second : String) (expectedType : ResultType) :
    ctx.popAndValidateResultType first expectedType = .ok ctx1 ↔
      ctx.popAndValidateResultType second expectedType = .ok ctx1 := by
  have hoperand : ∀ (context : String) (type : ValueType),
      ctx.popAndValidateOperand context type = .ok ctx1 ↔
        ∃ actualType, ctx.popOperand = .ok (actualType, ctx1) ∧ Matches type actualType := by
    intro context type
    constructor
    · exact FunctionValidationContext.popAndValidateOperand_ok
    · rintro ⟨actualType, hpop, hmatch⟩
      unfold FunctionValidationContext.popAndValidateOperand
      rw [hpop]
      simp only
      rw [FunctionValidationContext.validateOperandType_eq_ok.2 hmatch]
  unfold FunctionValidationContext.popAndValidateResultType
  split
  · rw [hoperand, hoperand]
  · exact Iff.rfl

/-- A result is a failure exactly when it is no success. -/
theorem Result.isError_iff {α : Type} (result : Result α) :
    (∃ e, result = .error e) ↔ ¬ ∃ x, result = .ok x := by
  cases result with
  | error e => simp
  | ok x => simp

/-- Along the walk of `validateCode`, `return` is the branch to the outermost context: in
every state reached from the initial state by successful operator methods each run on a
non-empty control stack, with a control stack of length `len >= 1`, `return` and
`br (len - 1)` either both fail or both succeed with the same resulting state. -/
theorem return_is_outermost_branch (module : Module) (functionDef : FunctionDef)
    (initial ctx : FunctionValidationContext) (code : List Operation)
    (hcreate : FunctionValidationContext.create module functionDef = .ok initial)
    (hwalk : Walk initial code ctx) (hlen : 1 ≤ ctx.controlStack.length) :
    (∀ ctx1, ctx.return_ = .ok ctx1 ↔ ctx.br (ctx.controlStack.length - 1) = .ok ctx1) ∧
    ((∃ e, ctx.return_ = .error e) ↔ ∃ e, ctx.br (ctx.controlStack.length - 1) = .error e) := by
  obtain ⟨hbottom, _⟩ := hwalk.functionAtBottom (functionAtBottom_create hcreate).1
  have hdepth : ctx.controlStack.length - 1 < ctx.controlStack.length := by omega
  obtain ⟨target, hget, htarget⟩ := getBranchTargetByDepth_of_lt hdepth
  have hzero : ctx.controlStack.length - (ctx.controlStack.length - 1) - 1 = 0 := by omega
  rw [hzero] at hget
  have hargument : target.branchArgumentType = ctx.functionType.ret := by
    cases hcs : ctx.controlStack with
    | nil =>
      rw [hcs] at hget
      cases hget
    | cons bottom rest =>
      rw [hcs] at hget
      simp only [List.getElem?_cons_zero, Option.some.injEq] at hget
      subst hget
      exact (hbottom _ rest hcs).2.2.2.1
  have hsame : ∀ ctx1, ctx.return_ = .ok ctx1 ↔
      ctx.br (ctx.controlStack.length - 1) = .ok ctx1 := by
    intro ctx1
    unfold FunctionValidationContext.return_ FunctionValidationContext.br
    rw [htarget]
    simp only [hargument]
    cases hfirst : ctx.popAndValidateResultType "ret" ctx.functionType.ret with
    | error e =>
      cases hsecond : ctx.popAndValidateResultType "br argument" ctx.functionType.ret with
      | error e2 => simp
      | ok mid =>
        rw [← popAndValidateResultType_context ctx mid "ret" "br argument"] at hsecond
        rw [hfirst] at hsecond
        cases hsecond
    | ok mid =>
      rw [(popAndValidateResultType_context ctx mid "ret" "br argument" _).1 hfirst]
  refine ⟨hsame, ?_⟩
  rw [Result.isError_iff, Result.isError_iff]
  exact not_congr (exists_congr hsame)

theorem return_is_outermost_branch_witness :
    (sampleContext [sampleFunctionContext,
        sampleInnerContext ControlContextType.block 0 ResultType.i32 true] []).return_ =
        .ok (sampleContext [sampleFunctionContext,
          sampleInnerContext ControlContextType.block 0 ResultType.i32 false] []) ↔
      (sampleContext [sampleFunctionContext,
        sampleInnerContext ControlContextType.block 0 ResultType.i32 true] []).br
        ((sampleContext [sampleFunctionContext,
          sampleInnerContext ControlContextType.block 0 ResultType.i32 true]
          []).controlStack.length - 1) =
        .ok (sampleContext [sampleFunctionContext,
          sampleInnerContext ControlContextType.block 0 ResultType.i32 false] []) :=
  (return_is_outermost_branch sampleModule (sampleFunctionDef 1 [])
    (sampleContext [sampleFunctionContext] [])
    (sampleContext [sampleFunctionContext,
      sampleInnerContext ControlContextType.block 0 ResultType.i32 true] [])
    [Operation.block ResultType.i32] rfl (Walk.next (by decide) rfl (Walk.done _))
    (by decide)).1 _

/-! ## No malformed type on the stacks, and `any` only in dead frames -/

theorem asValueType_concrete {type : ResultType} (hvalid : validateResultType type = .ok ())
    (hne : type ≠ ResultType.none) : validateValueType (asValueType type) = .ok () := by
  cases type with
  | none => exact absurd rfl hne
  | malformed k => simp [validateResultType] at hvalid
  | i32 => rfl
  | i64 => rfl
  | f32 => rfl
  | f64 => rfl

/-- In an accepted module the context constructed for one of its function definitions has
well-formed types, and its stacks are well typed. -/
theorem concreteTypes_create {module : Module} {functionDef : FunctionDef}
    {ctx : FunctionValidationContext} (hvalid : validateDefinitions module = .ok ())
    (hmem : functionDef ∈ module.functions.defs)
    (h : FunctionValidationContext.create module functionDef = .ok ctx) :
    ConcreteTypes ctx ∧ WellTyped ctx := by
  have hsteps := validateDefinitions_steps hvalid
  have htypes := hsteps (forEach validateFunctionType module.types)
    (by simp [validateDefinitionsSteps])
  have hdefs := hsteps (forEach (validateFunctionDefType module) module.functions.defs)
    (by simp [validateDefinitionsSteps])
  have hglobalImports := hsteps (forEach validateGlobalImport module.globals.imports)
    (by simp [validateDefinitionsSteps])
  have hglobalDefs := hsteps (forEach (validateGlobalDef module) module.globals.defs)
    (by simp [validateDefinitionsSteps])
  rw [forEach_eq_ok] at htypes hdefs hglobalImports hglobalDefs
  have hsignature : ∀ signature ∈ module.types,
      (∀ type ∈ signature.parameters, validateValueType type = .ok ()) ∧
      validateResultType signature.ret = .ok () := by
    intro signature hin
    have hft := htypes signature hin
    unfold validateFunctionType at hft
    split at hft
    · cases hft
    · rename_i hparams
      exact ⟨(forEach_eq_ok _ _).1 hparams, hft⟩
  unfold FunctionValidationContext.create at h
  split at h
  · cases h
  · rename_i functionType htype
    injection h with h
    subst h
    have hfunction := hsignature functionType (List.getElem?_mem htype)
    refine ⟨⟨?_, ?_, fun signature hin => (hsignature signature hin).2⟩, ?_, ?_⟩
    · intro type hin
      simp only [FunctionValidationContext.pushControlStack, List.mem_append] at hin
      rcases hin with hin | hin
      · exact hfunction.1 type hin
      · have hdef := hdefs functionDef hmem
        unfold validateFunctionDefType at hdef
        split at hdef
        · cases hdef
        · exact (forEach_eq_ok _ _).1 hdef type hin
    · intro index globalType hget
      have hget1 : module.globals.getType GlobalDef.type index = some globalType := hget
      rcases IndexSpace.getType_mem GlobalDef.type _ hget1 with hin | ⟨definition, hin, heq⟩
      · have himport := hglobalImports globalType hin
        unfold validateGlobalImport at himport
        split at himport
        · cases himport
        · rename_i hglobal
          exact hglobal
      · have hdef := hglobalDefs definition hin
        unfold validateGlobalDef at hdef
        split at hdef
        · cases hdef
        · rename_i hglobal
          rw [← heq]
          exact hglobal
    · intro type hin
      simp [FunctionValidationContext.pushControlStack] at hin
    · intro context hin
      simp only [FunctionValidationContext.pushControlStack, List.nil_append,
        List.mem_singleton] at hin
      subst hin
      exact ⟨hfunction.2, hfunction.2⟩

theorem concreteTypes_sameFunction {ctx ctx1 : FunctionValidationContext}
    (hconcrete : ConcreteTypes ctx) (h : SameFunction ctx ctx1) : ConcreteTypes ctx1 := by
  obtain ⟨hmodule, _, _, hlocals⟩ := h
  unfold ConcreteTypes
  rw [hmodule, hlocals]
  exact hconcrete

/-- With well-formed types, an operand type with a known source is `any` or well formed. -/
theorem sourced_wellTyped {ctx : FunctionValidationContext} (hconcrete : ConcreteTypes ctx)
    (htyped : WellTyped ctx) {type : ValueType} (h : Sourced ctx type) :
    type = ValueType.any ∨ validateValueType type = .ok () := by
  rcases h with h | h | h | h | ⟨index, globalType, hget, rfl⟩ | ⟨signature, hin, hne, rfl⟩ |
    ⟨context, hin, hne, rfl⟩
  · exact htyped.1 type h
  · exact Or.inl h
  · exact Or.inr h
  · exact Or.inr (hconcrete.1 type h)
  · exact Or.inr (hconcrete.2.1 index globalType hget)
  · exact Or.inr (asValueType_concrete (hconcrete.2.2 signature hin) hne)
  · exact Or.inr (asValueType_concrete (htyped.2 context hin).2 hne)

/-- A successful operator method keeps the stacks well typed. -/
theorem wellTyped_decodeOp {ctx ctx1 : FunctionValidationContext} {op : Operation}
    (hconcrete : ConcreteTypes ctx) (htyped : WellTyped ctx)
    (h : ctx.decodeOp op = .ok ctx1) : WellTyped ctx1 := by
  obtain ⟨mid, hstep, heffect⟩ := FunctionValidationContext.decodeOp_detail h
  have hmidStack : ∀ type ∈ mid.stack,
      type = ValueType.any ∨ validateValueType type = .ok () :=
    fun type hin => sourced_wellTyped hconcrete htyped (hstep.2 type hin)
  have hmidControl : ∀ context ∈ mid.controlStack,
      validateResultType context.resultType = .ok () ∧
      validateResultType context.branchArgumentType = .ok () := by
    rw [hstep.1.2.1]
    exact htyped.2
  rcases operatorEffect_cases heffect with
    ⟨_, type, branchArgumentType, resultType, rfl, _, hvalid, hargument⟩ | ⟨_, hpop⟩ |
    ⟨_, hpop⟩ | ⟨_, henter | rfl⟩
  · refine ⟨hmidStack, ?_⟩
    intro context hin
    simp only [FunctionValidationContext.pushControlStack, List.mem_append,
      List.mem_singleton] at hin
    rcases hin with hin | rfl
    · exact hmidControl context hin
    · refine ⟨hvalid, ?_⟩
      rcases hargument with rfl | rfl
      · exact hvalid
      · rfl
  · obtain ⟨outer, back, hcs, _, _, hflip | hend⟩ :=
      FunctionValidationContext.popControlStack_ok hpop
    · obtain ⟨_, _, hcsNew, hstack⟩ := hflip
      have hback := hmidControl back (by simp [hcs])
      refine ⟨by rw [hstack]; exact hmidStack, ?_⟩
      intro context hin
      rw [hcsNew] at hin
      simp only [List.mem_append, List.mem_singleton] at hin
      rcases hin with hin | rfl
      · exact hmidControl context (by simp [hcs, hin])
      · exact hback
    · exact absurd hend.1 (by simp)
  · obtain ⟨outer, back, hcs, _, _, hflip | hend⟩ :=
      FunctionValidationContext.popControlStack_ok hpop
    · exact absurd hflip.1 (by simp)
    · obtain ⟨_, _, hcsNew, hstack⟩ := hend
      have hback := hmidControl back (by simp [hcs])
      constructor
      · intro type hin
        rw [hstack, List.mem_append] at hin
        rcases hin with hin | hin
        · exact hmidStack type hin
        · split at hin
          · cases hin
          · rename_i hnot
            rw [List.mem_singleton] at hin
            subst hin
            exact Or.inr (asValueType_concrete hback.1 (fun hnone => hnot (Or.inr hnone)))
      · intro context hin
        rw [hcsNew] at hin
        exact hmidControl context (by simp [hcs, hin])
  · obtain ⟨outer, back, hcs, hcsNew, hstack, _⟩ :=
      FunctionValidationContext.enterUnreachable_ok henter
    have hback := hmidControl back (by simp [hcs])
    constructor
    · intro type hin
      rw [hstack] at hin
      unfold FunctionValidationContext.resizeStack at hin
      rcases List.mem_append.1 hin with hin | hin
      · exact hmidStack type (List.mem_of_mem_take hin)
      · exact Or.inl (List.eq_of_mem_replicate hin)
    · intro context hin
      rw [hcsNew] at hin
      simp only [List.mem_append, List.mem_singleton] at hin
      rcases hin with hin | rfl
      · exact hmidControl context (by simp [hcs, hin])
      · exact hback
  · exact ⟨hmidStack, hmidControl⟩

/-- In a state reachable in an accepted module the types are well formed and the stacks well
typed. -/
theorem ValidatedReachable.wellTyped {module : Module} {functionDef : FunctionDef}
    {ctx : FunctionValidationContext} (h : ValidatedReachable module functionDef ctx) :
    ConcreteTypes ctx ∧ WellTyped ctx := by
  obtain ⟨hvalid, hmem, hreach⟩ := h
  induction hreach with
  | initial hcreate => exact concreteTypes_create hvalid hmem hcreate
  | step op _ hop ih =>
    obtain ⟨hconcrete, htyped⟩ := ih
    obtain ⟨mid, hstep, heffect⟩ := FunctionValidationContext.decodeOp_shape hop
    exact ⟨concreteTypes_sameFunction (concreteTypes_sameFunction hconcrete hstep.1)
      (controlEffect_sameFunction heffect), wellTyped_decodeOp hconcrete htyped hop⟩

/-- C27, `any` never reaches live code: in a state reachable in a module that
`validateDefinitions` accepts, every operand-stack entry equal to `any` lies in the frame of an
unreachable control context (from the floor of that context up to the floor of the next
context, or up to the stack height for the innermost), and with a reachable innermost context
every successful `popOperand` returns one of `i32`, `i64`, `f32`, `f64`. -/
theorem any_never_live (module : Module) (functionDef : FunctionDef)
    (ctx : FunctionValidationContext) (hvalid : ValidatedReachable module functionDef ctx) :
    (∀ i : Nat, ctx.stack[i]? = some ValueType.any →
      ∃ outer context inner, ctx.controlStack = outer ++ context :: inner ∧
        context.isReachable = false ∧ context.outerStackSize ≤ i ∧
        i < (match inner.head? with
          | some next => next.outerStackSize
          | none => ctx.stack.length)) ∧
    (∀ back result ctx1, ctx.controlStack.getLast? = some back → back.isReachable = true →
      ctx.popOperand = .ok (result, ctx1) →
      result = ValueType.i32 ∨ result = ValueType.i64 ∨ result = ValueType.f32 ∨
        result = ValueType.f64) := by
  constructor
  · intro i hi
    obtain ⟨outer, context, inner, hcs, hfloor, hdead, hinner⟩ := hvalid.sound.2.2 i hi
    refine ⟨outer, context, inner, hcs, hdead, Nat.le_of_eq hfloor, ?_⟩
    cases inner with
    | nil =>
      simp only [List.head?_nil]
      by_contra hge
      rw [List.getElem?_eq_none (Nat.le_of_not_lt hge)] at hi
      cases hi
    | cons next rest =>
      simp only [List.head?_cons]
      exact hinner next (List.mem_cons_self _ _)
  · intro back result ctx1 hback hlive hpop
    obtain ⟨back1, hback1, htop | hfloor⟩ := FunctionValidationContext.popOperand_ok hpop
    · obtain ⟨hlt, hstack, _⟩ := htop
      rw [hback] at hback1
      cases hback1
      have hlen : ctx.stack.length = ctx.stack.dropLast.length + 1 := by
        rw [List.length_dropLast]
        omega
      have hget : ctx.stack[ctx.stack.length - 1]? = some result := by
        rw [hstack, List.length_append, List.length_singleton, Nat.add_sub_cancel,
          List.getElem?_append_right (Nat.le_refl _), Nat.sub_self]
        rfl
      have hclean : result ≠ ValueType.any := by
        intro hany
        apply hvalid.frame_clean hback hlive (Nat.le_sub_one_of_lt hlt)
        rw [hget, hany]
      rcases hvalid.wellTyped.2.1 result (List.getElem?_mem hget) with hany | hconcrete
      · exact absurd hany hclean
      · exact validateValueType_eq_ok.1 hconcrete
    · obtain ⟨_, hdead, _, _⟩ := hfloor
      rw [hback] at hback1
      cases hback1
      rw [hlive] at hdead
      cases hdead

theorem any_never_live_witness :
    (sampleCallContext [sampleFunctionContext] [ValueType.i32]).popOperand =
        .ok (ValueType.i32, sampleCallContext [sampleFunctionContext] []) ∧
      (ValueType.i32 = ValueType.i32 ∨ ValueType.i32 = ValueType.i64 ∨
        ValueType.i32 = ValueType.f32 ∨ ValueType.i32 = ValueType.f64) :=
  ⟨rfl, (any_never_live sampleCallModule (sampleFunctionDef 1 [])
    (sampleCallContext [sampleFunctionContext] [ValueType.i32])
    sampleCallContext_reachable).2 sampleFunctionContext ValueType.i32
      (sampleCallContext [sampleFunctionContext] []) rfl rfl rfl⟩

/-! ## No access out of range after the validation of the definitions -/

theorem OperandStep.nonempty {ctx ctx1 : FunctionValidationContext}
    (h : OperandStep ctx ctx1) (hne : ctx.controlStack ≠ []) : ctx1.controlStack ≠ [] := by
  rw [h.2.1]
  exact hne

theorem exists_back {ctx : FunctionValidationContext} (hne : ctx.controlStack ≠ []) :
    ∃ back, ctx.controlStack.getLast? = some back := by
  rcases List.eq_nil_or_concat ctx.controlStack with hnil | ⟨outer, back, hcs⟩
  · exact absurd hnil hne
  · exact ⟨back, by simp [hcs]⟩

theorem validateOperandType_ne_undefined (expectedType actualType : ValueType)
    (context : String) :
    validateOperandType expectedType actualType context ≠ .error .undefinedBehaviour := by
  unfold validateOperandType
  split <;> simp

theorem popAndValidateOperand_ne_undefined {ctx : FunctionValidationContext}
    (hne : ctx.controlStack ≠ []) (context : String) (expectedType : ValueType) :
    ctx.popAndValidateOperand context expectedType ≠ .error .undefinedBehaviour := by
  obtain ⟨back, hback⟩ := exists_back hne
  unfold FunctionValidationContext.popAndValidateOperand
  split
  · rename_i e heq
    exact error_ne_undefined heq (popOperand_ne_undefined hback)
  · split
    · rename_i e heq
      exact error_ne_undefined heq (validateOperandType_ne_undefined _ _ _)
    · simp

theorem popAndValidateOperandsLoop_ne_undefined (context : String) :
    ∀ (expectedTypes : List ValueType) (ctx : FunctionValidationContext),
      ctx.controlStack ≠ [] →
      FunctionValidationContext.popAndValidateOperandsLoop context expectedTypes ctx ≠
        .error .undefinedBehaviour
  | [], ctx, _ => by simp [FunctionValidationContext.popAndValidateOperandsLoop]
  | expectedType :: remaining, ctx, hne => by
    obtain ⟨back, hback⟩ := exists_back hne
    simp only [FunctionValidationContext.popAndValidateOperandsLoop]
    split
    · rename_i e heq
      exact error_ne_undefined heq (popOperand_ne_undefined hback)
    · rename_i actualType ctx2 hpop
      split
      · rename_i e heq
        exact error_ne_undefined heq (validateOperandType_ne_undefined _ _ _)
      · exact popAndValidateOperandsLoop_ne_undefined context remaining ctx2
          ((FunctionValidationContext.operandStep_popOperand hpop).nonempty hne)

theorem popAndValidateOperands_ne_undefined {ctx : FunctionValidationContext}
    (hne : ctx.controlStack ≠ []) (context : String) (expectedTypes : List ValueType) :
    ctx.popAndValidateOperands context expectedTypes ≠ .error .undefinedBehaviour :=
  popAndValidateOperandsLoop_ne_undefined context _ ctx hne

theorem popAndValidateResultType_nonempty {ctx : FunctionValidationContext}
    (hne : ctx.controlStack ≠ []) (context : String) (expectedType : ResultType) :
    ctx.popAndValidateResultType context expectedType ≠ .error .undefinedBehaviour := by
  obtain ⟨back, hback⟩ := exists_back hne
  exact popAndValidateResultType_ne_undefined hback context expectedType

theorem enterUnreachable_ne_undefined {ctx : FunctionValidationContext}
    (hne : ctx.controlStack ≠ []) : ctx.enterUnreachable ≠ .error .undefinedBehaviour := by
  obtain ⟨back, hback⟩ := exists_back hne
  unfold FunctionValidationContext.enterUnreachable
  rw [FunctionValidationContext.controlStackBack_of_getLast hback]
  simp

theorem popControlStack_nonempty {ctx : FunctionValidationContext}
    (hne : ctx.controlStack ≠ []) (isElse : Bool) :
    ctx.popControlStack isElse ≠ .error .undefinedBehaviour := by
  obtain ⟨back, hback⟩ := exists_back hne
  exact popControlStack_ne_undefined hback isElse

/-- The branch target is read only at a validated depth. -/
theorem getBranchTargetByDepth_ne_undefined (ctx : FunctionValidationContext) (depth : Nat) :
    ctx.getBranchTargetByDepth depth ≠ .error .undefinedBehaviour := by
  rcases Nat.lt_or_ge depth ctx.controlStack.length with hlt | hge
  · obtain ⟨target, _, htarget⟩ := getBranchTargetByDepth_of_lt hlt
    rw [htarget]
    simp
  · rw [getBranchTargetByDepth_of_ge hge]
    simp

theorem brTableTargets_ne_undefined (ctx : FunctionValidationContext)
    (defaultTargetArgumentType : ResultType) :
    ∀ targetDepths : List Nat,
      ctx.brTableTargets defaultTargetArgumentType targetDepths ≠ .error .undefinedBehaviour
  | [] => by simp [FunctionValidationContext.brTableTargets]
  | targetDepth :: targetDepths => by
    simp only [FunctionValidationContext.brTableTargets]
    split
    · rename_i e heq
      exact error_ne_undefined heq (getBranchTargetByDepth_ne_undefined _ _)
    · split
      · simp
      · exact brTableTargets_ne_undefined ctx defaultTargetArgumentType targetDepths

/-- A local is read only at a validated index. -/
theorem validateLocalIndex_ne_undefined (ctx : FunctionValidationContext) (localIndex : Nat) :
    ctx.validateLocalIndex localIndex ≠ .error .undefinedBehaviour := by
  unfold FunctionValidationContext.validateLocalIndex VALIDATE_INDEX
  by_cases hge : localIndex ≥ ctx.locals.length
  · simp [hge]
  · simp [hge, List.getElem?_eq_getElem (Nat.lt_of_not_ge hge)]

/-- In an accepted module `validateFunctionIndex` reads the type table in range: it fails only
on an index that is not below the number of functions, with an exception. -/
theorem validateFunctionIndex_ne_undefined {module : Module}
    (hvalid : validateDefinitions module = .ok ()) (functionIndex : Nat) :
    validateFunctionIndex module functionIndex ≠ .error .undefinedBehaviour ∧
    (functionIndex < module.functions.size →
      ∃ signature, validateFunctionIndex module functionIndex = .ok signature) := by
  unfold validateFunctionIndex VALIDATE_INDEX
  by_cases hge : functionIndex ≥ module.functions.size
  · refine ⟨by simp [hge], fun hlt => absurd hlt (Nat.not_lt.2 hge)⟩
  · obtain ⟨indexedType, signature, hget, htype⟩ :=
      validateDefinitions_function_signature hvalid (Nat.lt_of_not_ge hge)
    simp [hge, hget, htype]

theorem validateLoadOrStoreImm_ne_undefined (ctx : FunctionValidationContext)
    (nameString : String) (naturalAlignmentLog2 alignmentLog2 offset : Nat) :
    ctx.validateLoadOrStoreImm nameString naturalAlignmentLog2 alignmentLog2 offset ≠
      .error .undefinedBehaviour := by
  unfold FunctionValidationContext.validateLoadOrStoreImm
  split_ifs <;> simp

namespace FunctionValidationContext

/-- In an accepted module, an operator method run on a non-empty control stack fails only by
throwing an exception: it reads nothing out of range. -/
theorem decodeOp_ne_undefined {ctx : FunctionValidationContext}
    (hvalid : validateDefinitions ctx.module = .ok ()) (hne : ctx.controlStack ≠ [])
    (op : Operation) : ctx.decodeOp op ≠ .error .undefinedBehaviour := by
  obtain ⟨back, hback⟩ := exists_back hne
  have hb := controlStackBack_of_getLast hback
  cases op <;> simp only [decodeOp]
  case unknown opcode => simp [unknown]
  case block resultType =>
    unfold block
    split
    · rename_i e heq
      exact error_ne_undefined heq (validateResultType_ne_undefined _)
    · simp
  case loop resultType =>
    unfold loop
    split
    · rename_i e heq
      exact error_ne_undefined heq (validateResultType_ne_undefined _)
    · simp
  case if_ resultType =>
    unfold if_
    split
    · rename_i e heq
      exact error_ne_undefined heq (validateResultType_ne_undefined _)
    · split
      · rename_i e heq
        exact error_ne_undefined heq (popAndValidateOperand_ne_undefined hne _ _)
      · simp
  case else_ => exact (end_else_ne_undefined hback).2
  case end_ => exact (end_else_ne_undefined hback).1
  case return_ =>
    unfold return_
    split
    · rename_i e heq
      exact error_ne_undefined heq (popAndValidateResultType_nonempty hne _ _)
    · rename_i ctx2 hpop
      exact enterUnreachable_ne_undefined
        ((operandStep_popAndValidateResultType hpop).nonempty hne)
  case br targetDepth =>
    unfold br
    split
    · rename_i e heq
      exact error_ne_undefined heq (getBranchTargetByDepth_ne_undefined _ _)
    · split
      · rename_i e heq
        exact error_ne_undefined heq (popAndValidateResultType_nonempty hne _ _)
      · rename_i ctx2 hpop
        exact enterUnreachable_ne_undefined
          ((operandStep_popAndValidateResultType hpop).nonempty hne)
  case br_table targetDepths defaultTargetDepth =>
    unfold br_table
    split
    · rename_i e heq
      exact error_ne_undefined heq (popAndValidateOperand_ne_undefined hne _ _)
    · rename_i ctx2 hpop
      have hne2 := (operandStep_popAndValidateOperand hpop).nonempty hne
      split
      · rename_i e heq
        exact error_ne_undefined heq (getBranchTargetByDepth_ne_undefined _ _)
      · simp only
        split
        · rename_i e heq
          exact error_ne_undefined heq (popAndValidateResultType_nonempty hne2 _ _)
        · rename_i ctx3 hpop3
          have hne3 := (operandStep_popAndValidateResultType hpop3).nonempty hne2
          split
          · rename_i e heq
            exact error_ne_undefined heq (brTableTargets_ne_undefined _ _ _)
          · exact enterUnreachable_ne_undefined hne3
  case br_if targetDepth =>
    unfold br_if
    split
    · rename_i e heq
      exact error_ne_undefined heq (popAndValidateOperand_ne_undefined hne _ _)
    · rename_i ctx2 hpop
      have hne2 := (operandStep_popAndValidateOperand hpop).nonempty hne
      split
      · rename_i e heq
        exact error_ne_undefined heq (getBranchTargetByDepth_ne_undefined _ _)
      · split
        · rename_i e heq
          exact error_ne_undefined heq (popAndValidateResultType_nonempty hne2 _ _)
        · split
          · rename_i e heq
            exact error_ne_undefined heq (getBranchTargetByDepth_ne_undefined _ _)
          · simp
  case nop => simp [nop]
  case unreachable => exact enterUnreachable_ne_undefined hne
  case drop =>
    unfold drop
    split
    · rename_i e heq
      exact error_ne_undefined heq (popOperand_ne_undefined hback)
    · simp
  case select =>
    unfold select
    split
    · rename_i e heq
      exact error_ne_undefined heq (popOperand_ne_undefined hback)
    · rename_i condition ctx2 hpop1
      have hne2 := (operandStep_popOperand hpop1).nonempty hne
      obtain ⟨back2, hback2⟩ := exists_back hne2
      split
      · rename_i e heq
        exact error_ne_undefined heq (popOperand_ne_undefined hback2)
      · rename_i falseType ctx3 hpop2
        obtain ⟨back3, hback3⟩ := exists_back ((operandStep_popOperand hpop2).nonempty hne2)
        split
        · rename_i e heq
          exact error_ne_undefined heq (popOperand_ne_undefined hback3)
        · split
          · rename_i e heq
            exact error_ne_undefined heq (validateOperandType_ne_undefined _ _ _)
          · split
            · rename_i e heq
              exact error_ne_undefined heq (validateOperandType_ne_undefined _ _ _)
            · simp
  case get_local variableIndex =>
    unfold get_local
    split
    · rename_i e heq
      exact error_ne_undefined heq (validateLocalIndex_ne_undefined _ _)
    · simp
  case set_local variableIndex =>
    unfold set_local
    split
    · rename_i e heq
      exact error_ne_undefined heq (validateLocalIndex_ne_undefined _ _)
    · exact popAndValidateOperand_ne_undefined hne _ _
  case tee_local variableIndex =>
    unfold tee_local
    split
    · rename_i e heq
      exact error_ne_undefined heq (validateLocalIndex_ne_undefined _ _)
    · split
      · rename_i e heq
        exact error_ne_undefined heq (popAndValidateOperand_ne_undefined hne _ _)
      · simp
  case get_global variableIndex =>
    unfold get_global
    split
    · rename_i e heq
      exact error_ne_undefined heq (validateGlobalIndex_ne_undefined _ _ _ _ _)
    · simp
  case set_global variableIndex =>
    unfold set_global
    split
    · rename_i e heq
      exact error_ne_undefined heq (validateGlobalIndex_ne_undefined _ _ _ _ _)
    · exact popAndValidateOperand_ne_undefined hne _ _
  case call functionIndex =>
    unfold call
    split
    · rename_i e heq
      exact error_ne_undefined heq (validateFunctionIndex_ne_undefined hvalid _).1
    · split
      · rename_i e heq
        exact error_ne_undefined heq (popAndValidateOperands_ne_undefined hne _ _)
      · simp
  case call_indirect typeIndex =>
    unfold call_indirect
    split
    · rename_i e heq
      exact error_ne_undefined heq (VALIDATE_INDEX_ne_undefined _ _ _ _)
    · rename_i hindex
      split
      · simp
      · split
        · rename_i hnone
          have hlt := VALIDATE_INDEX_eq_ok.1 hindex
          rw [List.getElem?_eq_getElem hlt] at hnone
          cases hnone
        · split
          · rename_i e heq
            exact error_ne_undefined heq (popAndValidateOperand_ne_undefined hne _ _)
          · rename_i ctx2 hpop
            split
            · rename_i e heq
              exact error_ne_undefined heq (popAndValidateOperands_ne_undefined
                ((operandStep_popAndValidateOperand hpop).nonempty hne) _ _)
            · simp
  case grow_memory =>
    unfold grow_memory
    split
    · simp
    · split
      · rename_i e heq
        exact error_ne_undefined heq (popAndValidateOperand_ne_undefined hne _ _)
      · simp
  case current_memory =>
    unfold current_memory
    split <;> simp
  case error => simp [FunctionValidationContext.error]
  case i32_const value => simp [const]
  case i64_const value => simp [const]
  case f32_const bits => simp [const]
  case f64_const bits => simp [const]
  case load op alignmentLog2 offset =>
    unfold load
    split
    · rename_i e heq
      exact error_ne_undefined heq (popAndValidateOperand_ne_undefined hne _ _)
    · split
      · rename_i e heq
        exact error_ne_undefined heq (validateLoadOrStoreImm_ne_undefined _ _ _ _ _)
      · simp
  case store op alignmentLog2 offset =>
    unfold store
    split
    · rename_i e heq
      exact error_ne_undefined heq (popAndValidateOperands_ne_undefined hne _ _)
    · split
      · rename_i e heq
        exact error_ne_undefined heq (validateLoadOrStoreImm_ne_undefined _ _ _ _ _)
      · simp
  case binary op =>
    unfold binary
    split
    · rename_i e heq
      exact error_ne_undefined heq (popAndValidateOperands_ne_undefined hne _ _)
    · simp
  case unary op =>
    unfold unary
    split
    · rename_i e heq
      exact error_ne_undefined heq (popAndValidateOperand_ne_undefined hne _ _)
    · simp

end FunctionValidationContext

/-- In an accepted module the loop of `validateCode` reads nothing out of range. -/
theorem decodeLoop_ne_undefined : ∀ (code : List Operation) (ctx : FunctionValidationContext),
    validateDefinitions ctx.module = .ok () →
    decodeLoop code ctx ≠ .error .undefinedBehaviour
  | [], ctx, _ => by simp [decodeLoop]
  | op :: rest, ctx, hvalid => by
    simp only [decodeLoop]
    split
    · rename_i hsize
      have hne : ctx.controlStack ≠ [] := by
        intro hnil
        apply hsize
        simp [FunctionValidationContext.getControlStackSize, hnil]
      split
      · rename_i e heq
        exact error_ne_undefined heq
          (FunctionValidationContext.decodeOp_ne_undefined hvalid hne op)
      · rename_i ctx1 hop
        obtain ⟨mid, hstep, heffect⟩ := FunctionValidationContext.decodeOp_shape hop
        apply decodeLoop_ne_undefined rest ctx1
        rw [(controlEffect_sameFunction heffect).1, hstep.1.1]
        exact hvalid
    · simp

/-- In an accepted module the construction of the context of a function definition reads the
type table in range. -/
theorem create_ok {module : Module} {functionDef : FunctionDef}
    (hvalid : validateDefinitions module = .ok ())
    (hmem : functionDef ∈ module.functions.defs) :
    functionDef.type.index < module.types.length ∧
    ∃ initial, FunctionValidationContext.create module functionDef = .ok initial ∧
      initial.module = module := by
  have hdefs := validateDefinitions_steps hvalid
    (forEach (validateFunctionDefType module) module.functions.defs)
    (by simp [validateDefinitionsSteps])
  rw [forEach_eq_ok] at hdefs
  have hdef := hdefs functionDef hmem
  unfold validateFunctionDefType at hdef
  split at hdef
  · cases hdef
  · rename_i hindex
    have hlt := VALIDATE_INDEX_eq_ok.1 hindex
    refine ⟨hlt, ?_⟩
    unfold FunctionValidationContext.create
    rw [List.getElem?_eq_getElem hlt]
    exact ⟨_, rfl, rfl⟩

theorem validateFunctionDef_ne_undefined {module : Module} {functionDef : FunctionDef}
    (hvalid : validateDefinitions module = .ok ())
    (hmem : functionDef ∈ module.functions.defs) :
    validateFunctionDef module functionDef ≠ .error .undefinedBehaviour := by
  obtain ⟨_, initial, hcreate, hmodule⟩ := create_ok hvalid hmem
  unfold validateFunctionDef
  rw [hcreate]
  simp only
  unfold validateFunctionCode
  split
  · rename_i e heq
    exact error_ne_undefined heq (decodeLoop_ne_undefined _ _ (by rw [hmodule]; exact hvalid))
  · split
    · simp
    · split <;> simp

theorem validateCodeDefs_ne_undefined {module : Module}
    (hvalid : validateDefinitions module = .ok ()) :
    ∀ functionDefs : List FunctionDef, (∀ x ∈ functionDefs, x ∈ module.functions.defs) →
      validateCodeDefs module functionDefs ≠ .error .undefinedBehaviour
  | [], _ => by simp [validateCodeDefs]
  | functionDef :: functionDefs, hall => by
    simp only [validateCodeDefs]
    split
    · rename_i e heq
      exact error_ne_undefined heq
        (validateFunctionDef_ne_undefined hvalid (hall _ (List.mem_cons_self _ _)))
    · exact validateCodeDefs_ne_undefined hvalid functionDefs
        (fun x hx => hall x (List.mem_cons_of_mem _ hx))

/-- The branch operators fail on a depth that is not below the length of the control stack. -/
theorem branch_depth_out_of_range (ctx : FunctionValidationContext) (d : Nat)
    (hge : ctx.controlStack.length ≤ d) :
    ctx.br d = .error (.validateUnless "invalid index: " "depth>=controlStack.size()") ∧
    (∀ ctx1, ctx.br_if d ≠ .ok ctx1) ∧
    (∀ targetDepths ctx1, ctx.br_table targetDepths d ≠ .ok ctx1) := by
  refine ⟨?_, ?_, ?_⟩
  · unfold FunctionValidationContext.br
    rw [getBranchTargetByDepth_of_ge hge]
  · intro ctx1 h
    unfold FunctionValidationContext.br_if at h
    split at h
    · cases h
    · rename_i ctx2 hpop
      have hcs := (FunctionValidationContext.operandStep_popAndValidateOperand hpop).2.1
      rw [getBranchTargetByDepth_of_ge (by rw [hcs]; exact hge)] at h
      cases h
  · intro targetDepths ctx1 h
    unfold FunctionValidationContext.br_table at h
    split at h
    · cases h
    · rename_i ctx2 hpop
      have hcs := (FunctionValidationContext.operandStep_popAndValidateOperand hpop).2.1
      rw [getBranchTargetByDepth_of_ge (by rw [hcs]; exact hge)] at h
      cases h

/-- C30, no access out of range after the validation of the definitions: in a module that
`validateDefinitions` accepts, the type index of every function definition is in range when
its context is constructed, and the signature of every function index in range is found by
`validateFunctionIndex`; the walk of `validateCode` over any code never reads out of range
(it succeeds or throws an exception); each operator method run on a non-empty control stack
reads the innermost context and fails only by an exception; and a branch depth, local index,
global index or `call_indirect` type index out of range is rejected with the exception of the
range check. -/
theorem no_out_of_range_access (module : Module)
    (hvalid : validateDefinitions module = .ok ()) :
    (∀ functionDef ∈ module.functions.defs,
      functionDef.type.index < module.types.length ∧
      (∃ initial, FunctionValidationContext.create module functionDef = .ok initial) ∧
      validateFunctionDef module functionDef ≠ .error .undefinedBehaviour) ∧
    validateCode module ≠ .error .undefinedBehaviour ∧
    (∀ f, f < module.functions.size →
      ∃ indexedType signature,
        module.functions.getType FunctionDef.type f = some indexedType ∧
        module.types[indexedType.index]? = some signature ∧
        validateFunctionIndex module f = .ok signature) ∧
    (∀ (ctx : FunctionValidationContext) (code : List Operation), ctx.module = module →
      decodeLoop code ctx ≠ .error .undefinedBehaviour) ∧
    (∀ (ctx : FunctionValidationContext) (op : Operation), ctx.module = module →
      ctx.controlStack ≠ [] →
      (∃ back, ctx.controlStackBack = .ok back) ∧
      ctx.decodeOp op ≠ .error .undefinedBehaviour) ∧
    (∀ (ctx : FunctionValidationContext) (index : Nat), ctx.module = module →
      (ctx.controlStack.length ≤ index →
        ctx.br index = .error (.validateUnless "invalid index: "
          "depth>=controlStack.size()") ∧
        (∀ ctx1, ctx.br_if index ≠ .ok ctx1) ∧
        (∀ targetDepths ctx1, ctx.br_table targetDepths index ≠ .ok ctx1)) ∧
      (ctx.locals.length ≤ index →
        ctx.get_local index = .error (.validateUnless "invalid index: "
          "localIndex>=locals.size()") ∧
        ctx.set_local index = .error (.validateUnless "invalid index: "
          "localIndex>=locals.size()") ∧
        ctx.tee_local index = .error (.validateUnless "invalid index: "
          "localIndex>=locals.size()")) ∧
      (module.globals.size ≤ index →
        ctx.get_global index = .error (.validateUnless "invalid index: "
          "globalIndex>=module.globals.size()") ∧
        ctx.set_global index = .error (.validateUnless "invalid index: "
          "globalIndex>=module.globals.size()")) ∧
      (module.types.length ≤ index →
        ctx.call_indirect index = .error (.validateUnless "invalid index: "
          "imm.type.index>=module.types.size()"))) := by
  refine ⟨?_, ?_, ?_, ?_, ?_, ?_⟩
  · intro functionDef hmem
    obtain ⟨hlt, initial, hcreate, _⟩ := create_ok hvalid hmem
    exact ⟨hlt, ⟨initial, hcreate⟩, validateFunctionDef_ne_undefined hvalid hmem⟩
  · exact validateCodeDefs_ne_undefined hvalid _ (fun _ hx => hx)
  · intro f hlt
    obtain ⟨indexedType, signature, hget, htype⟩ :=
      validateDefinitions_function_signature hvalid hlt
    refine ⟨indexedType, signature, hget, htype, ?_⟩
    have hnot : ¬ f ≥ module.functions.size := Nat.not_le.2 hlt
    simp [validateFunctionIndex, VALIDATE_INDEX, hnot, hget, htype]
  · intro ctx code hmodule
    exact decodeLoop_ne_undefined code ctx (by rw [hmodule]; exact hvalid)
  · intro ctx op hmodule hne
    obtain ⟨back, hback⟩ := exists_back hne
    exact ⟨⟨back, FunctionValidationContext.controlStackBack_of_getLast hback⟩,
      FunctionValidationContext.decodeOp_ne_undefined (by rw [hmodule]; exact hvalid) hne op⟩
  · intro ctx index hmodule
    refine ⟨branch_depth_out_of_range ctx index, ?_, ?_, ?_⟩
    · intro hge
      have hge1 : index ≥ ctx.locals.length := hge
      have hlocal : ctx.validateLocalIndex index =
          .error (.validateUnless "invalid index: " "localIndex>=locals.size()") := by
        simp only [FunctionValidationContext.validateLocalIndex, VALIDATE_INDEX, hge1, if_true]
        rfl
      simp only [FunctionValidationContext.get_local, FunctionValidationContext.set_local,
        FunctionValidationContext.tee_local, hlocal, and_self]
    · intro hge
      rw [← hmodule] at hge
      simp only [FunctionValidationContext.get_global, FunctionValidationContext.set_global,
        (validateGlobalIndex_access ctx.module index false).1 hge,
        (validateGlobalIndex_access ctx.module index true).1 hge, and_self]
    · intro hge
      rw [← hmodule] at hge
      have hge1 : index ≥ ctx.module.types.length := hge
      simp only [FunctionValidationContext.call_indirect, VALIDATE_INDEX, hge1, if_true]
      rfl

theorem no_out_of_range_access_witness :
    validateCode sampleLinkedModule ≠ .error .undefinedBehaviour :=
  (no_out_of_range_access sampleLinkedModule rfl).2.1

/-! ## Operator methods run after the end of the function -/

/-- C21, the code against the claim: the module with the function `() -> ()` of code
`end; block; end` is accepted by `validateDefinitions` and rejected by `validateCode`, whose
loop stops when the control stack is empty ("function end reached before end of code"). The
operator methods themselves run on an empty control stack, as the streaming interface calls
them: from the initial state `end` succeeds and empties the control stack, `block` succeeds
and leaves a control stack whose bottom is a block context, not the function context, the
second `end` succeeds, and `finish` accepts. -/
theorem stream_runs_past_function_end :
    validateDefinitions (sampleDefModule sampleTrailingDef) = .ok () ∧
    validateCode (sampleDefModule sampleTrailingDef) =
      .error (.exception "function end reached before end of code") ∧
    FunctionValidationContext.create (sampleDefModule sampleTrailingDef) sampleTrailingDef =
      .ok (sampleDefContext sampleTrailingDef [sampleFunctionContext] []) ∧
    (sampleDefContext sampleTrailingDef [sampleFunctionContext] []).decodeOp Operation.end_ =
      .ok (sampleDefContext sampleTrailingDef [] []) ∧
    (sampleDefContext sampleTrailingDef [] []).decodeOp (Operation.block ResultType.none) =
      .ok (sampleDefContext sampleTrailingDef
        [sampleInnerContext ControlContextType.block 0 ResultType.none true] []) ∧
    (sampleDefContext sampleTrailingDef
      [sampleInnerContext ControlContextType.block 0 ResultType.none true]
      []).controlStack.head? =
        some (sampleInnerContext ControlContextType.block 0 ResultType.none true) ∧
    (sampleInnerContext ControlContextType.block 0 ResultType.none true).type ≠
      ControlContextType.function ∧
    (sampleDefContext sampleTrailingDef
      [sampleInnerContext ControlContextType.block 0 ResultType.none true]
      []).decodeOp Operation.end_ = .ok (sampleDefContext sampleTrailingDef [] []) ∧
    CodeValidationStream.finish (sampleDefContext sampleTrailingDef [] []) = .ok () :=
  ⟨rfl, rfl, rfl, rfl, rfl, rfl, by decide, rfl, rfl⟩

/-- C29, the code against the claim: the module with the function `() -> ()` of code
`end; block i32; return; end` is accepted by `validateDefinitions` and rejected by
`validateCode` ("function end reached before end of code"). The operator methods themselves
run on an empty control stack, as the streaming interface calls them: after `end` and
`block i32` the control stack has length `1` and holds the block; there `return` succeeds (the
function has no result) while `br 0` fails, since the block expects an `i32` argument and the
operand stack is empty; after `return` the `end` succeeds and `finish` accepts. -/
theorem return_differs_past_function_end :
    validateDefinitions (sampleDefModule sampleTrailingReturnDef) = .ok () ∧
    validateCode (sampleDefModule sampleTrailingReturnDef) =
      .error (.exception "function end reached before end of code") ∧
    FunctionValidationContext.create (sampleDefModule sampleTrailingReturnDef)
        sampleTrailingReturnDef =
      .ok (sampleDefContext sampleTrailingReturnDef [sampleFunctionContext] []) ∧
    (sampleDefContext sampleTrailingReturnDef [sampleFunctionContext] []).decodeOp
        Operation.end_ = .ok (sampleDefContext sampleTrailingReturnDef [] []) ∧
    (sampleDefContext sampleTrailingReturnDef [] []).decodeOp
        (Operation.block ResultType.i32) =
      .ok (sampleDefContext sampleTrailingReturnDef
        [sampleInnerContext ControlContextType.block 0 ResultType.i32 true] []) ∧
    (sampleDefContext sampleTrailingReturnDef
      [sampleInnerContext ControlContextType.block 0 ResultType.i32 true]
      []).controlStack.length = 1 ∧
    (sampleDefContext sampleTrailingReturnDef
      [sampleInnerContext ControlContextType.block 0 ResultType.i32 true] []).return_ =
      .ok (sampleDefContext sampleTrailingReturnDef
        [sampleInnerContext ControlContextType.block 0 ResultType.i32 false] []) ∧
    (sampleDefContext sampleTrailingReturnDef
      [sampleInnerContext ControlContextType.block 0 ResultType.i32 true] []).br (1 - 1) =
      .error (.exception "invalid stack access") ∧
    (sampleDefContext sampleTrailingReturnDef
      [sampleInnerContext ControlContextType.block 0 ResultType.i32 false]
      []).decodeOp Operation.end_ = .ok (sampleDefContext sampleTrailingReturnDef [] []) ∧
    CodeValidationStream.finish (sampleDefContext sampleTrailingReturnDef [] []) = .ok () :=
  ⟨rfl, rfl, rfl, rfl, rfl, rfl, rfl, rfl, rfl, rfl⟩

/-! ## States of a function with a local of type `any` -/

/-- C12 as stated fails: in a function `() -> ()` with a local of type `any` (a module that
`validateDefinitions` does not accept), after `block i32; get_local 0; get_local 0` the
innermost context is reachable and the stack is `[any, any]`; `br_if 0` succeeds, since `any`
matches the condition type `i32` and the argument type `i32`, and leaves `[i32]`, which is not
the old stack without its top entry, and the top entry was not `i32`. -/
theorem br_if_restores_concrete_counterexample :
    Reachable sampleModule (sampleAnyLocalDef 1)
      (sampleAnyLocalContext [sampleFunctionContext,
        sampleInnerContext ControlContextType.block 0 ResultType.i32 true]
        [ValueType.any, ValueType.any]) ∧
    (sampleInnerContext ControlContextType.block 0 ResultType.i32 true).isReachable = true ∧
    (sampleAnyLocalContext [sampleFunctionContext,
        sampleInnerContext ControlContextType.block 0 ResultType.i32 true]
        [ValueType.any, ValueType.any]).br_if 0 =
      .ok (sampleAnyLocalContext [sampleFunctionContext,
        sampleInnerContext ControlContextType.block 0 ResultType.i32 true]
        [ValueType.i32]) ∧
    (sampleAnyLocalContext [sampleFunctionContext,
        sampleInnerContext ControlContextType.block 0 ResultType.i32 true]
        [ValueType.any, ValueType.any]).stack ≠
      (sampleAnyLocalContext [sampleFunctionContext,
        sampleInnerContext ControlContextType.block 0 ResultType.i32 true]
        [ValueType.i32]).stack ++ [ValueType.i32] :=
  ⟨Reachable.step (Operation.get_local 0)
      (Reachable.step (Operation.get_local 0)
        (Reachable.step (Operation.block ResultType.i32) (Reachable.initial rfl) rfl) rfl) rfl,
    rfl, rfl, by decide⟩

/-- C14 as stated fails: in a function `() -> ()` with a local of type `any` (a module that
`validateDefinitions` does not accept), after `i32.const; get_local 0; i32.const` the
innermost context is reachable and the three pops of `select` return `i32`, `any` and `i32`:
the false-branch type is `any` and the true-branch type is `i32`, and `select` pushes `any`,
the type of its second pop, not `i32`. -/
theorem select_pushes_any_counterexample :
    Reachable sampleModule (sampleAnyLocalDef 1)
      (sampleAnyLocalContext [sampleFunctionContext]
        [ValueType.i32, ValueType.any, ValueType.i32]) ∧
    (sampleAnyLocalContext [sampleFunctionContext]
      [ValueType.i32, ValueType.any, ValueType.i32]).popOperand =
      .ok (ValueType.i32,
        sampleAnyLocalContext [sampleFunctionContext] [ValueType.i32, ValueType.any]) ∧
    (sampleAnyLocalContext [sampleFunctionContext]
      [ValueType.i32, ValueType.any]).popOperand =
      .ok (ValueType.any, sampleAnyLocalContext [sampleFunctionContext] [ValueType.i32]) ∧
    (sampleAnyLocalContext [sampleFunctionContext] [ValueType.i32]).popOperand =
      .ok (ValueType.i32, sampleAnyLocalContext [sampleFunctionContext] []) ∧
    (sampleAnyLocalContext [sampleFunctionContext]
      [ValueType.i32, ValueType.any, ValueType.i32]).select =
      .ok (sampleAnyLocalContext [sampleFunctionContext] [ValueType.any]) ∧
    ValueType.any ≠ ValueType.i32 :=
  ⟨Reachable.step (Operation.i32_const 0)
      (Reachable.step (Operation.get_local 0)
        (Reachable.step (Operation.i32_const 0) (Reachable.initial rfl) rfl) rfl) rfl,
    rfl, rfl, rfl, rfl, by decide⟩

/-- C20 as stated fails: in a function `() -> ()` with a local of type `any` (a module that
`validateDefinitions` does not accept), after `get_local 0; get_local 0` the innermost
context is reachable and the stack is `[any, any]`; `i32.add` succeeds, since `any` matches
`i32`, although the top operands do not have the type `i32`. -/
theorem add_accepts_any_counterexample :
    Reachable sampleModule (sampleAnyLocalDef 1)
      (sampleAnyLocalContext [sampleFunctionContext] [ValueType.any, ValueType.any]) ∧
    sampleFunctionContext.isReachable = true ∧
    (sampleAnyLocalContext [sampleFunctionContext]
      [ValueType.any, ValueType.any]).decodeOp (Operation.binary BinaryOp.i32_add) =
      .ok (sampleAnyLocalContext [sampleFunctionContext] [ValueType.i32]) ∧
    ¬ ∃ rest, (sampleAnyLocalContext [sampleFunctionContext]
      [ValueType.any, ValueType.any]).stack =
        rest ++ [BinaryOp.i32_add.operandTypeId, BinaryOp.i32_add.operandTypeId] := by
  refine ⟨Reachable.step (Operation.get_local 0)
      (Reachable.step (Operation.get_local 0) (Reachable.initial rfl) rfl) rfl,
    rfl, rfl, ?_⟩
  rintro ⟨rest, hrest⟩
  have hlast := congrArg List.getLast? hrest
  simp [sampleAnyLocalContext, BinaryOp.operandTypeId] at hlast

end IR
